import Mathlib

/-!
# MSP430 JTAG protocol core and on-chip flash routines

A shallow embedding of `drivers/jtaglib.c` and of the three routines under
`flash_loader/` that run inside the target's RAM.

Conventions of the embedding:

* C unsigned integers are natural numbers; every assignment to a `uint8_t`,
  `uint16_t` or `unsigned int` object reduces modulo `2^8`, `2^16`, `2^32`.
* A pointer `const uintN_t *data` is a function from the element index to the
  element; reads through it are reduced to the element width.
* The session `struct jtdev` is the record `Jtdev`: the sticky `failed` flag and
  the state of the transport behind the function table `p->f`.
* Every library operation is a function from the session to a result, the new
  session and the list of events it produced, in program order. Events are the
  calls made through `p->f`, the sleeps, and a marker at the entry of each
  library operation carrying its arguments. Diagnostic printing is not modelled.
* The host is little-endian (the C code reinterprets `uint16_t` arrays and
  structures as bytes and back).
-/

namespace Mspdebug

/-! ## Host CRC (`jtag_onchip_crc`) -/

/-- One round of the `while(length--)` loop of `jtag_onchip_crc`, for the byte `b`. -/
def crc_update (crc b : Nat) : Nat :=
  let x := ((crc >>> 8) ^^^ b) &&& 0xFF
  let x := (x ^^^ (x >>> 4)) % 256
  ((crc <<< 8) ^^^ (x <<< 12) ^^^ (x <<< 5) ^^^ x) % 65536

/-- The loop of `jtag_onchip_crc`: `n` bytes remain, the next one is `data[i]`. -/
def crc_loop (data : Nat → Nat) : Nat → Nat → Nat → Nat
  | 0, _, crc => crc
  | n + 1, i, crc => crc_loop data n (i + 1) (crc_update crc (data i % 256))

/-- C function `static uint16_t jtag_onchip_crc(const uint8_t data[], uint16_t length)`. -/
def jtag_onchip_crc (data : Nat → Nat) (length : Nat) : Nat :=
  crc_loop data (length % 65536) 0 0xFFFF

/-- A byte sequence seen through a `const uint8_t *`. -/
def bytesOf (d : List Nat) : Nat → Nat := fun i => d.getD i 0

/-- A `const uint16_t *` reinterpreted as `const uint8_t *` (little-endian). -/
def words_as_bytes (data : Nat → Nat) : Nat → Nat := fun i =>
  if i % 2 = 0 then (data (i / 2) % 65536) % 256 else (data (i / 2) % 65536) / 256

/-- A byte image reinterpreted as `uint16_t *` (little-endian). -/
def bytes_as_words (image : List Nat) : Nat → Nat := fun i =>
  image.getD (2 * i) 0 % 256 + 256 * (image.getD (2 * i + 1) 0 % 256)

/-- The two bytes of a 16-bit object, low byte first. -/
def le16 (v : Nat) : List Nat := [v % 256, (v / 256) % 256]

/-- The words `jtag_write_mem_quick` takes from a structure image of `sizeof` bytes when it is
handed `sizeof / 2` as length. -/
def upload_words (image : List Nat) : List Nat :=
  (List.range (image.length / 2)).map (fun i => bytes_as_words image i % 65536)

/-! ### The bit-by-bit reference CRC of the specification -/

/-- One bit of the textbook CRC-16 with polynomial 0x1021, most significant bit first. -/
def ref_bit (crc : Nat) : Nat :=
  if crc &&& 0x8000 ≠ 0 then ((crc <<< 1) ^^^ 0x1021) % 65536 else (crc <<< 1) % 65536

/-- One byte of the reference: XOR the byte into the high half, then eight bit steps. -/
def ref_update (crc b : Nat) : Nat :=
  Nat.iterate ref_bit 8 (crc ^^^ (b <<< 8))

/-- Reference CRC-16: polynomial 0x1021, initial value 0xFFFF, no reflection, no final XOR. -/
def crc16_ref (d : List Nat) : Nat := d.foldl ref_update 0xFFFF

/-- The high byte's contribution to the host update, as a function of `(crc >> 8) ^ b`. -/
def crc_table (h : Nat) : Nat :=
  let x := (h ^^^ (h >>> 4)) % 256
  ((x <<< 12) ^^^ (x <<< 5) ^^^ x) % 65536

/-! ## On-chip verify routine (`flash_verifier_onchip.c`) -/

/-- The `param` block of `flash_verifier_onchip.c` (pointers and `int` are 16 bits wide). -/
structure VerifyParam where
  data : Nat
  len : Nat
  crc : Nat
  deriving DecidableEq

/-- One round of the inner `while(param.len--)` loop of `flash_verify`, on `param.crc`. -/
def onchip_crc_step (crc b : Nat) : Nat :=
  let x := ((crc >>> 8) ^^^ b) &&& 0xFF
  let y := x
  let y := Nat.iterate (fun y => y >>> 1) 4 y
  let x := (x ^^^ y) % 256
  let crc := (crc <<< 8) % 65536
  let crc := crc ^^^ x
  let y := x
  let y := Nat.iterate (fun y => (y <<< 1) % 65536) 5 y
  let crc := crc ^^^ y
  let y := Nat.iterate (fun y => (y <<< 1) % 65536) 7 y
  let crc := crc ^^^ y
  crc

/-- The inner loop of `flash_verify`: `len` is `param.len`, `data` is `param.data`; target
memory is read bytewise through `mem`. The post-decrement leaves `len` at 0xFFFF on exit. -/
def flash_verify_loop (mem : Nat → Nat) : Nat → Nat → Nat → VerifyParam
  | 0, data, crc => { data := data, len := 0xFFFF, crc := crc }
  | n + 1, data, crc =>
    flash_verify_loop mem n ((data + 1) % 65536) (onchip_crc_step crc (mem data % 256))

/-- The routine `flash_verify`, as the parameter block the host finds once the routine has come
to rest in one of its two spin loops: the guard `while(param.data == 0 && param.len == 0);`,
which it never leaves when both fields are zero, or the final `while(1);`. The verified range
is flash, outside the parameter block. -/
def flash_verify (mem : Nat → Nat) (p : VerifyParam) : VerifyParam :=
  if p.data = 0 ∧ p.len = 0 then p
  else
    let q := flash_verify_loop mem p.len p.data 0xFFFF
    { data := 0, len := 0, crc := q.crc }

/-! ## The session and the line-level interface -/

/-- The calls the library makes through the function table `p->f`. -/
inductive Call where
  | jtdev_power_on
  | jtdev_connect
  | jtdev_tck (out : Nat)
  | jtdev_tms (out : Nat)
  | jtdev_tdi (out : Nat)
  | jtdev_rst (out : Nat)
  | jtdev_tst (out : Nat)
  | jtdev_tdo_get
  | jtdev_tclk (out : Nat)
  | jtdev_tclk_get
  | jtdev_led_green (out : Nat)
  | jtdev_led_red (out : Nat)
  | jtdev_ir_shift (ir : Nat)
  | jtdev_dr_shift_8 (dr : Nat)
  | jtdev_dr_shift_16 (dr : Nat)
  | jtdev_ir_shift_wronly (ir : Nat)
  | jtdev_dr_shift_8_wronly (dr : Nat)
  | jtdev_dr_shift_16_wronly (dr : Nat)
  | jtdev_tms_sequence (bits : Nat) (value : Nat)
  | jtdev_init_dap
  | jtdev_flush_writes
  deriving DecidableEq

/-- The session `struct jtdev`: the sticky failure flag and the transport's own state. -/
structure Jtdev (σ : Type) where
  failed : Nat
  hw : σ

/-- The function table `struct jtdev_func`. The optional entries are present or null; `exec`
runs one entry on the session and gives its return value and the session afterwards. -/
structure JtdevFunc (σ : Type) where
  has_ir_shift_wronly : Bool
  has_dr_shift_8_wronly : Bool
  has_dr_shift_16_wronly : Bool
  has_flush_writes : Bool
  exec : Call → Jtdev σ → Nat × Jtdev σ

/-- Entries of library operations, with their arguments. -/
inductive Op where
  | write_reg (reg : Nat) (value : Nat)
  | write_mem_quick (address : Nat) (words : List Nat)
  | read_mem_quick (address : Nat) (length : Nat)
  | read_mem (format : Nat) (address : Nat)
  | get_device
  | release_device (address : Nat)
  | set_breakpoint (bp_num : Int) (bp_addr : Nat)
  deriving DecidableEq

/-- What an operation does that can be observed from outside. -/
inductive Event where
  | line (c : Call)
  | delay_ms (ms : Nat)
  | op (o : Op)
  deriving DecidableEq

/-- Result of running an operation: return value, session afterwards, events in order. -/
structure Res (σ : Type) (α : Type) where
  val : α
  dev : Jtdev σ
  log : List Event

/-- An operation on the session. -/
def JT (σ : Type) (α : Type) : Type := Jtdev σ → Res σ α

/-- Return without touching the session. -/
def JT.ret {σ α : Type} (a : α) : JT σ α := fun d => { val := a, dev := d, log := [] }

/-- Sequencing: the events of the first operation come first. -/
def JT.seq {σ α β : Type} (m : JT σ α) (k : α → JT σ β) : JT σ β := fun d =>
  let r := m d
  let r2 := k r.val r.dev
  { val := r2.val, dev := r2.dev, log := r.log ++ r2.log }

instance (σ : Type) : Monad (JT σ) where
  pure := JT.ret
  bind := JT.seq

/-- A call through `p->f`. -/
def call {σ : Type} (f : JtdevFunc σ) (c : Call) : JT σ Nat := fun d =>
  { val := (f.exec c d).1, dev := (f.exec c d).2, log := [Event.line c] }

/-- Record the entry of a library operation. -/
def enter {σ : Type} (o : Op) : JT σ Unit := fun d =>
  { val := (), dev := d, log := [Event.op o] }

/-- Sleep for `ms` milliseconds (`delay_ms`). -/
def delay_ms {σ : Type} (ms : Nat) : JT σ Unit := fun d =>
  { val := (), dev := d, log := [Event.delay_ms ms] }

/-- The assignment `p->failed = 1`. -/
def set_failed {σ : Type} : JT σ Unit := fun d =>
  { val := (), dev := { d with failed := 1 }, log := [] }

/-- The library-operation entries among a list of events. -/
def ops : List Event → List Op
  | [] => []
  | Event.op o :: l => o :: ops l
  | _ :: l => ops l

/-- The arguments of a block write (`jtag_write_mem_quick`): address and words. -/
def Op.as_write : Op → Option (Nat × List Nat)
  | Op.write_mem_quick a w => some (a, w)
  | _ => none

/-- The address passed to `jtag_release_device`. -/
def Op.as_release : Op → Option Nat
  | Op.release_device a => some a
  | _ => none

/-- The block writes among a list of events, in order. -/
def mem_writes (l : List Event) : List (Nat × List Nat) := (ops l).filterMap Op.as_write

/-- The addresses passed to `jtag_release_device` among a list of events, in order. -/
def releases (l : List Event) : List Nat := (ops l).filterMap Op.as_release

/-! ## Constants of headers that are not part of the sources at hand -/

/-- Modelled from the spec: the instruction and register constants of `eem_defs.h`, the flash
layout constants and routine images of `flash_*_compiled.h`. The spec names them and fixes no
value, so they are parameters. The blobs are byte lists. -/
structure Defs where
  BREAKREACT : Nat
  GENCTRL : Nat
  READ : Nat
  WRITE : Nat
  EEM_EN : Nat
  CLEAR_STOP : Nat
  EMU_CLK_EN : Nat
  EMU_FEAT_EN : Nat
  MBTRIGxVAL : Nat
  MBTRIGxCTL : Nat
  MBTRIGxMSK : Nat
  MBTRIGxCMB : Nat
  MAB : Nat
  TRIG_0 : Nat
  CMP_EQUAL : Nat
  NO_MASK : Nat
  FLASH_CODE_RAM_START : Nat
  FLASH_CODE_START : Nat
  FLASH_CODE_BLOCK_START : Nat
  FLASH_CODE_BLOCK_LEN : Nat
  FLASH_CODE_PREAMBLE_LEN : Nat
  flash_erase_blob : List Nat
  flash_code_blob : List Nat
  flash_verify_blob : List Nat

/-! ## Instruction constants of `jtaglib.c` -/

def IR_CNTRL_SIG_16BIT : Nat := 0xC8
def IR_CNTRL_SIG_CAPTURE : Nat := 0x28
def IR_CNTRL_SIG_RELEASE : Nat := 0xA8
def IR_DATA_16BIT : Nat := 0x82
def IR_DATA_CAPTURE : Nat := 0x42
def IR_DATA_QUICK : Nat := 0xC2
def IR_ADDR_16BIT : Nat := 0xC1
def IR_ADDR_CAPTURE : Nat := 0x21
def IR_DATA_TO_ADDR : Nat := 0xA1
def IR_EMEX_DATA_EXCHANGE : Nat := 0x90
def IR_EMEX_WRITE_CONTROL : Nat := 0x30
def IR_EMEX_READ_CONTROL : Nat := 0xD0

/-! ## The dispatch macros of `jtaglib.c` -/

section
variable {σ : Type} (f : JtdevFunc σ)

def jtag_tclk_set : JT σ Nat := call f (Call.jtdev_tclk 1)
def jtag_tclk_clr : JT σ Nat := call f (Call.jtdev_tclk 0)
def jtag_led_green_on : JT σ Nat := call f (Call.jtdev_led_green 1)
def jtag_led_green_off : JT σ Nat := call f (Call.jtdev_led_green 0)
def jtag_led_red_on : JT σ Nat := call f (Call.jtdev_led_red 1)
def jtag_led_red_off : JT σ Nat := call f (Call.jtdev_led_red 0)

/-- Macro `jtag_ir_shift`: the write-only variant when the table has one. -/
def jtag_ir_shift (ir : Nat) : JT σ Nat :=
  if f.has_ir_shift_wronly then call f (Call.jtdev_ir_shift_wronly (ir % 256))
  else call f (Call.jtdev_ir_shift (ir % 256))

/-- Macro `jtag_dr_shift_16`: the write-only variant when the table has one. -/
def jtag_dr_shift_16 (dr : Nat) : JT σ Nat :=
  if f.has_dr_shift_16_wronly then call f (Call.jtdev_dr_shift_16_wronly (dr % 65536))
  else call f (Call.jtdev_dr_shift_16 (dr % 65536))

/-- Macro `jtag_ir_shift_and_read`: the capture is a `uint8_t`. -/
def jtag_ir_shift_and_read (ir : Nat) : JT σ Nat := do
  let v ← call f (Call.jtdev_ir_shift (ir % 256))
  pure (v % 256)

/-- Macro `jtag_dr_shift_16_and_read`: the capture is a `uint16_t`. -/
def jtag_dr_shift_16_and_read (dr : Nat) : JT σ Nat := do
  let v ← call f (Call.jtdev_dr_shift_16 (dr % 65536))
  pure (v % 65536)

/-- Macro `jtag_flush_writes`: calls the hook only when the table has one. -/
def jtag_flush_writes : JT σ Unit :=
  if f.has_flush_writes then do
    let _ ← call f Call.jtdev_flush_writes
    pure ()
  else pure ()


/-! ## CPU control, register and memory access -/

/-- The polling loop of `jtag_set_instruction_fetch`; `n` is `loop_counter`. -/
def set_instruction_fetch_loop : Nat → JT σ Nat
  | 0 => do
    set_failed
    pure 0
  | n + 1 => do
    let v ← jtag_dr_shift_16_and_read f 0x0000
    if v &&& 0x0080 = 0x0080 then pure 1
    else do
      let _ ← jtag_tclk_clr f
      let _ ← jtag_tclk_set f
      set_instruction_fetch_loop n

/-- C function `static int jtag_set_instruction_fetch(struct jtdev *p)`. -/
def jtag_set_instruction_fetch : JT σ Nat := do
  let _ ← jtag_ir_shift f IR_CNTRL_SIG_CAPTURE
  set_instruction_fetch_loop f 50

/-- C function `static void jtag_halt_cpu(struct jtdev *p)`. -/
def jtag_halt_cpu : JT σ Unit := do
  let _ ← jtag_set_instruction_fetch f
  let _ ← jtag_ir_shift f IR_CNTRL_SIG_16BIT
  let _ ← jtag_dr_shift_16 f 0x2401
  let _ ← jtag_ir_shift f IR_DATA_16BIT
  let _ ← jtag_dr_shift_16 f 0x3FFF
  let _ ← jtag_tclk_set f
  let _ ← jtag_tclk_clr f
  let _ ← jtag_ir_shift f IR_CNTRL_SIG_16BIT
  let _ ← jtag_dr_shift_16 f 0x2409
  let _ ← jtag_tclk_set f
  pure ()

/-- C function `static void jtag_release_cpu(struct jtdev *p)`. -/
def jtag_release_cpu : JT σ Unit := do
  let _ ← jtag_tclk_clr f
  let _ ← jtag_ir_shift f IR_CNTRL_SIG_16BIT
  let _ ← jtag_dr_shift_16 f 0x2401
  let _ ← jtag_ir_shift f IR_ADDR_CAPTURE
  let _ ← jtag_tclk_set f
  jtag_flush_writes f

/-- The polling loop of `jtag_get_device`; `n` is `loop_counter`, the result is its value
when the loop is left. -/
def get_device_loop : Nat → JT σ Nat
  | 0 => pure 0
  | n + 1 => do
    let v ← jtag_dr_shift_16_and_read f 0x0000
    if v &&& 0x0200 = 0x0200 then pure (n + 1)
    else get_device_loop n

/-- C function `unsigned int jtag_get_device(struct jtdev *p)`. -/
def jtag_get_device : JT σ Nat := do
  enter Op.get_device
  let _ ← jtag_ir_shift f IR_CNTRL_SIG_16BIT
  let _ ← jtag_dr_shift_16 f 0x2401
  let jtag_id ← jtag_ir_shift_and_read f IR_CNTRL_SIG_CAPTURE
  let loop_counter ← get_device_loop f 50
  if loop_counter = 0 then do
    set_failed
    pure 0
  else do
    let _ ← jtag_led_green_on f
    pure jtag_id

/-- C function `uint16_t jtag_read_mem(struct jtdev *p, unsigned int format, address_t address)`. -/
def jtag_read_mem (format address : Nat) : JT σ Nat := do
  enter (Op.read_mem format address)
  jtag_halt_cpu f
  let _ ← jtag_tclk_clr f
  let _ ← jtag_ir_shift f IR_CNTRL_SIG_16BIT
  let _ ← (if format = 16 then jtag_dr_shift_16 f 0x2409 else jtag_dr_shift_16 f 0x2419)
  let _ ← jtag_ir_shift f IR_ADDR_16BIT
  let _ ← jtag_dr_shift_16 f address
  let _ ← jtag_ir_shift f IR_DATA_TO_ADDR
  let _ ← jtag_tclk_set f
  let _ ← jtag_tclk_clr f
  let content ← jtag_dr_shift_16_and_read f 0x0000
  let _ ← jtag_tclk_set f
  jtag_release_cpu f
  pure (if format = 8 then content &&& 0x00ff else content)

/-- C function `void jtag_write_reg(struct jtdev *p, int reg, address_t value)`. -/
def jtag_write_reg (reg value : Nat) : JT σ Unit := do
  enter (Op.write_reg reg value)
  let _ ← jtag_set_instruction_fetch f
  let _ ← jtag_ir_shift f IR_CNTRL_SIG_16BIT
  let _ ← jtag_dr_shift_16 f 0x3401
  let _ ← jtag_ir_shift f IR_DATA_16BIT
  let _ ← jtag_dr_shift_16 f 0x3ffd
  let _ ← jtag_tclk_clr f
  let _ ← jtag_tclk_set f
  let _ ← jtag_tclk_clr f
  let _ ← jtag_tclk_set f
  let _ ← jtag_dr_shift_16 f (0x4030 ||| (reg &&& 0x000f))
  let _ ← jtag_tclk_clr f
  let _ ← jtag_tclk_set f
  let _ ← jtag_dr_shift_16 f value
  let _ ← jtag_tclk_clr f
  let _ ← jtag_tclk_set f
  let _ ← jtag_ir_shift f IR_CNTRL_SIG_16BIT
  let _ ← jtag_dr_shift_16 f 0x2401
  jtag_flush_writes f

/-- The `for` loop of `jtag_read_mem_quick`: `n` words remain; the captured words in order. -/
def read_mem_quick_loop : Nat → JT σ (List Nat)
  | 0 => pure []
  | n + 1 => do
    let _ ← jtag_tclk_set f
    let _ ← jtag_tclk_clr f
    let w ← jtag_dr_shift_16_and_read f 0x0000
    let rest ← read_mem_quick_loop n
    pure (w :: rest)

/-- C function `void jtag_read_mem_quick(p, address, length, data)`: the result is `data[0..length-1]`
as stored by the loop. `address - 4` is computed in `address_t` (32 bits). -/
def jtag_read_mem_quick (address length : Nat) : JT σ (List Nat) := do
  enter (Op.read_mem_quick address length)
  jtag_write_reg f 0 ((address + 2 ^ 32 - 4) % 2 ^ 32)
  jtag_halt_cpu f
  let _ ← jtag_tclk_clr f
  let _ ← jtag_ir_shift f IR_CNTRL_SIG_16BIT
  let _ ← jtag_dr_shift_16 f 0x2409
  let _ ← jtag_ir_shift f IR_DATA_QUICK
  let data ← read_mem_quick_loop f length
  let _ ← jtag_tclk_set f
  jtag_release_cpu f
  pure data

/-- The `for` loop of `jtag_write_mem_quick`: `n` words remain, the next is `data[index]`. -/
def write_mem_quick_loop (data : Nat → Nat) : Nat → Nat → JT σ Unit
  | 0, _ => pure ()
  | n + 1, index => do
    let _ ← jtag_dr_shift_16 f (data index % 65536)
    let _ ← jtag_tclk_set f
    let _ ← jtag_tclk_clr f
    write_mem_quick_loop data n (index + 1)

/-- C function `void jtag_write_mem_quick(p, address, length, data)`. The entry marker carries the words
`data[0..length-1]` the loop is going to shift. -/
def jtag_write_mem_quick (address length : Nat) (data : Nat → Nat) : JT σ Unit := do
  enter (Op.write_mem_quick address ((List.range length).map (fun i => data i % 65536)))
  jtag_write_reg f 0 ((address + 2 ^ 32 - 4) % 2 ^ 32)
  jtag_halt_cpu f
  let _ ← jtag_tclk_clr f
  let _ ← jtag_ir_shift f IR_CNTRL_SIG_16BIT
  let _ ← jtag_dr_shift_16 f 0x2408
  let _ ← jtag_ir_shift f IR_DATA_QUICK
  write_mem_quick_loop f data length 0
  let _ ← jtag_tclk_set f
  jtag_release_cpu f

/-- C function `unsigned int jtag_set_breakpoint(struct jtdev *p, int bp_num, address_t bp_addr)`. -/
def jtag_set_breakpoint (k : Defs) (bp_num : Int) (bp_addr : Nat) : JT σ Nat := do
  enter (Op.set_breakpoint bp_num bp_addr)
  if bp_num ≥ 8 then do
    set_failed
    pure 0
  else if bp_num < 0 then do
    let _ ← jtag_ir_shift f IR_EMEX_DATA_EXCHANGE
    let _ ← jtag_dr_shift_16 f (k.BREAKREACT + k.WRITE)
    let _ ← jtag_dr_shift_16 f 0x0000
    pure 1
  else do
    let n := bp_num.toNat
    let _ ← jtag_ir_shift f IR_EMEX_DATA_EXCHANGE
    let _ ← jtag_dr_shift_16 f (k.GENCTRL + k.WRITE)
    let _ ← jtag_dr_shift_16 f (k.EEM_EN + k.CLEAR_STOP + k.EMU_CLK_EN + k.EMU_FEAT_EN)
    let _ ← jtag_ir_shift f IR_EMEX_DATA_EXCHANGE
    let _ ← jtag_dr_shift_16 f (8 * n + k.MBTRIGxVAL + k.WRITE)
    let _ ← jtag_dr_shift_16 f bp_addr
    let _ ← jtag_ir_shift f IR_EMEX_DATA_EXCHANGE
    let _ ← jtag_dr_shift_16 f (8 * n + k.MBTRIGxCTL + k.WRITE)
    let _ ← jtag_dr_shift_16 f (k.MAB + k.TRIG_0 + k.CMP_EQUAL)
    let _ ← jtag_ir_shift f IR_EMEX_DATA_EXCHANGE
    let _ ← jtag_dr_shift_16 f (8 * n + k.MBTRIGxMSK + k.WRITE)
    let _ ← jtag_dr_shift_16 f k.NO_MASK
    let _ ← jtag_ir_shift f IR_EMEX_DATA_EXCHANGE
    let _ ← jtag_dr_shift_16 f (8 * n + k.MBTRIGxCMB + k.WRITE)
    let _ ← jtag_dr_shift_16 f (1 <<< n)
    let _ ← jtag_ir_shift f IR_EMEX_DATA_EXCHANGE
    let r1 ← jtag_dr_shift_16_and_read f (k.BREAKREACT + k.READ)
    let r2 ← jtag_dr_shift_16_and_read f 0x000
    let breakreact := (r1 + r2) % 2 ^ 32
    let breakreact := (breakreact >>> 1) ||| (1 <<< n)
    let _ ← jtag_dr_shift_16 f (k.BREAKREACT + k.WRITE)
    let _ ← jtag_dr_shift_16 f breakreact
    jtag_flush_writes f
    pure 1

/-- C function `void jtag_release_device(struct jtdev *p, address_t address)`. -/
def jtag_release_device (k : Defs) (address : Nat) : JT σ Unit := do
  enter (Op.release_device address)
  let _ ← jtag_led_green_off f
  (if address = 0xffff then pure ()
   else if address = 0xfffe then do
     let _ ← jtag_set_breakpoint f k (-1) 0
     let _ ← jtag_ir_shift f IR_CNTRL_SIG_16BIT
     let _ ← jtag_dr_shift_16 f 0x2C01
     let _ ← jtag_dr_shift_16 f 0x2401
     pure ()
   else jtag_write_reg f 0 address)
  let _ ← jtag_set_instruction_fetch f
  let _ ← jtag_ir_shift f IR_EMEX_DATA_EXCHANGE
  let _ ← jtag_dr_shift_16 f (k.BREAKREACT + k.READ)
  let _ ← jtag_dr_shift_16 f 0x0000
  let _ ← jtag_ir_shift f IR_EMEX_WRITE_CONTROL
  let _ ← jtag_dr_shift_16 f 0x000f
  let _ ← jtag_ir_shift f IR_CNTRL_SIG_RELEASE
  jtag_flush_writes f


/-! ## Flash parameter blocks -/

/-- A structure image padded to the alignment of `uint16_t`; the padding byte is taken as 0. -/
def pad_even (image : List Nat) : List Nat :=
  if image.length % 2 = 0 then image else image ++ [0]

/-- Modelled from the spec: the type `flash_verify_t` of `flash_verify_compiled.h`, as its byte
image: `data:u16, len:u16, crc:u16`, followed by the verify routine's code bytes. -/
def flash_verify_image (data len crc : Nat) (code : List Nat) : List Nat :=
  pad_even (le16 data ++ le16 len ++ le16 crc ++ code)

/-- Modelled from the spec: `offsetof(flash_verify_t, code)`, three 16-bit fields. -/
def offsetof_flash_verify_code : Nat := 6

/-- Modelled from the spec: the type `flash_erase_t` of `flash_erase_compiled.h`, as its byte
image: `done:u8, eraseType:u8, segmentAddr:u16`, followed by the erase routine's code bytes. -/
def flash_erase_image (done eraseType segmentAddr : Nat) (code : List Nat) : List Nat :=
  pad_even ([done % 256, eraseType % 256] ++ le16 segmentAddr ++ code)

/-- Modelled from the spec: `offsetof(flash_erase_t, code)`, which is also `sizeof(param)` in
`flash_eraser_onchip.c` (two bytes and a 16-bit pointer): the offset of `flash_erase`. -/
def offsetof_flash_erase_code : Nat := 4

/-- Modelled from the spec: the type `flash_code_header_t` of `flash_loader_compiled.h`, as its
byte image: `wrtLen:u16, pSrc:u16, pDst:u16, wrtLenThis:u16`. -/
def flash_code_header_image (wrtLen pSrc pDst wrtLenThis : Nat) : List Nat :=
  le16 wrtLen ++ le16 pSrc ++ le16 pDst ++ le16 wrtLenThis

/-- Modelled from the spec: the erase modes of `jtaglib.h`. Their numeric values are not at
hand; an `unsigned int erase_mode` is given by the `case` label it matches, `other` standing
for every value that matches none (the `default:` label). -/
inductive EraseMode where
  | JTAG_ERASE_MASS
  | JTAG_ERASE_MAIN
  | JTAG_ERASE_SGMT
  | other
  deriving DecidableEq

/-- How the block loop of `jtag_write_flash` ends. -/
inductive LoopEnd where
  | completed
  | timed_out
  | out_of_fuel
  deriving DecidableEq

/-! ## Flash program engine -/

/-- The array `boom` of the flash operations: every element is `jmp $`. -/
def boom : Nat → Nat := fun _ => 0x3fff

/-- The part of `jtag_fast_verify_mem` up to and including the read-back of the parameter header; the
result is the words read back. `length` is the local `length`. -/
def fast_verify_run (k : Defs) (start_address length : Nat) : JT σ (List Nat) := do
  let _ ← jtag_led_green_on f
  let flash_func := flash_verify_image (start_address % 65536) (length % 65536) 0
    k.flash_verify_blob
  jtag_write_mem_quick f k.FLASH_CODE_RAM_START (flash_func.length / 2)
    (bytes_as_words flash_func)
  let code_start := (offsetof_flash_verify_code + k.FLASH_CODE_RAM_START) % 65536
  jtag_release_device f k code_start
  delay_ms (20 + length / 160)
  let _ ← jtag_get_device f
  let header_len := flash_func.length - k.flash_verify_blob.length
  jtag_read_mem_quick f k.FLASH_CODE_RAM_START (header_len / 2)

/-- C function `int jtag_fast_verify_mem(p, start_address, length_words, data)`. -/
def jtag_fast_verify_mem (k : Defs) (start_address length_words : Nat) (data : Nat → Nat) :
    JT σ Nat := do
  let length := (length_words * 2) % 2 ^ 32
  let expected_crc := jtag_onchip_crc (words_as_bytes data) length
  let hdr ← fast_verify_run f k start_address length
  let flash_func_data := hdr.getD 0 (start_address % 65536)
  let flash_func_crc := hdr.getD 2 0
  if flash_func_data ≠ 0 then do
    set_failed
    pure 0
  else do
    let flash_func := flash_verify_image (start_address % 65536) (length % 65536) 0
      k.flash_verify_blob
    jtag_write_mem_quick f k.FLASH_CODE_RAM_START (flash_func.length / 2) boom
    let _ ← jtag_led_green_off f
    if flash_func_crc ≠ expected_crc then pure 0
    else pure 1

/-- The local `uint16_t this_block` of the block loop of `jtag_write_flash`: `length - index`
in `unsigned int`, stored in 16 bits, then capped at `FLASH_CODE_BLOCK_LEN`. -/
def this_block (k : Defs) (length index : Nat) : Nat :=
  let this_block := ((length + 2 ^ 32 - index) % 2 ^ 32) % 65536
  if this_block > k.FLASH_CODE_BLOCK_LEN then k.FLASH_CODE_BLOCK_LEN % 65536 else this_block

/-- The body of the block loop of `jtag_write_flash`, for the block starting at byte `index`;
the result is the word read at `FLASH_CODE_RAM_START` after the wait. -/
def write_flash_block (k : Defs) (start_address length : Nat) (data : Nat → Nat)
    (index : Nat) : JT σ Nat := do
  let this_block := this_block k length index
  let flash_header := flash_code_header_image (this_block / 2)
    (k.FLASH_CODE_BLOCK_START % 65536) ((start_address + index) % 65536) 0
  jtag_write_mem_quick f k.FLASH_CODE_BLOCK_START (this_block / 2)
    (fun i => data (index / 2 + i))
  jtag_write_mem_quick f k.FLASH_CODE_RAM_START (flash_header.length / 2)
    (bytes_as_words flash_header)
  jtag_release_device f k k.FLASH_CODE_START
  delay_ms (50 + this_block / 36)
  let _ ← jtag_get_device f
  jtag_read_mem f 16 k.FLASH_CODE_RAM_START

/-- The block loop of `jtag_write_flash`, `for(index = 0; index < length; index +=
FLASH_CODE_BLOCK_LEN)`. The rounds are counted by `fuel`; `length` rounds are enough whenever
the block length is positive, and the C loop never ends when it is zero. -/
def write_flash_loop (k : Defs) (start_address length : Nat) (data : Nat → Nat) :
    Nat → Nat → JT σ LoopEnd
  | 0, index => if index < length then pure LoopEnd.out_of_fuel else pure LoopEnd.completed
  | fuel + 1, index =>
    if index < length then do
      let v ← write_flash_block f k start_address length data index
      if v ≠ 0x00 then do
        let _ ← jtag_read_mem_quick f k.FLASH_CODE_RAM_START
          ((flash_code_header_image 0 0 0 0).length / 2)
        set_failed
        pure LoopEnd.timed_out
      else
        write_flash_loop k start_address length data fuel
          ((index + k.FLASH_CODE_BLOCK_LEN) % 2 ^ 32)
    else pure LoopEnd.completed

/-- The part of `jtag_write_flash` up to the end of the block loop. -/
def write_flash_blocks (k : Defs) (start_address length_words : Nat) (data : Nat → Nat) :
    JT σ LoopEnd := do
  let length := (length_words * 2) % 2 ^ 32
  let _ ← jtag_led_red_on f
  jtag_write_mem_quick f k.FLASH_CODE_START (k.flash_code_blob.length / 2)
    (bytes_as_words k.flash_code_blob)
  write_flash_loop f k start_address length data length 0

/-- C function `void jtag_write_flash(p, start_address, length_words, data)`. -/
def jtag_write_flash (k : Defs) (start_address length_words : Nat) (data : Nat → Nat) :
    JT σ Unit := do
  let e ← write_flash_blocks f k start_address length_words data
  if e = LoopEnd.completed then do
    jtag_write_mem_quick f k.FLASH_CODE_RAM_START (k.FLASH_CODE_PREAMBLE_LEN / 2) boom
    let _ ← jtag_led_red_off f
    pure ()
  else pure ()

/-- The `eraseType` chosen by the `switch` of `jtag_erase_flash`. -/
def erase_type : EraseMode → Nat
  | EraseMode.JTAG_ERASE_MAIN => 1
  | EraseMode.JTAG_ERASE_SGMT => 2
  | _ => 0

/-- The `erase_address` after the `switch` of `jtag_erase_flash`. -/
def erase_segment (erase_mode : EraseMode) (erase_address : Nat) : Nat :=
  match erase_mode with
  | EraseMode.JTAG_ERASE_MAIN => 0x0FC10
  | EraseMode.JTAG_ERASE_SGMT => erase_address
  | _ => 0x0FC10

/-- The part of `jtag_erase_flash` up to and including the read-back of the parameter header; the result
is the words read back. -/
def erase_flash_run (k : Defs) (erase_mode : EraseMode) (erase_address : Nat) :
    JT σ (List Nat) := do
  let _ ← jtag_led_red_on f
  let eraseType := erase_type erase_mode
  let erase_address := erase_segment erase_mode erase_address
  let flash_func := flash_erase_image 0 eraseType (erase_address % 65536) k.flash_erase_blob
  jtag_write_mem_quick f k.FLASH_CODE_RAM_START (flash_func.length / 2)
    (bytes_as_words flash_func)
  let code_start := (offsetof_flash_verify_code + k.FLASH_CODE_RAM_START) % 65536
  jtag_release_device f k code_start
  (if erase_mode = EraseMode.JTAG_ERASE_SGMT then delay_ms 26 else delay_ms 60)
  let _ ← jtag_get_device f
  let header_len := flash_func.length - k.flash_erase_blob.length
  jtag_read_mem_quick f k.FLASH_CODE_RAM_START (header_len / 2)

/-- C function `void jtag_erase_flash(p, erase_mode, erase_address)`. -/
def jtag_erase_flash (k : Defs) (erase_mode : EraseMode) (erase_address : Nat) :
    JT σ Unit := do
  let hdr ← erase_flash_run f k erase_mode erase_address
  let flash_func_done := hdr.getD 0 0 % 256
  if flash_func_done ≠ 1 then set_failed
  else do
    let flash_func := flash_erase_image 0 (erase_type erase_mode)
      (erase_segment erase_mode erase_address % 65536) k.flash_erase_blob
    jtag_write_mem_quick f k.FLASH_CODE_RAM_START (flash_func.length / 2) boom
    let _ ← jtag_led_red_off f
    pure ()


/-- The operations `jtag_release_device` enters, itself included, for a given address. -/
def release_ops (address : Nat) : List Op :=
  Op.release_device address ::
    (if address = 0xffff then []
     else if address = 0xfffe then [Op.set_breakpoint (-1) 0]
     else [Op.write_reg 0 address])

/-- The operations entered by one round of the block loop of `jtag_write_flash`, for the block
starting at byte `index`. -/
def block_ops (k : Defs) (start_address length : Nat) (data : Nat → Nat) (index : Nat) :
    List Op :=
  [Op.write_mem_quick k.FLASH_CODE_BLOCK_START
      ((List.range (this_block k length index / 2)).map
        (fun i => data (index / 2 + i) % 65536)),
    Op.write_reg 0 ((k.FLASH_CODE_BLOCK_START + 2 ^ 32 - 4) % 2 ^ 32),
    Op.write_mem_quick k.FLASH_CODE_RAM_START
      (upload_words (flash_code_header_image (this_block k length index / 2)
        (k.FLASH_CODE_BLOCK_START % 65536) ((start_address + index) % 65536) 0)),
    Op.write_reg 0 ((k.FLASH_CODE_RAM_START + 2 ^ 32 - 4) % 2 ^ 32)]
  ++ release_ops k.FLASH_CODE_START
  ++ [Op.get_device, Op.read_mem 16 k.FLASH_CODE_RAM_START]

/-- The calls on the line-level interface among a list of events, in order. -/
def lines : List Event → List Call
  | [] => []
  | Event.line c :: l => c :: lines l
  | _ :: l => lines l

/-- The table entry the macro `jtag_ir_shift` dispatches to, with its argument. -/
def ir_call (ir : Nat) : Call :=
  if f.has_ir_shift_wronly then Call.jtdev_ir_shift_wronly (ir % 256)
  else Call.jtdev_ir_shift (ir % 256)

/-- The table entry the macro `jtag_dr_shift_16` dispatches to, with its argument. -/
def dr16_call (dr : Nat) : Call :=
  if f.has_dr_shift_16_wronly then Call.jtdev_dr_shift_16_wronly (dr % 65536)
  else Call.jtdev_dr_shift_16 (dr % 65536)

/-- The calls the macro `jtag_flush_writes` makes. -/
def flush_calls : List Call :=
  if f.has_flush_writes then [Call.jtdev_flush_writes] else []

/-- A transport that never writes `p->failed` itself. -/
def keeps_failed : Prop := ∀ (c : Call) (d : Jtdev σ), (f.exec c d).2.failed = d.failed

/-- The session after `j` consecutive runs of the operation `m`. -/
def iter_session {α : Type} (m : JT σ α) : Nat → Jtdev σ → Jtdev σ
  | 0, d => d
  | j + 1, d => iter_session m j (m d).dev

/-! ## Further macros and operations of `jtaglib.c` -/

/-- Macro `jtag_tms_sequence`. -/
def jtag_tms_sequence (bits value : Nat) : JT σ Nat :=
  call f (Call.jtdev_tms_sequence bits (value % 2 ^ 32))

/-- Macro `jtag_init_dap`. -/
def jtag_init_dap : JT σ Nat := call f Call.jtdev_init_dap

/-- C function `void jtag_write_mem(p, format, address, data)`. -/
def jtag_write_mem (format address data : Nat) : JT σ Unit := do
  jtag_halt_cpu f
  let _ ← jtag_tclk_clr f
  let _ ← jtag_ir_shift f IR_CNTRL_SIG_16BIT
  let _ ← (if format = 16 then jtag_dr_shift_16 f 0x2408 else jtag_dr_shift_16 f 0x2418)
  let _ ← jtag_ir_shift f IR_ADDR_16BIT
  let _ ← jtag_dr_shift_16 f address
  let _ ← jtag_ir_shift f IR_DATA_TO_ADDR
  let _ ← jtag_dr_shift_16 f data
  let _ ← jtag_tclk_set f
  jtag_release_cpu f

/-- C function `unsigned int jtag_execute_puc(struct jtdev *p)`. -/
def jtag_execute_puc : JT σ Nat := do
  let _ ← jtag_ir_shift f IR_CNTRL_SIG_16BIT
  let _ ← jtag_dr_shift_16 f 0x2C01
  let _ ← jtag_dr_shift_16 f 0x2401
  let _ ← jtag_tclk_clr f
  let _ ← jtag_tclk_set f
  let _ ← jtag_tclk_clr f
  let _ ← jtag_tclk_set f
  let _ ← jtag_tclk_clr f
  let _ ← jtag_tclk_set f
  let jtag_id ← jtag_ir_shift_and_read f IR_ADDR_CAPTURE
  jtag_write_mem f 16 0x0120 0x5A80
  pure jtag_id

/-- One round of the loop of `jtag_is_fuse_blown`: the value captured. -/
def fuse_attempt : JT σ Nat := do
  let _ ← jtag_ir_shift f IR_CNTRL_SIG_CAPTURE
  jtag_dr_shift_16_and_read f 0xAAAA

/-- The loop of `jtag_is_fuse_blown`; `n` is `loop_counter`. -/
def is_fuse_blown_loop : Nat → JT σ Nat
  | 0 => pure 0
  | n + 1 => do
    let c ← fuse_attempt f
    if c = 0x5555 then pure 1
    else is_fuse_blown_loop n

/-- C function `int jtag_is_fuse_blown(struct jtdev *p)`. -/
def jtag_is_fuse_blown : JT σ Nat := is_fuse_blown_loop f 3

/-- C function `unsigned int jtag_init(struct jtdev *p)`. -/
def jtag_init : JT σ Nat := do
  let _ ← jtag_init_dap f
  let blown ← jtag_is_fuse_blown f
  if blown ≠ 0 then do
    set_failed
    pure 0
  else do
    let jtag_id ← jtag_get_device f
    if jtag_id = 0 then do
      set_failed
      pure 0
    else do
      let puc ← jtag_execute_puc f
      if puc ≠ jtag_id then do
        set_failed
        pure 0
      else pure jtag_id

/-! ## PSA verification -/

def IR_DATA_PSA : Nat := 0x22
def IR_SHIFT_OUT_PSA : Nat := 0x62

/-- The computation of one round of the loop of `jtag_verify_psa` on the local `unsigned int
psa_crc` (32 bits wide on the host), for the word folded in. -/
def psa_step (psa_crc word : Nat) : Nat :=
  let psa_crc :=
    if psa_crc &&& 0x8000 = 0x8000 then (((psa_crc ^^^ 0x0805) <<< 1) % 2 ^ 32) ||| 0x0001
    else (psa_crc <<< 1) % 2 ^ 32
  psa_crc ^^^ word

/-- The loop of `jtag_verify_psa`: `n` words remain, the next is `data[index]`; `data` is
`none` for the null pointer of the erase check. The result is the final `psa_crc`. -/
def verify_psa_loop (data : Option (Nat → Nat)) : Nat → Nat → Nat → JT σ Nat
  | 0, _, psa_crc => pure psa_crc
  | n + 1, index, psa_crc => do
    let psa_crc := psa_step psa_crc
      (match data with
       | none => 0xFFFF
       | some w => w index % 65536)
    let _ ← jtag_tclk_set f
    let _ ← jtag_tms_sequence f 6 0x19
    let _ ← jtag_tclk_clr f
    verify_psa_loop data n (index + 1) psa_crc

/-- The part of `jtag_verify_psa` up to the comparison: the value shifted out of the target
and the locally computed `psa_crc`. -/
def verify_psa_run (start_address length : Nat) (data : Option (Nat → Nat)) :
    JT σ (Nat × Nat) := do
  let psa_crc := (start_address + 2 ^ 32 - 2) % 2 ^ 32
  let _ ← jtag_execute_puc f
  let _ ← jtag_ir_shift f IR_CNTRL_SIG_16BIT
  let _ ← jtag_dr_shift_16 f 0x2401
  let _ ← jtag_set_instruction_fetch f
  let _ ← jtag_ir_shift f IR_DATA_16BIT
  let _ ← jtag_dr_shift_16 f 0x4030
  let _ ← jtag_tclk_set f
  let _ ← jtag_tclk_clr f
  let _ ← jtag_dr_shift_16 f ((start_address + 2 ^ 32 - 2) % 2 ^ 32)
  let _ ← jtag_tclk_set f
  let _ ← jtag_tclk_clr f
  let _ ← jtag_tclk_set f
  let _ ← jtag_tclk_clr f
  let _ ← jtag_tclk_set f
  let _ ← jtag_tclk_clr f
  let _ ← jtag_ir_shift f IR_ADDR_CAPTURE
  let _ ← jtag_dr_shift_16 f 0x0000
  let _ ← jtag_ir_shift f IR_DATA_PSA
  let psa_crc ← verify_psa_loop f data length 0 psa_crc
  let _ ← jtag_ir_shift f IR_SHIFT_OUT_PSA
  let psa_value ← jtag_dr_shift_16_and_read f 0x0000
  let _ ← jtag_tclk_set f
  pure (psa_value, psa_crc)

/-- C function `static int jtag_verify_psa(p, start_address, length, data)`. -/
def jtag_verify_psa (start_address length : Nat) (data : Option (Nat → Nat)) : JT σ Nat := do
  let r ← verify_psa_run f start_address length data
  pure (if r.1 = r.2 then 1 else 0)

/-- C function `int jtag_verify_mem(p, start_address, length, data)`, for a non-null `data`. -/
def jtag_verify_mem (start_address length : Nat) (data : Nat → Nat) : JT σ Nat :=
  jtag_verify_psa f start_address length (some data)

/-- C function `int jtag_erase_check(p, start_address, length)`. -/
def jtag_erase_check (start_address length : Nat) : JT σ Nat :=
  jtag_verify_psa f start_address length none

/-! ## Breakpoint table -/

/-- Modelled from the spec: `struct device_breakpoint` of `device.h`: type tag, target address,
flag bits. -/
structure device_breakpoint where
  type : Nat
  addr : Nat
  flags : Nat
  deriving DecidableEq

/-- Modelled from the spec: the type tag and flag masks of `device.h`, whose values are not at
hand. -/
structure DeviceDefs where
  DEVICE_BPTYPE_BREAK : Nat
  DEVICE_BP_ENABLED : Nat
  DEVICE_BP_DIRTY : Nat

/-- Modelled from the spec: the part of `struct device` that `jtag_refresh_bps` uses: the
number of entries in use and the array of entries. -/
structure Device where
  max_breakpoints : Nat
  breakpoints : Nat → device_breakpoint

/-- The assignment `flags &= ~mask` on a non-negative `int`. -/
def clear_bits (flags mask : Nat) : Nat := flags ^^^ (flags &&& mask)

/-- The condition under which `jtag_refresh_bps` programs an entry: dirty and of type break. -/
def bp_needs_refresh (dd : DeviceDefs) (bp : device_breakpoint) : Prop :=
  bp.flags &&& dd.DEVICE_BP_DIRTY ≠ 0 ∧ bp.type = dd.DEVICE_BPTYPE_BREAK

instance (dd : DeviceDefs) (bp : device_breakpoint) : Decidable (bp_needs_refresh dd bp) := by
  unfold bp_needs_refresh
  exact inferInstance

/-- The local `addr` of `jtag_refresh_bps` for an entry: its address, or 0 when the entry is
not enabled. -/
def bp_refresh_addr (dd : DeviceDefs) (bp : device_breakpoint) : Nat :=
  if bp.flags &&& dd.DEVICE_BP_ENABLED = 0 then 0 else bp.addr

/-- The entry after `bp->flags &= ~DEVICE_BP_DIRTY`. -/
def clear_dirty (dd : DeviceDefs) (bp : device_breakpoint) : device_breakpoint :=
  { bp with flags := clear_bits bp.flags dd.DEVICE_BP_DIRTY }

/-- The table after `bp->flags &= ~DEVICE_BP_DIRTY` on entry `i`. -/
def table_clear_dirty (dd : DeviceDefs) (dev : Device) (i : Nat) : Device :=
  { dev with
    breakpoints := Function.update dev.breakpoints i (clear_dirty dd (dev.breakpoints i)) }

/-- The loop of `jtag_refresh_bps`: `n` entries remain, the next is `i`; `ret` is the local
`ret`. The result is the table afterwards and the value returned. -/
def refresh_bps_loop (k : Defs) (dd : DeviceDefs) : Nat → Nat → Device → Int → JT σ (Device × Int)
  | 0, _, dev, ret => pure (dev, ret)
  | n + 1, i, dev, ret =>
    if bp_needs_refresh dd (dev.breakpoints i) then do
      let r ← jtag_set_breakpoint f k (i : Int) (bp_refresh_addr dd (dev.breakpoints i))
      if r = 0 then refresh_bps_loop k dd n (i + 1) dev (-1)
      else refresh_bps_loop k dd n (i + 1) (table_clear_dirty dd dev i) ret
    else refresh_bps_loop k dd n (i + 1) dev ret

/-- C function `int jtag_refresh_bps(const char *module, device_t dev, struct jtdev *p)`. -/
def jtag_refresh_bps (k : Defs) (dd : DeviceDefs) (dev : Device) : JT σ (Device × Int) :=
  refresh_bps_loop f k dd dev.max_breakpoints 0 dev 0

/-! ## Sessions and partial runs the statements refer to -/

/-- The part of `jtag_set_breakpoint` for a slot `n` in range, up to and including the two
shifts that read `BREAKREACT`: the two values captured. -/
def set_breakpoint_reads (k : Defs) (n bp_addr : Nat) : JT σ (Nat × Nat) := do
  let _ ← jtag_ir_shift f IR_EMEX_DATA_EXCHANGE
  let _ ← jtag_dr_shift_16 f (k.GENCTRL + k.WRITE)
  let _ ← jtag_dr_shift_16 f (k.EEM_EN + k.CLEAR_STOP + k.EMU_CLK_EN + k.EMU_FEAT_EN)
  let _ ← jtag_ir_shift f IR_EMEX_DATA_EXCHANGE
  let _ ← jtag_dr_shift_16 f (8 * n + k.MBTRIGxVAL + k.WRITE)
  let _ ← jtag_dr_shift_16 f bp_addr
  let _ ← jtag_ir_shift f IR_EMEX_DATA_EXCHANGE
  let _ ← jtag_dr_shift_16 f (8 * n + k.MBTRIGxCTL + k.WRITE)
  let _ ← jtag_dr_shift_16 f (k.MAB + k.TRIG_0 + k.CMP_EQUAL)
  let _ ← jtag_ir_shift f IR_EMEX_DATA_EXCHANGE
  let _ ← jtag_dr_shift_16 f (8 * n + k.MBTRIGxMSK + k.WRITE)
  let _ ← jtag_dr_shift_16 f k.NO_MASK
  let _ ← jtag_ir_shift f IR_EMEX_DATA_EXCHANGE
  let _ ← jtag_dr_shift_16 f (8 * n + k.MBTRIGxCMB + k.WRITE)
  let _ ← jtag_dr_shift_16 f (1 <<< n)
  let _ ← jtag_ir_shift f IR_EMEX_DATA_EXCHANGE
  let r1 ← jtag_dr_shift_16_and_read f (k.BREAKREACT + k.READ)
  let r2 ← jtag_dr_shift_16_and_read f 0x000
  pure (r1, r2)

/-- The value `jtag_set_breakpoint` computes for `BREAKREACT` from the two captures `r1`, `r2`,
for slot `n`. -/
def new_breakreact (r1 r2 n : Nat) : Nat := (((r1 + r2) % 2 ^ 32) >>> 1) ||| (1 <<< n)

/-- The value the operation `m` yields in its run number `j` (from 0) of consecutive runs. -/
def capture_at (m : JT σ Nat) (j : Nat) (d : Jtdev σ) : Nat := (m (iter_session m j d)).val

/-- The number of attempts `jtag_is_fuse_blown` makes, given the first two captures. -/
def fuse_attempts (c0 c1 : Nat) : Nat :=
  if c0 = 0x5555 then 1 else if c1 = 0x5555 then 2 else 3

/-- The part of `jtag_get_device` before the polling loop: the captured id. -/
def get_device_setup : JT σ Nat := do
  let _ ← jtag_ir_shift f IR_CNTRL_SIG_16BIT
  let _ ← jtag_dr_shift_16 f 0x2401
  jtag_ir_shift_and_read f IR_CNTRL_SIG_CAPTURE

/-- One polling shift of `jtag_get_device` and `jtag_set_instruction_fetch`. -/
def poll : JT σ Nat := jtag_dr_shift_16_and_read f 0x0000

/-- The fuse check as run by `jtag_init`. -/
def init_fuse (d : Jtdev σ) : Res σ Nat := jtag_is_fuse_blown f (jtag_init_dap f d).dev

/-- The call of `jtag_get_device` as run by `jtag_init` after the fuse check. -/
def init_device (d : Jtdev σ) : Res σ Nat := jtag_get_device f (init_fuse f d).dev

/-- The call of `jtag_execute_puc` as run by `jtag_init` after `jtag_get_device`. -/
def init_puc (d : Jtdev σ) : Res σ Nat := jtag_execute_puc f (init_device f d).dev

/-- The session in which `jtag_write_flash` enters its block loop. -/
def write_flash_entry (k : Defs) (d : Jtdev σ) : Jtdev σ :=
  (jtag_write_mem_quick f k.FLASH_CODE_START (k.flash_code_blob.length / 2)
    (bytes_as_words k.flash_code_blob) (jtag_led_red_on f d).dev).dev

/-- The session after `j` rounds of the block loop of `jtag_write_flash` entered in session `d`
at block number `base` (byte index `base * FLASH_CODE_BLOCK_LEN`). -/
def write_flash_session (k : Defs) (start_address length : Nat) (data : Nat → Nat) :
    Nat → Nat → Jtdev σ → Jtdev σ
  | _, 0, d => d
  | base, j + 1, d =>
    write_flash_session k start_address length data (base + 1) j
      (write_flash_block f k start_address length data (base * k.FLASH_CODE_BLOCK_LEN) d).dev

/-- The word read at `FLASH_CODE_RAM_START` after the wait for block `j`, when the loop was
entered in session `d` and the blocks before `j` completed. -/
def write_flash_read (k : Defs) (start_address length : Nat) (data : Nat → Nat) (j : Nat)
    (d : Jtdev σ) : Nat :=
  (write_flash_block f k start_address length data (j * k.FLASH_CODE_BLOCK_LEN)
    (write_flash_session f k start_address length data 0 j d)).val

/-- The session in which `jtag_refresh_bps`, started in session `d` at entry `i` of the table
`dev`, has visited the `j` entries from `i` on. -/
def refresh_session (k : Defs) (dd : DeviceDefs) (dev : Device) : Nat → Nat → Jtdev σ → Jtdev σ
  | _, 0, d => d
  | i, j + 1, d =>
    refresh_session k dd dev (i + 1) j
      (if bp_needs_refresh dd (dev.breakpoints i) then
        (jtag_set_breakpoint f k (i : Int) (bp_refresh_addr dd (dev.breakpoints i)) d).dev
       else d)

/-! ## Register read, single step, CPU state, identification -/

/-- Macro `jtag_dr_shift_8`: the write-only variant when the table has one. -/
def jtag_dr_shift_8 (dr : Nat) : JT σ Nat :=
  if f.has_dr_shift_8_wronly then call f (Call.jtdev_dr_shift_8_wronly (dr % 256))
  else call f (Call.jtdev_dr_shift_8 (dr % 256))

/-- Macro `jtag_dr_shift_8_and_read`: the capture is a `uint8_t`. -/
def jtag_dr_shift_8_and_read (dr : Nat) : JT σ Nat := do
  let v ← call f (Call.jtdev_dr_shift_8 (dr % 256))
  pure (v % 256)

/-- The instruction word `0x4082 | (((unsigned int)reg << 8) & 0x0f00)` of `jtag_read_reg`. -/
def read_reg_word (reg : Nat) : Nat :=
  0x4082 ||| ((((reg % 2 ^ 32) <<< 8) % 2 ^ 32) &&& 0x0f00)

/-- The instruction word `0x4030 | (reg & 0x000f)` of `jtag_write_reg`. -/
def write_reg_word (reg : Nat) : Nat := 0x4030 ||| (reg &&& 0x000f)

/-- C function `address_t jtag_read_reg(struct jtdev *p, int reg)`. -/
def jtag_read_reg (reg : Nat) : JT σ Nat := do
  let _ ← jtag_set_instruction_fetch f
  let _ ← jtag_ir_shift f IR_CNTRL_SIG_16BIT
  let _ ← jtag_dr_shift_16 f 0x3401
  let _ ← jtag_ir_shift f IR_DATA_16BIT
  let _ ← jtag_dr_shift_16 f 0x3ffd
  let _ ← jtag_tclk_clr f
  let _ ← jtag_tclk_set f
  let _ ← jtag_tclk_clr f
  let _ ← jtag_tclk_set f
  let _ ← jtag_dr_shift_16 f (read_reg_word reg)
  let _ ← jtag_tclk_clr f
  let _ ← jtag_tclk_set f
  let _ ← jtag_dr_shift_16 f 0x01fe
  let _ ← jtag_tclk_clr f
  let _ ← jtag_tclk_set f
  let _ ← jtag_tclk_clr f
  let _ ← jtag_tclk_set f
  let _ ← jtag_ir_shift f IR_DATA_CAPTURE
  let value ← jtag_dr_shift_16_and_read f 0x0000
  let _ ← jtag_tclk_clr f
  let _ ← jtag_ir_shift f IR_CNTRL_SIG_16BIT
  let _ ← jtag_dr_shift_16 f 0x2401
  let _ ← jtag_tclk_set f
  pure value

/-- The loop of `jtag_single_step`; `n` is `loop_counter`, the result is its value when the
loop is left. -/
def single_step_loop : Nat → JT σ Nat
  | 0 => pure 0
  | n + 1 => do
    let _ ← jtag_tclk_clr f
    let _ ← jtag_tclk_set f
    let v ← jtag_dr_shift_16_and_read f 0x0000
    if v &&& 0x0080 = 0x0080 then pure (n + 1)
    else single_step_loop n

/-- C function `void jtag_single_step( struct jtdev *p )`. -/
def jtag_single_step : JT σ Unit := do
  let _ ← jtag_ir_shift f IR_CNTRL_SIG_16BIT
  let _ ← jtag_dr_shift_16 f 0x3401
  let _ ← jtag_ir_shift f IR_CNTRL_SIG_CAPTURE
  let loop_counter ← single_step_loop f 10
  let _ ← jtag_ir_shift f IR_CNTRL_SIG_16BIT
  let _ ← jtag_dr_shift_16 f 0x2401
  jtag_flush_writes f
  if loop_counter = 0 then set_failed else pure ()

/-- C function `unsigned int jtag_cpu_state( struct jtdev *p )`. -/
def jtag_cpu_state : JT σ Nat := do
  let _ ← jtag_ir_shift f IR_EMEX_READ_CONTROL
  let v ← jtag_dr_shift_16_and_read f 0x0000
  if v &&& 0x0080 = 0x0080 then pure 1 else pure 0

/-- The instruction constant `IR_CONFIG_FUSES` of `jtaglib.c`. -/
def IR_CONFIG_FUSES : Nat := 0x94

/-- C function `int jtag_get_config_fuses( struct jtdev *p )`. -/
def jtag_get_config_fuses : JT σ Nat := do
  let _ ← jtag_ir_shift f IR_CONFIG_FUSES
  jtag_dr_shift_8_and_read f 0

/-- The assignment `chip_id = (chip_id << 8) + (chip_id >> 8)` on an `unsigned short`. -/
def swap_bytes (chip_id : Nat) : Nat := ((chip_id <<< 8) + (chip_id >>> 8)) % 65536

/-- C function `unsigned int jtag_chip_id(struct jtdev *p)`. -/
def jtag_chip_id : JT σ Nat := do
  let chip_id ← jtag_read_mem f 16 0x0FF0
  pure (swap_bytes chip_id)

/-! ## The bit-by-bit shifts (`jtag_default_*`) -/

def jtag_tms_set : JT σ Nat := call f (Call.jtdev_tms 1)
def jtag_tms_clr : JT σ Nat := call f (Call.jtdev_tms 0)
def jtag_tck_set : JT σ Nat := call f (Call.jtdev_tck 1)
def jtag_tck_clr : JT σ Nat := call f (Call.jtdev_tck 0)
def jtag_tdi_set : JT σ Nat := call f (Call.jtdev_tdi 1)
def jtag_tdi_clr : JT σ Nat := call f (Call.jtdev_tdi 0)

/-- C function `static void jtag_default_tclk_prep (struct jtdev *p)`. -/
def jtag_default_tclk_prep : JT σ Unit := do
  let _ ← jtag_tck_clr f
  let _ ← jtag_tck_set f
  let _ ← jtag_tms_clr f
  let _ ← jtag_tck_clr f
  let _ ← jtag_tck_set f
  pure ()

/-- The `for` loop of `jtag_default_shift`. The mask runs through the powers of two from
`1 << (num_bits - 1)` down to 1; `n + 1` values remain and the current one is `1 << n`. The
result is `data_in`. -/
def default_shift_loop (data_out : Nat) : Nat → Nat → JT σ Nat
  | 0, data_in => pure data_in
  | n + 1, data_in => do
    let mask := 1 <<< n
    let _ ← (if data_out &&& mask ≠ 0 then jtag_tdi_set f else jtag_tdi_clr f)
    (if mask = 1 then do
      let _ ← jtag_tms_set f
      pure ()
     else pure ())
    let _ ← jtag_tck_clr f
    let _ ← jtag_tck_set f
    let tdo ← call f Call.jtdev_tdo_get
    default_shift_loop data_out n (if tdo = 1 then data_in ||| mask else data_in)

/-- C function `static unsigned int jtag_default_shift(p, num_bits, data_out)`, for `num_bits`
from 1 to 32 (the initial mask `0x0001U << (num_bits - 1)` is undefined otherwise). -/
def jtag_default_shift (num_bits data_out : Nat) : JT σ Nat := do
  let tclk_save ← call f Call.jtdev_tclk_get
  let data_in ← default_shift_loop f data_out num_bits 0
  let _ ← call f (Call.jtdev_tclk tclk_save)
  jtag_default_tclk_prep f
  pure data_in

/-- C function `uint8_t jtag_default_ir_shift(struct jtdev *p, uint8_t instruction)`. -/
def jtag_default_ir_shift (instruction : Nat) : JT σ Nat := do
  let _ ← jtag_tms_set f
  let _ ← jtag_tck_clr f
  let _ ← jtag_tck_set f
  let _ ← jtag_tck_clr f
  let _ ← jtag_tck_set f
  let _ ← jtag_tms_clr f
  let _ ← jtag_tck_clr f
  let _ ← jtag_tck_set f
  let _ ← jtag_tck_clr f
  let _ ← jtag_tck_set f
  let v ← jtag_default_shift f 8 (instruction % 256)
  pure (v % 256)

/-- C function `uint8_t jtag_default_dr_shift_8(struct jtdev *p, uint8_t data)`. -/
def jtag_default_dr_shift_8 (data : Nat) : JT σ Nat := do
  let _ ← jtag_tms_set f
  let _ ← jtag_tck_clr f
  let _ ← jtag_tck_set f
  let _ ← jtag_tms_clr f
  let _ ← jtag_tck_clr f
  let _ ← jtag_tck_set f
  let _ ← jtag_tck_clr f
  let _ ← jtag_tck_set f
  let v ← jtag_default_shift f 8 (data % 256)
  pure (v % 256)

/-- C function `uint16_t jtag_default_dr_shift_16(struct jtdev *p, uint16_t data)`. -/
def jtag_default_dr_shift_16 (data : Nat) : JT σ Nat := do
  let _ ← jtag_tms_set f
  let _ ← jtag_tck_clr f
  let _ ← jtag_tck_set f
  let _ ← jtag_tms_clr f
  let _ ← jtag_tck_clr f
  let _ ← jtag_tck_set f
  let _ ← jtag_tck_clr f
  let _ ← jtag_tck_set f
  let v ← jtag_default_shift f 16 (data % 65536)
  pure (v % 65536)

/-! ## Parts of operations the statements refer to -/

/-- The part of `jtag_read_mem` up to and including the shift that captures `content`. -/
def read_mem_content (format address : Nat) : JT σ Nat := do
  enter (Op.read_mem format address)
  jtag_halt_cpu f
  let _ ← jtag_tclk_clr f
  let _ ← jtag_ir_shift f IR_CNTRL_SIG_16BIT
  let _ ← (if format = 16 then jtag_dr_shift_16 f 0x2409 else jtag_dr_shift_16 f 0x2419)
  let _ ← jtag_ir_shift f IR_ADDR_16BIT
  let _ ← jtag_dr_shift_16 f address
  let _ ← jtag_ir_shift f IR_DATA_TO_ADDR
  let _ ← jtag_tclk_set f
  let _ ← jtag_tclk_clr f
  jtag_dr_shift_16_and_read f 0x0000

/-- The part of `jtag_release_device` between switching the indicator off and the common final
sequence: the `switch` on the address. -/
def release_switch (k : Defs) (address : Nat) : JT σ Unit :=
  if address = 0xffff then pure ()
  else if address = 0xfffe then do
    let _ ← jtag_set_breakpoint f k (-1) 0
    let _ ← jtag_ir_shift f IR_CNTRL_SIG_16BIT
    let _ ← jtag_dr_shift_16 f 0x2C01
    let _ ← jtag_dr_shift_16 f 0x2401
    pure ()
  else jtag_write_reg f 0 address

/-- The session in which `jtag_release_device` starts its common final sequence. -/
def release_switched (k : Defs) (address : Nat) (d : Jtdev σ) : Jtdev σ :=
  (release_switch f k address (jtag_led_green_off f d).dev).dev

/-- The values the local `psa_crc` of `jtag_verify_psa` takes, without the line-level calls:
`n` words remain, the next is `data[index]`. -/
def psa_crc_loop (data : Option (Nat → Nat)) : Nat → Nat → Nat → Nat
  | 0, _, psa_crc => psa_crc
  | n + 1, index, psa_crc =>
    psa_crc_loop data n (index + 1)
      (psa_step psa_crc
        (match data with
         | none => 0xFFFF
         | some w => w index % 65536))

/-! ### The 16-bit PSA signature of the specification -/

/-- Stated from the specification: one word of the 16-bit PSA register with polynomial 0x0805.
If bit 15 is set, XOR with 0x0805, shift left one and set bit 0, else shift left one; then
XOR in the data word. -/
def spec_psa_step (crc word : Nat) : Nat :=
  (if crc.testBit 15 then (((crc ^^^ 0x0805) <<< 1) ||| 1) % 65536
   else (crc <<< 1) % 65536) ^^^ (word % 65536)

/-- Stated from the specification: the 16-bit register after the words `index`, `index + 1`,
..., `n` of them, have been folded in. -/
def spec_psa_loop (data : Nat → Nat) : Nat → Nat → Nat → Nat
  | 0, _, crc => crc
  | n + 1, index, crc => spec_psa_loop data n (index + 1) (spec_psa_step crc (data index))

/-- Stated from the specification: the 16-bit PSA signature of `length` words, seeded with
`start_address - 2`. -/
def spec_psa_signature (start_address length : Nat) (data : Nat → Nat) : Nat :=
  spec_psa_loop data length 0 ((start_address + 65536 - 2) % 65536)

/-! ## The TAP controller -/

/-- Modelled from the spec: the sixteen states of the standard TAP state diagram. -/
inductive Tap where
  | Test_Logic_Reset
  | Run_Test_Idle
  | Select_DR_Scan
  | Capture_DR
  | Shift_DR
  | Exit1_DR
  | Pause_DR
  | Exit2_DR
  | Update_DR
  | Select_IR_Scan
  | Capture_IR
  | Shift_IR
  | Exit1_IR
  | Pause_IR
  | Exit2_IR
  | Update_IR
  deriving DecidableEq

/-- Modelled from the spec: the transition of the standard TAP state diagram taken on a rising
edge of TCK, with TMS sampled high (`true`) or low (`false`). -/
def Tap.next : Tap → Bool → Tap
  | Tap.Test_Logic_Reset, true => Tap.Test_Logic_Reset
  | Tap.Test_Logic_Reset, false => Tap.Run_Test_Idle
  | Tap.Run_Test_Idle, true => Tap.Select_DR_Scan
  | Tap.Run_Test_Idle, false => Tap.Run_Test_Idle
  | Tap.Select_DR_Scan, true => Tap.Select_IR_Scan
  | Tap.Select_DR_Scan, false => Tap.Capture_DR
  | Tap.Capture_DR, true => Tap.Exit1_DR
  | Tap.Capture_DR, false => Tap.Shift_DR
  | Tap.Shift_DR, true => Tap.Exit1_DR
  | Tap.Shift_DR, false => Tap.Shift_DR
  | Tap.Exit1_DR, true => Tap.Update_DR
  | Tap.Exit1_DR, false => Tap.Pause_DR
  | Tap.Pause_DR, true => Tap.Exit2_DR
  | Tap.Pause_DR, false => Tap.Pause_DR
  | Tap.Exit2_DR, true => Tap.Update_DR
  | Tap.Exit2_DR, false => Tap.Shift_DR
  | Tap.Update_DR, true => Tap.Select_DR_Scan
  | Tap.Update_DR, false => Tap.Run_Test_Idle
  | Tap.Select_IR_Scan, true => Tap.Test_Logic_Reset
  | Tap.Select_IR_Scan, false => Tap.Capture_IR
  | Tap.Capture_IR, true => Tap.Exit1_IR
  | Tap.Capture_IR, false => Tap.Shift_IR
  | Tap.Shift_IR, true => Tap.Exit1_IR
  | Tap.Shift_IR, false => Tap.Shift_IR
  | Tap.Exit1_IR, true => Tap.Update_IR
  | Tap.Exit1_IR, false => Tap.Pause_IR
  | Tap.Pause_IR, true => Tap.Exit2_IR
  | Tap.Pause_IR, false => Tap.Pause_IR
  | Tap.Exit2_IR, true => Tap.Update_IR
  | Tap.Exit2_IR, false => Tap.Shift_IR
  | Tap.Update_IR, true => Tap.Select_DR_Scan
  | Tap.Update_IR, false => Tap.Run_Test_Idle

/-- The TAP seen from the lines: the controller's state and the levels last driven on TCK and
TMS (0 is low). -/
structure Pins where
  tap : Tap
  tck : Nat
  tms : Nat
  deriving DecidableEq

/-- The TAP after one call on the line-level interface: `jtdev_tms` sets the TMS level; a
`jtdev_tck` call that takes TCK from low to high is a rising edge, on which the controller
samples TMS and moves; every other call leaves the TAP alone. -/
def Pins.step (s : Pins) : Call → Pins
  | Call.jtdev_tms out => { s with tms := out }
  | Call.jtdev_tck out =>
    if s.tck = 0 ∧ out ≠ 0 then
      { tap := s.tap.next (decide (s.tms ≠ 0)), tck := out, tms := s.tms }
    else { s with tck := out }
  | _ => s

/-- The rising edge a call produces, if any: the state in which it is taken and whether TMS is
sampled high. -/
def Pins.edge (s : Pins) : Call → List (Tap × Bool)
  | Call.jtdev_tck out => if s.tck = 0 ∧ out ≠ 0 then [(s.tap, decide (s.tms ≠ 0))] else []
  | _ => []

/-- The TAP after a sequence of calls. -/
def Pins.run : List Call → Pins → Pins
  | [], s => s
  | c :: l, s => Pins.run l (s.step c)

/-- The rising edges of TCK in a sequence of calls, in order. -/
def tap_edges : List Call → Pins → List (Tap × Bool)
  | [], _ => []
  | c :: l, s => s.edge c ++ tap_edges l (s.step c)

/-- The calls the loop of `jtag_default_shift` makes for the `n` lowest bits of `data_out`,
highest first. -/
def shift_calls (data_out : Nat) : Nat → List Call
  | 0 => []
  | n + 1 =>
    (if data_out &&& (1 <<< n) ≠ 0 then [Call.jtdev_tdi 1] else [Call.jtdev_tdi 0])
      ++ (if 1 <<< n = 1 then [Call.jtdev_tms 1] else [])
      ++ [Call.jtdev_tck 0, Call.jtdev_tck 1, Call.jtdev_tdo_get]
      ++ shift_calls data_out n

/-- The part of `jtag_read_mem_quick` and `jtag_write_mem_quick` before their loops: R0 is
loaded with `address - 4`, the CPU halted, the control word `ctl` shifted (0x2409 to read,
0x2408 to write) and quick access selected. -/
def quick_setup (address ctl : Nat) : JT σ Unit := do
  jtag_write_reg f 0 ((address + 2 ^ 32 - 4) % 2 ^ 32)
  jtag_halt_cpu f
  let _ ← jtag_tclk_clr f
  let _ ← jtag_ir_shift f IR_CNTRL_SIG_16BIT
  let _ ← jtag_dr_shift_16 f ctl
  let _ ← jtag_ir_shift f IR_DATA_QUICK
  pure ()

/-! ## Properties of operations used in the statements -/

/-- The operation never clears the sticky flag: a session that has failed has failed
afterwards. -/
def sticky {α : Type} (m : JT σ α) : Prop :=
  ∀ d : Jtdev σ, d.failed ≠ 0 → (m d).dev.failed ≠ 0

/-- The function table without its write-only shift entries; the other entries are the
same. -/
def strip_wronly : JtdevFunc σ :=
  { has_ir_shift_wronly := false
    has_dr_shift_8_wronly := false
    has_dr_shift_16_wronly := false
    has_flush_writes := f.has_flush_writes
    exec := f.exec }

/-- The write-only shift entries act on the session exactly as the read-capable ones. -/
def wronly_same : Prop :=
  ∀ (x : Nat) (d : Jtdev σ),
    (f.exec (Call.jtdev_ir_shift_wronly x) d).2 = (f.exec (Call.jtdev_ir_shift x) d).2 ∧
    (f.exec (Call.jtdev_dr_shift_8_wronly x) d).2 = (f.exec (Call.jtdev_dr_shift_8 x) d).2 ∧
    (f.exec (Call.jtdev_dr_shift_16_wronly x) d).2 = (f.exec (Call.jtdev_dr_shift_16 x) d).2

/-- Two operations give the same result and leave the same session, from every session. -/
def same_run {α : Type} (m1 m2 : JT σ α) : Prop :=
  ∀ d : Jtdev σ, (m1 d).val = (m2 d).val ∧ (m1 d).dev = (m2 d).dev

/-- Two operations leave the same session, from every session. -/
def same_dev {α : Type} (m1 m2 : JT σ α) : Prop :=
  ∀ d : Jtdev σ, (m1 d).dev = (m2 d).dev

/-! ## TAP reset and TMS sequences (`jtag_default_reset_tap`, `jtag_default_tms_sequence`) -/

/-- Reading `p->failed`. -/
def get_failed : JT σ Nat := fun d => { val := d.failed, dev := d, log := [] }

/-- The `for` loop of `jtag_default_reset_tap`; `n` is `loop_counter`. The result tells whether
the function returned from inside the loop, on finding `p->failed` set. -/
def reset_tap_loop : Nat → JT σ Bool
  | 0 => pure false
  | n + 1 => do
    let _ ← jtag_tck_clr f
    let _ ← jtag_tck_set f
    let failed ← get_failed
    if failed ≠ 0 then pure true
    else reset_tap_loop n

/-- C function `static void jtag_default_reset_tap(struct jtdev *p)`. -/
def jtag_default_reset_tap : JT σ Unit := do
  let _ ← jtag_tms_set f
  let _ ← jtag_tck_set f
  let _ ← jtag_tms_clr f
  let _ ← jtag_tms_set f
  let _ ← jtag_tms_clr f
  let _ ← jtag_tms_set f
  let returned ← reset_tap_loop f 6
  if returned then pure ()
  else do
    let _ ← jtag_tck_clr f
    let _ ← jtag_tms_clr f
    let _ ← jtag_tck_set f
    jtag_flush_writes f

/-- The `for` loop of `jtag_default_tms_sequence`: `n` rounds remain, the next is round `i`
(below 32: the mask `1u << i` is undefined beyond). -/
def default_tms_sequence_loop (value : Nat) : Nat → Nat → JT σ Unit
  | 0, _ => pure ()
  | n + 1, i => do
    let _ ← jtag_tck_clr f
    let _ ← (if value &&& (1 <<< i) ≠ 0 then jtag_tms_set f else jtag_tms_clr f)
    let _ ← jtag_tck_set f
    default_tms_sequence_loop value n (i + 1)

/-- C function `void jtag_default_tms_sequence(struct jtdev *p, int bits, unsigned int value)`,
for `bits` from 0 to 32. -/
def jtag_default_tms_sequence (bits value : Nat) : JT σ Unit :=
  default_tms_sequence_loop f (value % 2 ^ 32) bits 0

/-- The first six calls of `jtag_default_reset_tap`, before its loop: TMS and TCK raised, then
the fuse check toggles of TMS. -/
def reset_tap_entry : JT σ Nat := do
  let _ ← jtag_tms_set f
  let _ ← jtag_tck_set f
  let _ ← jtag_tms_clr f
  let _ ← jtag_tms_set f
  let _ ← jtag_tms_clr f
  jtag_tms_set f

/-- One low-high pulse of TCK, as in the loop of `jtag_default_reset_tap`. -/
def tck_pulse : JT σ Nat := do
  let _ ← jtag_tck_clr f
  jtag_tck_set f

/-- The level driven on a line for a bit. -/
def level (b : Bool) : Nat := if b then 1 else 0

/-! ## Rounds of the polling loops of `jtag_set_instruction_fetch` and `jtag_single_step` -/

/-- One round of the loop of `jtag_set_instruction_fetch` that does not find the bit: the
data shift that captures the control word, then TCLK low and high. The result is the capture. -/
def fetch_round : JT σ Nat := do
  let v ← jtag_dr_shift_16_and_read f 0x0000
  let _ ← jtag_tclk_clr f
  let _ ← jtag_tclk_set f
  pure v

/-- One round of the loop of `jtag_single_step`: TCLK low and high, then the data shift that
captures the control word. The result is the capture. -/
def step_round : JT σ Nat := do
  let _ ← jtag_tclk_clr f
  let _ ← jtag_tclk_set f
  jtag_dr_shift_16_and_read f 0x0000

/-- The part of `jtag_single_step` before its loop. -/
def single_step_setup : JT σ Nat := do
  let _ ← jtag_ir_shift f IR_CNTRL_SIG_16BIT
  let _ ← jtag_dr_shift_16 f 0x3401
  jtag_ir_shift f IR_CNTRL_SIG_CAPTURE

/-- The part of `jtag_single_step` after its loop and before the test of `loop_counter`. -/
def single_step_tail : JT σ Unit := do
  let _ ← jtag_ir_shift f IR_CNTRL_SIG_16BIT
  let _ ← jtag_dr_shift_16 f 0x2401
  jtag_flush_writes f

/-! ## Rounds of the loop of `jtag_default_shift` -/

/-- One round of the loop of `jtag_default_shift`, for the mask `1 << n`: TDI is driven, TMS
raised in the last round, TCK pulsed low-high and TDO sampled. The result is the sample. -/
def shift_round (data_out n : Nat) : JT σ Nat := do
  let mask := 1 <<< n
  let _ ← (if data_out &&& mask ≠ 0 then jtag_tdi_set f else jtag_tdi_clr f)
  (if mask = 1 then do
    let _ ← jtag_tms_set f
    pure ()
   else pure ())
  let _ ← jtag_tck_clr f
  let _ ← jtag_tck_set f
  call f Call.jtdev_tdo_get

/-- The TDO sample the loop of `jtag_default_shift` takes in the round for bit `k`, when it
starts on the session `d` with `n` rounds to make (bits `n - 1` down to 0). -/
def tdo_sample (data_out : Nat) : Nat → Nat → Jtdev σ → Nat
  | 0, _, _ => 0
  | n + 1, k, d =>
    if k = n then (shift_round f data_out n d).val
    else tdo_sample data_out n k (shift_round f data_out n d).dev

/-! ## Transports used to run the operations on concrete inputs -/

/-- A transport without optional entries whose every call returns `v` and changes nothing. -/
def steady (v : Nat) : JtdevFunc Unit :=
  { has_ir_shift_wronly := false
    has_dr_shift_8_wronly := false
    has_dr_shift_16_wronly := false
    has_flush_writes := false
    exec := fun _ d => (v, d) }

/-- A session that has not failed. -/
def fresh : Jtdev Unit := { failed := 0, hw := () }

/-- Constants for concrete runs: a two-byte routine image each, RAM at 0x0200. -/
def defs0 : Defs :=
  { BREAKREACT := 0x0080, GENCTRL := 0x0082, READ := 0x0001, WRITE := 0x0000,
    EEM_EN := 0x0001, CLEAR_STOP := 0x0002, EMU_CLK_EN := 0x0004, EMU_FEAT_EN := 0x0008,
    MBTRIGxVAL := 0x0000, MBTRIGxCTL := 0x0002, MBTRIGxMSK := 0x0004, MBTRIGxCMB := 0x0006,
    MAB := 0x0000, TRIG_0 := 0x0000, CMP_EQUAL := 0x0000, NO_MASK := 0x0000,
    FLASH_CODE_RAM_START := 0x0200, FLASH_CODE_START := 0x0208,
    FLASH_CODE_BLOCK_START := 0x020A, FLASH_CODE_BLOCK_LEN := 4,
    FLASH_CODE_PREAMBLE_LEN := 10,
    flash_erase_blob := [0xFF, 0x3F], flash_code_blob := [0xFF, 0x3F],
    flash_verify_blob := [0xFF, 0x3F] }

/-- A simulated target that remembers the instruction last shifted: instruction shifts capture
0x89; data shifts capture `quick` in quick-access mode and the status word 0x0280 otherwise. -/
def sim_target (quick : Nat) : JtdevFunc Nat :=
  { has_ir_shift_wronly := false
    has_dr_shift_8_wronly := false
    has_dr_shift_16_wronly := false
    has_flush_writes := false
    exec := fun c d =>
      match c with
      | Call.jtdev_ir_shift ir => (0x89, { d with hw := ir })
      | Call.jtdev_dr_shift_16 _ => (if d.hw = IR_DATA_QUICK then quick else 0x0280, d)
      | _ => (0, d) }

/-- A session of the simulated target that has not failed. -/
def fresh_sim : Jtdev Nat := { failed := 0, hw := 0 }

/-- Flag masks and type tag for concrete runs. -/
def devdefs0 : DeviceDefs :=
  { DEVICE_BPTYPE_BREAK := 0, DEVICE_BP_ENABLED := 0x01, DEVICE_BP_DIRTY := 0x02 }

/-- A table of ten entries: entry 1 is an enabled dirty break at 0x8000 with a further flag
bit, entry 2 is dirty but not of type break, entry 8 is an enabled dirty break at 0x8800, entry
9 is a disabled dirty break, the others are clean. -/
def table0 : Device :=
  { max_breakpoints := 10
    breakpoints := fun i =>
      if i = 1 then { type := 0, addr := 0x8000, flags := 0x07 }
      else if i = 2 then { type := 1, addr := 0x8400, flags := 0x03 }
      else if i = 8 then { type := 0, addr := 0x8800, flags := 0x03 }
      else if i = 9 then { type := 0, addr := 0x9000, flags := 0x02 }
      else { type := 0, addr := 0, flags := 0 } }

/-! ## A simulated CPU behind the line-level interface -/

/-- What the simulated CPU expects as the next word on its data bus. -/
inductive Pending where
  | opcode
  | immediate (reg : Nat)
  | address (reg : Nat)
  deriving DecidableEq

/-- The simulated CPU: the JTAG instruction last shifted, the TCLK level, the program counter
R0, the registers R1..R15, the memory by address, the word last shifted into the data
register and not yet taken by the CPU, what the CPU expects next, the data bus as the
data-capture instruction shows it, and the R/W bit of the control word (`true` is read). The
program counter and the addresses are not reduced to 16 bits. -/
structure Cpu where
  ir : Nat
  tclk : Nat
  pc : Nat
  regs : Nat → Nat
  mem : Nat → Nat
  latch : Option Nat
  pending : Pending
  bus : Nat
  read : Bool

/-- The CPU takes the word `w` from the data register and executes it: `mov #imm, Rn`
(0x4030 + n) expects the immediate next and stores it in the register; `mov Rn, &abs`
(0x4082 + 0x100 * n) expects the address next and then presents the register on the data
bus; any other word has no effect on the registers. -/
def Cpu.consume (c : Cpu) (w : Nat) : Cpu :=
  match c.pending with
  | Pending.immediate n =>
    if n = 0 then { c with pc := w, pending := Pending.opcode }
    else { c with regs := Function.update c.regs n w, pending := Pending.opcode }
  | Pending.address n =>
    { c with bus := if n = 0 then c.pc else c.regs n, pending := Pending.opcode }
  | Pending.opcode =>
    if w &&& 0xFFF0 = 0x4030 then { c with pending := Pending.immediate (w &&& 0x000F) }
    else if w &&& 0xF0FF = 0x4082 then
      { c with pending := Pending.address ((w >>> 8) &&& 0x000F) }
    else c

/-- A rising edge of TCLK. In quick access the program counter advances by 2 and, when
writing, the word last shifted goes to the address after the new program counter; otherwise
the CPU takes the word last shifted, if there is one. -/
def Cpu.clock (c : Cpu) : Cpu :=
  if c.ir = IR_DATA_QUICK then
    match c.latch with
    | some w =>
      if c.read then { c with pc := c.pc + 2, latch := none }
      else { c with pc := c.pc + 2, mem := Function.update c.mem (c.pc + 4) w, latch := none }
    | none => { c with pc := c.pc + 2 }
  else
    match c.latch with
    | some w => { (c.consume w) with latch := none }
    | none => c

/-- The word a 16-bit data shift captures: the status word 0x0280 under the control-capture
instruction, the data bus under the data-capture instruction, the memory word after the
program counter in quick read access, 0 otherwise. -/
def Cpu.capture (c : Cpu) : Nat :=
  if c.ir = IR_CNTRL_SIG_CAPTURE then 0x0280
  else if c.ir = IR_DATA_CAPTURE then c.bus
  else if c.ir = IR_DATA_QUICK then (if c.read then c.mem (c.pc + 2) else 0)
  else 0

/-- The effect of a 16-bit data shift of `dr`: under the control instruction it sets the R/W
bit (bit 0 of the control word), under the data instructions it fills the data register. -/
def Cpu.shift (c : Cpu) (dr : Nat) : Cpu :=
  if c.ir = IR_CNTRL_SIG_16BIT then { c with read := decide (dr &&& 1 = 1) }
  else if c.ir = IR_DATA_16BIT then { c with latch := some dr }
  else if c.ir = IR_DATA_QUICK then { c with latch := some dr }
  else c

/-- The simulated CPU after a call on the line-level interface. A `jtdev_tclk` call that
takes TCLK from low to high is a rising edge; an instruction shift selects the instruction and
empties the data register; the write-only shifts act as the read-capable ones. -/
def Cpu.after (c : Cpu) : Call → Cpu
  | Call.jtdev_tclk out =>
    if out ≠ 0 ∧ c.tclk = 0 then { (c.clock) with tclk := out } else { c with tclk := out }
  | Call.jtdev_ir_shift ir => { c with ir := ir, latch := none }
  | Call.jtdev_ir_shift_wronly ir => { c with ir := ir, latch := none }
  | Call.jtdev_dr_shift_16 dr => c.shift dr
  | Call.jtdev_dr_shift_16_wronly dr => c.shift dr
  | _ => c

/-- The value a call on the line-level interface returns: the JTAG id 0x89 for an instruction
shift, the captured word for a read-capable 16-bit data shift, 0 otherwise. -/
def Cpu.ret (c : Cpu) : Call → Nat
  | Call.jtdev_ir_shift _ => 0x89
  | Call.jtdev_dr_shift_16 _ => c.capture
  | _ => 0

/-- The transport in front of the simulated CPU, without optional entries. -/
def sim_cpu : JtdevFunc Cpu :=
  { has_ir_shift_wronly := false
    has_dr_shift_8_wronly := false
    has_dr_shift_16_wronly := false
    has_flush_writes := false
    exec := fun c d => (d.hw.ret c, { d with hw := d.hw.after c }) }

/-- The same transport with the write-only shifts and the flush hook present. -/
def sim_cpu_wronly : JtdevFunc Cpu :=
  { has_ir_shift_wronly := true
    has_dr_shift_8_wronly := true
    has_dr_shift_16_wronly := true
    has_flush_writes := true
    exec := fun c d => (d.hw.ret c, { d with hw := d.hw.after c }) }

/-- A transport whose every entry acts on the session as the simulated CPU does, whichever
optional entries its table has. -/
def is_cpu_sim (g : JtdevFunc Cpu) : Prop :=
  ∀ (c : Call) (d : Jtdev Cpu), g.exec c d = (d.hw.ret c, { d with hw := d.hw.after c })

/-- The memory after the words `w[index]`, ..., `n` of them, were stored at `base`,
`base + 2`, ... in this order. -/
def store_words (w : Nat → Nat) : Nat → Nat → Nat → (Nat → Nat) → (Nat → Nat)
  | 0, _, _, mem => mem
  | n + 1, index, base, mem =>
    store_words w n (index + 1) (base + 2) (Function.update mem base (w index % 65536))

/-- A state of the simulated CPU at an instruction boundary. -/
def cpu0 : Cpu :=
  { ir := 0, tclk := 1, pc := 0xF800, regs := fun _ => 0, mem := fun _ => 0, latch := none,
    pending := Pending.opcode, bus := 0, read := true }

/-- A session of the simulated CPU that has not failed. -/
def fresh_cpu : Jtdev Cpu := { failed := 0, hw := cpu0 }

/-- A table of four entries: entry 0 is an enabled dirty break at 0x8000, entry 2 is dirty but
not of type break, entry 3 is a disabled dirty break, entry 1 is clean. -/
def table1 : Device :=
  { max_breakpoints := 4
    breakpoints := fun i =>
      if i = 0 then { type := 0, addr := 0x8000, flags := 0x03 }
      else if i = 2 then { type := 1, addr := 0x8400, flags := 0x03 }
      else if i = 3 then { type := 0, addr := 0x9000, flags := 0x02 }
      else { type := 0, addr := 0, flags := 0 } }

/-- A loopback transport: the session remembers the level last driven on TDI and
`jtdev_tdo_get` returns it; the other calls return 0. -/
def loopback : JtdevFunc Nat :=
  { has_ir_shift_wronly := false
    has_dr_shift_8_wronly := false
    has_dr_shift_16_wronly := false
    has_flush_writes := false
    exec := fun c d =>
      match c with
      | Call.jtdev_tdi out => (0, { d with hw := out })
      | Call.jtdev_tdo_get => (d.hw, d)
      | _ => (0, d) }

/-- A simulated target on which every flash block completes: as `sim_target`, it remembers the
instruction last shifted and answers data shifts with the status word 0x0280, except that a
word read from memory (the data shift after `IR_DATA_TO_ADDR`) is 0. -/
def sim_flash_done : JtdevFunc Nat :=
  { has_ir_shift_wronly := false
    has_dr_shift_8_wronly := false
    has_dr_shift_16_wronly := false
    has_flush_writes := false
    exec := fun c d =>
      match c with
      | Call.jtdev_ir_shift ir => (0x89, { d with hw := ir })
      | Call.jtdev_dr_shift_16 _ => (if d.hw = IR_DATA_TO_ADDR then 0 else 0x0280, d)
      | _ => (0, d) }

end

/-! # Theorems -/

/-! ## Arithmetic of XOR, shifts and reduction modulo a power of two -/

theorem xor_mod_two_pow (a b n : Nat) : (a ^^^ b) % 2 ^ n = (a % 2 ^ n) ^^^ (b % 2 ^ n) := by
  apply Nat.eq_of_testBit_eq
  intro i
  simp only [Nat.testBit_mod_two_pow, Nat.testBit_xor]
  cases decide (i < n) <;> simp

theorem xor_mod_65536 (a b : Nat) : (a ^^^ b) % 65536 = (a % 65536) ^^^ (b % 65536) :=
  xor_mod_two_pow a b 16

theorem shiftLeft_xor (a b k : Nat) : (a ^^^ b) <<< k = (a <<< k) ^^^ (b <<< k) := by
  apply Nat.eq_of_testBit_eq
  intro i
  simp only [Nat.testBit_shiftLeft, Nat.testBit_xor]
  cases decide (i ≥ k) <;> simp

theorem and_0x8000_xor_low (u v : Nat) (hv : v < 2 ^ 15) :
    (u ^^^ v) &&& 0x8000 = u &&& 0x8000 := by
  apply Nat.eq_of_testBit_eq
  intro i
  simp only [Nat.testBit_and, Nat.testBit_xor]
  by_cases hi : i = 15
  · subst hi
    have h0 : v.testBit 15 = false := Nat.testBit_lt_two_pow hv
    simp [h0]
  · have h0 : (0x8000 : Nat).testBit i = false := by
      have e : (0x8000 : Nat) = 2 ^ 15 := by norm_num
      rw [e, Nat.testBit_two_pow]
      simp; omega
    simp [h0]

/-! ## The host CRC is the bit-by-bit CRC-16 -/

theorem ref_bit_xor_low (u v : Nat) (hv : v < 2 ^ 15) :
    ref_bit (u ^^^ v) = ref_bit u ^^^ (v <<< 1) := by
  have h2 : (v <<< 1) % 65536 = v <<< 1 := by
    apply Nat.mod_eq_of_lt
    rw [Nat.shiftLeft_eq]; omega
  unfold ref_bit
  rw [and_0x8000_xor_low u v hv]
  split
  · rw [shiftLeft_xor, xor_mod_65536, xor_mod_65536, xor_mod_65536 (u <<< 1), h2]
    simp only [Nat.xor_assoc, Nat.xor_comm (v <<< 1)]
  · rw [shiftLeft_xor, xor_mod_65536, h2]

theorem ref_iterate_split (u lo : Nat) (hlo : lo < 256) :
    Nat.iterate ref_bit 8 (u ^^^ lo) = Nat.iterate ref_bit 8 u ^^^ (lo <<< 8) := by
  have s : ∀ j, (lo <<< j) <<< 1 = lo <<< (j + 1) := fun j => by
    rw [← Nat.shiftLeft_add]
  have b : ∀ j, j ≤ 7 → lo <<< j < 2 ^ 15 := by
    intro j hj
    rw [Nat.shiftLeft_eq]
    calc lo * 2 ^ j ≤ lo * 2 ^ 7 :=
          Nat.mul_le_mul_left _ (Nat.pow_le_pow_right (by norm_num) hj)
      _ < 2 ^ 15 := by omega
  have b0 : lo < 2 ^ 15 := by omega
  simp only [Function.iterate_succ, Function.iterate_zero, Function.comp, id]
  rw [ref_bit_xor_low _ _ b0,
    ref_bit_xor_low _ _ (b 1 (by omega)), s 1,
    ref_bit_xor_low _ _ (b 2 (by omega)), s 2,
    ref_bit_xor_low _ _ (b 3 (by omega)), s 3,
    ref_bit_xor_low _ _ (b 4 (by omega)), s 4,
    ref_bit_xor_low _ _ (b 5 (by omega)), s 5,
    ref_bit_xor_low _ _ (b 6 (by omega)), s 6,
    ref_bit_xor_low _ _ (b 7 (by omega)), s 7]

set_option maxRecDepth 100000 in
theorem ref_table_eq : ∀ h < 256, Nat.iterate ref_bit 8 (h <<< 8) = crc_table h := by
  decide

theorem split_state (crc b : Nat) :
    crc ^^^ (b <<< 8) = (((crc >>> 8) ^^^ b) <<< 8) ^^^ (crc % 256) := by
  apply Nat.eq_of_testBit_eq
  intro i
  have e : (256 : Nat) = 2 ^ 8 := by norm_num
  rw [e]
  simp only [Nat.testBit_mod_two_pow, Nat.testBit_xor, Nat.testBit_shiftLeft,
    Nat.testBit_shiftRight]
  by_cases h : i ≥ 8
  · have h2 : ¬ i < 8 := by omega
    have h3 : 8 + (i - 8) = i := by omega
    simp [h, h2, h3]
  · have h2 : i < 8 := by omega
    simp [h, h2]

theorem high_xor_lt (crc b : Nat) (hc : crc < 65536) (hb : b < 256) :
    (crc >>> 8) ^^^ b < 256 := by
  have h1 : crc >>> 8 < 2 ^ 8 := by
    rw [Nat.shiftRight_eq_div_pow]; omega
  have h2 : b < 2 ^ 8 := by omega
  have h3 := Nat.xor_lt_two_pow h1 h2
  omega

theorem and_0xFF (x : Nat) : x &&& 0xFF = x % 256 := by
  have e : (0xFF : Nat) = 2 ^ 8 - 1 := by norm_num
  rw [e, Nat.and_pow_two_sub_one_eq_mod]

theorem shl8_mod (crc : Nat) : (crc <<< 8) % 65536 = (crc % 256) <<< 8 := by
  rw [Nat.shiftLeft_eq, Nat.shiftLeft_eq]; omega

theorem crc_update_eq_table (crc b : Nat) :
    crc_update crc b = ((crc % 256) <<< 8) ^^^ crc_table ((((crc >>> 8) ^^^ b)) % 256) := by
  unfold crc_update crc_table
  simp only [and_0xFF]
  generalize ((crc >>> 8 ^^^ b) % 256 ^^^ ((crc >>> 8 ^^^ b) % 256) >>> 4) % 256 = x
  simp only [xor_mod_65536, shl8_mod, Nat.xor_assoc]

theorem crc_update_eq_ref (crc b : Nat) (hc : crc < 65536) (hb : b < 256) :
    crc_update crc b = ref_update crc b := by
  have hx := high_xor_lt crc b hc hb
  have hl : crc % 256 < 256 := Nat.mod_lt _ (by norm_num)
  unfold ref_update
  rw [split_state, ref_iterate_split _ _ hl, ref_table_eq _ hx, crc_update_eq_table,
    Nat.mod_eq_of_lt hx, Nat.xor_comm]

theorem crc_update_lt (crc b : Nat) : crc_update crc b < 65536 := by
  unfold crc_update
  exact Nat.mod_lt _ (by norm_num)

theorem crc_loop_eq_ref (d : List Nat) (hb : ∀ b ∈ d, b < 256) :
    ∀ (pre : List Nat) (crc : Nat), crc < 65536 →
      crc_loop (bytesOf (pre ++ d)) d.length pre.length crc = d.foldl ref_update crc := by
  induction d with
  | nil => intro pre crc _; rfl
  | cons b t ih =>
    intro pre crc hc
    have hb0 : b < 256 := hb b (List.mem_cons_self _ _)
    have hget : bytesOf (pre ++ b :: t) pre.length = b := by
      unfold bytesOf
      rw [List.getD_eq_getElem?_getD, List.getElem?_append_right (le_refl _)]
      simp
    have ht := ih (fun x hx => hb x (List.mem_cons_of_mem _ hx)) (pre ++ [b])
      (crc_update crc b) (crc_update_lt crc b)
    simp only [List.length_cons, crc_loop, List.foldl_cons, hget, Nat.mod_eq_of_lt hb0]
    rw [← crc_update_eq_ref crc b hc hb0]
    simpa using ht

/-- C1: for every byte sequence of length below 65536, `jtag_onchip_crc` is the bit-by-bit
CRC-16 with polynomial 0x1021, initial value 0xFFFF, most significant bit first, without
reflection or final XOR; the bytes 01 02 03 04 give 0x89C3. -/
theorem jtag_onchip_crc_is_crc16 (d : List Nat) (hb : ∀ b ∈ d, b < 256)
    (hl : d.length < 65536) :
    jtag_onchip_crc (bytesOf d) d.length = crc16_ref d ∧
      jtag_onchip_crc (bytesOf [1, 2, 3, 4]) 4 = 0x89C3 := by
  constructor
  · unfold jtag_onchip_crc crc16_ref
    rw [Nat.mod_eq_of_lt hl]
    exact crc_loop_eq_ref d hb [] 0xFFFF (by norm_num)
  · decide

theorem jtag_onchip_crc_is_crc16_witness :
    (∀ b ∈ [1, 2, 3, 4], b < 256) ∧ [1, 2, 3, 4].length < 65536 ∧
      jtag_onchip_crc (bytesOf [1, 2, 3, 4]) [1, 2, 3, 4].length = crc16_ref [1, 2, 3, 4] :=
  ⟨by decide, by decide, (jtag_onchip_crc_is_crc16 [1, 2, 3, 4] (by decide) (by decide)).1⟩

/-- C2: `jtag_onchip_crc` on an empty input (length 0) returns 0xFFFF, whatever the data
pointer. -/
theorem jtag_onchip_crc_empty (data : Nat → Nat) : jtag_onchip_crc data 0 = 0xFFFF := by
  rfl


/-! ## The on-chip verify routine computes the host CRC -/

theorem iterate_shl_mod (n x : Nat) :
    Nat.iterate (fun y => (y <<< 1) % 65536) n (x % 65536) = (x <<< n) % 65536 := by
  induction n generalizing x with
  | zero => simp
  | succ m ih =>
    rw [Function.iterate_succ_apply]
    have e : ((x % 65536) <<< 1) % 65536 = (x <<< 1) % 65536 := by
      rw [Nat.shiftLeft_eq, Nat.shiftLeft_eq]; omega
    rw [e, ih (x <<< 1), ← Nat.shiftLeft_add, Nat.add_comm]

theorem iterate_shr (n x : Nat) : Nat.iterate (fun y => y >>> 1) n x = x >>> n := by
  induction n generalizing x with
  | zero => simp
  | succ m ih =>
    rw [Function.iterate_succ_apply, ih, ← Nat.shiftRight_add, Nat.add_comm]

theorem onchip_crc_step_eq (crc b : Nat) : onchip_crc_step crc b = crc_update crc b := by
  unfold onchip_crc_step crc_update
  simp only [iterate_shr]
  have hx : (((crc >>> 8 ^^^ b) &&& 0xFF) ^^^ ((crc >>> 8 ^^^ b) &&& 0xFF) >>> 4) % 256 < 256 :=
    Nat.mod_lt _ (by norm_num)
  generalize (((crc >>> 8 ^^^ b) &&& 0xFF) ^^^ ((crc >>> 8 ^^^ b) &&& 0xFF) >>> 4) % 256 = x
    at hx ⊢
  have hx' : x % 65536 = x := Nat.mod_eq_of_lt (by omega)
  have e5 : Nat.iterate (fun y => (y <<< 1) % 65536) 5 x = (x <<< 5) % 65536 := by
    have h := iterate_shl_mod 5 x
    rwa [hx'] at h
  have e12 : Nat.iterate (fun y => (y <<< 1) % 65536) 7 ((x <<< 5) % 65536)
      = (x <<< 12) % 65536 := by
    rw [iterate_shl_mod 7 (x <<< 5), ← Nat.shiftLeft_add]
  rw [e5, e12]
  simp only [xor_mod_65536, hx', Nat.xor_assoc]
  congr 1
  rw [← Nat.xor_assoc, Nat.xor_comm, Nat.xor_comm x]

theorem flash_verify_loop_crc (mem : Nat → Nat) (start : Nat) (n : Nat) :
    ∀ (i crc : Nat),
      (flash_verify_loop mem n ((start + i) % 65536) crc).crc
        = crc_loop (fun j => mem ((start + j) % 65536)) n i crc := by
  induction n with
  | zero => intro i crc; rfl
  | succ m ih =>
    intro i crc
    have e : ((start + i) % 65536 + 1) % 65536 = (start + (i + 1)) % 65536 := by omega
    simp only [flash_verify_loop, crc_loop, e, onchip_crc_step_eq]
    exact ih (i + 1) _

/-- C3 as the code has it: the per-byte update of the on-chip routine equals the host's for
every crc state and byte; and for every target memory and every 16-bit start pointer and length
that are not both zero, the routine comes to rest with `data = 0`, `len = 0` and `crc` equal to
`jtag_onchip_crc` of the `len` bytes starting at the pointer. -/
theorem flash_verify_matches_host (crc b : Nat) (mem : Nat → Nat) (p : VerifyParam)
    (hd : p.data < 65536) (hl : p.len < 65536) (hne : p.data ≠ 0 ∨ p.len ≠ 0) :
    onchip_crc_step crc b = crc_update crc b ∧
      flash_verify mem p =
        { data := 0, len := 0,
          crc := jtag_onchip_crc (fun j => mem ((p.data + j) % 65536)) p.len } := by
  refine ⟨onchip_crc_step_eq crc b, ?_⟩
  have hg : ¬ (p.data = 0 ∧ p.len = 0) := by
    rintro ⟨h1, h2⟩
    rcases hne with h | h
    · exact h h1
    · exact h h2
  have h0 := flash_verify_loop_crc mem p.data p.len 0 0xFFFF
  rw [Nat.add_zero, Nat.mod_eq_of_lt hd] at h0
  unfold flash_verify jtag_onchip_crc
  rw [if_neg hg, Nat.mod_eq_of_lt hl]
  simp only [h0]

theorem flash_verify_matches_host_witness :
    (0 : Nat) < 65536 ∧ (4 : Nat) < 65536 ∧ ((0 : Nat) ≠ 0 ∨ (4 : Nat) ≠ 0) ∧
      flash_verify (bytesOf [1, 2, 3, 4]) { data := 0, len := 4, crc := 0 } =
        { data := 0, len := 0,
          crc := jtag_onchip_crc (fun j => bytesOf [1, 2, 3, 4] ((0 + j) % 65536)) 4 } :=
  ⟨by decide, by decide, by decide,
    (flash_verify_matches_host 0 0 (bytesOf [1, 2, 3, 4]) { data := 0, len := 4, crc := 0 }
      (by decide) (by decide) (by decide)).2⟩

/-- C3 as stated fails when the start pointer and the length are both zero: the routine never
leaves its guard loop, the `crc` field keeps the value 0 the host uploaded, and the host's
`jtag_onchip_crc` of the empty input is 0xFFFF. -/
theorem flash_verify_guard_counterexample :
    (flash_verify (fun _ => 0) { data := 0, len := 0, crc := 0 }).crc = 0 ∧
      jtag_onchip_crc (fun _ => 0) 0 = 0xFFFF ∧
      (flash_verify (fun _ => 0) { data := 0, len := 0, crc := 0 }).crc
        ≠ jtag_onchip_crc (fun _ => 0) 0 := by
  decide

/-! ## Running operations: sequencing, events -/

section
variable {σ : Type}

theorem pure_run {α : Type} (a : α) (d : Jtdev σ) :
    (pure a : JT σ α) d = { val := a, dev := d, log := [] } := rfl

theorem bind_val {α β : Type} (m : JT σ α) (g : α → JT σ β) (d : Jtdev σ) :
    ((m >>= g) d).val = (g (m d).val (m d).dev).val := rfl

theorem bind_dev {α β : Type} (m : JT σ α) (g : α → JT σ β) (d : Jtdev σ) :
    ((m >>= g) d).dev = (g (m d).val (m d).dev).dev := rfl

theorem bind_log {α β : Type} (m : JT σ α) (g : α → JT σ β) (d : Jtdev σ) :
    ((m >>= g) d).log = (m d).log ++ (g (m d).val (m d).dev).log := rfl

theorem ite_run {α : Type} (c : Prop) [Decidable c] (m1 m2 : JT σ α) (d : Jtdev σ) :
    (if c then m1 else m2) d = if c then m1 d else m2 d := by
  split <;> rfl

theorem ops_append (l1 l2 : List Event) : ops (l1 ++ l2) = ops l1 ++ ops l2 := by
  induction l1 with
  | nil => rfl
  | cons e t ih =>
    cases e with
    | line c => simpa [ops] using ih
    | delay_ms ms => simpa [ops] using ih
    | op o => simpa [ops] using ih

theorem ops_pure {α : Type} (a : α) (d : Jtdev σ) : ops ((pure a : JT σ α) d).log = [] := rfl

theorem ops_call (f : JtdevFunc σ) (c : Call) (d : Jtdev σ) : ops (call f c d).log = [] := rfl

theorem ops_enter (o : Op) (d : Jtdev σ) : ops ((enter o : JT σ Unit) d).log = [o] := rfl

theorem ops_delay_ms (ms : Nat) (d : Jtdev σ) : ops ((delay_ms ms : JT σ Unit) d).log = [] :=
  rfl

theorem ops_set_failed (d : Jtdev σ) : ops ((set_failed : JT σ Unit) d).log = [] := rfl

variable (f : JtdevFunc σ)

theorem ops_tclk_set (d : Jtdev σ) : ops (jtag_tclk_set f d).log = [] := rfl

theorem ops_tclk_clr (d : Jtdev σ) : ops (jtag_tclk_clr f d).log = [] := rfl

theorem ops_led_green_on (d : Jtdev σ) : ops (jtag_led_green_on f d).log = [] := rfl

theorem ops_led_green_off (d : Jtdev σ) : ops (jtag_led_green_off f d).log = [] := rfl

theorem ops_led_red_on (d : Jtdev σ) : ops (jtag_led_red_on f d).log = [] := rfl

theorem ops_led_red_off (d : Jtdev σ) : ops (jtag_led_red_off f d).log = [] := rfl

theorem ops_ir_shift (ir : Nat) (d : Jtdev σ) : ops (jtag_ir_shift f ir d).log = [] := by
  unfold jtag_ir_shift
  split <;> rfl

theorem ops_dr_shift_16 (dr : Nat) (d : Jtdev σ) : ops (jtag_dr_shift_16 f dr d).log = [] := by
  unfold jtag_dr_shift_16
  split <;> rfl

theorem ops_ir_shift_and_read (ir : Nat) (d : Jtdev σ) :
    ops (jtag_ir_shift_and_read f ir d).log = [] := rfl

theorem ops_dr_shift_16_and_read (dr : Nat) (d : Jtdev σ) :
    ops (jtag_dr_shift_16_and_read f dr d).log = [] := rfl

theorem ops_flush_writes (d : Jtdev σ) : ops (jtag_flush_writes f d).log = [] := by
  unfold jtag_flush_writes
  split <;> rfl

theorem ops_set_instruction_fetch_loop (n : Nat) :
    ∀ d : Jtdev σ, ops (set_instruction_fetch_loop f n d).log = [] := by
  induction n with
  | zero => intro d; rfl
  | succ m ih =>
    intro d
    simp only [set_instruction_fetch_loop, bind_log, ops_append, ops_dr_shift_16_and_read,
      List.nil_append]
    split
    · rfl
    · simp only [bind_log, ops_append, ops_tclk_clr, ops_tclk_set, ih, List.nil_append]

theorem ops_set_instruction_fetch (d : Jtdev σ) :
    ops (jtag_set_instruction_fetch f d).log = [] := by
  simp only [jtag_set_instruction_fetch, bind_log, ops_append, ops_ir_shift,
    ops_set_instruction_fetch_loop, List.nil_append]

theorem ops_halt_cpu (d : Jtdev σ) : ops (jtag_halt_cpu f d).log = [] := by
  simp only [jtag_halt_cpu, bind_log, ops_append, ops_ir_shift, ops_dr_shift_16, ops_tclk_set,
    ops_tclk_clr, ops_set_instruction_fetch, ops_pure, List.nil_append]

theorem ops_release_cpu (d : Jtdev σ) : ops (jtag_release_cpu f d).log = [] := by
  simp only [jtag_release_cpu, bind_log, ops_append, ops_ir_shift, ops_dr_shift_16,
    ops_tclk_set, ops_tclk_clr, ops_flush_writes, List.nil_append]

theorem ops_get_device_loop (n : Nat) :
    ∀ d : Jtdev σ, ops (get_device_loop f n d).log = [] := by
  induction n with
  | zero => intro d; rfl
  | succ m ih =>
    intro d
    simp only [get_device_loop, bind_log, ops_append, ops_dr_shift_16_and_read,
      List.nil_append]
    split
    · rfl
    · exact ih _

theorem ops_get_device (d : Jtdev σ) : ops (jtag_get_device f d).log = [Op.get_device] := by
  simp only [jtag_get_device, bind_log, ops_append, ops_enter, ops_ir_shift, ops_dr_shift_16,
    ops_ir_shift_and_read, ops_get_device_loop, List.append_nil]
  split
  · simp only [bind_log, ops_append, ops_set_failed, ops_pure, List.append_nil]
  · simp only [bind_log, ops_append, ops_led_green_on, ops_pure, List.append_nil]

theorem ops_read_mem (format address : Nat) (d : Jtdev σ) :
    ops (jtag_read_mem f format address d).log = [Op.read_mem format address] := by
  have h : ∀ d : Jtdev σ, ops ((if format = 16 then jtag_dr_shift_16 f 0x2409
      else jtag_dr_shift_16 f 0x2419) d).log = [] := by
    intro d; split <;> exact ops_dr_shift_16 f _ _
  simp only [jtag_read_mem, bind_log, ops_append, ops_enter, ops_ir_shift, ops_dr_shift_16,
    ops_dr_shift_16_and_read, ops_halt_cpu, ops_release_cpu, ops_tclk_set, ops_tclk_clr, h,
    ops_pure, List.append_nil]

theorem ops_write_reg (reg value : Nat) (d : Jtdev σ) :
    ops (jtag_write_reg f reg value d).log = [Op.write_reg reg value] := by
  simp only [jtag_write_reg, bind_log, ops_append, ops_enter, ops_ir_shift, ops_dr_shift_16,
    ops_set_instruction_fetch, ops_tclk_set, ops_tclk_clr, ops_flush_writes, List.append_nil]

theorem ops_read_mem_quick_loop (n : Nat) :
    ∀ d : Jtdev σ, ops (read_mem_quick_loop f n d).log = [] := by
  induction n with
  | zero => intro d; rfl
  | succ m ih =>
    intro d
    simp only [read_mem_quick_loop, bind_log, ops_append, ops_dr_shift_16_and_read,
      ops_tclk_set, ops_tclk_clr, ih, ops_pure, List.nil_append]

theorem ops_read_mem_quick (address length : Nat) (d : Jtdev σ) :
    ops (jtag_read_mem_quick f address length d).log
      = [Op.read_mem_quick address length, Op.write_reg 0 ((address + 2 ^ 32 - 4) % 2 ^ 32)] := by
  simp only [jtag_read_mem_quick, bind_log, ops_append, ops_enter, ops_ir_shift,
    ops_dr_shift_16, ops_write_reg, ops_halt_cpu, ops_release_cpu, ops_tclk_set, ops_tclk_clr,
    ops_read_mem_quick_loop, ops_pure, List.append_nil, List.cons_append, List.nil_append]

theorem ops_write_mem_quick_loop (data : Nat → Nat) (n : Nat) :
    ∀ (index : Nat) (d : Jtdev σ), ops (write_mem_quick_loop f data n index d).log = [] := by
  induction n with
  | zero => intro index d; rfl
  | succ m ih =>
    intro index d
    simp only [write_mem_quick_loop, bind_log, ops_append, ops_dr_shift_16,
      ops_tclk_set, ops_tclk_clr, ih, List.nil_append]

theorem ops_write_mem_quick (address length : Nat) (data : Nat → Nat) (d : Jtdev σ) :
    ops (jtag_write_mem_quick f address length data d).log
      = [Op.write_mem_quick address ((List.range length).map (fun i => data i % 65536)),
          Op.write_reg 0 ((address + 2 ^ 32 - 4) % 2 ^ 32)] := by
  simp only [jtag_write_mem_quick, bind_log, ops_append, ops_enter, ops_ir_shift,
    ops_dr_shift_16, ops_write_reg, ops_halt_cpu, ops_release_cpu, ops_tclk_set, ops_tclk_clr,
    ops_write_mem_quick_loop, List.append_nil, List.cons_append, List.nil_append]

theorem ops_set_breakpoint (k : Defs) (bp_num : Int) (bp_addr : Nat) (d : Jtdev σ) :
    ops (jtag_set_breakpoint f k bp_num bp_addr d).log = [Op.set_breakpoint bp_num bp_addr] := by
  simp only [jtag_set_breakpoint, bind_log, ops_append, ops_enter]
  split
  · simp only [bind_log, ops_append, ops_set_failed, ops_pure, List.append_nil]
  · split
    · simp only [bind_log, ops_append, ops_ir_shift, ops_dr_shift_16, ops_pure,
        List.append_nil]
    · simp only [bind_log, ops_append, ops_ir_shift, ops_dr_shift_16,
        ops_dr_shift_16_and_read, ops_flush_writes, ops_pure, List.append_nil]

/-- The operations entered by `jtag_release_device` after its own entry. -/
theorem ops_release_device (k : Defs) (address : Nat) (d : Jtdev σ) :
    ops (jtag_release_device f k address d).log
      = Op.release_device address ::
          (if address = 0xffff then []
           else if address = 0xfffe then [Op.set_breakpoint (-1) 0]
           else [Op.write_reg 0 address]) := by
  simp only [jtag_release_device, bind_log, ops_append, ops_enter, ops_led_green_off,
    ops_set_instruction_fetch, ops_ir_shift, ops_dr_shift_16, ops_flush_writes,
    List.append_nil, List.nil_append, List.cons_append, ite_run]
  congr 1
  split
  · rfl
  · split
    · simp only [bind_log, ops_append, ops_set_breakpoint, ops_ir_shift, ops_dr_shift_16,
        ops_pure, List.append_nil]
    · exact ops_write_reg f 0 address _

end


/-! ## Block writes and releases of the operations -/

section
variable {σ : Type} (f : JtdevFunc σ)

theorem mem_writes_append (l1 l2 : List Event) :
    mem_writes (l1 ++ l2) = mem_writes l1 ++ mem_writes l2 := by
  unfold mem_writes
  rw [ops_append, List.filterMap_append]

theorem releases_append (l1 l2 : List Event) :
    releases (l1 ++ l2) = releases l1 ++ releases l2 := by
  unfold releases
  rw [ops_append, List.filterMap_append]

theorem mem_writes_of_ops_nil (l : List Event) (h : ops l = []) : mem_writes l = [] := by
  unfold mem_writes
  rw [h]
  rfl

theorem releases_of_ops_nil (l : List Event) (h : ops l = []) : releases l = [] := by
  unfold releases
  rw [h]
  rfl

theorem mem_writes_write_mem_quick (address length : Nat) (data : Nat → Nat) (d : Jtdev σ) :
    mem_writes (jtag_write_mem_quick f address length data d).log
      = [(address, (List.range length).map (fun i => data i % 65536))] := by
  unfold mem_writes
  rw [ops_write_mem_quick]
  rfl

theorem releases_write_mem_quick (address length : Nat) (data : Nat → Nat) (d : Jtdev σ) :
    releases (jtag_write_mem_quick f address length data d).log = [] := by
  unfold releases
  rw [ops_write_mem_quick]
  rfl

theorem mem_writes_read_mem_quick (address length : Nat) (d : Jtdev σ) :
    mem_writes (jtag_read_mem_quick f address length d).log = [] := by
  unfold mem_writes
  rw [ops_read_mem_quick]
  rfl

theorem releases_read_mem_quick (address length : Nat) (d : Jtdev σ) :
    releases (jtag_read_mem_quick f address length d).log = [] := by
  unfold releases
  rw [ops_read_mem_quick]
  rfl

theorem mem_writes_read_mem (format address : Nat) (d : Jtdev σ) :
    mem_writes (jtag_read_mem f format address d).log = [] := by
  unfold mem_writes
  rw [ops_read_mem]
  rfl

theorem releases_read_mem (format address : Nat) (d : Jtdev σ) :
    releases (jtag_read_mem f format address d).log = [] := by
  unfold releases
  rw [ops_read_mem]
  rfl

theorem mem_writes_get_device (d : Jtdev σ) : mem_writes (jtag_get_device f d).log = [] := by
  unfold mem_writes
  rw [ops_get_device]
  rfl

theorem releases_get_device (d : Jtdev σ) : releases (jtag_get_device f d).log = [] := by
  unfold releases
  rw [ops_get_device]
  rfl

theorem mem_writes_release_device (k : Defs) (address : Nat) (d : Jtdev σ) :
    mem_writes (jtag_release_device f k address d).log = [] := by
  unfold mem_writes
  rw [ops_release_device]
  split
  · rfl
  · split <;> rfl

theorem releases_release_device (k : Defs) (address : Nat) (d : Jtdev σ) :
    releases (jtag_release_device f k address d).log = [address] := by
  unfold releases
  rw [ops_release_device]
  split
  · rfl
  · split <;> rfl

/-! ## The words read back by `jtag_read_mem_quick` and the header sizes -/

theorem read_mem_quick_loop_length (n : Nat) :
    ∀ d : Jtdev σ, (read_mem_quick_loop f n d).val.length = n := by
  induction n with
  | zero => intro d; rfl
  | succ m ih =>
    intro d
    simp only [read_mem_quick_loop, bind_val, pure_run, List.length_cons, ih]

theorem read_mem_quick_length (address length : Nat) (d : Jtdev σ) :
    (jtag_read_mem_quick f address length d).val.length = length := by
  simp only [jtag_read_mem_quick, bind_val, pure_run, read_mem_quick_loop_length]

theorem pad_even_length (l : List Nat) : (pad_even l).length = l.length + l.length % 2 := by
  unfold pad_even
  split
  · omega
  · rw [List.length_append]; simp; omega

theorem verify_header_words (a l c : Nat) (code : List Nat) :
    ((flash_verify_image a l c code).length - code.length) / 2 = 3 := by
  unfold flash_verify_image
  rw [pad_even_length]
  simp only [le16, List.length_append, List.length_cons, List.length_nil]
  omega

theorem erase_header_words (a l c : Nat) (code : List Nat) :
    ((flash_erase_image a l c code).length - code.length) / 2 = 2 := by
  unfold flash_erase_image
  rw [pad_even_length]
  simp only [le16, List.length_append, List.length_cons, List.length_nil]
  omega

theorem fast_verify_run_length (k : Defs) (a len : Nat) (d : Jtdev σ) :
    (fast_verify_run f k a len d).val.length = 3 := by
  simp only [fast_verify_run, bind_val, read_mem_quick_length, verify_header_words]

theorem erase_flash_run_length (k : Defs) (mode : EraseMode) (a : Nat) (d : Jtdev σ) :
    (erase_flash_run f k mode a d).val.length = 2 := by
  simp only [erase_flash_run, bind_val, read_mem_quick_length, erase_header_words]

theorem getD_of_lt (l : List Nat) (i x y : Nat) (h : i < l.length) : l.getD i x = l.getD i y := by
  rw [List.getD_eq_getElem?_getD, List.getD_eq_getElem?_getD, List.getElem?_eq_getElem h]
  rfl

/-! ## Fast verify: the result -/

theorem fast_verify_val (k : Defs) (a L : Nat) (data : Nat → Nat) (d : Jtdev σ) :
    (jtag_fast_verify_mem f k a L data d).val =
      if (fast_verify_run f k a (L * 2 % 2 ^ 32) d).val.getD 0 0 = 0 ∧
          (fast_verify_run f k a (L * 2 % 2 ^ 32) d).val.getD 2 0
            = jtag_onchip_crc (words_as_bytes data) (L * 2 % 2 ^ 32)
      then 1 else 0 := by
  have h3 := fast_verify_run_length f k a (L * 2 % 2 ^ 32) d
  have e0 := getD_of_lt (fast_verify_run f k a (L * 2 % 2 ^ 32) d).val 0 (a % 65536) 0
    (by omega)
  simp only [jtag_fast_verify_mem, bind_val, ite_run, e0]
  by_cases h : (fast_verify_run f k a (L * 2 % 2 ^ 32) d).val.getD 0 0 = 0
  · by_cases h2 : (fast_verify_run f k a (L * 2 % 2 ^ 32) d).val.getD 2 0
        = jtag_onchip_crc (words_as_bytes data) (L * 2 % 2 ^ 32)
    · simp only [h, h2, bind_val, pure_run, ite_run, ne_eq, not_true_eq_false, if_false,
        and_self, if_true]
    · simp only [h, h2, bind_val, pure_run, ite_run, ne_eq, not_true_eq_false, if_false,
        not_false_eq_true, and_false, if_true]
  · simp only [h, bind_val, pure_run, ne_eq, not_false_eq_true, if_true, false_and, if_false]

/-- C4: `jtag_fast_verify_mem` returns 1 if and only if, in the three header words read back
after the wait, the `data` field is 0 and the `crc` field equals `jtag_onchip_crc` of the
caller's data bytes; in every other case it returns 0. -/
theorem fast_verify_returns_one_iff (k : Defs) (a L : Nat) (data : Nat → Nat) (d : Jtdev σ) :
    (fast_verify_run f k a (L * 2 % 2 ^ 32) d).val.length = 3 ∧
    ((jtag_fast_verify_mem f k a L data d).val = 1 ↔
      ((fast_verify_run f k a (L * 2 % 2 ^ 32) d).val.getD 0 0 = 0 ∧
        (fast_verify_run f k a (L * 2 % 2 ^ 32) d).val.getD 2 0
          = jtag_onchip_crc (words_as_bytes data) (L * 2 % 2 ^ 32))) ∧
    ((jtag_fast_verify_mem f k a L data d).val = 1 ∨
      (jtag_fast_verify_mem f k a L data d).val = 0) := by
  refine ⟨fast_verify_run_length f k a _ d, ?_, ?_⟩
  · rw [fast_verify_val]
    split
    · simp_all
    · simp_all
  · rw [fast_verify_val]
    split
    · exact Or.inl rfl
    · exact Or.inr rfl

/-! ## The words of the uploaded parameter blocks -/

theorem getD_map_range (g : Nat → Nat) (n i : Nat) (h : i < n) :
    ((List.range n).map g).getD i 0 = g i := by
  rw [List.getD_eq_getElem?_getD, List.getElem?_map, List.getElem?_range h]
  rfl

theorem upload_words_length (image : List Nat) :
    (upload_words image).length = image.length / 2 := by
  simp [upload_words]

theorem boom_words (n : Nat) :
    (List.range n).map (fun i => boom i % 65536) = List.replicate n 0x3fff := by
  apply List.ext_getElem
  · simp
  · intro i h1 h2
    simp [boom]

theorem getD_pad_even (l : List Nat) (i : Nat) (h : i < l.length) :
    (pad_even l).getD i 0 = l.getD i 0 := by
  unfold pad_even
  split
  · rfl
  · rw [List.getD_eq_getElem?_getD, List.getD_eq_getElem?_getD, List.getElem?_append_left h]

theorem verify_upload_fields (a l c : Nat) (code : List Nat) :
    (upload_words (flash_verify_image a l c code)).getD 0 0 = a % 65536 ∧
    (upload_words (flash_verify_image a l c code)).getD 1 0 = l % 65536 ∧
    (upload_words (flash_verify_image a l c code)).getD 2 0 = c % 65536 := by
  have hlen : 3 ≤ (flash_verify_image a l c code).length / 2 := by
    unfold flash_verify_image
    rw [pad_even_length]
    simp only [le16, List.length_append, List.length_cons, List.length_nil]
    omega
  have hl : 6 ≤ (le16 a ++ le16 l ++ le16 c ++ code).length := by
    simp only [le16, List.length_append, List.length_cons, List.length_nil]
    omega
  unfold upload_words
  rw [getD_map_range _ _ _ (by omega), getD_map_range _ _ _ (by omega),
    getD_map_range _ _ _ (by omega)]
  unfold bytes_as_words flash_verify_image
  rw [getD_pad_even _ _ (by omega), getD_pad_even _ _ (by omega), getD_pad_even _ _ (by omega),
    getD_pad_even _ _ (by omega), getD_pad_even _ _ (by omega), getD_pad_even _ _ (by omega)]
  simp only [le16, List.cons_append, List.nil_append, List.getD_cons_zero, List.getD_cons_succ,
    Nat.mul_zero, Nat.zero_add, Nat.mul_one]
  refine ⟨?_, ?_, ?_⟩ <;> omega

theorem erase_upload_fields (dn t sa : Nat) (code : List Nat) :
    (upload_words (flash_erase_image dn t sa code)).getD 0 0 = dn % 256 + 256 * (t % 256) ∧
    (upload_words (flash_erase_image dn t sa code)).getD 1 0 = sa % 65536 := by
  have hlen : 2 ≤ (flash_erase_image dn t sa code).length / 2 := by
    unfold flash_erase_image
    rw [pad_even_length]
    simp only [le16, List.length_append, List.length_cons, List.length_nil]
    omega
  have hl : 4 ≤ ([dn % 256, t % 256] ++ le16 sa ++ code).length := by
    simp only [le16, List.length_append, List.length_cons, List.length_nil]
    omega
  unfold upload_words
  rw [getD_map_range _ _ _ (by omega), getD_map_range _ _ _ (by omega)]
  unfold bytes_as_words flash_erase_image
  rw [getD_pad_even _ _ (by omega), getD_pad_even _ _ (by omega), getD_pad_even _ _ (by omega),
    getD_pad_even _ _ (by omega)]
  simp only [le16, List.cons_append, List.nil_append, List.getD_cons_zero, List.getD_cons_succ,
    Nat.mul_zero, Nat.zero_add, Nat.mul_one]
  refine ⟨?_, ?_⟩ <;> omega

/-! ## Block writes and releases of the flash operations -/

theorem mem_writes_call (c : Call) (d : Jtdev σ) : mem_writes (call f c d).log = [] := rfl

theorem mem_writes_delay_ms (ms : Nat) (d : Jtdev σ) :
    mem_writes ((delay_ms ms : JT σ Unit) d).log = [] := rfl

theorem mem_writes_set_failed (d : Jtdev σ) :
    mem_writes ((set_failed : JT σ Unit) d).log = [] := rfl

theorem mem_writes_pure {α : Type} (a : α) (d : Jtdev σ) :
    mem_writes ((pure a : JT σ α) d).log = [] := rfl

theorem releases_call (c : Call) (d : Jtdev σ) : releases (call f c d).log = [] := rfl

theorem releases_delay_ms (ms : Nat) (d : Jtdev σ) :
    releases ((delay_ms ms : JT σ Unit) d).log = [] := rfl

theorem releases_set_failed (d : Jtdev σ) :
    releases ((set_failed : JT σ Unit) d).log = [] := rfl

theorem releases_pure {α : Type} (a : α) (d : Jtdev σ) :
    releases ((pure a : JT σ α) d).log = [] := rfl

theorem mem_writes_fast_verify_run (k : Defs) (a len : Nat) (d : Jtdev σ) :
    mem_writes (fast_verify_run f k a len d).log
      = [(k.FLASH_CODE_RAM_START,
          upload_words (flash_verify_image (a % 65536) (len % 65536) 0 k.flash_verify_blob))] := by
  simp only [fast_verify_run, bind_log, mem_writes_append, mem_writes_write_mem_quick,
    mem_writes_release_device, mem_writes_get_device, mem_writes_read_mem_quick,
    jtag_led_green_on, mem_writes_call, mem_writes_delay_ms, List.nil_append, List.append_nil]
  rfl

theorem releases_fast_verify_run (k : Defs) (a len : Nat) (d : Jtdev σ) :
    releases (fast_verify_run f k a len d).log
      = [(offsetof_flash_verify_code + k.FLASH_CODE_RAM_START) % 65536] := by
  simp only [fast_verify_run, bind_log, releases_append, releases_write_mem_quick,
    releases_release_device, releases_get_device, releases_read_mem_quick,
    jtag_led_green_on, releases_call, releases_delay_ms, List.nil_append, List.append_nil]

theorem mem_writes_erase_flash_run (k : Defs) (mode : EraseMode) (a : Nat) (d : Jtdev σ) :
    mem_writes (erase_flash_run f k mode a d).log
      = [(k.FLASH_CODE_RAM_START,
          upload_words (flash_erase_image 0 (erase_type mode) (erase_segment mode a % 65536)
            k.flash_erase_blob))] := by
  have h : ∀ d : Jtdev σ, mem_writes ((if mode = EraseMode.JTAG_ERASE_SGMT then
      (delay_ms 26 : JT σ Unit) else delay_ms 60) d).log = [] := by
    intro d; split <;> rfl
  simp only [erase_flash_run, bind_log, mem_writes_append, mem_writes_write_mem_quick,
    mem_writes_release_device, mem_writes_get_device, mem_writes_read_mem_quick,
    jtag_led_red_on, mem_writes_call, h, List.nil_append, List.append_nil]
  rfl

theorem releases_erase_flash_run (k : Defs) (mode : EraseMode) (a : Nat) (d : Jtdev σ) :
    releases (erase_flash_run f k mode a d).log
      = [(offsetof_flash_verify_code + k.FLASH_CODE_RAM_START) % 65536] := by
  have h : ∀ d : Jtdev σ, releases ((if mode = EraseMode.JTAG_ERASE_SGMT then
      (delay_ms 26 : JT σ Unit) else delay_ms 60) d).log = [] := by
    intro d; split <;> rfl
  simp only [erase_flash_run, bind_log, releases_append, releases_write_mem_quick,
    releases_release_device, releases_get_device, releases_read_mem_quick,
    jtag_led_red_on, releases_call, h, List.nil_append, List.append_nil]

theorem mem_writes_fast_verify (k : Defs) (a L : Nat) (data : Nat → Nat) (d : Jtdev σ) :
    mem_writes (jtag_fast_verify_mem f k a L data d).log
      = (k.FLASH_CODE_RAM_START,
          upload_words (flash_verify_image (a % 65536) (L * 2 % 2 ^ 32 % 65536) 0
            k.flash_verify_blob)) ::
        (if (fast_verify_run f k a (L * 2 % 2 ^ 32) d).val.getD 0 0 = 0 then
          [(k.FLASH_CODE_RAM_START,
            List.replicate ((flash_verify_image (a % 65536) (L * 2 % 2 ^ 32 % 65536) 0
              k.flash_verify_blob).length / 2) 0x3fff)]
         else []) := by
  have h3 := fast_verify_run_length f k a (L * 2 % 2 ^ 32) d
  have e0 := getD_of_lt (fast_verify_run f k a (L * 2 % 2 ^ 32) d).val 0 (a % 65536) 0
    (by omega)
  have hp : ∀ (c : Prop) [Decidable c] (d : Jtdev σ),
      mem_writes ((if c then (pure 0 : JT σ Nat) else pure 1) d).log = [] := by
    intro c _ d; split <;> rfl
  simp only [jtag_fast_verify_mem, bind_log, mem_writes_append, mem_writes_fast_verify_run,
    ite_run, e0, List.singleton_append]
  congr 1
  by_cases h : (fast_verify_run f k a (L * 2 % 2 ^ 32) d).val.getD 0 0 = 0
  · simp only [h, ne_eq, not_true_eq_false, if_false, if_true, bind_log, mem_writes_append,
      mem_writes_write_mem_quick, jtag_led_green_off, mem_writes_call, hp, boom_words,
      List.append_nil]
  · simp only [h, ne_eq, not_false_eq_true, if_true, if_false, bind_log, mem_writes_append,
      mem_writes_set_failed, mem_writes_pure, List.append_nil]

theorem mem_writes_erase_flash (k : Defs) (mode : EraseMode) (a : Nat) (d : Jtdev σ) :
    mem_writes (jtag_erase_flash f k mode a d).log
      = (k.FLASH_CODE_RAM_START,
          upload_words (flash_erase_image 0 (erase_type mode) (erase_segment mode a % 65536)
            k.flash_erase_blob)) ::
        (if (erase_flash_run f k mode a d).val.getD 0 0 % 256 = 1 then
          [(k.FLASH_CODE_RAM_START,
            List.replicate ((flash_erase_image 0 (erase_type mode)
              (erase_segment mode a % 65536) k.flash_erase_blob).length / 2) 0x3fff)]
         else []) := by
  simp only [jtag_erase_flash, bind_log, mem_writes_append, mem_writes_erase_flash_run,
    ite_run, List.singleton_append]
  congr 1
  by_cases h : (erase_flash_run f k mode a d).val.getD 0 0 % 256 = 1
  · simp only [h, ne_eq, not_true_eq_false, if_false, if_true, bind_log, mem_writes_append,
      mem_writes_write_mem_quick, jtag_led_red_off, mem_writes_call, mem_writes_pure,
      boom_words, List.append_nil]
  · simp only [h, ne_eq, not_false_eq_true, if_true, if_false, mem_writes_set_failed]

theorem releases_erase_flash (k : Defs) (mode : EraseMode) (a : Nat) (d : Jtdev σ) :
    releases (jtag_erase_flash f k mode a d).log
      = [(offsetof_flash_verify_code + k.FLASH_CODE_RAM_START) % 65536] := by
  simp only [jtag_erase_flash, bind_log, releases_append, releases_erase_flash_run, ite_run]
  by_cases h : (erase_flash_run f k mode a d).val.getD 0 0 % 256 = 1
  · simp only [h, ne_eq, not_true_eq_false, if_false, bind_log, releases_append,
      releases_write_mem_quick, jtag_led_red_off, releases_call, releases_pure,
      List.append_nil]
  · simp only [h, ne_eq, not_false_eq_true, if_true, releases_set_failed, List.append_nil]

/-! ## Fast verify: the length -/

theorem onchip_crc_length (data : Nat → Nat) (L : Nat) :
    jtag_onchip_crc data (L * 2 % 2 ^ 32) = crc_loop data (2 * L % 65536) 0 0xFFFF := by
  unfold jtag_onchip_crc
  have e : L * 2 % 2 ^ 32 % 65536 = 2 * L % 65536 := by omega
  rw [e]

theorem fast_verify_first_upload (k : Defs) (a L : Nat) (data : Nat → Nat) (d : Jtdev σ) :
    ∃ w, (mem_writes (jtag_fast_verify_mem f k a L data d).log).head?
        = some (k.FLASH_CODE_RAM_START, w) ∧ w.getD 1 0 = 2 * L % 65536 := by
  refine ⟨_, by rw [mem_writes_fast_verify]; rfl, ?_⟩
  rw [(verify_upload_fields _ _ _ _).2.1]
  omega

/-- C5 as the code has it: the caller's length `L` counts words and is doubled to a byte count
internally. For every `L` the `len` field of the uploaded parameter block is `2 * L` reduced to
16 bits, and the local CRC the result is decided on runs over that many bytes. -/
theorem fast_verify_length_doubled (k : Defs) (a L : Nat) (data : Nat → Nat) (d : Jtdev σ) :
    (∃ w, (mem_writes (jtag_fast_verify_mem f k a L data d).log).head?
        = some (k.FLASH_CODE_RAM_START, w) ∧ w.getD 1 0 = 2 * L % 65536) ∧
    ((jtag_fast_verify_mem f k a L data d).val = 1 ↔
      ((fast_verify_run f k a (L * 2 % 2 ^ 32) d).val.getD 0 0 = 0 ∧
        (fast_verify_run f k a (L * 2 % 2 ^ 32) d).val.getD 2 0
          = crc_loop (words_as_bytes data) (2 * L % 65536) 0 0xFFFF)) := by
  refine ⟨fast_verify_first_upload f k a L data d, ?_⟩
  rw [fast_verify_val, onchip_crc_length]
  split
  · simp_all
  · simp_all

/-- C5 as stated fails: for the caller's length 4 the `len` field uploaded is 8, not 4 / 2. -/
theorem fast_verify_length_counterexample :
    ((mem_writes (jtag_fast_verify_mem (steady 0) defs0 0x8000 4 (fun _ => 0) fresh).log).head?.map
        (fun w => w.2.getD 1 0)) = some 8 ∧ (8 : Nat) ≠ 4 / 2 := by
  decide

/-! ## Erase: the parameter block, the timeout, the entry address -/

theorem erase_first_upload (k : Defs) (mode : EraseMode) (a : Nat) (d : Jtdev σ) :
    ∃ w, (mem_writes (jtag_erase_flash f k mode a d).log).head?
        = some (k.FLASH_CODE_RAM_START, w) ∧
      w.getD 0 0 = 256 * (erase_type mode % 256) ∧
      w.getD 1 0 = erase_segment mode a % 65536 := by
  refine ⟨_, by rw [mem_writes_erase_flash]; rfl, ?_, ?_⟩
  · rw [(erase_upload_fields _ _ _ _).1]
    omega
  · rw [(erase_upload_fields _ _ _ _).2]
    omega

/-- C6: for every caller-supplied address `a`, the parameter block uploaded by
`jtag_erase_flash` has `done = 0` and, for mode MASS, `eraseType = 0` and `segmentAddr = 0xFC10`;
for mode MAIN, `eraseType = 1` and `segmentAddr = 0xFC10`; for mode SEGMENT, `eraseType = 2` and
`segmentAddr = a` as a 16-bit value. -/
theorem erase_param_block (k : Defs) (a : Nat) (d : Jtdev σ) :
    (∃ w, (mem_writes (jtag_erase_flash f k EraseMode.JTAG_ERASE_MASS a d).log).head?
        = some (k.FLASH_CODE_RAM_START, w) ∧
      w.getD 0 0 % 256 = 0 ∧ w.getD 0 0 / 256 = 0 ∧ w.getD 1 0 = 0xFC10) ∧
    (∃ w, (mem_writes (jtag_erase_flash f k EraseMode.JTAG_ERASE_MAIN a d).log).head?
        = some (k.FLASH_CODE_RAM_START, w) ∧
      w.getD 0 0 % 256 = 0 ∧ w.getD 0 0 / 256 = 1 ∧ w.getD 1 0 = 0xFC10) ∧
    (∃ w, (mem_writes (jtag_erase_flash f k EraseMode.JTAG_ERASE_SGMT a d).log).head?
        = some (k.FLASH_CODE_RAM_START, w) ∧
      w.getD 0 0 % 256 = 0 ∧ w.getD 0 0 / 256 = 2 ∧ w.getD 1 0 = a % 65536) := by
  refine ⟨?_, ?_, ?_⟩
  · obtain ⟨w, h, h0, h1⟩ := erase_first_upload f k EraseMode.JTAG_ERASE_MASS a d
    exact ⟨w, h, by rw [h0]; rfl, by rw [h0]; rfl, by rw [h1]; rfl⟩
  · obtain ⟨w, h, h0, h1⟩ := erase_first_upload f k EraseMode.JTAG_ERASE_MAIN a d
    exact ⟨w, h, by rw [h0]; rfl, by rw [h0]; rfl, by rw [h1]; rfl⟩
  · obtain ⟨w, h, h0, h1⟩ := erase_first_upload f k EraseMode.JTAG_ERASE_SGMT a d
    exact ⟨w, h, by rw [h0]; rfl, by rw [h0]; rfl, by rw [h1]; rfl⟩

/-- C7: for every erase mode and address, if the `done` byte read back after the wait is not 1,
`jtag_erase_flash` sets `p->failed` to 1 and returns having done nothing after the read-back:
its events are those up to the read-back, and its only block write is the initial upload. -/
theorem erase_timeout_sets_failed (k : Defs) (mode : EraseMode) (a : Nat) (d : Jtdev σ)
    (h : (erase_flash_run f k mode a d).val.getD 0 0 % 256 ≠ 1) :
    (jtag_erase_flash f k mode a d).dev.failed = 1 ∧
    (jtag_erase_flash f k mode a d).log = (erase_flash_run f k mode a d).log ∧
    mem_writes (jtag_erase_flash f k mode a d).log
      = [(k.FLASH_CODE_RAM_START,
          upload_words (flash_erase_image 0 (erase_type mode) (erase_segment mode a % 65536)
            k.flash_erase_blob))] := by
  refine ⟨?_, ?_, ?_⟩
  · simp only [jtag_erase_flash, bind_dev, ite_run, h, ne_eq, not_false_eq_true, if_true]
    rfl
  · simp only [jtag_erase_flash, bind_log, ite_run, h, ne_eq, not_false_eq_true, if_true]
    exact List.append_nil _
  · rw [mem_writes_erase_flash, if_neg h]

theorem erase_timeout_sets_failed_witness :
    (erase_flash_run (steady 0) defs0 EraseMode.JTAG_ERASE_SGMT 0x8000 fresh).val.getD 0 0 % 256
        ≠ 1 ∧
    (jtag_erase_flash (steady 0) defs0 EraseMode.JTAG_ERASE_SGMT 0x8000 fresh).dev.failed = 1 :=
  ⟨by decide,
    (erase_timeout_sets_failed (steady 0) defs0 EraseMode.JTAG_ERASE_SGMT 0x8000 fresh
      (by decide)).1⟩

/-- C8 on the code: `jtag_erase_flash` passes to `jtag_release_device` the start of RAM plus
`offsetof(flash_verify_t, code)`, the header size of the verify block (6), whereas the erase
routine lies at the start of RAM plus its own header size (4). With RAM at 0x0200 the device is
started at 0x0206 and the routine is at 0x0204. -/
theorem erase_release_address (k : Defs) (mode : EraseMode) (a : Nat) (d : Jtdev σ) :
    releases (jtag_erase_flash f k mode a d).log = [(6 + k.FLASH_CODE_RAM_START) % 65536] ∧
    releases (jtag_erase_flash (steady 1) defs0 EraseMode.JTAG_ERASE_SGMT 0x8000 fresh).log
      = [0x0206] ∧
    defs0.FLASH_CODE_RAM_START + offsetof_flash_erase_code = 0x0204 := by
  refine ⟨releases_erase_flash f k mode a d, ?_, rfl⟩
  rw [releases_erase_flash]
  rfl

/-! ## The block loop of `jtag_write_flash` -/

theorem ops_release_device_eq (k : Defs) (address : Nat) (d : Jtdev σ) :
    ops (jtag_release_device f k address d).log = release_ops address :=
  ops_release_device f k address d

theorem ops_write_flash_block (k : Defs) (start length : Nat) (data : Nat → Nat) (index : Nat)
    (d : Jtdev σ) :
    ops (write_flash_block f k start length data index d).log
      = block_ops k start length data index := by
  simp only [write_flash_block, bind_log, ops_append, ops_write_mem_quick,
    ops_release_device_eq, ops_delay_ms, ops_get_device, ops_read_mem, block_ops,
    List.nil_append, List.append_assoc, List.cons_append]
  rfl

/-- The number of blocks: the least `nb` with `nb * len ≥ length`. -/
theorem lt_block_count (len length j : Nat) (hpos : 0 < len) :
    j < (length + len - 1) / len ↔ j * len < length := by
  rw [Nat.lt_iff_add_one_le, Nat.le_div_iff_mul_le hpos, Nat.add_mul]
  omega

theorem ops_write_flash_loop (k : Defs) (start length : Nat) (data : Nat → Nat)
    (hpos : 0 < k.FLASH_CODE_BLOCK_LEN) (hint : k.FLASH_CODE_BLOCK_LEN < 2 ^ 32)
    (hlen : length < 65536) :
    ∀ (fuel j : Nat) (d : Jtdev σ),
      (write_flash_loop f k start length data fuel (j * k.FLASH_CODE_BLOCK_LEN) d).val
          = LoopEnd.completed →
      ops (write_flash_loop f k start length data fuel (j * k.FLASH_CODE_BLOCK_LEN) d).log
        = (List.range' j ((length + k.FLASH_CODE_BLOCK_LEN - 1) / k.FLASH_CODE_BLOCK_LEN - j)).flatMap
            (fun i => block_ops k start length data (i * k.FLASH_CODE_BLOCK_LEN)) := by
  intro fuel
  induction fuel with
  | zero =>
    intro j d hc
    by_cases hlt : j * k.FLASH_CODE_BLOCK_LEN < length
    · simp only [write_flash_loop, hlt, if_true, pure_run] at hc
      exact absurd hc (by decide)
    · have hnb : (length + k.FLASH_CODE_BLOCK_LEN - 1) / k.FLASH_CODE_BLOCK_LEN - j = 0 := by
        have := (lt_block_count k.FLASH_CODE_BLOCK_LEN length j hpos).not.mpr hlt
        omega
      simp only [write_flash_loop, hlt, if_false, pure_run, hnb, List.range'_zero,
        List.flatMap_nil]
      rfl
  | succ n ih =>
    intro j d hc
    by_cases hlt : j * k.FLASH_CODE_BLOCK_LEN < length
    · have hj : j < (length + k.FLASH_CODE_BLOCK_LEN - 1) / k.FLASH_CODE_BLOCK_LEN :=
        (lt_block_count k.FLASH_CODE_BLOCK_LEN length j hpos).mpr hlt
      have hnext : (j * k.FLASH_CODE_BLOCK_LEN + k.FLASH_CODE_BLOCK_LEN) % 2 ^ 32
          = (j + 1) * k.FLASH_CODE_BLOCK_LEN := by
        rw [Nat.add_mul, Nat.one_mul]
        apply Nat.mod_eq_of_lt
        rcases Nat.eq_zero_or_pos j with h0 | h0
        · rw [h0, Nat.zero_mul]
          omega
        · have := Nat.le_mul_of_pos_left k.FLASH_CODE_BLOCK_LEN h0
          omega
      have hr : (length + k.FLASH_CODE_BLOCK_LEN - 1) / k.FLASH_CODE_BLOCK_LEN - j
          = ((length + k.FLASH_CODE_BLOCK_LEN - 1) / k.FLASH_CODE_BLOCK_LEN - (j + 1)) + 1 := by
        omega
      rw [hr, List.range'_succ, List.flatMap_cons]
      simp only [write_flash_loop, hlt, if_true, bind_val, bind_log, ite_run, hnext] at hc ⊢
      by_cases hv : (write_flash_block f k start length data (j * k.FLASH_CODE_BLOCK_LEN) d).val
          = 0
      · simp only [hv, ne_eq, not_true_eq_false, if_false] at hc ⊢
        rw [ops_append, ops_write_flash_block, ih (j + 1) _ hc]
      · simp only [hv, ne_eq, not_false_eq_true, if_true, bind_val, pure_run] at hc
        exact absurd hc (by decide)
    · have hnb : (length + k.FLASH_CODE_BLOCK_LEN - 1) / k.FLASH_CODE_BLOCK_LEN - j = 0 := by
        have := (lt_block_count k.FLASH_CODE_BLOCK_LEN length j hpos).not.mpr hlt
        omega
      simp only [write_flash_loop, hlt, if_false, pure_run, hnb, List.range'_zero,
        List.flatMap_nil]
      rfl

theorem filterMap_flatMap {α β γ : Type} (l : List α) (g : α → List β) (h : β → Option γ) :
    (l.flatMap g).filterMap h = l.flatMap (fun i => (g i).filterMap h) := by
  induction l with
  | nil => rfl
  | cons x t ih => simp only [List.flatMap_cons, List.filterMap_append, ih]

theorem this_block_eq_min (k : Defs) (length index : Nat) (hlen : length < 65536)
    (hlt : index < length) :
    this_block k length index = min (length - index) k.FLASH_CODE_BLOCK_LEN := by
  unfold this_block
  have e : (length + 2 ^ 32 - index) % 2 ^ 32 % 65536 = length - index := by omega
  simp only [e]
  split
  · have : k.FLASH_CODE_BLOCK_LEN % 65536 = k.FLASH_CODE_BLOCK_LEN := by omega
    omega
  · omega

theorem header_upload_words (w s p t : Nat) :
    upload_words (flash_code_header_image w s p t)
      = [w % 65536, s % 65536, p % 65536, t % 65536] := by
  simp only [upload_words, flash_code_header_image, le16, List.length_append, List.length_cons,
    List.length_nil, bytes_as_words, List.cons_append, List.nil_append]
  have e : (0 + 1 + 1 + (0 + 1 + 1) + (0 + 1 + 1) + (0 + 1 + 1)) / 2 = 4 := by norm_num
  rw [e]
  simp only [List.range_succ, List.range_zero, List.nil_append, List.cons_append, List.map_cons,
    List.map_nil, Nat.mul_zero, Nat.zero_add, Nat.mul_one, List.getD_cons_zero,
    List.getD_cons_succ]
  congr 1
  · omega
  · congr 1
    · omega
    · congr 1
      · omega
      · congr 1
        omega

theorem block_ops_writes (k : Defs) (start length : Nat) (data : Nat → Nat) (index : Nat) :
    (block_ops k start length data index).filterMap Op.as_write
      = [(k.FLASH_CODE_BLOCK_START,
            (List.range (this_block k length index / 2)).map
              (fun i => data (index / 2 + i) % 65536)),
          (k.FLASH_CODE_RAM_START,
            [this_block k length index / 2 % 65536, k.FLASH_CODE_BLOCK_START % 65536 % 65536,
              (start + index) % 65536 % 65536, 0 % 65536])] := by
  unfold block_ops release_ops
  rw [header_upload_words]
  split
  · rfl
  · split <;> rfl

theorem block_ops_releases (k : Defs) (start length : Nat) (data : Nat → Nat) (index : Nat) :
    (block_ops k start length data index).filterMap Op.as_release = [k.FLASH_CODE_START] := by
  unfold block_ops release_ops
  split
  · rfl
  · split <;> rfl

theorem ops_write_flash_blocks (k : Defs) (start n : Nat) (data : Nat → Nat) (d : Jtdev σ)
    (hpos : 0 < k.FLASH_CODE_BLOCK_LEN) (hint : k.FLASH_CODE_BLOCK_LEN < 2 ^ 32)
    (hn : 2 * n < 65536)
    (hc : (write_flash_blocks f k start n data d).val = LoopEnd.completed) :
    ops (write_flash_blocks f k start n data d).log
      = [Op.write_mem_quick k.FLASH_CODE_START (upload_words k.flash_code_blob),
          Op.write_reg 0 ((k.FLASH_CODE_START + 2 ^ 32 - 4) % 2 ^ 32)]
        ++ (List.range ((2 * n + k.FLASH_CODE_BLOCK_LEN - 1) / k.FLASH_CODE_BLOCK_LEN)).flatMap
            (fun j => block_ops k start (2 * n) data (j * k.FLASH_CODE_BLOCK_LEN)) := by
  have e : n * 2 % 2 ^ 32 = 2 * n := by omega
  simp only [write_flash_blocks, bind_val, bind_log, e, ops_append, jtag_led_red_on, ops_call,
    ops_write_mem_quick, List.nil_append] at hc ⊢
  have hloop := ops_write_flash_loop f k start (2 * n) data hpos hint hn (2 * n) 0
    (jtag_write_mem_quick f k.FLASH_CODE_START (k.flash_code_blob.length / 2)
      (bytes_as_words k.flash_code_blob) (call f (Call.jtdev_led_red 1) d).dev).dev
  simp only [Nat.zero_mul, Nat.sub_zero, ← List.range_eq_range'] at hloop
  rw [hloop hc]
  rfl

theorem ops_write_flash_completed (k : Defs) (start n : Nat) (data : Nat → Nat) (d : Jtdev σ)
    (hc : (write_flash_blocks f k start n data d).val = LoopEnd.completed) :
    ops (jtag_write_flash f k start n data d).log
      = ops (write_flash_blocks f k start n data d).log
        ++ [Op.write_mem_quick k.FLASH_CODE_RAM_START
              (List.replicate (k.FLASH_CODE_PREAMBLE_LEN / 2) 0x3fff),
            Op.write_reg 0 ((k.FLASH_CODE_RAM_START + 2 ^ 32 - 4) % 2 ^ 32)] := by
  simp only [jtag_write_flash, bind_log, ops_append, ite_run, hc, if_true,
    ops_write_mem_quick, jtag_led_red_off, ops_call, ops_pure, boom_words, List.append_nil]

theorem range_chunks (g : Nat → Nat) (n m : Nat) :
    ∀ c : Nat, (List.range c).flatMap
        (fun j => (List.range (min (n - j * m) m)).map (fun i => g (j * m + i)))
      = (List.range (min n (c * m))).map g := by
  intro c
  induction c with
  | zero => simp
  | succ c ih =>
    rw [List.range_succ, List.flatMap_append, ih, List.flatMap_cons, List.flatMap_nil,
      List.append_nil]
    by_cases h : c * m ≤ n
    · have e1 : min n (c * m) = c * m := by omega
      have e2 : min n ((c + 1) * m) = c * m + min (n - c * m) m := by
        rw [Nat.add_mul, Nat.one_mul]; omega
      rw [e1, e2, List.range_add, List.map_append, List.map_map]
      rfl
    · have e1 : min n (c * m) = n := by omega
      have e2 : min n ((c + 1) * m) = n := by
        rw [Nat.add_mul, Nat.one_mul]; omega
      have e3 : min (n - c * m) m = 0 := by omega
      rw [e1, e2, e3]
      simp

theorem flatMap_congr_mem {α β : Type} (l : List α) (g h : α → List β)
    (e : ∀ x ∈ l, g x = h x) : l.flatMap g = l.flatMap h := by
  induction l with
  | nil => rfl
  | cons x t ih =>
    rw [List.flatMap_cons, List.flatMap_cons, e x (List.mem_cons_self _ _),
      ih (fun y hy => e y (List.mem_cons_of_mem _ hy))]

theorem flatMap_const_singleton {β : Type} (c : β) (n : Nat) :
    (List.range n).flatMap (fun _ => [c]) = List.replicate n c := by
  induction n with
  | zero => rfl
  | succ m ih =>
    rw [List.range_succ, List.flatMap_append, ih, List.flatMap_cons, List.flatMap_nil,
      List.append_nil, List.replicate_succ']

theorem mem_writes_write_flash (k : Defs) (start n : Nat) (data : Nat → Nat) (d : Jtdev σ)
    (hpos : 0 < k.FLASH_CODE_BLOCK_LEN) (hint : k.FLASH_CODE_BLOCK_LEN < 2 ^ 32)
    (hn : 2 * n < 65536)
    (hc : (write_flash_blocks f k start n data d).val = LoopEnd.completed) :
    mem_writes (jtag_write_flash f k start n data d).log
      = (k.FLASH_CODE_START, upload_words k.flash_code_blob) ::
        ((List.range ((2 * n + k.FLASH_CODE_BLOCK_LEN - 1) / k.FLASH_CODE_BLOCK_LEN)).flatMap
          (fun j =>
            [(k.FLASH_CODE_BLOCK_START,
                (List.range (min (2 * n - j * k.FLASH_CODE_BLOCK_LEN) k.FLASH_CODE_BLOCK_LEN / 2)).map
                  (fun i => data (j * k.FLASH_CODE_BLOCK_LEN / 2 + i) % 65536)),
              (k.FLASH_CODE_RAM_START,
                [min (2 * n - j * k.FLASH_CODE_BLOCK_LEN) k.FLASH_CODE_BLOCK_LEN / 2,
                  k.FLASH_CODE_BLOCK_START % 65536,
                  (start + j * k.FLASH_CODE_BLOCK_LEN) % 65536, 0])]))
        ++ [(k.FLASH_CODE_RAM_START, List.replicate (k.FLASH_CODE_PREAMBLE_LEN / 2) 0x3fff)] := by
  unfold mem_writes
  rw [ops_write_flash_completed f k start n data d hc,
    ops_write_flash_blocks f k start n data d hpos hint hn hc]
  simp only [List.filterMap_append, filterMap_flatMap, block_ops_writes]
  rw [flatMap_congr_mem _ _ (fun j =>
        [(k.FLASH_CODE_BLOCK_START,
            (List.range (min (2 * n - j * k.FLASH_CODE_BLOCK_LEN) k.FLASH_CODE_BLOCK_LEN / 2)).map
              (fun i => data (j * k.FLASH_CODE_BLOCK_LEN / 2 + i) % 65536)),
          (k.FLASH_CODE_RAM_START,
            [min (2 * n - j * k.FLASH_CODE_BLOCK_LEN) k.FLASH_CODE_BLOCK_LEN / 2,
              k.FLASH_CODE_BLOCK_START % 65536,
              (start + j * k.FLASH_CODE_BLOCK_LEN) % 65536, 0])])]
  · rfl
  · intro j hj
    have hj' : j * k.FLASH_CODE_BLOCK_LEN < 2 * n :=
      (lt_block_count k.FLASH_CODE_BLOCK_LEN (2 * n) j hpos).mp (List.mem_range.mp hj)
    rw [this_block_eq_min k (2 * n) (j * k.FLASH_CODE_BLOCK_LEN) hn hj']
    have e1 : min (2 * n - j * k.FLASH_CODE_BLOCK_LEN) k.FLASH_CODE_BLOCK_LEN / 2 % 65536
        = min (2 * n - j * k.FLASH_CODE_BLOCK_LEN) k.FLASH_CODE_BLOCK_LEN / 2 := by
      apply Nat.mod_eq_of_lt
      omega
    rw [e1, Nat.mod_mod, Nat.mod_mod]

theorem releases_write_flash (k : Defs) (start n : Nat) (data : Nat → Nat) (d : Jtdev σ)
    (hpos : 0 < k.FLASH_CODE_BLOCK_LEN) (hint : k.FLASH_CODE_BLOCK_LEN < 2 ^ 32)
    (hn : 2 * n < 65536)
    (hc : (write_flash_blocks f k start n data d).val = LoopEnd.completed) :
    releases (jtag_write_flash f k start n data d).log
      = List.replicate ((2 * n + k.FLASH_CODE_BLOCK_LEN - 1) / k.FLASH_CODE_BLOCK_LEN)
          k.FLASH_CODE_START := by
  unfold releases
  rw [ops_write_flash_completed f k start n data d hc,
    ops_write_flash_blocks f k start n data d hpos hint hn hc]
  simp only [List.filterMap_append, filterMap_flatMap, block_ops_releases,
    flatMap_const_singleton]
  simp [Op.as_release]

theorem block_data_concat (k : Defs) (n : Nat) (data : Nat → Nat)
    (hpos : 0 < k.FLASH_CODE_BLOCK_LEN) (heven : k.FLASH_CODE_BLOCK_LEN % 2 = 0) :
    (List.range ((2 * n + k.FLASH_CODE_BLOCK_LEN - 1) / k.FLASH_CODE_BLOCK_LEN)).flatMap
        (fun j =>
          (List.range (min (2 * n - j * k.FLASH_CODE_BLOCK_LEN) k.FLASH_CODE_BLOCK_LEN / 2)).map
            (fun i => data (j * k.FLASH_CODE_BLOCK_LEN / 2 + i) % 65536))
      = (List.range n).map (fun i => data i % 65536) := by
  obtain ⟨m, hm⟩ : ∃ m, k.FLASH_CODE_BLOCK_LEN = 2 * m := ⟨k.FLASH_CODE_BLOCK_LEN / 2, by omega⟩
  have hmpos : 0 < m := by omega
  rw [hm]
  have key := range_chunks (fun i => data i % 65536) n m ((2 * n + 2 * m - 1) / (2 * m))
  have hnb : min n ((2 * n + 2 * m - 1) / (2 * m) * m) = n := by
    have h1 : ¬ ((2 * n + 2 * m - 1) / (2 * m) < (2 * n + 2 * m - 1) / (2 * m)) := lt_irrefl _
    rw [lt_block_count (2 * m) (2 * n) _ (by omega)] at h1
    have h2 : (2 * n + 2 * m - 1) / (2 * m) * (2 * m)
        = 2 * ((2 * n + 2 * m - 1) / (2 * m) * m) := by ring
    omega
  rw [hnb] at key
  rw [← key]
  apply flatMap_congr_mem
  intro j _
  have e1 : min (2 * n - j * (2 * m)) (2 * m) / 2 = min (n - j * m) m := by
    have : j * (2 * m) = 2 * (j * m) := by ring
    omega
  have e2 : j * (2 * m) / 2 = j * m := by
    have : j * (2 * m) = 2 * (j * m) := by ring
    omega
  rw [e1, e2]

/-! ## The trap overwrite and the block structure -/

theorem write_flash_loop_completes (k : Defs) (start length : Nat) (data : Nat → Nat)
    (hint : k.FLASH_CODE_BLOCK_LEN < 2 ^ 32) (hlen : length < 65536) (m : Nat) :
    ∀ (base fuel : Nat) (d : Jtdev σ), m ≤ fuel →
      (∀ i, i < m → (base + i) * k.FLASH_CODE_BLOCK_LEN < length) →
      ¬ ((base + m) * k.FLASH_CODE_BLOCK_LEN < length) →
      (∀ i, i < m →
        (write_flash_block f k start length data ((base + i) * k.FLASH_CODE_BLOCK_LEN)
          (write_flash_session f k start length data base i d)).val = 0) →
      (write_flash_loop f k start length data fuel (base * k.FLASH_CODE_BLOCK_LEN) d).val
        = LoopEnd.completed := by
  induction m with
  | zero =>
    intro base fuel d _ _ hend _
    have hlt : ¬ (base * k.FLASH_CODE_BLOCK_LEN < length) := by
      rwa [Nat.add_zero] at hend
    cases fuel with
    | zero => simp only [write_flash_loop, hlt, if_false, pure_run]
    | succ n => simp only [write_flash_loop, hlt, if_false, pure_run]
  | succ m ih =>
    intro base fuel d hf hin hend h0
    obtain ⟨n, rfl⟩ : ∃ n, fuel = n + 1 := ⟨fuel - 1, by omega⟩
    have hlt : base * k.FLASH_CODE_BLOCK_LEN < length := by
      have := hin 0 (by omega)
      rwa [Nat.add_zero] at this
    have hv : (write_flash_block f k start length data (base * k.FLASH_CODE_BLOCK_LEN) d).val
        = 0 := by
      have := h0 0 (by omega)
      rwa [Nat.add_zero] at this
    have hnext : (base * k.FLASH_CODE_BLOCK_LEN + k.FLASH_CODE_BLOCK_LEN) % 2 ^ 32
        = (base + 1) * k.FLASH_CODE_BLOCK_LEN := by
      rw [Nat.add_mul, Nat.one_mul]
      apply Nat.mod_eq_of_lt
      rcases Nat.eq_zero_or_pos base with hb | hb
      · rw [hb, Nat.zero_mul]
        omega
      · have := Nat.le_mul_of_pos_left k.FLASH_CODE_BLOCK_LEN hb
        omega
    have e : ∀ i, base + (i + 1) = base + 1 + i := fun i => by omega
    have hrec := ih (base + 1) n
      (write_flash_block f k start length data (base * k.FLASH_CODE_BLOCK_LEN) d).dev
      (by omega)
      (fun i hi => by have := hin (i + 1) (by omega); rwa [e] at this)
      (by rwa [e] at hend)
      (fun i hi => by have := h0 (i + 1) (by omega); rwa [e] at this)
    simp only [write_flash_loop, hlt, if_true, bind_val, bind_dev, ite_run, hv, ne_eq,
      not_true_eq_false, if_false, hnext]
    exact hrec

/-- Enough rounds are counted: when the word read at `FLASH_CODE_RAM_START` after the wait is 0
for every block, the block loop of `jtag_write_flash` runs to its end. -/
theorem write_flash_blocks_completes (k : Defs) (start n : Nat) (data : Nat → Nat)
    (d : Jtdev σ) (hpos : 0 < k.FLASH_CODE_BLOCK_LEN) (hint : k.FLASH_CODE_BLOCK_LEN < 2 ^ 32)
    (hn : 2 * n < 65536)
    (hz : ∀ j, j < (2 * n + k.FLASH_CODE_BLOCK_LEN - 1) / k.FLASH_CODE_BLOCK_LEN →
      write_flash_read f k start (2 * n) data j (write_flash_entry f k d) = 0) :
    (write_flash_blocks f k start n data d).val = LoopEnd.completed := by
  have e : n * 2 % 2 ^ 32 = 2 * n := by omega
  have hfuel : (2 * n + k.FLASH_CODE_BLOCK_LEN - 1) / k.FLASH_CODE_BLOCK_LEN ≤ 2 * n := by
    by_contra hcon
    have h1 : 2 * n < (2 * n + k.FLASH_CODE_BLOCK_LEN - 1) / k.FLASH_CODE_BLOCK_LEN := by omega
    have h2 := (lt_block_count k.FLASH_CODE_BLOCK_LEN (2 * n) (2 * n) hpos).mp h1
    have h3 := Nat.le_mul_of_pos_right (2 * n) hpos
    omega
  have hloop := write_flash_loop_completes f k start (2 * n) data hint hn
    ((2 * n + k.FLASH_CODE_BLOCK_LEN - 1) / k.FLASH_CODE_BLOCK_LEN) 0 (2 * n)
    (write_flash_entry f k d) hfuel
    (fun i hi => by
      rw [Nat.zero_add]
      exact (lt_block_count k.FLASH_CODE_BLOCK_LEN (2 * n) i hpos).mp hi)
    (by
      rw [Nat.zero_add]
      exact fun h => lt_irrefl _ ((lt_block_count k.FLASH_CODE_BLOCK_LEN (2 * n) _ hpos).mpr h))
    (fun i hi => by
      have := hz i hi
      unfold write_flash_read at this
      rwa [Nat.zero_add])
  rw [Nat.zero_mul] at hloop
  unfold write_flash_entry at hloop
  simp only [write_flash_blocks, bind_val, bind_dev, e]
  exact hloop

/-- C10: for every start address and `n` data words with `2 * n < 65536`, a block length that
is positive and even (and fits `unsigned int`), and a target that completes every block (the
word read at `FLASH_CODE_RAM_START` after the wait is 0 for each of them), the block loop of
`jtag_write_flash` runs to its end after `ceil(2n / FLASH_CODE_BLOCK_LEN)` blocks. Its block
writes are the routine upload, then for block `j` the `min(2n - j * LEN, LEN) / 2` data words
from word offset `j * LEN / 2` written to `FLASH_CODE_BLOCK_START` and the header (`wrtLen` that
word count, `pSrc = FLASH_CODE_BLOCK_START`, `pDst = start_address + j * LEN` in 16 bits,
`wrtLenThis = 0`), then the trap words; the device is released once per block at
`FLASH_CODE_START`; the uploaded data blocks concatenated are the input words; every block but
the last is full, so each destination range ends where the next one starts; and when the
destination range fits the 16-bit address space, `pDst` is `start_address + j * LEN` without
reduction. -/
theorem write_flash_block_structure (k : Defs) (start n : Nat) (data : Nat → Nat) (d : Jtdev σ)
    (hpos : 0 < k.FLASH_CODE_BLOCK_LEN) (heven : k.FLASH_CODE_BLOCK_LEN % 2 = 0)
    (hint : k.FLASH_CODE_BLOCK_LEN < 2 ^ 32) (hn : 2 * n < 65536)
    (hz : ∀ j, j < (2 * n + k.FLASH_CODE_BLOCK_LEN - 1) / k.FLASH_CODE_BLOCK_LEN →
      write_flash_read f k start (2 * n) data j (write_flash_entry f k d) = 0) :
    (write_flash_blocks f k start n data d).val = LoopEnd.completed ∧
    mem_writes (jtag_write_flash f k start n data d).log
      = (k.FLASH_CODE_START, upload_words k.flash_code_blob) ::
        ((List.range ((2 * n + k.FLASH_CODE_BLOCK_LEN - 1) / k.FLASH_CODE_BLOCK_LEN)).flatMap
          (fun j =>
            [(k.FLASH_CODE_BLOCK_START,
                (List.range (min (2 * n - j * k.FLASH_CODE_BLOCK_LEN) k.FLASH_CODE_BLOCK_LEN / 2)).map
                  (fun i => data (j * k.FLASH_CODE_BLOCK_LEN / 2 + i) % 65536)),
              (k.FLASH_CODE_RAM_START,
                [min (2 * n - j * k.FLASH_CODE_BLOCK_LEN) k.FLASH_CODE_BLOCK_LEN / 2,
                  k.FLASH_CODE_BLOCK_START % 65536,
                  (start + j * k.FLASH_CODE_BLOCK_LEN) % 65536, 0])]))
        ++ [(k.FLASH_CODE_RAM_START, List.replicate (k.FLASH_CODE_PREAMBLE_LEN / 2) 0x3fff)] ∧
    releases (jtag_write_flash f k start n data d).log
      = List.replicate ((2 * n + k.FLASH_CODE_BLOCK_LEN - 1) / k.FLASH_CODE_BLOCK_LEN)
          k.FLASH_CODE_START ∧
    (List.range ((2 * n + k.FLASH_CODE_BLOCK_LEN - 1) / k.FLASH_CODE_BLOCK_LEN)).flatMap
        (fun j =>
          (List.range (min (2 * n - j * k.FLASH_CODE_BLOCK_LEN) k.FLASH_CODE_BLOCK_LEN / 2)).map
            (fun i => data (j * k.FLASH_CODE_BLOCK_LEN / 2 + i) % 65536))
      = (List.range n).map (fun i => data i % 65536) ∧
    (∀ j, j + 1 < (2 * n + k.FLASH_CODE_BLOCK_LEN - 1) / k.FLASH_CODE_BLOCK_LEN →
      start + j * k.FLASH_CODE_BLOCK_LEN
          + 2 * (min (2 * n - j * k.FLASH_CODE_BLOCK_LEN) k.FLASH_CODE_BLOCK_LEN / 2)
        = start + (j + 1) * k.FLASH_CODE_BLOCK_LEN) ∧
    (∀ j, j < (2 * n + k.FLASH_CODE_BLOCK_LEN - 1) / k.FLASH_CODE_BLOCK_LEN →
      start + 2 * n ≤ 65536 →
      (start + j * k.FLASH_CODE_BLOCK_LEN) % 65536 = start + j * k.FLASH_CODE_BLOCK_LEN) := by
  have hc := write_flash_blocks_completes f k start n data d hpos hint hn hz
  refine ⟨hc, mem_writes_write_flash f k start n data d hpos hint hn hc,
    releases_write_flash f k start n data d hpos hint hn hc,
    block_data_concat k n data hpos heven, ?_, ?_⟩
  · intro j hj
    have h1 : (j + 1) * k.FLASH_CODE_BLOCK_LEN < 2 * n :=
      (lt_block_count k.FLASH_CODE_BLOCK_LEN (2 * n) (j + 1) hpos).mp hj
    rw [Nat.add_mul, Nat.one_mul] at h1 ⊢
    omega
  · intro j hj hs
    have h1 : j * k.FLASH_CODE_BLOCK_LEN < 2 * n :=
      (lt_block_count k.FLASH_CODE_BLOCK_LEN (2 * n) j hpos).mp hj
    apply Nat.mod_eq_of_lt
    omega

theorem write_flash_block_structure_witness :
    0 < defs0.FLASH_CODE_BLOCK_LEN ∧ defs0.FLASH_CODE_BLOCK_LEN % 2 = 0 ∧
    defs0.FLASH_CODE_BLOCK_LEN < 2 ^ 32 ∧ 2 * 3 < 65536 ∧
    (∀ j, j < (2 * 3 + defs0.FLASH_CODE_BLOCK_LEN - 1) / defs0.FLASH_CODE_BLOCK_LEN →
      write_flash_read sim_flash_done defs0 0x8000 (2 * 3) (fun i => i + 1) j
        (write_flash_entry sim_flash_done defs0 fresh_sim) = 0) ∧
    (write_flash_blocks sim_flash_done defs0 0x8000 3 (fun i => i + 1) fresh_sim).val
      = LoopEnd.completed ∧
    (jtag_write_flash sim_flash_done defs0 0x8000 3 (fun i => i + 1) fresh_sim).dev.failed = 0 ∧
    releases (jtag_write_flash sim_flash_done defs0 0x8000 3 (fun i => i + 1) fresh_sim).log
      = List.replicate ((2 * 3 + defs0.FLASH_CODE_BLOCK_LEN - 1) / defs0.FLASH_CODE_BLOCK_LEN)
          defs0.FLASH_CODE_START :=
  have hz : ∀ j, j < (2 * 3 + defs0.FLASH_CODE_BLOCK_LEN - 1) / defs0.FLASH_CODE_BLOCK_LEN →
      write_flash_read sim_flash_done defs0 0x8000 (2 * 3) (fun i => i + 1) j
        (write_flash_entry sim_flash_done defs0 fresh_sim) = 0 := by
    decide
  ⟨by decide, by decide, by decide, by decide, hz,
    (write_flash_block_structure sim_flash_done defs0 0x8000 3 (fun i => i + 1) fresh_sim
      (by decide) (by decide) (by decide) (by decide) hz).1,
    by decide,
    (write_flash_block_structure sim_flash_done defs0 0x8000 3 (fun i => i + 1) fresh_sim
      (by decide) (by decide) (by decide) (by decide) hz).2.2.1⟩

theorem lines_append (l1 l2 : List Event) : lines (l1 ++ l2) = lines l1 ++ lines l2 := by
  induction l1 with
  | nil => rfl
  | cons e t ih =>
    cases e with
    | line c => simpa [lines] using ih
    | delay_ms ms => simpa [lines] using ih
    | op o => simpa [lines] using ih

theorem lines_pure {α : Type} (a : α) (d : Jtdev σ) : lines ((pure a : JT σ α) d).log = [] :=
  rfl

theorem lines_call (c : Call) (d : Jtdev σ) : lines (call f c d).log = [c] := rfl

theorem lines_enter (o : Op) (d : Jtdev σ) : lines ((enter o : JT σ Unit) d).log = [] := rfl

theorem lines_set_failed (d : Jtdev σ) : lines ((set_failed : JT σ Unit) d).log = [] := rfl

theorem lines_ir_shift (ir : Nat) (d : Jtdev σ) :
    lines (jtag_ir_shift f ir d).log = [ir_call f ir] := by
  unfold jtag_ir_shift ir_call
  split <;> rfl

theorem lines_dr_shift_16 (dr : Nat) (d : Jtdev σ) :
    lines (jtag_dr_shift_16 f dr d).log = [dr16_call f dr] := by
  unfold jtag_dr_shift_16 dr16_call
  split <;> rfl

theorem lines_ir_shift_and_read (ir : Nat) (d : Jtdev σ) :
    lines (jtag_ir_shift_and_read f ir d).log = [Call.jtdev_ir_shift (ir % 256)] := rfl

theorem lines_dr_shift_16_and_read (dr : Nat) (d : Jtdev σ) :
    lines (jtag_dr_shift_16_and_read f dr d).log = [Call.jtdev_dr_shift_16 (dr % 65536)] := rfl

theorem lines_flush_writes (d : Jtdev σ) :
    lines (jtag_flush_writes f d).log = flush_calls f := by
  unfold jtag_flush_writes flush_calls
  split <;> rfl

/-! ## The session after the dispatch macros -/

theorem ir_shift_dev (ir : Nat) (d : Jtdev σ) :
    (jtag_ir_shift f ir d).dev = (f.exec (ir_call f ir) d).2 := by
  unfold jtag_ir_shift ir_call
  split <;> rfl

theorem dr_shift_16_dev (dr : Nat) (d : Jtdev σ) :
    (jtag_dr_shift_16 f dr d).dev = (f.exec (dr16_call f dr) d).2 := by
  unfold jtag_dr_shift_16 dr16_call
  split <;> rfl

theorem call_failed (hk : keeps_failed f) (c : Call) (d : Jtdev σ) :
    (call f c d).dev.failed = d.failed := hk c d

theorem ir_shift_failed (hk : keeps_failed f) (ir : Nat) (d : Jtdev σ) :
    (jtag_ir_shift f ir d).dev.failed = d.failed := by
  rw [ir_shift_dev]; exact hk _ d

theorem dr_shift_16_failed (hk : keeps_failed f) (dr : Nat) (d : Jtdev σ) :
    (jtag_dr_shift_16 f dr d).dev.failed = d.failed := by
  rw [dr_shift_16_dev]; exact hk _ d

theorem ir_shift_and_read_failed (hk : keeps_failed f) (ir : Nat) (d : Jtdev σ) :
    (jtag_ir_shift_and_read f ir d).dev.failed = d.failed := hk _ d

theorem dr_shift_16_and_read_failed (hk : keeps_failed f) (dr : Nat) (d : Jtdev σ) :
    (jtag_dr_shift_16_and_read f dr d).dev.failed = d.failed := hk _ d

theorem flush_writes_failed (hk : keeps_failed f) (d : Jtdev σ) :
    (jtag_flush_writes f d).dev.failed = d.failed := by
  unfold jtag_flush_writes
  split
  · exact hk _ d
  · rfl

/-! ## Breakpoints: the three ranges of the slot index -/

/-- C13: for every slot index `bp_num >= 8` and every address, `jtag_set_breakpoint` returns 0,
sets `p->failed` to 1 and makes no call on the line-level interface; the transport's state is
untouched. -/
theorem set_breakpoint_slot_out_of_range (k : Defs) (bp_num : Int) (bp_addr : Nat)
    (d : Jtdev σ) (h : bp_num ≥ 8) :
    (jtag_set_breakpoint f k bp_num bp_addr d).val = 0 ∧
    (jtag_set_breakpoint f k bp_num bp_addr d).dev.failed = 1 ∧
    (jtag_set_breakpoint f k bp_num bp_addr d).dev.hw = d.hw ∧
    lines (jtag_set_breakpoint f k bp_num bp_addr d).log = [] := by
  simp only [jtag_set_breakpoint, bind_val, bind_dev, bind_log, ite_run, h, if_true]
  exact ⟨rfl, rfl, rfl, rfl⟩

theorem set_breakpoint_slot_out_of_range_witness :
    (8 : Int) ≥ 8 ∧
    (jtag_set_breakpoint (steady 0) defs0 8 0x8000 fresh).val = 0 ∧
    (jtag_set_breakpoint (steady 0) defs0 8 0x8000 fresh).dev.failed = 1 :=
  ⟨by decide,
    (set_breakpoint_slot_out_of_range (steady 0) defs0 8 0x8000 fresh (by decide)).1,
    (set_breakpoint_slot_out_of_range (steady 0) defs0 8 0x8000 fresh (by decide)).2.1⟩

/-- C14: for every negative slot index and every address, `jtag_set_breakpoint` makes exactly
three calls on the line-level interface: the instruction shift of the EEM data exchange (0x90)
and the data shifts of `BREAKREACT + WRITE` and of 0x0000; it returns 1; the session afterwards
is what the transport made of it in these three calls, so `p->failed` is unchanged unless the
transport writes it. -/
theorem set_breakpoint_disable_all (k : Defs) (bp_num : Int) (bp_addr : Nat) (d : Jtdev σ)
    (h : bp_num < 0) :
    lines (jtag_set_breakpoint f k bp_num bp_addr d).log
      = [ir_call f 0x90, dr16_call f (k.BREAKREACT + k.WRITE), dr16_call f 0x0000] ∧
    (jtag_set_breakpoint f k bp_num bp_addr d).val = 1 ∧
    (jtag_set_breakpoint f k bp_num bp_addr d).dev
      = (f.exec (dr16_call f 0x0000)
          (f.exec (dr16_call f (k.BREAKREACT + k.WRITE))
            (f.exec (ir_call f 0x90) d).2).2).2 ∧
    (keeps_failed f → (jtag_set_breakpoint f k bp_num bp_addr d).dev.failed = d.failed) := by
  have h8 : ¬ bp_num ≥ 8 := by omega
  have hdev : (jtag_set_breakpoint f k bp_num bp_addr d).dev
      = (f.exec (dr16_call f 0x0000)
          (f.exec (dr16_call f (k.BREAKREACT + k.WRITE))
            (f.exec (ir_call f 0x90) d).2).2).2 := by
    simp only [jtag_set_breakpoint, bind_dev, ite_run, h8, h, if_true, if_false, pure_run,
      dr_shift_16_dev, ir_shift_dev]
    rfl
  refine ⟨?_, ?_, hdev, ?_⟩
  · simp only [jtag_set_breakpoint, bind_log, ite_run, h8, h, if_true, if_false, lines_append,
      lines_enter, lines_ir_shift, lines_dr_shift_16, lines_pure, List.nil_append,
      List.append_nil, List.singleton_append]
    rfl
  · simp only [jtag_set_breakpoint, bind_val, ite_run, h8, h, if_true, if_false, pure_run]
  · intro hk
    rw [hdev, hk, hk, hk]

theorem set_breakpoint_disable_all_witness :
    (-1 : Int) < 0 ∧ keeps_failed (steady 0) ∧
    lines (jtag_set_breakpoint (steady 0) defs0 (-1) 0 fresh).log
      = [ir_call (steady 0) 0x90,
          dr16_call (steady 0) (defs0.BREAKREACT + defs0.WRITE),
          dr16_call (steady 0) 0x0000] ∧
    (jtag_set_breakpoint (steady 0) defs0 (-1) 0 fresh).dev.failed = fresh.failed :=
  ⟨by decide, fun _ _ => rfl,
    (set_breakpoint_disable_all (steady 0) defs0 (-1) 0 fresh (by decide)).1,
    (set_breakpoint_disable_all (steady 0) defs0 (-1) 0 fresh (by decide)).2.2.2
      (fun _ _ => rfl)⟩

theorem new_breakreact_bit (r1 r2 s : Nat) (hs : s < 8) :
    (new_breakreact r1 r2 s % 65536).testBit s = true := by
  have e : (65536 : Nat) = 2 ^ 16 := by norm_num
  unfold new_breakreact
  rw [e, Nat.testBit_mod_two_pow, Nat.testBit_or, Nat.one_shiftLeft, Nat.testBit_two_pow_self]
  simp
  omega

set_option maxRecDepth 100000 in
theorem new_breakreact_mask : ∀ m < 256, ∀ s < 8,
    new_breakreact 0 ((m <<< 1) ||| 1) s % 65536 = m ||| (1 <<< s) := by
  decide

theorem lines_set_breakpoint_reads (k : Defs) (s bp_addr : Nat) (d : Jtdev σ) :
    lines (set_breakpoint_reads f k s bp_addr d).log
      = [ir_call f 0x90, dr16_call f (k.GENCTRL + k.WRITE),
          dr16_call f (k.EEM_EN + k.CLEAR_STOP + k.EMU_CLK_EN + k.EMU_FEAT_EN),
          ir_call f 0x90, dr16_call f (8 * s + k.MBTRIGxVAL + k.WRITE), dr16_call f bp_addr,
          ir_call f 0x90, dr16_call f (8 * s + k.MBTRIGxCTL + k.WRITE),
          dr16_call f (k.MAB + k.TRIG_0 + k.CMP_EQUAL),
          ir_call f 0x90, dr16_call f (8 * s + k.MBTRIGxMSK + k.WRITE), dr16_call f k.NO_MASK,
          ir_call f 0x90, dr16_call f (8 * s + k.MBTRIGxCMB + k.WRITE), dr16_call f (1 <<< s),
          ir_call f 0x90, Call.jtdev_dr_shift_16 ((k.BREAKREACT + k.READ) % 65536),
          Call.jtdev_dr_shift_16 0] := by
  simp only [set_breakpoint_reads, bind_log, lines_append, lines_ir_shift, lines_dr_shift_16,
    lines_dr_shift_16_and_read, lines_pure, List.append_nil, List.singleton_append]
  rfl

theorem set_breakpoint_in_range (k : Defs) (s bp_addr : Nat) (d : Jtdev σ) (hs : s < 8) :
    (jtag_set_breakpoint f k (s : Int) bp_addr d).val = 1 ∧
    lines (jtag_set_breakpoint f k (s : Int) bp_addr d).log
      = lines (set_breakpoint_reads f k s bp_addr d).log
        ++ [dr16_call f (k.BREAKREACT + k.WRITE),
            dr16_call f (new_breakreact (set_breakpoint_reads f k s bp_addr d).val.1
              (set_breakpoint_reads f k s bp_addr d).val.2 s)]
        ++ flush_calls f := by
  have h8 : ¬ ((s : Int) ≥ 8) := by omega
  have h0 : ¬ ((s : Int) < 0) := by omega
  constructor
  · simp only [jtag_set_breakpoint, bind_val, ite_run, h8, h0, if_false, pure_run]
  · simp only [jtag_set_breakpoint, set_breakpoint_reads, new_breakreact, bind_log, bind_val,
      bind_dev, ite_run, h8, h0, if_false, pure_run, Int.toNat_ofNat, lines_append,
      lines_enter, lines_ir_shift, lines_dr_shift_16, lines_dr_shift_16_and_read,
      lines_flush_writes, lines_pure, List.nil_append, List.append_nil, List.singleton_append,
      List.cons_append, List.append_assoc]
    rfl

/-- C15: for every slot `s` in 0..7 and every address, `jtag_set_breakpoint` returns 1; its
calls on the line-level interface are the eighteen shifts up to the two reads of `BREAKREACT`,
then the data shifts of `BREAKREACT + WRITE` and of the new mask, then the flush; the new mask
has bit `s` set; and when the two reads captured 0 and `(m << 1) | 1` for an 8-slot mask `m`,
the new mask is exactly `m | (1 << s)`. -/
theorem set_breakpoint_arms_slot (k : Defs) (s bp_addr : Nat) (d : Jtdev σ) (hs : s < 8) :
    (jtag_set_breakpoint f k (s : Int) bp_addr d).val = 1 ∧
    lines (jtag_set_breakpoint f k (s : Int) bp_addr d).log
      = [ir_call f 0x90, dr16_call f (k.GENCTRL + k.WRITE),
          dr16_call f (k.EEM_EN + k.CLEAR_STOP + k.EMU_CLK_EN + k.EMU_FEAT_EN),
          ir_call f 0x90, dr16_call f (8 * s + k.MBTRIGxVAL + k.WRITE), dr16_call f bp_addr,
          ir_call f 0x90, dr16_call f (8 * s + k.MBTRIGxCTL + k.WRITE),
          dr16_call f (k.MAB + k.TRIG_0 + k.CMP_EQUAL),
          ir_call f 0x90, dr16_call f (8 * s + k.MBTRIGxMSK + k.WRITE), dr16_call f k.NO_MASK,
          ir_call f 0x90, dr16_call f (8 * s + k.MBTRIGxCMB + k.WRITE), dr16_call f (1 <<< s),
          ir_call f 0x90, Call.jtdev_dr_shift_16 ((k.BREAKREACT + k.READ) % 65536),
          Call.jtdev_dr_shift_16 0,
          dr16_call f (k.BREAKREACT + k.WRITE),
          dr16_call f (new_breakreact (set_breakpoint_reads f k s bp_addr d).val.1
            (set_breakpoint_reads f k s bp_addr d).val.2 s)]
        ++ flush_calls f ∧
    (new_breakreact (set_breakpoint_reads f k s bp_addr d).val.1
      (set_breakpoint_reads f k s bp_addr d).val.2 s % 65536).testBit s = true ∧
    (∀ m, m < 256 → (set_breakpoint_reads f k s bp_addr d).val.1 = 0 →
      (set_breakpoint_reads f k s bp_addr d).val.2 = (m <<< 1) ||| 1 →
      new_breakreact (set_breakpoint_reads f k s bp_addr d).val.1
        (set_breakpoint_reads f k s bp_addr d).val.2 s % 65536 = m ||| (1 <<< s)) := by
  refine ⟨(set_breakpoint_in_range f k s bp_addr d hs).1, ?_, new_breakreact_bit _ _ s hs, ?_⟩
  · rw [(set_breakpoint_in_range f k s bp_addr d hs).2, lines_set_breakpoint_reads]
    rfl
  · intro m hm h1 h2
    rw [h1, h2]
    exact new_breakreact_mask m hm s hs

theorem set_breakpoint_arms_slot_witness :
    (3 : Nat) < 8 ∧
    (jtag_set_breakpoint (steady 0) defs0 ((3 : Nat) : Int) 0x8000 fresh).val = 1 ∧
    (new_breakreact (set_breakpoint_reads (steady 0) defs0 3 0x8000 fresh).val.1
      (set_breakpoint_reads (steady 0) defs0 3 0x8000 fresh).val.2 3 % 65536).testBit 3 = true :=
  ⟨by decide, (set_breakpoint_arms_slot (steady 0) defs0 3 0x8000 fresh (by decide)).1,
    (set_breakpoint_arms_slot (steady 0) defs0 3 0x8000 fresh (by decide)).2.2.1⟩

/-! ## Bounded polling: the fuse check and `jtag_get_device` -/

theorem iter_session_failed {α : Type} (m : JT σ α)
    (hm : ∀ d : Jtdev σ, (m d).dev.failed = d.failed) (j : Nat) :
    ∀ d : Jtdev σ, (iter_session m j d).failed = d.failed := by
  induction j with
  | zero => intro d; rfl
  | succ i ih =>
    intro d
    simp only [iter_session]
    rw [ih, hm]

theorem iter_session_succ {α : Type} (m : JT σ α) (j : Nat) :
    ∀ d : Jtdev σ, iter_session m (j + 1) d = (m (iter_session m j d)).dev := by
  induction j with
  | zero => intro d; rfl
  | succ i ih =>
    intro d
    have h := ih (m d).dev
    simp only [iter_session] at h ⊢
    exact h

theorem fuse_attempt_failed (hk : keeps_failed f) (d : Jtdev σ) :
    (fuse_attempt f d).dev.failed = d.failed := by
  simp only [fuse_attempt, bind_dev]
  rw [dr_shift_16_and_read_failed f hk, ir_shift_failed f hk]

theorem lines_fuse_attempt (d : Jtdev σ) :
    lines (fuse_attempt f d).log = [ir_call f 0x28, Call.jtdev_dr_shift_16 0xAAAA] := by
  simp only [fuse_attempt, bind_log, lines_append, lines_ir_shift, lines_dr_shift_16_and_read,
    List.singleton_append]
  rfl

theorem fuse_blown_run (d : Jtdev σ) :
    (jtag_is_fuse_blown f d).val
        = (if capture_at (fuse_attempt f) 0 d = 0x5555 ∨ capture_at (fuse_attempt f) 1 d = 0x5555
              ∨ capture_at (fuse_attempt f) 2 d = 0x5555 then 1 else 0) ∧
    (jtag_is_fuse_blown f d).dev
        = iter_session (fuse_attempt f)
            (fuse_attempts (capture_at (fuse_attempt f) 0 d) (capture_at (fuse_attempt f) 1 d)) d ∧
    lines (jtag_is_fuse_blown f d).log
        = (List.range (fuse_attempts (capture_at (fuse_attempt f) 0 d)
            (capture_at (fuse_attempt f) 1 d))).flatMap
            (fun _ => [ir_call f 0x28, Call.jtdev_dr_shift_16 0xAAAA]) := by
  have e0 : capture_at (fuse_attempt f) 0 d = (fuse_attempt f d).val := rfl
  have e1 : capture_at (fuse_attempt f) 1 d = (fuse_attempt f (fuse_attempt f d).dev).val := rfl
  have e2 : capture_at (fuse_attempt f) 2 d
      = (fuse_attempt f (fuse_attempt f (fuse_attempt f d).dev).dev).val := rfl
  rw [e0, e1, e2]
  unfold fuse_attempts
  by_cases h0 : (fuse_attempt f d).val = 0x5555
  · simp only [jtag_is_fuse_blown, is_fuse_blown_loop, bind_val, bind_dev, bind_log, ite_run, h0,
      if_true, true_or, pure_run, lines_append, lines_fuse_attempt, lines_pure, List.append_nil]
    exact ⟨trivial, rfl, rfl⟩
  · by_cases h1 : (fuse_attempt f (fuse_attempt f d).dev).val = 0x5555
    · simp only [jtag_is_fuse_blown, is_fuse_blown_loop, bind_val, bind_dev, bind_log, ite_run,
        h0, h1, if_true, if_false, true_or, or_true, pure_run, lines_append, lines_fuse_attempt,
        lines_pure, List.append_nil]
      exact ⟨trivial, rfl, rfl⟩
    · by_cases h2 : (fuse_attempt f (fuse_attempt f (fuse_attempt f d).dev).dev).val = 0x5555
      · simp only [jtag_is_fuse_blown, is_fuse_blown_loop, bind_val, bind_dev, bind_log, ite_run,
          h0, h1, h2, if_true, if_false, or_true, pure_run, lines_append, lines_fuse_attempt,
          lines_pure, List.append_nil]
        exact ⟨trivial, rfl, rfl⟩
      · simp only [jtag_is_fuse_blown, is_fuse_blown_loop, bind_val, bind_dev, bind_log, ite_run,
          h0, h1, h2, if_false, or_self, pure_run, lines_append, lines_fuse_attempt,
          lines_pure, List.append_nil]
        exact ⟨trivial, rfl, rfl⟩

/-- C18: `jtag_is_fuse_blown` makes at most 3 attempts, each the instruction shift of the
control capture (0x28) followed by the data shift of 0xAAAA; it stops at the first attempt that
captures 0x5555 and returns 1, and returns 0 after exactly 3 attempts when none does; it never
assigns `p->failed`: the session afterwards is the one the attempts left. -/
theorem fuse_blown_iff_captured (d : Jtdev σ) :
    ((jtag_is_fuse_blown f d).val = 1 ↔
      ∃ j, j < 3 ∧ capture_at (fuse_attempt f) j d = 0x5555) ∧
    ((jtag_is_fuse_blown f d).val = 1 ∨ (jtag_is_fuse_blown f d).val = 0) ∧
    lines (jtag_is_fuse_blown f d).log
        = (List.range (fuse_attempts (capture_at (fuse_attempt f) 0 d)
            (capture_at (fuse_attempt f) 1 d))).flatMap
            (fun _ => [ir_call f 0x28, Call.jtdev_dr_shift_16 0xAAAA]) ∧
    fuse_attempts (capture_at (fuse_attempt f) 0 d) (capture_at (fuse_attempt f) 1 d) ≤ 3 ∧
    (∀ j, j + 1 < fuse_attempts (capture_at (fuse_attempt f) 0 d)
        (capture_at (fuse_attempt f) 1 d) → capture_at (fuse_attempt f) j d ≠ 0x5555) ∧
    ((jtag_is_fuse_blown f d).val = 0 →
      fuse_attempts (capture_at (fuse_attempt f) 0 d) (capture_at (fuse_attempt f) 1 d) = 3) ∧
    (jtag_is_fuse_blown f d).dev
        = iter_session (fuse_attempt f)
            (fuse_attempts (capture_at (fuse_attempt f) 0 d) (capture_at (fuse_attempt f) 1 d)) d ∧
    (keeps_failed f → (jtag_is_fuse_blown f d).dev.failed = d.failed) := by
  obtain ⟨hv, hd, hl⟩ := fuse_blown_run f d
  refine ⟨?_, ?_, hl, ?_, ?_, ?_, hd, ?_⟩
  · rw [hv]
    constructor
    · intro h
      split at h
      · rename_i hc
        rcases hc with hc | hc | hc
        · exact ⟨0, by omega, hc⟩
        · exact ⟨1, by omega, hc⟩
        · exact ⟨2, by omega, hc⟩
      · exact absurd h (by decide)
    · rintro ⟨j, hj, hc⟩
      have hj3 : j = 0 ∨ j = 1 ∨ j = 2 := by omega
      rcases hj3 with rfl | rfl | rfl
      · rw [if_pos (Or.inl hc)]
      · rw [if_pos (Or.inr (Or.inl hc))]
      · rw [if_pos (Or.inr (Or.inr hc))]
  · rw [hv]
    split
    · exact Or.inl rfl
    · exact Or.inr rfl
  · unfold fuse_attempts
    split
    · omega
    · split <;> omega
  · intro j hj
    unfold fuse_attempts at hj
    split at hj
    · omega
    · rename_i h0
      split at hj
      · have : j = 0 := by omega
        rw [this]; exact h0
      · rename_i h1
        have hj2 : j = 0 ∨ j = 1 := by omega
        rcases hj2 with rfl | rfl
        · exact h0
        · exact h1
  · intro h0
    rw [hv] at h0
    unfold fuse_attempts
    split at h0
    · exact absurd h0 (by decide)
    · rename_i hc
      rw [if_neg (fun h => hc (Or.inl h)), if_neg (fun h => hc (Or.inr (Or.inl h)))]
  · intro hk
    rw [hd, iter_session_failed _ (fuse_attempt_failed f hk)]

theorem fuse_blown_iff_captured_witness :
    keeps_failed (steady 0x5555) ∧
    (jtag_is_fuse_blown (steady 0x5555) fresh).val = 1 ∧
    (jtag_is_fuse_blown (steady 0) fresh).val = 0 ∧
    fuse_attempts (capture_at (fuse_attempt (steady 0)) 0 fresh)
      (capture_at (fuse_attempt (steady 0)) 1 fresh) = 3 ∧
    (jtag_is_fuse_blown (steady 0x5555) fresh).dev.failed = fresh.failed :=
  ⟨fun _ _ => rfl, by decide, by decide,
    (fuse_blown_iff_captured (steady 0) fresh).2.2.2.2.2.1 (by decide),
    (fuse_blown_iff_captured (steady 0x5555) fresh).2.2.2.2.2.2.2 (fun _ _ => rfl)⟩

theorem poll_failed (hk : keeps_failed f) (d : Jtdev σ) :
    (poll f d).dev.failed = d.failed := hk _ d

theorem get_device_loop_timeout (n : Nat) :
    ∀ d : Jtdev σ, (∀ j, j < n → capture_at (poll f) j d &&& 0x0200 ≠ 0x0200) →
      (get_device_loop f n d).val = 0 ∧
      (get_device_loop f n d).dev = iter_session (poll f) n d ∧
      lines (get_device_loop f n d).log = List.replicate n (Call.jtdev_dr_shift_16 0) := by
  induction n with
  | zero => intro d _; exact ⟨rfl, rfl, rfl⟩
  | succ m ih =>
    intro d h
    have h0 : ¬ ((jtag_dr_shift_16_and_read f 0x0000 d).val &&& 0x0200 = 0x0200) :=
      h 0 (by omega)
    have ht := ih (jtag_dr_shift_16_and_read f 0x0000 d).dev
      (fun j hj => h (j + 1) (by omega))
    simp only [get_device_loop, bind_val, bind_dev, bind_log, ite_run, h0, if_false,
      lines_append, lines_dr_shift_16_and_read, List.replicate_succ, List.singleton_append]
    exact ⟨ht.1, ht.2.1, by rw [ht.2.2]⟩

theorem get_device_loop_hit (j : Nat) :
    ∀ (n : Nat) (d : Jtdev σ), j < n →
      (∀ i, i < j → capture_at (poll f) i d &&& 0x0200 ≠ 0x0200) →
      capture_at (poll f) j d &&& 0x0200 = 0x0200 →
      (get_device_loop f n d).val = n - j ∧
      (get_device_loop f n d).dev = iter_session (poll f) (j + 1) d ∧
      lines (get_device_loop f n d).log = List.replicate (j + 1) (Call.jtdev_dr_shift_16 0) := by
  induction j with
  | zero =>
    intro n d hn _ hj
    obtain ⟨m, rfl⟩ : ∃ m, n = m + 1 := ⟨n - 1, by omega⟩
    have h0 : (jtag_dr_shift_16_and_read f 0x0000 d).val &&& 0x0200 = 0x0200 := hj
    simp only [get_device_loop, bind_val, bind_dev, bind_log, ite_run, h0, if_true, pure_run,
      lines_append, lines_dr_shift_16_and_read, lines_pure, List.append_nil]
    exact ⟨rfl, rfl, rfl⟩
  | succ i ih =>
    intro n d hn hlt hj
    obtain ⟨m, rfl⟩ : ∃ m, n = m + 1 := ⟨n - 1, by omega⟩
    have h0 : ¬ ((jtag_dr_shift_16_and_read f 0x0000 d).val &&& 0x0200 = 0x0200) :=
      hlt 0 (by omega)
    have ht := ih m (jtag_dr_shift_16_and_read f 0x0000 d).dev (by omega)
      (fun t ht => hlt (t + 1) (by omega)) hj
    simp only [get_device_loop, bind_val, bind_dev, bind_log, ite_run, h0, if_false,
      lines_append, lines_dr_shift_16_and_read, List.singleton_append]
    refine ⟨by rw [ht.1]; omega, ht.2.1, ?_⟩
    rw [ht.2.2]
    rfl

theorem lines_get_device_setup (d : Jtdev σ) :
    lines (get_device_setup f d).log
      = [ir_call f 0xC8, dr16_call f 0x2401, Call.jtdev_ir_shift 0x28] := by
  simp only [get_device_setup, bind_log, lines_append, lines_ir_shift, lines_dr_shift_16,
    lines_ir_shift_and_read, List.singleton_append]
  rfl

theorem get_device_setup_failed (hk : keeps_failed f) (d : Jtdev σ) :
    (get_device_setup f d).dev.failed = d.failed := by
  simp only [get_device_setup, bind_dev]
  rw [ir_shift_and_read_failed f hk, dr_shift_16_failed f hk, ir_shift_failed f hk]

theorem enter_dev (o : Op) (d : Jtdev σ) : ((enter o : JT σ Unit) d).dev = d := rfl

theorem get_device_result (d : Jtdev σ) :
    (jtag_get_device f d).val
      = (if (get_device_loop f 50 (get_device_setup f d).dev).val = 0 then 0
         else (get_device_setup f d).val) ∧
    (jtag_get_device f d).dev
      = (if (get_device_loop f 50 (get_device_setup f d).dev).val = 0 then
          { (get_device_loop f 50 (get_device_setup f d).dev).dev with failed := 1 }
         else (f.exec (Call.jtdev_led_green 1)
          (get_device_loop f 50 (get_device_setup f d).dev).dev).2) ∧
    lines (jtag_get_device f d).log
      = lines (get_device_setup f d).log
        ++ lines (get_device_loop f 50 (get_device_setup f d).dev).log
        ++ (if (get_device_loop f 50 (get_device_setup f d).dev).val = 0 then []
            else [Call.jtdev_led_green 1]) := by
  have hV : (get_device_setup f d).val = (jtag_ir_shift_and_read f IR_CNTRL_SIG_CAPTURE
      (jtag_dr_shift_16 f 0x2401 (jtag_ir_shift f IR_CNTRL_SIG_16BIT d).dev).dev).val := rfl
  have hS : (get_device_setup f d).dev = (jtag_ir_shift_and_read f IR_CNTRL_SIG_CAPTURE
      (jtag_dr_shift_16 f 0x2401 (jtag_ir_shift f IR_CNTRL_SIG_16BIT d).dev).dev).dev := rfl
  rw [lines_get_device_setup, hV, hS]
  by_cases h : (get_device_loop f 50 (jtag_ir_shift_and_read f IR_CNTRL_SIG_CAPTURE
        (jtag_dr_shift_16 f 0x2401 (jtag_ir_shift f IR_CNTRL_SIG_16BIT d).dev).dev).dev).val = 0
  · simp only [jtag_get_device, bind_val, bind_dev, bind_log, ite_run, enter_dev, h, if_true,
      lines_append, lines_enter, lines_ir_shift, lines_dr_shift_16, lines_ir_shift_and_read,
      lines_set_failed, lines_pure, List.nil_append, List.singleton_append, List.cons_append,
      List.append_nil]
    exact ⟨rfl, rfl, rfl⟩
  · simp only [jtag_get_device, bind_val, bind_dev, bind_log, ite_run, enter_dev, h, if_false,
      lines_append, lines_enter, lines_ir_shift, lines_dr_shift_16, lines_ir_shift_and_read,
      jtag_led_green_on, lines_call, lines_pure, List.nil_append, List.singleton_append,
      List.cons_append, List.append_nil]
    exact ⟨rfl, rfl, rfl⟩

theorem get_device_timeout (d : Jtdev σ)
    (h : ∀ j, j < 50 →
      capture_at (poll f) j (get_device_setup f d).dev &&& 0x0200 ≠ 0x0200) :
    (jtag_get_device f d).val = 0 ∧ (jtag_get_device f d).dev.failed = 1 ∧
    lines (jtag_get_device f d).log
      = [ir_call f 0xC8, dr16_call f 0x2401, Call.jtdev_ir_shift 0x28]
        ++ List.replicate 50 (Call.jtdev_dr_shift_16 0) := by
  obtain ⟨hv, hd, hl⟩ := get_device_result f d
  obtain ⟨lv, _, ll⟩ := get_device_loop_timeout f 50 (get_device_setup f d).dev h
  rw [hv, hd, hl, if_pos lv, if_pos lv, if_pos lv, ll, lines_get_device_setup, List.append_nil]
  exact ⟨rfl, rfl, rfl⟩

theorem get_device_hit (d : Jtdev σ) (j : Nat) (hj : j < 50)
    (hlt : ∀ i, i < j →
      capture_at (poll f) i (get_device_setup f d).dev &&& 0x0200 ≠ 0x0200)
    (hhit : capture_at (poll f) j (get_device_setup f d).dev &&& 0x0200 = 0x0200) :
    (jtag_get_device f d).val = (get_device_setup f d).val ∧
    lines (jtag_get_device f d).log
      = [ir_call f 0xC8, dr16_call f 0x2401, Call.jtdev_ir_shift 0x28]
        ++ List.replicate (j + 1) (Call.jtdev_dr_shift_16 0) ++ [Call.jtdev_led_green 1] ∧
    (jtag_get_device f d).dev
      = (f.exec (Call.jtdev_led_green 1)
          (iter_session (poll f) (j + 1) (get_device_setup f d).dev)).2 ∧
    (keeps_failed f → (jtag_get_device f d).dev.failed = d.failed) := by
  obtain ⟨hv, hd, hl⟩ := get_device_result f d
  obtain ⟨lv, ld, ll⟩ := get_device_loop_hit f j 50 (get_device_setup f d).dev hj hlt hhit
  have hne : ¬ (get_device_loop f 50 (get_device_setup f d).dev).val = 0 := by
    rw [lv]; omega
  have hdev : (jtag_get_device f d).dev
      = (f.exec (Call.jtdev_led_green 1)
          (iter_session (poll f) (j + 1) (get_device_setup f d).dev)).2 := by
    rw [hd, if_neg hne, ld]
  refine ⟨by rw [hv, if_neg hne], ?_, hdev, ?_⟩
  · rw [hl, if_neg hne, ll, lines_get_device_setup]
  · intro hk
    rw [hdev, hk, iter_session_failed _ (poll_failed f hk), get_device_setup_failed f hk]

/-- C19: `jtag_get_device` makes at most 50 polling data shifts after its three set-up shifts.
If none of the 50 captures has bit 0x0200 it returns 0 with `p->failed` set, after exactly 50
polls and without switching the green indicator on. Otherwise it stops at the first capture `j`
with that bit, switches the green indicator on, assigns nothing to `p->failed`, and returns the
8-bit value captured by the instruction shift of the control capture. For a transport that does
not write the flag and a session not failed before, `p->failed` is set and 0 is returned if and
only if none of the 50 captures has the bit. -/
theorem get_device_polling (d : Jtdev σ) :
    (get_device_setup f d).val < 256 ∧
    ((∀ j, j < 50 →
        capture_at (poll f) j (get_device_setup f d).dev &&& 0x0200 ≠ 0x0200) →
      (jtag_get_device f d).val = 0 ∧ (jtag_get_device f d).dev.failed = 1 ∧
      lines (jtag_get_device f d).log
        = [ir_call f 0xC8, dr16_call f 0x2401, Call.jtdev_ir_shift 0x28]
          ++ List.replicate 50 (Call.jtdev_dr_shift_16 0)) ∧
    (∀ j, j < 50 →
      (∀ i, i < j →
        capture_at (poll f) i (get_device_setup f d).dev &&& 0x0200 ≠ 0x0200) →
      capture_at (poll f) j (get_device_setup f d).dev &&& 0x0200 = 0x0200 →
      (jtag_get_device f d).val = (get_device_setup f d).val ∧
      lines (jtag_get_device f d).log
        = [ir_call f 0xC8, dr16_call f 0x2401, Call.jtdev_ir_shift 0x28]
          ++ List.replicate (j + 1) (Call.jtdev_dr_shift_16 0) ++ [Call.jtdev_led_green 1] ∧
      (jtag_get_device f d).dev
        = (f.exec (Call.jtdev_led_green 1)
            (iter_session (poll f) (j + 1) (get_device_setup f d).dev)).2 ∧
      (keeps_failed f → (jtag_get_device f d).dev.failed = d.failed)) ∧
    (keeps_failed f → d.failed = 0 →
      (((jtag_get_device f d).dev.failed = 1 ∧ (jtag_get_device f d).val = 0) ↔
        ∀ j, j < 50 →
          capture_at (poll f) j (get_device_setup f d).dev &&& 0x0200 ≠ 0x0200)) := by
  refine ⟨?_, get_device_timeout f d, get_device_hit f d, ?_⟩
  · simp only [get_device_setup, bind_val, jtag_ir_shift_and_read, pure_run]
    exact Nat.mod_lt _ (by norm_num)
  · intro hk h0
    constructor
    · rintro ⟨hf, _⟩
      by_contra hcon
      have hex : ∃ j, j < 50 ∧
          capture_at (poll f) j (get_device_setup f d).dev &&& 0x0200 = 0x0200 := by
        by_contra hno
        apply hcon
        intro j hj hc
        exact hno ⟨j, hj, hc⟩
      have hmin : ∀ i, i < Nat.find hex →
          capture_at (poll f) i (get_device_setup f d).dev &&& 0x0200 ≠ 0x0200 := by
        intro i hi hc
        exact Nat.find_min hex hi ⟨by have := (Nat.find_spec hex).1; omega, hc⟩
      have hfail := (get_device_hit f d (Nat.find hex) (Nat.find_spec hex).1 hmin
        (Nat.find_spec hex).2).2.2.2 hk
      rw [hf, h0] at hfail
      exact absurd hfail (by decide)
    · intro h
      exact ⟨(get_device_timeout f d h).2.1, (get_device_timeout f d h).1⟩

theorem get_device_polling_witness :
    keeps_failed (steady 0x0289) ∧ fresh.failed = 0 ∧
    (∀ j, j < 50 →
      capture_at (poll (steady 0)) j (get_device_setup (steady 0) fresh).dev &&& 0x0200
        ≠ 0x0200) ∧
    (jtag_get_device (steady 0) fresh).val = 0 ∧
    (jtag_get_device (steady 0) fresh).dev.failed = 1 ∧
    (0 : Nat) < 50 ∧
    capture_at (poll (steady 0x0289)) 0 (get_device_setup (steady 0x0289) fresh).dev &&& 0x0200
      = 0x0200 ∧
    (jtag_get_device (steady 0x0289) fresh).val = 0x89 ∧
    (jtag_get_device (steady 0x0289) fresh).dev.failed = fresh.failed :=
  have ht : ∀ j, j < 50 →
      capture_at (poll (steady 0)) j (get_device_setup (steady 0) fresh).dev &&& 0x0200
        ≠ 0x0200 := by decide
  have hh := (get_device_polling (steady 0x0289) fresh).2.2.1 0 (by decide)
    (fun i hi => absurd hi (by omega)) (by decide)
  ⟨fun _ _ => rfl, rfl, ht, ((get_device_polling (steady 0) fresh).2.1 ht).1,
    ((get_device_polling (steady 0) fresh).2.1 ht).2.1, by decide, by decide, hh.1,
    hh.2.2.2 (fun _ _ => rfl)⟩

/-! ## Taking the device under control: `jtag_init` -/

theorem init_run (d : Jtdev σ) :
    (jtag_init f d).val
      = (if (init_fuse f d).val ≠ 0 then 0
         else if (init_device f d).val = 0 then 0
         else if (init_puc f d).val ≠ (init_device f d).val then 0
         else (init_device f d).val) ∧
    (jtag_init f d).dev
      = (if (init_fuse f d).val ≠ 0 then { (init_fuse f d).dev with failed := 1 }
         else if (init_device f d).val = 0 then { (init_device f d).dev with failed := 1 }
         else if (init_puc f d).val ≠ (init_device f d).val then
          { (init_puc f d).dev with failed := 1 }
         else (init_puc f d).dev) := by
  have e1 : init_fuse f d = jtag_is_fuse_blown f (jtag_init_dap f d).dev := rfl
  have e2 : init_device f d
      = jtag_get_device f (jtag_is_fuse_blown f (jtag_init_dap f d).dev).dev := rfl
  have e3 : init_puc f d = jtag_execute_puc f
      (jtag_get_device f (jtag_is_fuse_blown f (jtag_init_dap f d).dev).dev).dev := rfl
  rw [e1, e2, e3]
  by_cases h1 : (jtag_is_fuse_blown f (jtag_init_dap f d).dev).val = 0
  · by_cases h2 : (jtag_get_device f (jtag_is_fuse_blown f (jtag_init_dap f d).dev).dev).val = 0
    · simp only [jtag_init, bind_val, bind_dev, ite_run, h1, h2, ne_eq, not_true_eq_false,
        if_false, if_true, pure_run]
      exact ⟨trivial, rfl⟩
    · by_cases h3 : (jtag_execute_puc f
          (jtag_get_device f (jtag_is_fuse_blown f (jtag_init_dap f d).dev).dev).dev).val
          = (jtag_get_device f (jtag_is_fuse_blown f (jtag_init_dap f d).dev).dev).val
      · simp only [jtag_init, bind_val, bind_dev, ite_run, h1, h2, h3, ne_eq,
          not_true_eq_false, if_false, pure_run]
        exact ⟨trivial, trivial⟩
      · simp only [jtag_init, bind_val, bind_dev, ite_run, h1, h2, h3, ne_eq,
          not_true_eq_false, not_false_eq_true, if_false, if_true, pure_run]
        exact ⟨trivial, rfl⟩
  · simp only [jtag_init, bind_val, bind_dev, ite_run, h1, ne_eq, not_false_eq_true, if_true,
      pure_run]
    exact ⟨trivial, rfl⟩

/-- C20: `jtag_init` returns a non-zero value exactly when the fuse check returned 0 (not
blown), `jtag_get_device` returned a non-zero id and `jtag_execute_puc` returned that same id;
it then returns that id, without assigning `p->failed`; in every other case it returns 0 with
`p->failed` set to 1. On a target that answers 0x0289 to every shift it returns 0x89 and the
session has not failed. -/
theorem init_returns_id (d : Jtdev σ) :
    ((jtag_init f d).val ≠ 0 ↔
      ((init_fuse f d).val = 0 ∧ (init_device f d).val ≠ 0 ∧
        (init_puc f d).val = (init_device f d).val)) ∧
    ((jtag_init f d).val ≠ 0 →
      (jtag_init f d).val = (init_device f d).val ∧
      (jtag_init f d).dev = (init_puc f d).dev) ∧
    ((jtag_init f d).val = 0 → (jtag_init f d).dev.failed = 1) ∧
    (jtag_init (steady 0x0289) fresh).val = 0x89 ∧
    (jtag_init (steady 0x0289) fresh).dev.failed = 0 := by
  obtain ⟨hv, hd⟩ := init_run f d
  refine ⟨?_, ?_, ?_, by decide, by decide⟩
  · rw [hv]
    by_cases h1 : (init_fuse f d).val = 0
    · by_cases h2 : (init_device f d).val = 0
      · simp [h1, h2]
      · by_cases h3 : (init_puc f d).val = (init_device f d).val
        · simp [h1, h2, h3]
        · simp [h1, h2, h3]
    · simp [h1]
  · rw [hv, hd]
    by_cases h1 : (init_fuse f d).val = 0
    · by_cases h2 : (init_device f d).val = 0
      · simp [h1, h2]
      · by_cases h3 : (init_puc f d).val = (init_device f d).val
        · simp [h1, h2, h3]
        · simp [h1, h2, h3]
    · simp [h1]
  · rw [hv, hd]
    by_cases h1 : (init_fuse f d).val = 0
    · by_cases h2 : (init_device f d).val = 0
      · simp [h1, h2]
      · by_cases h3 : (init_puc f d).val = (init_device f d).val
        · simp [h1, h2, h3]
        · simp [h1, h2, h3]
    · simp [h1]

theorem init_returns_id_witness :
    (jtag_init (steady 0x0289) fresh).val ≠ 0 ∧
    (jtag_init (steady 0x0289) fresh).val = (init_device (steady 0x0289) fresh).val ∧
    (jtag_init (steady 0) fresh).val = 0 ∧
    (jtag_init (steady 0) fresh).dev.failed = 1 :=
  ⟨by decide, ((init_returns_id (steady 0x0289) fresh).2.1 (by decide)).1, by decide,
    (init_returns_id (steady 0) fresh).2.2.1 (by decide)⟩

/-! ## Flash write: the timeout of a block -/

theorem write_flash_loop_timeout (k : Defs) (start length : Nat) (data : Nat → Nat)
    (hnw : length + k.FLASH_CODE_BLOCK_LEN ≤ 2 ^ 32) (K : Nat) :
    ∀ (base fuel : Nat) (d : Jtdev σ), K < fuel →
      (∀ i, i ≤ K → (base + i) * k.FLASH_CODE_BLOCK_LEN < length) →
      (∀ i, i < K →
        (write_flash_block f k start length data ((base + i) * k.FLASH_CODE_BLOCK_LEN)
          (write_flash_session f k start length data base i d)).val = 0) →
      (write_flash_block f k start length data ((base + K) * k.FLASH_CODE_BLOCK_LEN)
          (write_flash_session f k start length data base K d)).val ≠ 0 →
      (write_flash_loop f k start length data fuel (base * k.FLASH_CODE_BLOCK_LEN) d).val
          = LoopEnd.timed_out ∧
      (write_flash_loop f k start length data fuel (base * k.FLASH_CODE_BLOCK_LEN) d).dev.failed
          = 1 ∧
      ops (write_flash_loop f k start length data fuel (base * k.FLASH_CODE_BLOCK_LEN) d).log
          = (List.range' base (K + 1)).flatMap
              (fun j => block_ops k start length data (j * k.FLASH_CODE_BLOCK_LEN))
            ++ [Op.read_mem_quick k.FLASH_CODE_RAM_START 4,
                Op.write_reg 0 ((k.FLASH_CODE_RAM_START + 2 ^ 32 - 4) % 2 ^ 32)] := by
  induction K with
  | zero =>
    intro base fuel d hf hin _ hK
    obtain ⟨m, rfl⟩ : ∃ m, fuel = m + 1 := ⟨fuel - 1, by omega⟩
    have hlt : base * k.FLASH_CODE_BLOCK_LEN < length := by
      have := hin 0 (le_refl _)
      rwa [Nat.add_zero] at this
    have hv : ¬ (write_flash_block f k start length data (base * k.FLASH_CODE_BLOCK_LEN) d).val
        = 0 := by
      have := hK
      rwa [Nat.add_zero] at this
    simp only [write_flash_loop, hlt, if_true, bind_val, bind_dev, bind_log, ite_run, hv, ne_eq,
      not_false_eq_true, pure_run, ops_append, ops_write_flash_block, ops_read_mem_quick,
      ops_set_failed, ops_pure, List.append_nil]
    refine ⟨trivial, rfl, ?_⟩
    rw [Nat.zero_add, List.range'_one, List.flatMap_cons, List.flatMap_nil, List.append_nil]
    rfl
  | succ K ih =>
    intro base fuel d hf hin h0 hK
    obtain ⟨m, rfl⟩ : ∃ m, fuel = m + 1 := ⟨fuel - 1, by omega⟩
    have hlt : base * k.FLASH_CODE_BLOCK_LEN < length := by
      have := hin 0 (by omega)
      rwa [Nat.add_zero] at this
    have hv : (write_flash_block f k start length data (base * k.FLASH_CODE_BLOCK_LEN) d).val
        = 0 := by
      have := h0 0 (by omega)
      rwa [Nat.add_zero] at this
    have hnext : (base * k.FLASH_CODE_BLOCK_LEN + k.FLASH_CODE_BLOCK_LEN) % 2 ^ 32
        = (base + 1) * k.FLASH_CODE_BLOCK_LEN := by
      rw [Nat.add_mul, Nat.one_mul]
      apply Nat.mod_eq_of_lt
      omega
    have e : ∀ i, base + (i + 1) = base + 1 + i := fun i => by omega
    have hrec := ih (base + 1) m
      (write_flash_block f k start length data (base * k.FLASH_CODE_BLOCK_LEN) d).dev
      (by omega)
      (fun i hi => by have := hin (i + 1) (by omega); rwa [e] at this)
      (fun i hi => by have := h0 (i + 1) (by omega); rwa [e] at this)
      (by have := hK; rwa [e] at this)
    rw [List.range'_succ, List.flatMap_cons]
    simp only [write_flash_loop, hlt, if_true, bind_val, bind_dev, bind_log, ite_run, hv, ne_eq,
      not_true_eq_false, if_false, hnext, ops_append, ops_write_flash_block, List.append_assoc]
    exact ⟨hrec.1, hrec.2.1, by rw [hrec.2.2]⟩

theorem write_flash_blocks_timeout (k : Defs) (start n : Nat) (data : Nat → Nat) (d : Jtdev σ)
    (K : Nat) (hpos : 0 < k.FLASH_CODE_BLOCK_LEN)
    (hnw : n * 2 % 2 ^ 32 + k.FLASH_CODE_BLOCK_LEN ≤ 2 ^ 32)
    (hin : K * k.FLASH_CODE_BLOCK_LEN < n * 2 % 2 ^ 32)
    (h0 : ∀ i, i < K →
      write_flash_read f k start (n * 2 % 2 ^ 32) data i (write_flash_entry f k d) = 0)
    (hK : write_flash_read f k start (n * 2 % 2 ^ 32) data K (write_flash_entry f k d) ≠ 0) :
    (write_flash_blocks f k start n data d).val = LoopEnd.timed_out ∧
    (write_flash_blocks f k start n data d).dev.failed = 1 ∧
    ops (write_flash_blocks f k start n data d).log
      = [Op.write_mem_quick k.FLASH_CODE_START (upload_words k.flash_code_blob),
          Op.write_reg 0 ((k.FLASH_CODE_START + 2 ^ 32 - 4) % 2 ^ 32)]
        ++ ((List.range (K + 1)).flatMap
              (fun j => block_ops k start (n * 2 % 2 ^ 32) data (j * k.FLASH_CODE_BLOCK_LEN))
            ++ [Op.read_mem_quick k.FLASH_CODE_RAM_START 4,
                Op.write_reg 0 ((k.FLASH_CODE_RAM_START + 2 ^ 32 - 4) % 2 ^ 32)]) := by
  have hfuel : K < n * 2 % 2 ^ 32 := by
    have := Nat.le_mul_of_pos_right K hpos
    omega
  have hloop := write_flash_loop_timeout f k start (n * 2 % 2 ^ 32) data hnw K 0
    (n * 2 % 2 ^ 32) (write_flash_entry f k d) hfuel
    (fun i hi => by
      rw [Nat.zero_add]
      have := Nat.mul_le_mul_right k.FLASH_CODE_BLOCK_LEN hi
      omega)
    (fun i hi => by
      have := h0 i hi
      unfold write_flash_read at this
      rwa [Nat.zero_add])
    (by
      have := hK
      unfold write_flash_read at this
      rwa [Nat.zero_add])
  rw [Nat.zero_mul, ← List.range_eq_range'] at hloop
  unfold write_flash_entry at hloop
  simp only [write_flash_blocks, bind_val, bind_dev, bind_log, ops_append, ops_led_red_on,
    ops_write_mem_quick, List.nil_append]
  exact ⟨hloop.1, hloop.2.1, by rw [hloop.2.2]; rfl⟩

/-- C11: in `jtag_write_flash`, with a positive block length and a byte length that `index`
can run past without wrapping, if the word read at `FLASH_CODE_RAM_START` after the wait is 0
for the blocks before block `K` and non-zero for block `K`, the function ends with `p->failed`
set right after the diagnostic read-back of the header. Its block writes are the routine
upload and the data and header of the blocks 0 to `K` only, without any trap words; the device
was released `K + 1` times. -/
theorem write_flash_timeout (k : Defs) (start n : Nat) (data : Nat → Nat) (d : Jtdev σ)
    (K : Nat) (hpos : 0 < k.FLASH_CODE_BLOCK_LEN)
    (hnw : n * 2 % 2 ^ 32 + k.FLASH_CODE_BLOCK_LEN ≤ 2 ^ 32)
    (hin : K * k.FLASH_CODE_BLOCK_LEN < n * 2 % 2 ^ 32)
    (h0 : ∀ i, i < K →
      write_flash_read f k start (n * 2 % 2 ^ 32) data i (write_flash_entry f k d) = 0)
    (hK : write_flash_read f k start (n * 2 % 2 ^ 32) data K (write_flash_entry f k d) ≠ 0) :
    (jtag_write_flash f k start n data d).dev.failed = 1 ∧
    (jtag_write_flash f k start n data d).log = (write_flash_blocks f k start n data d).log ∧
    ops (jtag_write_flash f k start n data d).log
      = [Op.write_mem_quick k.FLASH_CODE_START (upload_words k.flash_code_blob),
          Op.write_reg 0 ((k.FLASH_CODE_START + 2 ^ 32 - 4) % 2 ^ 32)]
        ++ ((List.range (K + 1)).flatMap
              (fun j => block_ops k start (n * 2 % 2 ^ 32) data (j * k.FLASH_CODE_BLOCK_LEN))
            ++ [Op.read_mem_quick k.FLASH_CODE_RAM_START 4,
                Op.write_reg 0 ((k.FLASH_CODE_RAM_START + 2 ^ 32 - 4) % 2 ^ 32)]) ∧
    mem_writes (jtag_write_flash f k start n data d).log
      = (k.FLASH_CODE_START, upload_words k.flash_code_blob) ::
        (List.range (K + 1)).flatMap (fun j =>
          [(k.FLASH_CODE_BLOCK_START,
              (List.range (this_block k (n * 2 % 2 ^ 32) (j * k.FLASH_CODE_BLOCK_LEN) / 2)).map
                (fun i => data (j * k.FLASH_CODE_BLOCK_LEN / 2 + i) % 65536)),
            (k.FLASH_CODE_RAM_START,
              [this_block k (n * 2 % 2 ^ 32) (j * k.FLASH_CODE_BLOCK_LEN) / 2 % 65536,
                k.FLASH_CODE_BLOCK_START % 65536,
                (start + j * k.FLASH_CODE_BLOCK_LEN) % 65536, 0])]) ∧
    releases (jtag_write_flash f k start n data d).log
      = List.replicate (K + 1) k.FLASH_CODE_START := by
  obtain ⟨hv, hf, ho⟩ := write_flash_blocks_timeout f k start n data d K hpos hnw hin h0 hK
  have hne : ¬ (write_flash_blocks f k start n data d).val = LoopEnd.completed := by
    rw [hv]; decide
  have hlog : (jtag_write_flash f k start n data d).log
      = (write_flash_blocks f k start n data d).log := by
    simp only [jtag_write_flash, bind_log, ite_run, hne, if_false, pure_run, List.append_nil]
  have hdev : (jtag_write_flash f k start n data d).dev
      = (write_flash_blocks f k start n data d).dev := by
    simp only [jtag_write_flash, bind_dev, ite_run, hne, if_false, pure_run]
  refine ⟨by rw [hdev, hf], hlog, by rw [hlog, ho], ?_, ?_⟩
  · unfold mem_writes
    rw [hlog, ho]
    simp only [List.filterMap_append, filterMap_flatMap, block_ops_writes, Nat.mod_mod]
    have e1 : List.filterMap Op.as_write
        [Op.write_mem_quick k.FLASH_CODE_START (upload_words k.flash_code_blob),
          Op.write_reg 0 ((k.FLASH_CODE_START + 2 ^ 32 - 4) % 2 ^ 32)]
        = [(k.FLASH_CODE_START, upload_words k.flash_code_blob)] := rfl
    have e2 : List.filterMap Op.as_write
        [Op.read_mem_quick k.FLASH_CODE_RAM_START 4,
          Op.write_reg 0 ((k.FLASH_CODE_RAM_START + 2 ^ 32 - 4) % 2 ^ 32)] = [] := rfl
    rw [e1, e2, List.append_nil]
    rfl
  · unfold releases
    rw [hlog, ho]
    simp only [List.filterMap_append, filterMap_flatMap, block_ops_releases,
      flatMap_const_singleton]
    have e1 : List.filterMap Op.as_release
        [Op.write_mem_quick k.FLASH_CODE_START (upload_words k.flash_code_blob),
          Op.write_reg 0 ((k.FLASH_CODE_START + 2 ^ 32 - 4) % 2 ^ 32)] = [] := rfl
    have e2 : List.filterMap Op.as_release
        [Op.read_mem_quick k.FLASH_CODE_RAM_START 4,
          Op.write_reg 0 ((k.FLASH_CODE_RAM_START + 2 ^ 32 - 4) % 2 ^ 32)] = [] := rfl
    rw [e1, e2, List.append_nil, List.nil_append]

theorem write_flash_timeout_witness :
    0 < defs0.FLASH_CODE_BLOCK_LEN ∧
    3 * 2 % 2 ^ 32 + defs0.FLASH_CODE_BLOCK_LEN ≤ 2 ^ 32 ∧
    0 * defs0.FLASH_CODE_BLOCK_LEN < 3 * 2 % 2 ^ 32 ∧
    write_flash_read (steady 1) defs0 0x8000 (3 * 2 % 2 ^ 32) (fun i => i + 1) 0
      (write_flash_entry (steady 1) defs0 fresh) ≠ 0 ∧
    (jtag_write_flash (steady 1) defs0 0x8000 3 (fun i => i + 1) fresh).dev.failed = 1 ∧
    releases (jtag_write_flash (steady 1) defs0 0x8000 3 (fun i => i + 1) fresh).log
      = List.replicate (0 + 1) defs0.FLASH_CODE_START :=
  have h := write_flash_timeout (steady 1) defs0 0x8000 3 (fun i => i + 1) fresh 0
    (by decide) (by decide) (by decide) (fun i hi => absurd hi (by omega)) (by decide)
  ⟨by decide, by decide, by decide, by decide, h.1, h.2.2.2.2⟩

/-! ## Verification mismatch and the failure flag -/

theorem verify_psa_dev (start length : Nat) (data : Option (Nat → Nat)) (d : Jtdev σ) :
    (jtag_verify_psa f start length data d).dev = (verify_psa_run f start length data d).dev ∧
    (jtag_verify_psa f start length data d).val
      = (if (verify_psa_run f start length data d).val.1
            = (verify_psa_run f start length data d).val.2 then 1 else 0) := by
  simp only [jtag_verify_psa, bind_dev, bind_val, pure_run]
  exact ⟨trivial, trivial⟩

theorem fast_verify_dev_finished (k : Defs) (a L : Nat) (data : Nat → Nat) (d : Jtdev σ)
    (h : (fast_verify_run f k a (L * 2 % 2 ^ 32) d).val.getD 0 0 = 0) :
    (jtag_fast_verify_mem f k a L data d).dev
      = (jtag_led_green_off f
          (jtag_write_mem_quick f k.FLASH_CODE_RAM_START
            ((flash_verify_image (a % 65536) (L * 2 % 2 ^ 32 % 65536) 0
              k.flash_verify_blob).length / 2) boom
            (fast_verify_run f k a (L * 2 % 2 ^ 32) d).dev).dev).dev := by
  have h3 := fast_verify_run_length f k a (L * 2 % 2 ^ 32) d
  have e0 := getD_of_lt (fast_verify_run f k a (L * 2 % 2 ^ 32) d).val 0 (a % 65536) 0
    (by omega)
  simp only [jtag_fast_verify_mem, bind_dev, ite_run, e0, h, ne_eq, not_true_eq_false, if_false]
  split <;> rfl

/-- C12 as the code has it: a verification mismatch is reported by the return value alone.
When `jtag_fast_verify_mem` finds the routine finished (data field 0), the session it leaves is
the one left by the trap overwrite and the indicator call, whether the crc matched or not; and
`jtag_verify_mem` and `jtag_erase_check` return 1 on equal PSA values and 0 otherwise, leaving
the session as the shifts before the comparison left it. In neither case is `p->failed`
assigned. -/
theorem verify_mismatch_leaves_flag (k : Defs) (a L : Nat) (data : Nat → Nat)
    (start length : Nat) (d : Jtdev σ) :
    ((fast_verify_run f k a (L * 2 % 2 ^ 32) d).val.getD 0 0 = 0 →
      (jtag_fast_verify_mem f k a L data d).dev
        = (jtag_led_green_off f
            (jtag_write_mem_quick f k.FLASH_CODE_RAM_START
              ((flash_verify_image (a % 65536) (L * 2 % 2 ^ 32 % 65536) 0
                k.flash_verify_blob).length / 2) boom
              (fast_verify_run f k a (L * 2 % 2 ^ 32) d).dev).dev).dev) ∧
    (jtag_verify_mem f start length data d).dev
      = (verify_psa_run f start length (some data) d).dev ∧
    (jtag_verify_mem f start length data d).val
      = (if (verify_psa_run f start length (some data) d).val.1
            = (verify_psa_run f start length (some data) d).val.2 then 1 else 0) ∧
    (jtag_erase_check f start length d).dev = (verify_psa_run f start length none d).dev ∧
    (jtag_erase_check f start length d).val
      = (if (verify_psa_run f start length none d).val.1
            = (verify_psa_run f start length none d).val.2 then 1 else 0) :=
  ⟨fast_verify_dev_finished f k a L data d,
    (verify_psa_dev f start length (some data) d).1,
    (verify_psa_dev f start length (some data) d).2,
    (verify_psa_dev f start length none d).1,
    (verify_psa_dev f start length none d).2⟩

theorem verify_mismatch_leaves_flag_witness :
    (fast_verify_run (sim_target 0) defs0 0x8000 (2 * 2 % 2 ^ 32) fresh_sim).val.getD 0 0 = 0 ∧
    (jtag_fast_verify_mem (sim_target 0) defs0 0x8000 2 (fun i => i + 1) fresh_sim).dev
      = (jtag_led_green_off (sim_target 0)
          (jtag_write_mem_quick (sim_target 0) defs0.FLASH_CODE_RAM_START
            ((flash_verify_image (0x8000 % 65536) (2 * 2 % 2 ^ 32 % 65536) 0
              defs0.flash_verify_blob).length / 2) boom
            (fast_verify_run (sim_target 0) defs0 0x8000 (2 * 2 % 2 ^ 32) fresh_sim).dev).dev).dev :=
  ⟨by decide,
    (verify_mismatch_leaves_flag (sim_target 0) defs0 0x8000 2 (fun i => i + 1) 0 0
      fresh_sim).1 (by decide)⟩

/-- C12 as stated fails. On a simulated target whose polls succeed and whose quick reads yield
0, `jtag_fast_verify_mem` finds the routine finished and the crc different, returns 0, and
`p->failed` is still 0. On a target answering 0x0289 to every shift, `jtag_verify_mem` and
`jtag_erase_check` find the PSA value different, return 0, and `p->failed` is still 0. -/
theorem verify_mismatch_counterexample :
    (fast_verify_run (sim_target 0) defs0 0x8000 (2 * 2 % 2 ^ 32) fresh_sim).val.getD 0 0 = 0 ∧
    (fast_verify_run (sim_target 0) defs0 0x8000 (2 * 2 % 2 ^ 32) fresh_sim).val.getD 2 0
      ≠ jtag_onchip_crc (words_as_bytes (fun i => i + 1)) (2 * 2 % 2 ^ 32) ∧
    (jtag_fast_verify_mem (sim_target 0) defs0 0x8000 2 (fun i => i + 1) fresh_sim).val = 0 ∧
    (jtag_fast_verify_mem (sim_target 0) defs0 0x8000 2 (fun i => i + 1) fresh_sim).dev.failed
      = 0 ∧
    (verify_psa_run (steady 0x0289) 0x8000 2 (some (fun i => i + 1)) fresh).val.1
      ≠ (verify_psa_run (steady 0x0289) 0x8000 2 (some (fun i => i + 1)) fresh).val.2 ∧
    (jtag_verify_mem (steady 0x0289) 0x8000 2 (fun i => i + 1) fresh).val = 0 ∧
    (jtag_verify_mem (steady 0x0289) 0x8000 2 (fun i => i + 1) fresh).dev.failed = 0 ∧
    (jtag_erase_check (steady 0x0289) 0x8000 2 fresh).val = 0 ∧
    (jtag_erase_check (steady 0x0289) 0x8000 2 fresh).dev.failed = 0 := by
  decide

/-! ## Refreshing the breakpoint table -/

theorem set_breakpoint_val (k : Defs) (i bp_addr : Nat) (d : Jtdev σ) :
    (jtag_set_breakpoint f k (i : Int) bp_addr d).val = if 8 ≤ i then 0 else 1 := by
  have h0 : ¬ ((i : Int) < 0) := by omega
  by_cases h8 : 8 ≤ i
  · have h : (i : Int) ≥ 8 := by omega
    simp only [jtag_set_breakpoint, bind_val, ite_run, h, h8, if_true, pure_run]
  · have h : ¬ ((i : Int) ≥ 8) := by omega
    simp only [jtag_set_breakpoint, bind_val, ite_run, h, h0, h8, if_false, pure_run]

theorem table_clear_dirty_other (dd : DeviceDefs) (dev : Device) (i j : Nat) (h : j ≠ i) :
    (table_clear_dirty dd dev i).breakpoints j = dev.breakpoints j := by
  simp only [table_clear_dirty, Function.update_noteq h]

theorem table_clear_dirty_self (dd : DeviceDefs) (dev : Device) (i : Nat) :
    (table_clear_dirty dd dev i).breakpoints i = clear_dirty dd (dev.breakpoints i) := by
  simp only [table_clear_dirty, Function.update_same]

theorem refresh_loop_skip (k : Defs) (dd : DeviceDefs) (n i : Nat) (cur : Device) (ret : Int)
    (d : Jtdev σ) (h : ¬ bp_needs_refresh dd (cur.breakpoints i)) :
    refresh_bps_loop f k dd (n + 1) i cur ret d = refresh_bps_loop f k dd n (i + 1) cur ret d := by
  simp only [refresh_bps_loop, ite_run, h, if_false]

theorem refresh_loop_fail (k : Defs) (dd : DeviceDefs) (n i : Nat) (cur : Device) (ret : Int)
    (d : Jtdev σ) (h : bp_needs_refresh dd (cur.breakpoints i)) (h8 : 8 ≤ i) :
    (refresh_bps_loop f k dd (n + 1) i cur ret d).val
      = (refresh_bps_loop f k dd n (i + 1) cur (-1)
          (jtag_set_breakpoint f k (i : Int) (bp_refresh_addr dd (cur.breakpoints i)) d).dev).val ∧
    (refresh_bps_loop f k dd (n + 1) i cur ret d).dev
      = (refresh_bps_loop f k dd n (i + 1) cur (-1)
          (jtag_set_breakpoint f k (i : Int) (bp_refresh_addr dd (cur.breakpoints i)) d).dev).dev ∧
    (refresh_bps_loop f k dd (n + 1) i cur ret d).log
      = (jtag_set_breakpoint f k (i : Int) (bp_refresh_addr dd (cur.breakpoints i)) d).log
        ++ (refresh_bps_loop f k dd n (i + 1) cur (-1)
          (jtag_set_breakpoint f k (i : Int) (bp_refresh_addr dd (cur.breakpoints i)) d).dev).log := by
  have hv := set_breakpoint_val f k i (bp_refresh_addr dd (cur.breakpoints i)) d
  rw [if_pos h8] at hv
  simp only [refresh_bps_loop, ite_run, h, if_true, bind_val, bind_dev, bind_log, hv]
  exact ⟨trivial, trivial, trivial⟩

theorem refresh_loop_ok (k : Defs) (dd : DeviceDefs) (n i : Nat) (cur : Device) (ret : Int)
    (d : Jtdev σ) (h : bp_needs_refresh dd (cur.breakpoints i)) (h8 : ¬ 8 ≤ i) :
    (refresh_bps_loop f k dd (n + 1) i cur ret d).val
      = (refresh_bps_loop f k dd n (i + 1) (table_clear_dirty dd cur i) ret
          (jtag_set_breakpoint f k (i : Int) (bp_refresh_addr dd (cur.breakpoints i)) d).dev).val ∧
    (refresh_bps_loop f k dd (n + 1) i cur ret d).dev
      = (refresh_bps_loop f k dd n (i + 1) (table_clear_dirty dd cur i) ret
          (jtag_set_breakpoint f k (i : Int) (bp_refresh_addr dd (cur.breakpoints i)) d).dev).dev ∧
    (refresh_bps_loop f k dd (n + 1) i cur ret d).log
      = (jtag_set_breakpoint f k (i : Int) (bp_refresh_addr dd (cur.breakpoints i)) d).log
        ++ (refresh_bps_loop f k dd n (i + 1) (table_clear_dirty dd cur i) ret
          (jtag_set_breakpoint f k (i : Int) (bp_refresh_addr dd (cur.breakpoints i)) d).dev).log := by
  have hv := set_breakpoint_val f k i (bp_refresh_addr dd (cur.breakpoints i)) d
  rw [if_neg h8] at hv
  simp only [refresh_bps_loop, ite_run, h, if_true, bind_val, bind_dev, bind_log, hv,
    one_ne_zero, if_false]
  exact ⟨trivial, trivial, trivial⟩

theorem range_flatMap_succ {α : Type} (g : Nat → List α) (n : Nat) :
    (List.range (n + 1)).flatMap g = g 0 ++ (List.range n).flatMap (fun t => g (t + 1)) := by
  rw [List.range_succ_eq_map, List.flatMap_cons, List.flatMap_map]

theorem refresh_loop_spec (k : Defs) (dd : DeviceDefs) (T : Device) :
    ∀ (n i : Nat) (cur : Device) (ret : Int) (d : Jtdev σ),
      (∀ j, i ≤ j → cur.breakpoints j = T.breakpoints j) →
      (refresh_bps_loop f k dd n i cur ret d).dev = refresh_session f k dd T i n d ∧
      (refresh_bps_loop f k dd n i cur ret d).log
        = (List.range n).flatMap (fun t =>
            if bp_needs_refresh dd (T.breakpoints (i + t)) then
              (jtag_set_breakpoint f k ((i + t : Nat) : Int)
                (bp_refresh_addr dd (T.breakpoints (i + t)))
                (refresh_session f k dd T i t d)).log
            else []) ∧
      ((∃ j, i ≤ j ∧ j < i + n ∧ bp_needs_refresh dd (T.breakpoints j) ∧ 8 ≤ j) →
        (refresh_bps_loop f k dd n i cur ret d).val.2 = -1) ∧
      ((¬ ∃ j, i ≤ j ∧ j < i + n ∧ bp_needs_refresh dd (T.breakpoints j) ∧ 8 ≤ j) →
        (refresh_bps_loop f k dd n i cur ret d).val.2 = ret) ∧
      (refresh_bps_loop f k dd n i cur ret d).val.1.max_breakpoints = cur.max_breakpoints ∧
      ∀ j, (refresh_bps_loop f k dd n i cur ret d).val.1.breakpoints j
        = if i ≤ j ∧ j < i + n ∧ bp_needs_refresh dd (T.breakpoints j) ∧ j < 8 then
            clear_dirty dd (T.breakpoints j)
          else cur.breakpoints j := by
  intro n
  induction n with
  | zero =>
    intro i cur ret d _
    refine ⟨rfl, rfl, ?_, fun _ => rfl, rfl, ?_⟩
    · rintro ⟨j, h1, h2, _⟩
      omega
    · intro j
      have hc : ¬ (i ≤ j ∧ j < i + 0 ∧ bp_needs_refresh dd (T.breakpoints j) ∧ j < 8) := by
        rintro ⟨h1, h2, _⟩
        omega
      rw [if_neg hc]
      rfl
  | succ n ih =>
    intro i cur ret d hinv
    have hi : cur.breakpoints i = T.breakpoints i := hinv i (Nat.le_refl i)
    have hadd : ∀ t, i + (t + 1) = i + 1 + t := fun t => by omega
    by_cases hQ : bp_needs_refresh dd (cur.breakpoints i)
    · have hQT : bp_needs_refresh dd (T.breakpoints i) := hi ▸ hQ
      by_cases h8 : 8 ≤ i
      · obtain ⟨eV, eD, eL⟩ := refresh_loop_fail f k dd n i cur ret d hQ h8
        have hinv1 : ∀ j, i + 1 ≤ j → cur.breakpoints j = T.breakpoints j :=
          fun j hj => hinv j (by omega)
        obtain ⟨iD, iL, iR1, iR2, iM, iT⟩ := ih (i + 1) cur (-1)
          (jtag_set_breakpoint f k (i : Int) (bp_refresh_addr dd (cur.breakpoints i)) d).dev hinv1
        refine ⟨?_, ?_, ?_, ?_, ?_, ?_⟩
        · rw [eD, iD, hi]
          simp only [refresh_session, hQT, if_true]
        · have hstep : ∀ t, refresh_session f k dd T i (t + 1) d
              = refresh_session f k dd T (i + 1) t
                  (jtag_set_breakpoint f k (i : Int)
                    (bp_refresh_addr dd (T.breakpoints i)) d).dev := by
            intro t
            simp only [refresh_session, hQT, if_true]
          rw [eL, iL, range_flatMap_succ, hi]
          simp only [hstep, Nat.add_zero, hQT, if_true]
          congr 1
          congr 1
          funext t
          rw [hadd t]
        · intro _
          rw [eV]
          by_cases hx : ∃ j, i + 1 ≤ j ∧ j < i + 1 + n ∧
              bp_needs_refresh dd (T.breakpoints j) ∧ 8 ≤ j
          · exact iR1 hx
          · exact iR2 hx
        · intro hno
          exact absurd ⟨i, Nat.le_refl i, by omega, hQT, h8⟩ hno
        · rw [eV, iM]
        · intro j
          rw [eV, iT j]
          by_cases hj : j = i
          · subst hj
            have c1 : ¬ (j + 1 ≤ j ∧ j < j + 1 + n ∧
                bp_needs_refresh dd (T.breakpoints j) ∧ j < 8) := by
              rintro ⟨h1, _⟩
              omega
            have c2 : ¬ (j ≤ j ∧ j < j + (n + 1) ∧
                bp_needs_refresh dd (T.breakpoints j) ∧ j < 8) := by
              rintro ⟨_, _, _, h4⟩
              omega
            rw [if_neg c1, if_neg c2]
          · have hiff : (i + 1 ≤ j ∧ j < i + 1 + n ∧
                bp_needs_refresh dd (T.breakpoints j) ∧ j < 8)
                ↔ (i ≤ j ∧ j < i + (n + 1) ∧
                  bp_needs_refresh dd (T.breakpoints j) ∧ j < 8) := by
              constructor
              · rintro ⟨h1, h2, h3, h4⟩
                exact ⟨by omega, by omega, h3, h4⟩
              · rintro ⟨h1, h2, h3, h4⟩
                exact ⟨by omega, by omega, h3, h4⟩
            simp only [hiff]
      · obtain ⟨eV, eD, eL⟩ := refresh_loop_ok f k dd n i cur ret d hQ h8
        have hinv1 : ∀ j, i + 1 ≤ j →
            (table_clear_dirty dd cur i).breakpoints j = T.breakpoints j := by
          intro j hj
          rw [table_clear_dirty_other dd cur i j (by omega)]
          exact hinv j (by omega)
        obtain ⟨iD, iL, iR1, iR2, iM, iT⟩ := ih (i + 1) (table_clear_dirty dd cur i) ret
          (jtag_set_breakpoint f k (i : Int) (bp_refresh_addr dd (cur.breakpoints i)) d).dev hinv1
        have hex : (∃ j, i ≤ j ∧ j < i + (n + 1) ∧
              bp_needs_refresh dd (T.breakpoints j) ∧ 8 ≤ j)
            ↔ (∃ j, i + 1 ≤ j ∧ j < i + 1 + n ∧
              bp_needs_refresh dd (T.breakpoints j) ∧ 8 ≤ j) := by
          constructor
          · rintro ⟨j, h1, h2, h3, h4⟩
            exact ⟨j, by omega, by omega, h3, h4⟩
          · rintro ⟨j, h1, h2, h3, h4⟩
            exact ⟨j, by omega, by omega, h3, h4⟩
        refine ⟨?_, ?_, ?_, ?_, ?_, ?_⟩
        · rw [eD, iD, hi]
          simp only [refresh_session, hQT, if_true]
        · have hstep : ∀ t, refresh_session f k dd T i (t + 1) d
              = refresh_session f k dd T (i + 1) t
                  (jtag_set_breakpoint f k (i : Int)
                    (bp_refresh_addr dd (T.breakpoints i)) d).dev := by
            intro t
            simp only [refresh_session, hQT, if_true]
          rw [eL, iL, range_flatMap_succ, hi]
          simp only [hstep, Nat.add_zero, hQT, if_true]
          congr 1
          congr 1
          funext t
          rw [hadd t]
        · intro hx
          rw [eV]
          exact iR1 (hex.1 hx)
        · intro hx
          rw [eV]
          exact iR2 (fun h => hx (hex.2 h))
        · rw [eV, iM]
          rfl
        · intro j
          rw [eV, iT j]
          by_cases hj : j = i
          · subst hj
            have c1 : ¬ (j + 1 ≤ j ∧ j < j + 1 + n ∧
                bp_needs_refresh dd (T.breakpoints j) ∧ j < 8) := by
              rintro ⟨h1, _⟩
              omega
            have c2 : (j ≤ j ∧ j < j + (n + 1) ∧
                bp_needs_refresh dd (T.breakpoints j) ∧ j < 8) :=
              ⟨Nat.le_refl j, by omega, hQT, by omega⟩
            rw [if_neg c1, if_pos c2, table_clear_dirty_self, hi]
          · have hiff : (i + 1 ≤ j ∧ j < i + 1 + n ∧
                bp_needs_refresh dd (T.breakpoints j) ∧ j < 8)
                ↔ (i ≤ j ∧ j < i + (n + 1) ∧
                  bp_needs_refresh dd (T.breakpoints j) ∧ j < 8) := by
              constructor
              · rintro ⟨h1, h2, h3, h4⟩
                exact ⟨by omega, by omega, h3, h4⟩
              · rintro ⟨h1, h2, h3, h4⟩
                exact ⟨by omega, by omega, h3, h4⟩
            simp only [hiff, table_clear_dirty_other dd cur i j hj]
    · have hQT : ¬ bp_needs_refresh dd (T.breakpoints i) := hi ▸ hQ
      rw [refresh_loop_skip f k dd n i cur ret d hQ]
      have hinv1 : ∀ j, i + 1 ≤ j → cur.breakpoints j = T.breakpoints j :=
        fun j hj => hinv j (by omega)
      obtain ⟨iD, iL, iR1, iR2, iM, iT⟩ := ih (i + 1) cur ret d hinv1
      have hex : (∃ j, i ≤ j ∧ j < i + (n + 1) ∧
            bp_needs_refresh dd (T.breakpoints j) ∧ 8 ≤ j)
          ↔ (∃ j, i + 1 ≤ j ∧ j < i + 1 + n ∧
            bp_needs_refresh dd (T.breakpoints j) ∧ 8 ≤ j) := by
        constructor
        · rintro ⟨j, h1, h2, h3, h4⟩
          have : j ≠ i := fun e => hQT (e ▸ h3)
          exact ⟨j, by omega, by omega, h3, h4⟩
        · rintro ⟨j, h1, h2, h3, h4⟩
          exact ⟨j, by omega, by omega, h3, h4⟩
      refine ⟨?_, ?_, ?_, ?_, iM, ?_⟩
      · rw [iD]
        simp only [refresh_session, hQT, if_false]
      · have hstep : ∀ t, refresh_session f k dd T i (t + 1) d
            = refresh_session f k dd T (i + 1) t d := by
          intro t
          simp only [refresh_session, hQT, if_false]
        rw [iL, range_flatMap_succ]
        simp only [hstep, Nat.add_zero, hQT, if_false, List.nil_append]
        congr 1
        funext t
        rw [hadd t]
      · intro hx
        exact iR1 (hex.1 hx)
      · intro hx
        exact iR2 (fun h => hx (hex.2 h))
      · intro j
        rw [iT j]
        have hiff : (i + 1 ≤ j ∧ j < i + 1 + n ∧
            bp_needs_refresh dd (T.breakpoints j) ∧ j < 8)
            ↔ (i ≤ j ∧ j < i + (n + 1) ∧
              bp_needs_refresh dd (T.breakpoints j) ∧ j < 8) := by
          constructor
          · rintro ⟨h1, h2, h3, h4⟩
            exact ⟨by omega, by omega, h3, h4⟩
          · rintro ⟨h1, h2, h3, h4⟩
            have : j ≠ i := fun e => hQT (e ▸ h3)
            exact ⟨by omega, by omega, h3, h4⟩
        simp only [hiff]

theorem ops_refresh_list (k : Defs) (Q : Nat → Prop) [DecidablePred Q] (a : Nat → Nat)
    (s : Nat → Jtdev σ) (l : List Nat) :
    ops (l.flatMap (fun t =>
        if Q t then (jtag_set_breakpoint f k ((t : Nat) : Int) (a t) (s t)).log else []))
      = l.filterMap (fun t => if Q t then some (Op.set_breakpoint (t : Int) (a t)) else none) := by
  induction l with
  | nil => rfl
  | cons x l ih =>
    rw [List.flatMap_cons, ops_append, ih]
    by_cases hx : Q x
    · rw [List.filterMap_cons_some (by rw [if_pos hx])]
      rw [if_pos hx, ops_set_breakpoint]
      rfl
    · rw [List.filterMap_cons_none (by rw [if_neg hx])]
      rw [if_neg hx]
      rfl

theorem clear_bits_and (x m : Nat) : clear_bits x m &&& m = 0 := by
  apply Nat.eq_of_testBit_eq
  intro i
  simp only [clear_bits, Nat.testBit_and, Nat.testBit_xor, Nat.zero_testBit]
  cases x.testBit i <;> cases m.testBit i <;> rfl

theorem clear_bits_other (x m b : Nat) (h : m.testBit b = false) :
    (clear_bits x m).testBit b = x.testBit b := by
  simp only [clear_bits, Nat.testBit_and, Nat.testBit_xor, h]
  cases x.testBit b <;> rfl

theorem refresh_bps_spec (k : Defs) (dd : DeviceDefs) (dev : Device) (d : Jtdev σ) :
    (jtag_refresh_bps f k dd dev d).dev = refresh_session f k dd dev 0 dev.max_breakpoints d ∧
    (jtag_refresh_bps f k dd dev d).log
      = (List.range dev.max_breakpoints).flatMap (fun t =>
          if bp_needs_refresh dd (dev.breakpoints t) then
            (jtag_set_breakpoint f k ((t : Nat) : Int)
              (bp_refresh_addr dd (dev.breakpoints t))
              (refresh_session f k dd dev 0 t d)).log
          else []) ∧
    ((∃ j, j < dev.max_breakpoints ∧ bp_needs_refresh dd (dev.breakpoints j) ∧ 8 ≤ j) →
      (jtag_refresh_bps f k dd dev d).val.2 = -1) ∧
    ((¬ ∃ j, j < dev.max_breakpoints ∧ bp_needs_refresh dd (dev.breakpoints j) ∧ 8 ≤ j) →
      (jtag_refresh_bps f k dd dev d).val.2 = 0) ∧
    (jtag_refresh_bps f k dd dev d).val.1.max_breakpoints = dev.max_breakpoints ∧
    ∀ j, (jtag_refresh_bps f k dd dev d).val.1.breakpoints j
      = if j < dev.max_breakpoints ∧ bp_needs_refresh dd (dev.breakpoints j) ∧ j < 8 then
          clear_dirty dd (dev.breakpoints j)
        else dev.breakpoints j := by
  have h := refresh_loop_spec f k dd dev dev.max_breakpoints 0 dev 0 d (fun _ _ => rfl)
  simp only [Nat.zero_add, Nat.zero_le, true_and] at h
  exact h

/-- C16: for every breakpoint table, `jtag_refresh_bps` enters `jtag_set_breakpoint(i, a)`
once for each index `i` below `max_breakpoints` whose entry is dirty and of type break, in
increasing order of `i` and whatever the earlier calls returned, where `a` is the entry's
address if its ENABLED flag is set and 0 otherwise; for such an entry the DIRTY flag is clear
afterwards exactly when its call returned non-zero, and the flags are untouched when it
returned 0; the result is -1 if at least one call returned 0 and 0 otherwise. -/
theorem refresh_bps_calls_and_clears (k : Defs) (dd : DeviceDefs) (dev : Device)
    (d : Jtdev σ) :
    ops (jtag_refresh_bps f k dd dev d).log
      = (List.range dev.max_breakpoints).filterMap (fun i =>
          if bp_needs_refresh dd (dev.breakpoints i) then
            some (Op.set_breakpoint (i : Int)
              (if (dev.breakpoints i).flags &&& dd.DEVICE_BP_ENABLED = 0 then 0
               else (dev.breakpoints i).addr))
          else none) ∧
    (∀ i, i < dev.max_breakpoints → bp_needs_refresh dd (dev.breakpoints i) →
      (((jtag_refresh_bps f k dd dev d).val.1.breakpoints i).flags &&& dd.DEVICE_BP_DIRTY = 0
        ↔ (jtag_set_breakpoint f k (i : Int) (bp_refresh_addr dd (dev.breakpoints i))
            (refresh_session f k dd dev 0 i d)).val ≠ 0) ∧
      ((jtag_set_breakpoint f k (i : Int) (bp_refresh_addr dd (dev.breakpoints i))
            (refresh_session f k dd dev 0 i d)).val ≠ 0 →
        ((jtag_refresh_bps f k dd dev d).val.1.breakpoints i).flags
          = clear_bits (dev.breakpoints i).flags dd.DEVICE_BP_DIRTY) ∧
      ((jtag_set_breakpoint f k (i : Int) (bp_refresh_addr dd (dev.breakpoints i))
            (refresh_session f k dd dev 0 i d)).val = 0 →
        (jtag_refresh_bps f k dd dev d).val.1.breakpoints i = dev.breakpoints i)) ∧
    ((jtag_refresh_bps f k dd dev d).val.2 = -1
      ↔ ∃ i, i < dev.max_breakpoints ∧ bp_needs_refresh dd (dev.breakpoints i) ∧
          (jtag_set_breakpoint f k (i : Int) (bp_refresh_addr dd (dev.breakpoints i))
            (refresh_session f k dd dev 0 i d)).val = 0) ∧
    ((jtag_refresh_bps f k dd dev d).val.2 = 0
      ↔ ¬ ∃ i, i < dev.max_breakpoints ∧ bp_needs_refresh dd (dev.breakpoints i) ∧
          (jtag_set_breakpoint f k (i : Int) (bp_refresh_addr dd (dev.breakpoints i))
            (refresh_session f k dd dev 0 i d)).val = 0) := by
  obtain ⟨_, hL, hR1, hR2, _, hT⟩ := refresh_bps_spec f k dd dev d
  have hval : ∀ i : Nat, ∀ a : Nat, ∀ s : Jtdev σ,
      ((jtag_set_breakpoint f k (i : Int) a s).val = 0 ↔ 8 ≤ i) := by
    intro i a s
    rw [set_breakpoint_val]
    by_cases h8 : 8 ≤ i
    · simp only [h8, if_true]
    · simp only [h8, if_false, one_ne_zero]
  have hex : (∃ i, i < dev.max_breakpoints ∧ bp_needs_refresh dd (dev.breakpoints i) ∧
        (jtag_set_breakpoint f k (i : Int) (bp_refresh_addr dd (dev.breakpoints i))
          (refresh_session f k dd dev 0 i d)).val = 0)
      ↔ (∃ j, j < dev.max_breakpoints ∧ bp_needs_refresh dd (dev.breakpoints j) ∧ 8 ≤ j) := by
    simp only [hval]
  refine ⟨?_, ?_, ?_, ?_⟩
  · rw [hL]
    exact ops_refresh_list f k (fun t => bp_needs_refresh dd (dev.breakpoints t))
      (fun t => bp_refresh_addr dd (dev.breakpoints t))
      (fun t => refresh_session f k dd dev 0 t d) (List.range dev.max_breakpoints)
  · intro i hi hQ
    have hv0 := hval i (bp_refresh_addr dd (dev.breakpoints i))
      (refresh_session f k dd dev 0 i d)
    rw [hT i]
    by_cases h8 : 8 ≤ i
    · have hc : ¬ (i < dev.max_breakpoints ∧ bp_needs_refresh dd (dev.breakpoints i) ∧ i < 8) :=
        fun h => by omega
      rw [if_neg hc]
      exact ⟨⟨fun h => absurd h hQ.1, fun h => absurd (hv0.2 h8) h⟩,
        fun h => absurd (hv0.2 h8) h, fun _ => rfl⟩
    · have hc : i < dev.max_breakpoints ∧ bp_needs_refresh dd (dev.breakpoints i) ∧ i < 8 :=
        ⟨hi, hQ, by omega⟩
      rw [if_pos hc]
      exact ⟨⟨fun _ h => h8 (hv0.1 h), fun _ => clear_bits_and _ _⟩, fun _ => rfl,
        fun h => absurd (hv0.1 h) h8⟩
  · rw [hex]
    constructor
    · intro h
      by_contra hn
      rw [hR2 hn] at h
      exact absurd h (by decide)
    · exact hR1
  · rw [hex]
    constructor
    · intro h hx
      rw [hR1 hx] at h
      exact absurd h (by decide)
    · exact hR2

theorem refresh_bps_calls_and_clears_witness :
    ops (jtag_refresh_bps (steady 0) defs0 devdefs0 table0 fresh).log
      = [Op.set_breakpoint 1 0x8000, Op.set_breakpoint 8 0x8800, Op.set_breakpoint 9 0] ∧
    (((jtag_refresh_bps (steady 0) defs0 devdefs0 table0 fresh).val.1.breakpoints 1).flags
        &&& devdefs0.DEVICE_BP_DIRTY = 0
      ↔ (jtag_set_breakpoint (steady 0) defs0 (1 : Nat) (bp_refresh_addr devdefs0
          (table0.breakpoints 1)) (refresh_session (steady 0) defs0 devdefs0 table0 0 1
            fresh)).val ≠ 0) ∧
    ((jtag_refresh_bps (steady 0) defs0 devdefs0 table0 fresh).val.1.breakpoints 1).flags = 5 ∧
    ((jtag_refresh_bps (steady 0) defs0 devdefs0 table0 fresh).val.1.breakpoints 8).flags = 3 ∧
    (jtag_refresh_bps (steady 0) defs0 devdefs0 table0 fresh).val.2 = -1 :=
  ⟨by
      rw [(refresh_bps_calls_and_clears (steady 0) defs0 devdefs0 table0 fresh).1]
      decide,
    ((refresh_bps_calls_and_clears (steady 0) defs0 devdefs0 table0 fresh).2.1 1
      (by decide) (by decide)).1,
    by decide, by decide, by decide⟩

/-- C17: `jtag_refresh_bps` changes nothing in the breakpoint table except DIRTY flag bits:
`max_breakpoints` is unchanged; every entry keeps its type, its address and every flag bit
that is not a DIRTY bit; an entry that is not both dirty and of type break, and any entry at
or beyond `max_breakpoints`, is left as it was; and the events of the run are those of the
`jtag_set_breakpoint` calls for the dirty break entries alone, so the other entries cause no
access to the line-level interface, and with no dirty break entry there is no event at all
and the session is unchanged. -/
theorem refresh_bps_frame (k : Defs) (dd : DeviceDefs) (dev : Device) (d : Jtdev σ) :
    (jtag_refresh_bps f k dd dev d).val.1.max_breakpoints = dev.max_breakpoints ∧
    (∀ i, ((jtag_refresh_bps f k dd dev d).val.1.breakpoints i).type
            = (dev.breakpoints i).type ∧
          ((jtag_refresh_bps f k dd dev d).val.1.breakpoints i).addr
            = (dev.breakpoints i).addr ∧
          ∀ b, dd.DEVICE_BP_DIRTY.testBit b = false →
            ((jtag_refresh_bps f k dd dev d).val.1.breakpoints i).flags.testBit b
              = (dev.breakpoints i).flags.testBit b) ∧
    (∀ i, ¬ bp_needs_refresh dd (dev.breakpoints i) →
      (jtag_refresh_bps f k dd dev d).val.1.breakpoints i = dev.breakpoints i) ∧
    (∀ i, dev.max_breakpoints ≤ i →
      (jtag_refresh_bps f k dd dev d).val.1.breakpoints i = dev.breakpoints i) ∧
    (jtag_refresh_bps f k dd dev d).log
      = (List.range dev.max_breakpoints).flatMap (fun i =>
          if bp_needs_refresh dd (dev.breakpoints i) then
            (jtag_set_breakpoint f k (i : Int) (bp_refresh_addr dd (dev.breakpoints i))
              (refresh_session f k dd dev 0 i d)).log
          else []) ∧
    ((∀ i, i < dev.max_breakpoints → ¬ bp_needs_refresh dd (dev.breakpoints i)) →
      (jtag_refresh_bps f k dd dev d).log = [] ∧
      (jtag_refresh_bps f k dd dev d).dev = d) := by
  obtain ⟨hD, hL, _, _, hM, hT⟩ := refresh_bps_spec f k dd dev d
  refine ⟨hM, ?_, ?_, ?_, hL, ?_⟩
  · intro i
    rw [hT i]
    split
    · exact ⟨rfl, rfl, fun b hb => clear_bits_other _ _ b hb⟩
    · exact ⟨rfl, rfl, fun _ _ => rfl⟩
  · intro i hQ
    rw [hT i, if_neg (fun h => hQ h.2.1)]
  · intro i hi
    rw [hT i, if_neg (fun h => by omega)]
  · intro hno
    constructor
    · rw [hL]
      have : ∀ l : List Nat, (∀ i ∈ l, i < dev.max_breakpoints) →
          l.flatMap (fun i =>
            if bp_needs_refresh dd (dev.breakpoints i) then
              (jtag_set_breakpoint f k (i : Int) (bp_refresh_addr dd (dev.breakpoints i))
                (refresh_session f k dd dev 0 i d)).log
            else []) = [] := by
        intro l
        induction l with
        | nil => intro _; rfl
        | cons x l ih =>
          intro hl
          rw [List.flatMap_cons, if_neg (hno x (hl x (List.mem_cons_self x l))),
            ih (fun i hi => hl i (List.mem_cons_of_mem x hi))]
          rfl
      exact this _ (fun i hi => List.mem_range.1 hi)
    · rw [hD]
      have : ∀ n i, i + n ≤ dev.max_breakpoints → ∀ s : Jtdev σ,
          refresh_session f k dd dev i n s = s := by
        intro n
        induction n with
        | zero => intro i _ s; rfl
        | succ n ih =>
          intro i hi s
          simp only [refresh_session, if_neg (hno i (by omega))]
          exact ih (i + 1) (by omega) s
      exact this dev.max_breakpoints 0 (by omega) d

theorem refresh_bps_frame_witness :
    (jtag_refresh_bps (steady 0) defs0 devdefs0 table0 fresh).val.1.max_breakpoints = 10 ∧
    ((jtag_refresh_bps (steady 0) defs0 devdefs0 table0 fresh).val.1.breakpoints 1
      = { type := 0, addr := 0x8000, flags := 0x05 }) ∧
    ¬ bp_needs_refresh devdefs0 (table0.breakpoints 2) ∧
    ((jtag_refresh_bps (steady 0) defs0 devdefs0 table0 fresh).val.1.breakpoints 2
      = { type := 1, addr := 0x8400, flags := 0x03 }) :=
  ⟨(refresh_bps_frame (steady 0) defs0 devdefs0 table0 fresh).1.trans (by decide),
    by decide, by decide,
    ((refresh_bps_frame (steady 0) defs0 devdefs0 table0 fresh).2.2.1 2 (by decide)).trans
      (by decide)⟩

/-! ## Single accesses: line-level sequences -/

theorem lines_tclk_set (d : Jtdev σ) : lines (jtag_tclk_set f d).log = [Call.jtdev_tclk 1] :=
  rfl

theorem lines_tclk_clr (d : Jtdev σ) : lines (jtag_tclk_clr f d).log = [Call.jtdev_tclk 0] :=
  rfl

theorem lines_led_green_off (d : Jtdev σ) :
    lines (jtag_led_green_off f d).log = [Call.jtdev_led_green 0] := rfl

theorem lines_release_cpu (d : Jtdev σ) :
    lines (jtag_release_cpu f d).log
      = [Call.jtdev_tclk 0, ir_call f 0xC8, dr16_call f 0x2401, ir_call f 0x21,
          Call.jtdev_tclk 1] ++ flush_calls f := by
  simp only [jtag_release_cpu, bind_log, lines_append, lines_tclk_clr, lines_tclk_set,
    lines_ir_shift, lines_dr_shift_16, lines_flush_writes, List.singleton_append,
    List.cons_append, List.nil_append]
  rfl

theorem lines_read_mem_content (format address : Nat) (d : Jtdev σ) :
    lines (read_mem_content f format address d).log
      = lines (jtag_halt_cpu f d).log
        ++ [Call.jtdev_tclk 0, ir_call f 0xC8,
            dr16_call f (if format = 16 then 0x2409 else 0x2419),
            ir_call f 0xC1, dr16_call f address, ir_call f 0xA1,
            Call.jtdev_tclk 1, Call.jtdev_tclk 0, Call.jtdev_dr_shift_16 0] := by
  by_cases h : format = 16
  · simp only [read_mem_content, bind_log, bind_dev, ite_run, h, if_true, lines_append,
      lines_enter, enter_dev, lines_tclk_clr, lines_tclk_set, lines_ir_shift,
      lines_dr_shift_16, lines_dr_shift_16_and_read, List.singleton_append, List.cons_append,
      List.nil_append, List.append_assoc]
    rfl
  · simp only [read_mem_content, bind_log, bind_dev, ite_run, h, if_false, lines_append,
      lines_enter, enter_dev, lines_tclk_clr, lines_tclk_set, lines_ir_shift,
      lines_dr_shift_16, lines_dr_shift_16_and_read, List.singleton_append, List.cons_append,
      List.nil_append, List.append_assoc]
    rfl

theorem read_mem_val (format address : Nat) (d : Jtdev σ) :
    (jtag_read_mem f format address d).val
      = (if format = 8 then (read_mem_content f format address d).val &&& 0x00ff
         else (read_mem_content f format address d).val) := rfl

theorem lines_read_mem (format address : Nat) (d : Jtdev σ) :
    lines (jtag_read_mem f format address d).log
      = lines (read_mem_content f format address d).log
        ++ ([Call.jtdev_tclk 1, Call.jtdev_tclk 0, ir_call f 0xC8, dr16_call f 0x2401,
            ir_call f 0x21, Call.jtdev_tclk 1] ++ flush_calls f) := by
  simp only [jtag_read_mem, read_mem_content, bind_log, lines_append, lines_pure,
    lines_release_cpu, lines_tclk_set, List.append_nil, List.append_assoc,
    List.singleton_append, List.cons_append, List.nil_append]

/-- C25: for every address, `jtag_read_mem` with format 8 returns the captured word `c` masked
to its low byte, `c & 0x00FF`, which is at most 0xFF, after the control word 0x2419 was
shifted; with format 16 it returns `c` unchanged after the control word 0x2409 was shifted.
The captured word is a 16-bit value, and after the capture the function only raises TCLK and
releases the CPU. -/
theorem read_mem_masks_byte (address : Nat) (d : Jtdev σ) :
    (jtag_read_mem f 8 address d).val = (read_mem_content f 8 address d).val &&& 0x00FF ∧
    (jtag_read_mem f 8 address d).val ≤ 0xFF ∧
    (jtag_read_mem f 16 address d).val = (read_mem_content f 16 address d).val ∧
    (read_mem_content f 8 address d).val < 65536 ∧
    (read_mem_content f 16 address d).val < 65536 ∧
    lines (read_mem_content f 8 address d).log
      = lines (jtag_halt_cpu f d).log
        ++ [Call.jtdev_tclk 0, ir_call f 0xC8, dr16_call f 0x2419,
            ir_call f 0xC1, dr16_call f address, ir_call f 0xA1,
            Call.jtdev_tclk 1, Call.jtdev_tclk 0, Call.jtdev_dr_shift_16 0] ∧
    lines (read_mem_content f 16 address d).log
      = lines (jtag_halt_cpu f d).log
        ++ [Call.jtdev_tclk 0, ir_call f 0xC8, dr16_call f 0x2409,
            ir_call f 0xC1, dr16_call f address, ir_call f 0xA1,
            Call.jtdev_tclk 1, Call.jtdev_tclk 0, Call.jtdev_dr_shift_16 0] ∧
    (∀ format, lines (jtag_read_mem f format address d).log
      = lines (read_mem_content f format address d).log
        ++ ([Call.jtdev_tclk 1, Call.jtdev_tclk 0, ir_call f 0xC8, dr16_call f 0x2401,
            ir_call f 0x21, Call.jtdev_tclk 1] ++ flush_calls f)) := by
  have hlt : ∀ format, (read_mem_content f format address d).val < 65536 := by
    intro format
    simp only [read_mem_content, bind_val, jtag_dr_shift_16_and_read, pure_run]
    exact Nat.mod_lt _ (by norm_num)
  refine ⟨rfl, ?_, rfl, hlt 8, hlt 16, lines_read_mem_content f 8 address d,
    lines_read_mem_content f 16 address d, fun format => lines_read_mem f format address d⟩
  rw [read_mem_val, if_pos rfl]
  exact Nat.and_le_right

/-! ## Chip identification -/

theorem swap_bytes_arith (w : Nat) (hw : w < 65536) :
    swap_bytes w = 2 ^ 8 * (w % 256) + w / 256 := by
  have e2 : w >>> 8 = w / 256 := Nat.shiftRight_eq_div_pow w 8
  have e4 : w <<< 8 = w * 256 := Nat.shiftLeft_eq _ 8
  unfold swap_bytes
  rw [e2, e4]
  omega

theorem swap_bytes_eq (w : Nat) (hw : w < 65536) :
    swap_bytes w = ((w &&& 0xFF) <<< 8) ||| (w >>> 8) := by
  have e1 : w &&& 0xFF = w % 256 := Nat.and_pow_two_sub_one_eq_mod w 8
  have e2 : w >>> 8 = w / 256 := Nat.shiftRight_eq_div_pow w 8
  have e3 : (w % 256) <<< 8 = 2 ^ 8 * (w % 256) := by
    rw [Nat.shiftLeft_eq, Nat.mul_comm]
  have h5 : w / 256 < 2 ^ 8 := by norm_num; omega
  rw [swap_bytes_arith w hw, e1, e2, e3, Nat.mul_add_lt_is_or h5]

theorem swap_bytes_lt (w : Nat) : swap_bytes w < 65536 := Nat.mod_lt _ (by norm_num)

theorem swap_bytes_swap (w : Nat) (hw : w < 65536) : swap_bytes (swap_bytes w) = w := by
  rw [swap_bytes_arith _ (swap_bytes_lt w), swap_bytes_arith w hw]
  omega

/-- C26: `jtag_chip_id` reads the word at address 0x0FF0 with format 16 and returns it with
its two bytes swapped: for the word `w` read the result is `((w & 0xFF) << 8) | (w >> 8)`,
which is below 0x10000, and swapping the bytes of the result gives `w` back. -/
theorem chip_id_swaps_bytes (d : Jtdev σ) :
    (jtag_chip_id f d).val = swap_bytes (jtag_read_mem f 16 0x0FF0 d).val ∧
    (jtag_chip_id f d).dev = (jtag_read_mem f 16 0x0FF0 d).dev ∧
    (jtag_chip_id f d).val
      = (((jtag_read_mem f 16 0x0FF0 d).val &&& 0xFF) <<< 8)
        ||| ((jtag_read_mem f 16 0x0FF0 d).val >>> 8) ∧
    (jtag_chip_id f d).val < 0x10000 ∧
    swap_bytes (jtag_chip_id f d).val = (jtag_read_mem f 16 0x0FF0 d).val ∧
    ops (jtag_chip_id f d).log = [Op.read_mem 16 0x0FF0] := by
  have hw : (jtag_read_mem f 16 0x0FF0 d).val < 65536 := by
    rw [read_mem_val, if_neg (by decide)]
    simp only [read_mem_content, bind_val, jtag_dr_shift_16_and_read, pure_run]
    exact Nat.mod_lt _ (by norm_num)
  have hv : (jtag_chip_id f d).val = swap_bytes (jtag_read_mem f 16 0x0FF0 d).val := rfl
  refine ⟨hv, rfl, ?_, ?_, ?_, ?_⟩
  · rw [hv, swap_bytes_eq _ hw]
  · rw [hv]; exact swap_bytes_lt _
  · rw [hv]; exact swap_bytes_swap _ hw
  · simp only [jtag_chip_id, bind_log, ops_append, ops_read_mem, ops_pure, List.append_nil]

/-! ## Register access: encodings and pulse counts -/

theorem read_reg_word_eq : ∀ n, n < 16 → read_reg_word n = 0x4082 + 0x100 * n := by
  decide

theorem write_reg_word_eq : ∀ n, n < 16 → write_reg_word n = 0x4030 + n := by
  decide

theorem lines_read_reg (reg : Nat) (d : Jtdev σ) :
    lines (jtag_read_reg f reg d).log
      = lines (jtag_set_instruction_fetch f d).log
        ++ [ir_call f 0xC8, dr16_call f 0x3401, ir_call f 0x82,
            dr16_call f 0x3FFD,
            Call.jtdev_tclk 0, Call.jtdev_tclk 1, Call.jtdev_tclk 0, Call.jtdev_tclk 1,
            dr16_call f (read_reg_word reg),
            Call.jtdev_tclk 0, Call.jtdev_tclk 1,
            dr16_call f 0x01FE,
            Call.jtdev_tclk 0, Call.jtdev_tclk 1, Call.jtdev_tclk 0, Call.jtdev_tclk 1,
            ir_call f 0x42, Call.jtdev_dr_shift_16 0,
            Call.jtdev_tclk 0, ir_call f 0xC8, dr16_call f 0x2401, Call.jtdev_tclk 1] := by
  simp only [jtag_read_reg, bind_log, lines_append, lines_tclk_clr, lines_tclk_set,
    lines_ir_shift, lines_dr_shift_16, lines_dr_shift_16_and_read, lines_pure,
    List.singleton_append, List.cons_append, List.nil_append, List.append_nil,
    List.append_assoc]
  rfl

theorem lines_write_reg (reg value : Nat) (d : Jtdev σ) :
    lines (jtag_write_reg f reg value d).log
      = lines (jtag_set_instruction_fetch f d).log
        ++ ([ir_call f 0xC8, dr16_call f 0x3401, ir_call f 0x82,
            dr16_call f 0x3FFD,
            Call.jtdev_tclk 0, Call.jtdev_tclk 1, Call.jtdev_tclk 0, Call.jtdev_tclk 1,
            dr16_call f (write_reg_word reg),
            Call.jtdev_tclk 0, Call.jtdev_tclk 1,
            dr16_call f value,
            Call.jtdev_tclk 0, Call.jtdev_tclk 1,
            ir_call f 0xC8, dr16_call f 0x2401] ++ flush_calls f) := by
  simp only [jtag_write_reg, bind_log, lines_append, lines_enter, enter_dev, lines_tclk_clr,
    lines_tclk_set, lines_ir_shift, lines_dr_shift_16, lines_flush_writes, lines_pure,
    List.singleton_append, List.cons_append, List.nil_append, List.append_nil,
    List.append_assoc]
  rfl

/-- C22: for every register `n` in 0..15, after the instruction-fetch synchronisation
`jtag_read_reg` makes exactly these line-level calls: control word 0x3401, the data words
0x3FFD, `0x4082 + 0x100 * n` and 0x01FE with 2, 1 and 2 TCLK low-high pulses after them, then
the data-capture instruction and the read-capable data shift, then TCLK low, control word
0x2401 and TCLK high. `jtag_write_reg(n, v)` shifts 0x3FFD, `0x4030 + n` and `v` with 2, 1 and
1 pulses, then control word 0x2401 and the flush. Distinct registers give distinct instruction
words. -/
theorem reg_access_sequences (n v : Nat) (d : Jtdev σ) (hn : n < 16) :
    lines (jtag_read_reg f n d).log
      = lines (jtag_set_instruction_fetch f d).log
        ++ [ir_call f 0xC8, dr16_call f 0x3401, ir_call f 0x82,
            dr16_call f 0x3FFD,
            Call.jtdev_tclk 0, Call.jtdev_tclk 1, Call.jtdev_tclk 0, Call.jtdev_tclk 1,
            dr16_call f (0x4082 + 0x100 * n),
            Call.jtdev_tclk 0, Call.jtdev_tclk 1,
            dr16_call f 0x01FE,
            Call.jtdev_tclk 0, Call.jtdev_tclk 1, Call.jtdev_tclk 0, Call.jtdev_tclk 1,
            ir_call f 0x42, Call.jtdev_dr_shift_16 0,
            Call.jtdev_tclk 0, ir_call f 0xC8, dr16_call f 0x2401, Call.jtdev_tclk 1] ∧
    lines (jtag_write_reg f n v d).log
      = lines (jtag_set_instruction_fetch f d).log
        ++ ([ir_call f 0xC8, dr16_call f 0x3401, ir_call f 0x82,
            dr16_call f 0x3FFD,
            Call.jtdev_tclk 0, Call.jtdev_tclk 1, Call.jtdev_tclk 0, Call.jtdev_tclk 1,
            dr16_call f (0x4030 + n),
            Call.jtdev_tclk 0, Call.jtdev_tclk 1,
            dr16_call f v,
            Call.jtdev_tclk 0, Call.jtdev_tclk 1,
            ir_call f 0xC8, dr16_call f 0x2401] ++ flush_calls f) ∧
    (∀ m, m < 16 → m ≠ n →
      read_reg_word m % 65536 ≠ read_reg_word n % 65536 ∧
      write_reg_word m % 65536 ≠ write_reg_word n % 65536) := by
  refine ⟨?_, ?_, ?_⟩
  · rw [lines_read_reg, read_reg_word_eq n hn]
  · rw [lines_write_reg, write_reg_word_eq n hn]
  · intro m hm hne
    rw [read_reg_word_eq n hn, read_reg_word_eq m hm, write_reg_word_eq n hn,
      write_reg_word_eq m hm]
    omega

theorem reg_access_sequences_witness :
    (5 : Nat) < 16 ∧
    lines (jtag_write_reg (steady 0x0080) 5 0x1234 fresh).log
      = [Call.jtdev_ir_shift 0x28, Call.jtdev_dr_shift_16 0,
          Call.jtdev_ir_shift 0xC8, Call.jtdev_dr_shift_16 0x3401, Call.jtdev_ir_shift 0x82,
          Call.jtdev_dr_shift_16 0x3FFD,
          Call.jtdev_tclk 0, Call.jtdev_tclk 1, Call.jtdev_tclk 0, Call.jtdev_tclk 1,
          Call.jtdev_dr_shift_16 0x4035,
          Call.jtdev_tclk 0, Call.jtdev_tclk 1,
          Call.jtdev_dr_shift_16 0x1234,
          Call.jtdev_tclk 0, Call.jtdev_tclk 1,
          Call.jtdev_ir_shift 0xC8, Call.jtdev_dr_shift_16 0x2401] :=
  ⟨by decide,
    (reg_access_sequences (steady 0x0080) 5 0x1234 fresh (by decide)).2.1.trans (by decide)⟩

/-! ## Release of the device -/

theorem release_device_log (k : Defs) (address : Nat) (d : Jtdev σ) :
    lines (jtag_release_device f k address d).log
      = [Call.jtdev_led_green 0]
        ++ lines (release_switch f k address (jtag_led_green_off f d).dev).log
        ++ lines (jtag_set_instruction_fetch f (release_switched f k address d)).log
        ++ [ir_call f 0x90, dr16_call f (k.BREAKREACT + k.READ), dr16_call f 0x0000,
            ir_call f 0x30, dr16_call f 0x000F, ir_call f 0xA8]
        ++ flush_calls f := by
  simp only [jtag_release_device, release_switched, bind_log, bind_dev, lines_append,
    lines_enter, enter_dev, lines_led_green_off, lines_ir_shift, lines_dr_shift_16,
    lines_flush_writes, List.singleton_append, List.cons_append, List.nil_append,
    List.append_nil, List.append_assoc]
  rfl

theorem lines_release_switch_reset (k : Defs) (s : Jtdev σ) :
    lines (release_switch f k 0xfffe s).log
      = [ir_call f 0x90, dr16_call f (k.BREAKREACT + k.WRITE), dr16_call f 0x0000,
          ir_call f 0xC8, dr16_call f 0x2C01, dr16_call f 0x2401] := by
  have h1 : ¬ ((0xfffe : Nat) = 0xffff) := by decide
  have h8 : ¬ ((-1 : Int) ≥ 8) := by decide
  have h0 : (-1 : Int) < 0 := by decide
  simp only [release_switch, jtag_set_breakpoint, ite_run, h1, h8, h0, if_true, if_false,
    bind_log, lines_append, lines_enter, lines_ir_shift, lines_dr_shift_16, lines_pure,
    List.singleton_append, List.cons_append, List.nil_append, List.append_nil,
    List.append_assoc]
  rfl

/-- C21: `jtag_release_device` switches the green indicator off, runs the branch selected by
the address, and then the same final sequence in all cases: instruction-fetch
synchronisation, EEM data exchange of `BREAKREACT + READ` and 0x0000, EEM write control
0x000F, and last the instruction `IR_CNTRL_SIG_RELEASE` (0xA8), followed by the flush. For
0xFFFF the branch does nothing; for 0xFFFE it is `jtag_set_breakpoint(-1, 0)` followed by the
control words 0x2C01 and 0x2401, without a register write; for every other address it is
`jtag_write_reg(0, address)`. -/
theorem release_device_cases (k : Defs) (address : Nat) (d : Jtdev σ) :
    lines (jtag_release_device f k address d).log
      = [Call.jtdev_led_green 0]
        ++ lines (release_switch f k address (jtag_led_green_off f d).dev).log
        ++ lines (jtag_set_instruction_fetch f (release_switched f k address d)).log
        ++ [ir_call f 0x90, dr16_call f (k.BREAKREACT + k.READ), dr16_call f 0x0000,
            ir_call f 0x30, dr16_call f 0x000F, ir_call f IR_CNTRL_SIG_RELEASE]
        ++ flush_calls f ∧
    (∀ s : Jtdev σ, (release_switch f k 0xffff s).log = [] ∧
      (release_switch f k 0xffff s).dev = s) ∧
    (∀ s : Jtdev σ,
      lines (release_switch f k 0xfffe s).log
        = [ir_call f 0x90, dr16_call f (k.BREAKREACT + k.WRITE), dr16_call f 0x0000,
            ir_call f IR_CNTRL_SIG_16BIT, dr16_call f 0x2C01, dr16_call f 0x2401] ∧
      ops (release_switch f k 0xfffe s).log = [Op.set_breakpoint (-1) 0]) ∧
    (address ≠ 0xffff → address ≠ 0xfffe →
      release_switch f k address = jtag_write_reg f 0 address) ∧
    ops (jtag_release_device f k address d).log
      = Op.release_device address ::
          (if address = 0xffff then []
           else if address = 0xfffe then [Op.set_breakpoint (-1) 0]
           else [Op.write_reg 0 address]) := by
  refine ⟨release_device_log f k address d, fun s => ⟨rfl, rfl⟩, fun s => ⟨?_, ?_⟩, ?_,
    ops_release_device f k address d⟩
  · exact lines_release_switch_reset f k s
  · have h1 : ¬ ((0xfffe : Nat) = 0xffff) := by decide
    simp only [release_switch, ite_run, h1, if_true, if_false, bind_log, ops_append,
      ops_set_breakpoint, ops_ir_shift, ops_dr_shift_16, ops_pure, List.append_nil]
  · intro h1 h2
    simp only [release_switch, h1, h2, if_false]

theorem release_device_cases_witness :
    lines (jtag_release_device (steady 0x0080) defs0 0xfffe fresh).log
      = [Call.jtdev_led_green 0,
          Call.jtdev_ir_shift 0x90, Call.jtdev_dr_shift_16 0x0080, Call.jtdev_dr_shift_16 0,
          Call.jtdev_ir_shift 0xC8, Call.jtdev_dr_shift_16 0x2C01,
          Call.jtdev_dr_shift_16 0x2401,
          Call.jtdev_ir_shift 0x28, Call.jtdev_dr_shift_16 0,
          Call.jtdev_ir_shift 0x90, Call.jtdev_dr_shift_16 0x0081, Call.jtdev_dr_shift_16 0,
          Call.jtdev_ir_shift 0x30, Call.jtdev_dr_shift_16 0x000F,
          Call.jtdev_ir_shift 0xA8] :=
  (release_device_cases (steady 0x0080) defs0 0xfffe fresh).1.trans (by decide)

/-! ## PSA verification: the locally computed value -/

theorem and_0x8000_iff (x : Nat) : x &&& 0x8000 = 0x8000 ↔ x.testBit 15 = true := by
  have e : (0x8000 : Nat) = 2 ^ 15 := by norm_num
  constructor
  · intro h
    have h2 : (x &&& 0x8000).testBit 15 = true := by
      rw [h, e]
      exact Nat.testBit_two_pow_self
    rw [Nat.testBit_and] at h2
    exact (Bool.and_eq_true _ _ ▸ h2).1
  · intro h
    apply Nat.eq_of_testBit_eq
    intro i
    rw [Nat.testBit_and, e, Nat.testBit_two_pow]
    by_cases hi : 15 = i
    · subst hi
      simp [h]
    · simp [hi]

theorem or_one_of_shiftLeft (y : Nat) : (y <<< 1) ||| 1 = 2 * y + 1 := by
  have h := Nat.mul_add_lt_is_or (show 1 < 2 ^ 1 by norm_num) y
  rw [Nat.shiftLeft_eq, Nat.mul_comm]
  exact h.symm

theorem or_one_of_shiftLeft_mod (y : Nat) : ((y <<< 1) % 2 ^ 32) ||| 1 = (2 * y) % 2 ^ 32 + 1 := by
  have h := Nat.mul_add_lt_is_or (show 1 < 2 ^ 1 by norm_num) ((2 * y) % 2 ^ 32 / 2)
  have e : 2 ^ 1 * ((2 * y) % 2 ^ 32 / 2) = (2 * y) % 2 ^ 32 := by omega
  rw [e] at h
  rw [Nat.shiftLeft_eq, Nat.mul_comm]
  exact h.symm

/-- The low 16 bits of the host's 32-bit `psa_crc` follow the 16-bit register. -/
theorem psa_step_low (x w : Nat) : psa_step x w % 65536 = spec_psa_step (x % 65536) w := by
  have hbit : (x % 65536).testBit 15 = x.testBit 15 := by
    have e : (65536 : Nat) = 2 ^ 16 := by norm_num
    rw [e, Nat.testBit_mod_two_pow]
    simp
  have hx : (x ^^^ 0x0805) % 65536 = (x % 65536) ^^^ 0x0805 := by
    rw [xor_mod_65536]
  unfold psa_step spec_psa_step
  rw [hbit, xor_mod_65536]
  congr 1
  by_cases hb : x.testBit 15 = true
  · rw [if_pos ((and_0x8000_iff x).2 hb), if_pos hb, or_one_of_shiftLeft_mod,
      or_one_of_shiftLeft, ← hx]
    omega
  · rw [if_neg (fun h => hb ((and_0x8000_iff x).1 h)), if_neg hb, Nat.shiftLeft_eq,
      Nat.shiftLeft_eq]
    omega

theorem psa_crc_loop_low (data : Nat → Nat) :
    ∀ (n index x : Nat),
      psa_crc_loop (some data) n index x % 65536 = spec_psa_loop data n index (x % 65536) := by
  intro n
  induction n with
  | zero => intro index x; rfl
  | succ n ih =>
    intro index x
    simp only [psa_crc_loop, spec_psa_loop]
    rw [ih, psa_step_low]
    simp only [spec_psa_step, Nat.mod_mod]

theorem verify_psa_loop_val (data : Option (Nat → Nat)) :
    ∀ (n index x : Nat) (d : Jtdev σ),
      (verify_psa_loop f data n index x d).val = psa_crc_loop data n index x := by
  intro n
  induction n with
  | zero => intro index x d; rfl
  | succ n ih =>
    intro index x d
    simp only [verify_psa_loop, psa_crc_loop, bind_val]
    exact ih _ _ _

theorem verify_psa_run_val (start length : Nat) (data : Option (Nat → Nat)) (d : Jtdev σ) :
    (verify_psa_run f start length data d).val.2
      = psa_crc_loop data length 0 ((start + 2 ^ 32 - 2) % 2 ^ 32) ∧
    (verify_psa_run f start length data d).val.1 < 65536 := by
  constructor
  · simp only [verify_psa_run, bind_val, pure_run, verify_psa_loop_val]
  · simp only [verify_psa_run, bind_val, pure_run, jtag_dr_shift_16_and_read]
    exact Nat.mod_lt _ (by norm_num)

/-- C28 as the code has it: `jtag_verify_mem` returns 1 exactly when the 16-bit value shifted
out of the target equals the host's `psa_crc`, an `unsigned int` that is never reduced to 16
bits. Its low 16 bits are the 16-bit PSA signature, so when `psa_crc` is below 0x10000 the
result is 1 exactly on equality with the signature, and when it is not the result is 0
whatever the target shifts out. On a simulated target that shifts out 0x0280, the signature
of the word 0x128B at start address 0x8002, the result is 0. -/
theorem verify_mem_compares_wide (start length : Nat) (data : Nat → Nat) (d : Jtdev σ) :
    (verify_psa_run f start length (some data) d).val.2
      = psa_crc_loop (some data) length 0 ((start + 2 ^ 32 - 2) % 2 ^ 32) ∧
    psa_crc_loop (some data) length 0 ((start + 2 ^ 32 - 2) % 2 ^ 32) % 65536
      = spec_psa_signature start length data ∧
    ((jtag_verify_mem f start length data d).val = 1 ↔
      (verify_psa_run f start length (some data) d).val.1
        = psa_crc_loop (some data) length 0 ((start + 2 ^ 32 - 2) % 2 ^ 32)) ∧
    ((jtag_verify_mem f start length data d).val = 1 ∨
      (jtag_verify_mem f start length data d).val = 0) ∧
    (psa_crc_loop (some data) length 0 ((start + 2 ^ 32 - 2) % 2 ^ 32) < 65536 →
      ((jtag_verify_mem f start length data d).val = 1 ↔
        (verify_psa_run f start length (some data) d).val.1
          = spec_psa_signature start length data)) ∧
    (65536 ≤ psa_crc_loop (some data) length 0 ((start + 2 ^ 32 - 2) % 2 ^ 32) →
      (jtag_verify_mem f start length data d).val = 0) ∧
    (verify_psa_run (sim_target 0) 0x8002 1 (some (fun _ => 0x128B)) fresh_sim).val.1
      = spec_psa_signature 0x8002 1 (fun _ => 0x128B) ∧
    (jtag_verify_mem (sim_target 0) 0x8002 1 (fun _ => 0x128B) fresh_sim).val = 0 ∧
    (jtag_verify_mem (sim_target 0) 0x8002 1 (fun _ => 0x128B) fresh_sim).dev.failed = 0 := by
  obtain ⟨hacc, hlt⟩ := verify_psa_run_val f start length (some data) d
  have hv : (jtag_verify_mem f start length data d).val
      = (if (verify_psa_run f start length (some data) d).val.1
            = (verify_psa_run f start length (some data) d).val.2 then 1 else 0) :=
    (verify_psa_dev f start length (some data) d).2
  have hlow : psa_crc_loop (some data) length 0 ((start + 2 ^ 32 - 2) % 2 ^ 32) % 65536
      = spec_psa_signature start length data := by
    have e : (start + 2 ^ 32 - 2) % 2 ^ 32 % 65536 = (start + 65536 - 2) % 65536 := by omega
    rw [psa_crc_loop_low, e]
    rfl
  have hiff : ((jtag_verify_mem f start length data d).val = 1 ↔
      (verify_psa_run f start length (some data) d).val.1
        = psa_crc_loop (some data) length 0 ((start + 2 ^ 32 - 2) % 2 ^ 32)) := by
    rw [hv, hacc]
    constructor
    · intro h
      by_contra hne
      rw [if_neg hne] at h
      exact absurd h (by decide)
    · intro h
      rw [if_pos h]
  refine ⟨hacc, hlow, hiff, ?_, ?_, ?_, by decide, by decide, by decide⟩
  · rw [hv]
    split
    · exact Or.inl rfl
    · exact Or.inr rfl
  · intro hsmall
    rw [hiff, ← hlow, Nat.mod_eq_of_lt hsmall]
  · intro hbig
    rw [hv, hacc, if_neg]
    intro h
    rw [h] at hlt
    omega

/-! ## The bit-by-bit shifts and the TAP state diagram -/

theorem pins_run_append (l1 l2 : List Call) (s : Pins) :
    Pins.run (l1 ++ l2) s = Pins.run l2 (Pins.run l1 s) := by
  induction l1 generalizing s with
  | nil => rfl
  | cons c l ih => exact ih (s.step c)

theorem tap_edges_append (l1 l2 : List Call) (s : Pins) :
    tap_edges (l1 ++ l2) s = tap_edges l1 s ++ tap_edges l2 (Pins.run l1 s) := by
  induction l1 generalizing s with
  | nil => rfl
  | cons c l ih =>
    show s.edge c ++ tap_edges (l ++ l2) (s.step c)
      = (s.edge c ++ tap_edges l (s.step c)) ++ tap_edges l2 (Pins.run l (s.step c))
    rw [ih, List.append_assoc]

theorem lines_tck_set (d : Jtdev σ) : lines (jtag_tck_set f d).log = [Call.jtdev_tck 1] := rfl

theorem lines_tck_clr (d : Jtdev σ) : lines (jtag_tck_clr f d).log = [Call.jtdev_tck 0] := rfl

theorem lines_tms_set (d : Jtdev σ) : lines (jtag_tms_set f d).log = [Call.jtdev_tms 1] := rfl

theorem lines_tms_clr (d : Jtdev σ) : lines (jtag_tms_clr f d).log = [Call.jtdev_tms 0] := rfl

theorem lines_tdi_set (d : Jtdev σ) : lines (jtag_tdi_set f d).log = [Call.jtdev_tdi 1] := rfl

theorem lines_tdi_clr (d : Jtdev σ) : lines (jtag_tdi_clr f d).log = [Call.jtdev_tdi 0] := rfl

theorem lines_ite {α : Type} (c : Prop) [Decidable c] (m1 m2 : JT σ α) (d : Jtdev σ) :
    lines ((if c then m1 else m2) d).log = if c then lines (m1 d).log else lines (m2 d).log := by
  split <;> rfl

theorem lines_default_shift_loop (data_out : Nat) :
    ∀ (n data_in : Nat) (d : Jtdev σ),
      lines (default_shift_loop f data_out n data_in d).log = shift_calls data_out n := by
  intro n
  induction n with
  | zero => intro data_in d; rfl
  | succ n ih =>
    intro data_in d
    simp only [default_shift_loop, shift_calls, bind_log, lines_append, ih, lines_ite,
      lines_tdi_set, lines_tdi_clr, lines_tms_set, lines_tck_clr, lines_tck_set,
      lines_call, lines_pure, List.append_nil, List.append_assoc, List.singleton_append,
      List.cons_append, List.nil_append]

theorem one_shiftLeft_succ_ne (n : Nat) : ¬ (1 <<< (n + 1) = 1) := by
  rw [Nat.shiftLeft_eq, Nat.one_mul, Nat.pow_succ]
  have : 0 < 2 ^ n := Nat.two_pow_pos n
  omega

/-- The loop of `jtag_default_shift` entered in a state that TMS low keeps (a shift state):
every bit but the last is clocked with TMS low, the last with TMS high. -/
theorem tap_edges_shift_calls (data_out : Nat) (t : Tap) (ht : t.next false = t) :
    ∀ (n tck : Nat),
      tap_edges (shift_calls data_out (n + 1)) { tap := t, tck := tck, tms := 0 }
        = List.replicate n (t, false) ++ [(t, true)] ∧
      Pins.run (shift_calls data_out (n + 1)) { tap := t, tck := tck, tms := 0 }
        = { tap := t.next true, tck := 1, tms := 1 } := by
  intro n
  induction n with
  | zero =>
    intro tck
    have hs : ∃ x, shift_calls data_out (0 + 1)
        = [Call.jtdev_tdi x, Call.jtdev_tms 1, Call.jtdev_tck 0, Call.jtdev_tck 1,
            Call.jtdev_tdo_get] := by
      have h1 : (1 : Nat) <<< 0 = 1 := rfl
      rw [shift_calls, if_pos h1]
      by_cases hb : data_out &&& (1 <<< 0) ≠ 0
      · exact ⟨1, by rw [if_pos hb]; rfl⟩
      · exact ⟨0, by rw [if_neg hb]; rfl⟩
    obtain ⟨x, hs⟩ := hs
    rw [hs]
    constructor <;> simp [tap_edges, Pins.run, Pins.step, Pins.edge]
  | succ n ih =>
    intro tck
    have hm := one_shiftLeft_succ_ne n
    obtain ⟨ih1, ih2⟩ := ih 1
    have hs : ∃ x, shift_calls data_out (n + 1 + 1)
        = [Call.jtdev_tdi x, Call.jtdev_tck 0, Call.jtdev_tck 1, Call.jtdev_tdo_get]
          ++ shift_calls data_out (n + 1) := by
      rw [shift_calls, if_neg hm]
      by_cases hb : data_out &&& (1 <<< (n + 1)) ≠ 0
      · exact ⟨1, by rw [if_pos hb]; rfl⟩
      · exact ⟨0, by rw [if_neg hb]; rfl⟩
    obtain ⟨x, hs⟩ := hs
    have hrun : Pins.run
        [Call.jtdev_tdi x, Call.jtdev_tck 0, Call.jtdev_tck 1, Call.jtdev_tdo_get]
        { tap := t, tck := tck, tms := 0 } = { tap := t, tck := 1, tms := 0 } := by
      simp [Pins.run, Pins.step, ht]
    have hedge : tap_edges
        [Call.jtdev_tdi x, Call.jtdev_tck 0, Call.jtdev_tck 1, Call.jtdev_tdo_get]
        { tap := t, tck := tck, tms := 0 } = [(t, false)] := by
      simp [tap_edges, Pins.step, Pins.edge]
    constructor
    · rw [hs, tap_edges_append, hrun, hedge, ih1]
      rfl
    · rw [hs, pins_run_append, hrun, ih2]

theorem lines_default_shift (num_bits data_out : Nat) (d : Jtdev σ) :
    ∃ tclk_save, lines (jtag_default_shift f num_bits data_out d).log
      = [Call.jtdev_tclk_get] ++ shift_calls data_out num_bits
        ++ [Call.jtdev_tclk tclk_save, Call.jtdev_tck 0, Call.jtdev_tck 1, Call.jtdev_tms 0,
            Call.jtdev_tck 0, Call.jtdev_tck 1] := by
  refine ⟨(f.exec Call.jtdev_tclk_get d).1, ?_⟩
  simp only [jtag_default_shift, jtag_default_tclk_prep, bind_log, bind_val, lines_append,
    lines_default_shift_loop, lines_pure, List.append_nil, List.append_assoc]
  rfl

/-- After the bits: `jtag_default_shift` restores TCLK and goes through Update back to
Run-Test/Idle. -/
theorem tap_default_shift (num_bits data_out : Nat) (d : Jtdev σ) (t : Tap)
    (ht : t.next false = t) (tck : Nat) :
    tap_edges (lines (jtag_default_shift f (num_bits + 1) data_out d).log)
        { tap := t, tck := tck, tms := 0 }
      = List.replicate num_bits (t, false)
        ++ [(t, true), (t.next true, true), ((t.next true).next true, false)] ∧
    Pins.run (lines (jtag_default_shift f (num_bits + 1) data_out d).log)
        { tap := t, tck := tck, tms := 0 }
      = { tap := ((t.next true).next true).next false, tck := 1, tms := 0 } := by
  obtain ⟨ts, hl⟩ := lines_default_shift f (num_bits + 1) data_out d
  obtain ⟨h1, h2⟩ := tap_edges_shift_calls data_out t ht num_bits tck
  have hrun0 : Pins.run [Call.jtdev_tclk_get] { tap := t, tck := tck, tms := 0 }
      = { tap := t, tck := tck, tms := 0 } := rfl
  have hedge0 : tap_edges [Call.jtdev_tclk_get] { tap := t, tck := tck, tms := 0 } = [] := rfl
  constructor
  · rw [hl, tap_edges_append, tap_edges_append, hedge0, pins_run_append, hrun0, h1, h2]
    simp [tap_edges, Pins.step, Pins.edge]
  · rw [hl, pins_run_append, pins_run_append, hrun0, h2]
    simp [Pins.run, Pins.step]

/-- The calls of `jtag_default_shift` for `n` bits, given the TCLK level it saved. -/
theorem tap_shift_list (data_out n tclk_save : Nat) (t : Tap) (ht : t.next false = t)
    (tck : Nat) :
    tap_edges ([Call.jtdev_tclk_get] ++ shift_calls data_out (n + 1)
        ++ [Call.jtdev_tclk tclk_save, Call.jtdev_tck 0, Call.jtdev_tck 1, Call.jtdev_tms 0,
            Call.jtdev_tck 0, Call.jtdev_tck 1])
        { tap := t, tck := tck, tms := 0 }
      = List.replicate n (t, false)
        ++ [(t, true), (t.next true, true), ((t.next true).next true, false)] ∧
    Pins.run ([Call.jtdev_tclk_get] ++ shift_calls data_out (n + 1)
        ++ [Call.jtdev_tclk tclk_save, Call.jtdev_tck 0, Call.jtdev_tck 1, Call.jtdev_tms 0,
            Call.jtdev_tck 0, Call.jtdev_tck 1])
        { tap := t, tck := tck, tms := 0 }
      = { tap := ((t.next true).next true).next false, tck := 1, tms := 0 } := by
  obtain ⟨h1, h2⟩ := tap_edges_shift_calls data_out t ht n tck
  have hrun0 : Pins.run [Call.jtdev_tclk_get] { tap := t, tck := tck, tms := 0 }
      = { tap := t, tck := tck, tms := 0 } := rfl
  have hedge0 : tap_edges [Call.jtdev_tclk_get] { tap := t, tck := tck, tms := 0 } = [] := rfl
  constructor
  · rw [tap_edges_append, tap_edges_append, hedge0, pins_run_append, hrun0, h1, h2]
    simp [tap_edges, Pins.step, Pins.edge]
  · rw [pins_run_append, pins_run_append, hrun0, h2]
    simp [Pins.run, Pins.step]

theorem lines_default_ir_shift (instruction : Nat) (d : Jtdev σ) :
    ∃ ts : Nat, lines (jtag_default_ir_shift f instruction d).log
      = [Call.jtdev_tms 1, Call.jtdev_tck 0, Call.jtdev_tck 1, Call.jtdev_tck 0,
          Call.jtdev_tck 1, Call.jtdev_tms 0, Call.jtdev_tck 0, Call.jtdev_tck 1,
          Call.jtdev_tck 0, Call.jtdev_tck 1]
        ++ ([Call.jtdev_tclk_get] ++ shift_calls (instruction % 256) (7 + 1)
          ++ [Call.jtdev_tclk ts, Call.jtdev_tck 0, Call.jtdev_tck 1, Call.jtdev_tms 0,
              Call.jtdev_tck 0, Call.jtdev_tck 1]) := by
  simp only [jtag_default_ir_shift, jtag_default_shift, jtag_default_tclk_prep, bind_log,
    bind_val, lines_append, lines_default_shift_loop, lines_tms_set, lines_tms_clr,
    lines_tck_set, lines_tck_clr, lines_call, lines_pure, List.append_nil,
    List.singleton_append, List.cons_append, List.nil_append, List.append_assoc]
  exact ⟨_, rfl⟩

theorem lines_default_dr_shift_8 (data : Nat) (d : Jtdev σ) :
    ∃ ts : Nat, lines (jtag_default_dr_shift_8 f data d).log
      = [Call.jtdev_tms 1, Call.jtdev_tck 0, Call.jtdev_tck 1, Call.jtdev_tms 0,
          Call.jtdev_tck 0, Call.jtdev_tck 1, Call.jtdev_tck 0, Call.jtdev_tck 1]
        ++ ([Call.jtdev_tclk_get] ++ shift_calls (data % 256) (7 + 1)
          ++ [Call.jtdev_tclk ts, Call.jtdev_tck 0, Call.jtdev_tck 1, Call.jtdev_tms 0,
              Call.jtdev_tck 0, Call.jtdev_tck 1]) := by
  simp only [jtag_default_dr_shift_8, jtag_default_shift, jtag_default_tclk_prep, bind_log,
    bind_val, lines_append, lines_default_shift_loop, lines_tms_set, lines_tms_clr,
    lines_tck_set, lines_tck_clr, lines_call, lines_pure, List.append_nil,
    List.singleton_append, List.cons_append, List.nil_append, List.append_assoc]
  exact ⟨_, rfl⟩

theorem lines_default_dr_shift_16 (data : Nat) (d : Jtdev σ) :
    ∃ ts : Nat, lines (jtag_default_dr_shift_16 f data d).log
      = [Call.jtdev_tms 1, Call.jtdev_tck 0, Call.jtdev_tck 1, Call.jtdev_tms 0,
          Call.jtdev_tck 0, Call.jtdev_tck 1, Call.jtdev_tck 0, Call.jtdev_tck 1]
        ++ ([Call.jtdev_tclk_get] ++ shift_calls (data % 65536) (15 + 1)
          ++ [Call.jtdev_tclk ts, Call.jtdev_tck 0, Call.jtdev_tck 1, Call.jtdev_tms 0,
              Call.jtdev_tck 0, Call.jtdev_tck 1]) := by
  simp only [jtag_default_dr_shift_16, jtag_default_shift, jtag_default_tclk_prep, bind_log,
    bind_val, lines_append, lines_default_shift_loop, lines_tms_set, lines_tms_clr,
    lines_tck_set, lines_tck_clr, lines_call, lines_pure, List.append_nil,
    List.singleton_append, List.cons_append, List.nil_append, List.append_assoc]
  exact ⟨_, rfl⟩

theorem tap_ir_prefix (tck tms : Nat) :
    tap_edges [Call.jtdev_tms 1, Call.jtdev_tck 0, Call.jtdev_tck 1, Call.jtdev_tck 0,
        Call.jtdev_tck 1, Call.jtdev_tms 0, Call.jtdev_tck 0, Call.jtdev_tck 1,
        Call.jtdev_tck 0, Call.jtdev_tck 1]
        { tap := Tap.Run_Test_Idle, tck := tck, tms := tms }
      = [(Tap.Run_Test_Idle, true), (Tap.Select_DR_Scan, true), (Tap.Select_IR_Scan, false),
          (Tap.Capture_IR, false)] ∧
    Pins.run [Call.jtdev_tms 1, Call.jtdev_tck 0, Call.jtdev_tck 1, Call.jtdev_tck 0,
        Call.jtdev_tck 1, Call.jtdev_tms 0, Call.jtdev_tck 0, Call.jtdev_tck 1,
        Call.jtdev_tck 0, Call.jtdev_tck 1]
        { tap := Tap.Run_Test_Idle, tck := tck, tms := tms }
      = { tap := Tap.Shift_IR, tck := 1, tms := 0 } := by
  constructor <;> simp [tap_edges, Pins.run, Pins.step, Pins.edge, Tap.next]

theorem tap_dr_prefix (tck tms : Nat) :
    tap_edges [Call.jtdev_tms 1, Call.jtdev_tck 0, Call.jtdev_tck 1, Call.jtdev_tms 0,
        Call.jtdev_tck 0, Call.jtdev_tck 1, Call.jtdev_tck 0, Call.jtdev_tck 1]
        { tap := Tap.Run_Test_Idle, tck := tck, tms := tms }
      = [(Tap.Run_Test_Idle, true), (Tap.Select_DR_Scan, false), (Tap.Capture_DR, false)] ∧
    Pins.run [Call.jtdev_tms 1, Call.jtdev_tck 0, Call.jtdev_tck 1, Call.jtdev_tms 0,
        Call.jtdev_tck 0, Call.jtdev_tck 1, Call.jtdev_tck 0, Call.jtdev_tck 1]
        { tap := Tap.Run_Test_Idle, tck := tck, tms := tms }
      = { tap := Tap.Shift_DR, tck := 1, tms := 0 } := by
  constructor <;> simp [tap_edges, Pins.run, Pins.step, Pins.edge, Tap.next]

/-- C29: under the standard TAP state diagram, with TMS sampled on each rising edge of TCK and
whatever the levels of TCK and TMS before, `jtag_default_ir_shift` started in Run-Test/Idle
takes its rising edges in Run-Test/Idle, Select-DR-Scan, Select-IR-Scan, Capture-IR, eight
times in Shift-IR with TMS high only on the eighth, then in Exit1-IR and Update-IR, and ends
in Run-Test/Idle. `jtag_default_dr_shift_8` and `jtag_default_dr_shift_16` take theirs in
Run-Test/Idle, Select-DR-Scan, Capture-DR, 8 and 16 times in Shift-DR with TMS high only on
the last, then in Exit1-DR and Update-DR, and end in Run-Test/Idle. This holds for every
value shifted and every transport. -/
theorem default_shifts_walk_tap (v : Nat) (d : Jtdev σ) (tck tms : Nat) :
    tap_edges (lines (jtag_default_ir_shift f v d).log)
        { tap := Tap.Run_Test_Idle, tck := tck, tms := tms }
      = [(Tap.Run_Test_Idle, true), (Tap.Select_DR_Scan, true), (Tap.Select_IR_Scan, false),
          (Tap.Capture_IR, false)]
        ++ List.replicate 7 (Tap.Shift_IR, false)
        ++ [(Tap.Shift_IR, true), (Tap.Exit1_IR, true), (Tap.Update_IR, false)] ∧
    (Pins.run (lines (jtag_default_ir_shift f v d).log)
        { tap := Tap.Run_Test_Idle, tck := tck, tms := tms }).tap = Tap.Run_Test_Idle ∧
    tap_edges (lines (jtag_default_dr_shift_8 f v d).log)
        { tap := Tap.Run_Test_Idle, tck := tck, tms := tms }
      = [(Tap.Run_Test_Idle, true), (Tap.Select_DR_Scan, false), (Tap.Capture_DR, false)]
        ++ List.replicate 7 (Tap.Shift_DR, false)
        ++ [(Tap.Shift_DR, true), (Tap.Exit1_DR, true), (Tap.Update_DR, false)] ∧
    (Pins.run (lines (jtag_default_dr_shift_8 f v d).log)
        { tap := Tap.Run_Test_Idle, tck := tck, tms := tms }).tap = Tap.Run_Test_Idle ∧
    tap_edges (lines (jtag_default_dr_shift_16 f v d).log)
        { tap := Tap.Run_Test_Idle, tck := tck, tms := tms }
      = [(Tap.Run_Test_Idle, true), (Tap.Select_DR_Scan, false), (Tap.Capture_DR, false)]
        ++ List.replicate 15 (Tap.Shift_DR, false)
        ++ [(Tap.Shift_DR, true), (Tap.Exit1_DR, true), (Tap.Update_DR, false)] ∧
    (Pins.run (lines (jtag_default_dr_shift_16 f v d).log)
        { tap := Tap.Run_Test_Idle, tck := tck, tms := tms }).tap = Tap.Run_Test_Idle := by
  obtain ⟨s1, h1⟩ := lines_default_ir_shift f v d
  obtain ⟨s2, h2⟩ := lines_default_dr_shift_8 f v d
  obtain ⟨s3, h3⟩ := lines_default_dr_shift_16 f v d
  obtain ⟨pi1, pi2⟩ := tap_ir_prefix tck tms
  obtain ⟨pd1, pd2⟩ := tap_dr_prefix tck tms
  obtain ⟨a1, a2⟩ := tap_shift_list (v % 256) 7 s1 Tap.Shift_IR rfl 1
  obtain ⟨b1, b2⟩ := tap_shift_list (v % 256) 7 s2 Tap.Shift_DR rfl 1
  obtain ⟨c1, c2⟩ := tap_shift_list (v % 65536) 15 s3 Tap.Shift_DR rfl 1
  refine ⟨?_, ?_, ?_, ?_, ?_, ?_⟩
  · rw [h1, tap_edges_append, pi1, pi2, a1]
    rfl
  · rw [h1, pins_run_append, pi2, a2]
    rfl
  · rw [h2, tap_edges_append, pd1, pd2, b1]
    rfl
  · rw [h2, pins_run_append, pd2, b2]
    rfl
  · rw [h3, tap_edges_append, pd1, pd2, c1]
    rfl
  · rw [h3, pins_run_append, pd2, c2]
    rfl

/-! ## Transports that behave as the simulated CPU -/

theorem sim_cpu_is : is_cpu_sim sim_cpu := fun _ _ => rfl

theorem sim_cpu_wronly_is : is_cpu_sim sim_cpu_wronly := fun _ _ => rfl

theorem cpu_call (g : JtdevFunc Cpu) (hs : is_cpu_sim g) (c : Call) (d : Jtdev Cpu) :
    (call g c d).dev = { d with hw := d.hw.after c } ∧ (call g c d).val = d.hw.ret c := by
  unfold call
  rw [hs c d]
  exact ⟨rfl, rfl⟩

theorem cpu_ir_shift (g : JtdevFunc Cpu) (hs : is_cpu_sim g) (i fl ir tclk pc : Nat)
    (regs mem : Nat → Nat) (latch : Option Nat) (pend : Pending) (bus : Nat) (read : Bool) :
    (jtag_ir_shift g i (Jtdev.mk fl (Cpu.mk ir tclk pc regs mem latch pend bus read))).dev
      = Jtdev.mk fl (Cpu.mk (i % 256) tclk pc regs mem none pend bus read) := by
  unfold jtag_ir_shift
  split
  · rw [(cpu_call g hs _ _).1]; rfl
  · rw [(cpu_call g hs _ _).1]; rfl

theorem cpu_dr_shift (g : JtdevFunc Cpu) (hs : is_cpu_sim g) (x fl : Nat) (c : Cpu) :
    (jtag_dr_shift_16 g x (Jtdev.mk fl c)).dev = Jtdev.mk fl (c.shift (x % 65536)) := by
  unfold jtag_dr_shift_16
  split
  · rw [(cpu_call g hs _ _).1]; rfl
  · rw [(cpu_call g hs _ _).1]; rfl

theorem cpu_dr_read (g : JtdevFunc Cpu) (hs : is_cpu_sim g) (x fl : Nat) (c : Cpu) :
    (jtag_dr_shift_16_and_read g x (Jtdev.mk fl c)).dev = Jtdev.mk fl (c.shift (x % 65536)) ∧
    (jtag_dr_shift_16_and_read g x (Jtdev.mk fl c)).val = c.capture % 65536 := by
  unfold jtag_dr_shift_16_and_read
  rw [bind_dev, bind_val, (cpu_call g hs _ _).1, (cpu_call g hs _ _).2]
  exact ⟨rfl, rfl⟩

theorem cpu_tclk_set (g : JtdevFunc Cpu) (hs : is_cpu_sim g) (fl : Nat) (c : Cpu) :
    (jtag_tclk_set g (Jtdev.mk fl c)).dev = Jtdev.mk fl (c.after (Call.jtdev_tclk 1)) := by
  unfold jtag_tclk_set
  rw [(cpu_call g hs _ _).1]

theorem cpu_tclk_clr (g : JtdevFunc Cpu) (hs : is_cpu_sim g) (fl : Nat) (c : Cpu) :
    (jtag_tclk_clr g (Jtdev.mk fl c)).dev = Jtdev.mk fl (c.after (Call.jtdev_tclk 0)) := by
  unfold jtag_tclk_clr
  rw [(cpu_call g hs _ _).1]

theorem cpu_flush (g : JtdevFunc Cpu) (hs : is_cpu_sim g) (fl : Nat) (c : Cpu) :
    (jtag_flush_writes g (Jtdev.mk fl c)).dev = Jtdev.mk fl c := by
  unfold jtag_flush_writes
  split
  · rw [bind_dev, (cpu_call g hs _ _).1]; rfl
  · rfl

/-! ### The simulated CPU, call by call -/

theorem after_tclk_clr (ir tclk pc : Nat) (regs mem : Nat → Nat) (latch : Option Nat)
    (pend : Pending) (bus : Nat) (read : Bool) :
    (Cpu.mk ir tclk pc regs mem latch pend bus read).after (Call.jtdev_tclk 0)
      = Cpu.mk ir 0 pc regs mem latch pend bus read := rfl

theorem after_tclk_set_high (ir pc : Nat) (regs mem : Nat → Nat) (latch : Option Nat)
    (pend : Pending) (bus : Nat) (read : Bool) :
    (Cpu.mk ir 1 pc regs mem latch pend bus read).after (Call.jtdev_tclk 1)
      = Cpu.mk ir 1 pc regs mem latch pend bus read := rfl

theorem after_tclk_idle (ir : Nat) (hir : ir ≠ 0xC2) (pc : Nat) (regs mem : Nat → Nat)
    (pend : Pending) (bus : Nat) (read : Bool) :
    (Cpu.mk ir 0 pc regs mem none pend bus read).after (Call.jtdev_tclk 1)
      = Cpu.mk ir 1 pc regs mem none pend bus read := by
  have h : ¬ (ir = IR_DATA_QUICK) := hir
  simp only [Cpu.after, Cpu.clock, h, if_false]
  rfl

theorem after_tclk_data (ir : Nat) (hir : ir ≠ 0xC2) (w pc : Nat) (regs mem : Nat → Nat)
    (pend : Pending) (bus : Nat) (read : Bool) :
    (Cpu.mk ir 0 pc regs mem (some w) pend bus read).after (Call.jtdev_tclk 1)
      = { ((Cpu.mk ir 0 pc regs mem (some w) pend bus read).consume w) with
          tclk := 1, latch := none } := by
  have h : ¬ (ir = IR_DATA_QUICK) := hir
  simp only [Cpu.after, Cpu.clock, h, if_false]
  rfl

theorem consume_plain (w : Nat) (h1 : w &&& 0xFFF0 ≠ 0x4030) (h2 : w &&& 0xF0FF ≠ 0x4082)
    (ir tclk pc : Nat) (regs mem : Nat → Nat) (latch : Option Nat) (bus : Nat) (read : Bool) :
    (Cpu.mk ir tclk pc regs mem latch Pending.opcode bus read).consume w
      = Cpu.mk ir tclk pc regs mem latch Pending.opcode bus read := by
  simp only [Cpu.consume, h1, h2, if_false]

theorem consume_mov_imm : ∀ n, n < 16 →
    ((0x4030 ||| (n &&& 0x000f)) % 65536) &&& 0xFFF0 = 0x4030 ∧
    ((0x4030 ||| (n &&& 0x000f)) % 65536) &&& 0x000F = n := by
  decide

theorem consume_mov_abs : ∀ n, n < 16 →
    (read_reg_word n % 65536) &&& 0xFFF0 ≠ 0x4030 ∧
    (read_reg_word n % 65536) &&& 0xF0FF = 0x4082 ∧
    ((read_reg_word n % 65536) >>> 8) &&& 0x000F = n := by
  decide

theorem after_tclk_mov_imm (n : Nat) (hn : n < 16) (pc : Nat) (regs mem : Nat → Nat)
    (bus : Nat) (read : Bool) :
    (Cpu.mk 0x82 0 pc regs mem (some ((0x4030 ||| (n &&& 0x000f)) % 65536)) Pending.opcode
        bus read).after (Call.jtdev_tclk 1)
      = Cpu.mk 0x82 1 pc regs mem none (Pending.immediate n) bus read := by
  obtain ⟨h1, h2⟩ := consume_mov_imm n hn
  rw [after_tclk_data 0x82 (by decide)]
  simp only [Cpu.consume, h1, h2, if_true]

theorem after_tclk_mov_abs (n : Nat) (hn : n < 16) (pc : Nat) (regs mem : Nat → Nat)
    (bus : Nat) (read : Bool) :
    (Cpu.mk 0x82 0 pc regs mem (some (read_reg_word n % 65536)) Pending.opcode
        bus read).after (Call.jtdev_tclk 1)
      = Cpu.mk 0x82 1 pc regs mem none (Pending.address n) bus read := by
  obtain ⟨h1, h2, h3⟩ := consume_mov_abs n hn
  rw [after_tclk_data 0x82 (by decide)]
  simp only [Cpu.consume, h1, h2, h3, if_true, if_false]

theorem after_tclk_plain (w : Nat) (h1 : w &&& 0xFFF0 ≠ 0x4030) (h2 : w &&& 0xF0FF ≠ 0x4082)
    (pc : Nat) (regs mem : Nat → Nat) (bus : Nat) (read : Bool) :
    (Cpu.mk 0x82 0 pc regs mem (some w) Pending.opcode bus read).after (Call.jtdev_tclk 1)
      = Cpu.mk 0x82 1 pc regs mem none Pending.opcode bus read := by
  rw [after_tclk_data 0x82 (by decide), consume_plain w h1 h2]

theorem after_tclk_immediate (n w pc : Nat) (regs mem : Nat → Nat) (bus : Nat) (read : Bool) :
    (Cpu.mk 0x82 0 pc regs mem (some w) (Pending.immediate n) bus read).after
        (Call.jtdev_tclk 1)
      = Cpu.mk 0x82 1 (if n = 0 then w else pc)
          (if n = 0 then regs else Function.update regs n w) mem none Pending.opcode
          bus read := by
  rw [after_tclk_data 0x82 (by decide)]
  by_cases h : n = 0
  · simp only [Cpu.consume, h, if_true]
  · simp only [Cpu.consume, h, if_false]

theorem after_tclk_address (n w pc : Nat) (regs mem : Nat → Nat) (bus : Nat) (read : Bool) :
    (Cpu.mk 0x82 0 pc regs mem (some w) (Pending.address n) bus read).after
        (Call.jtdev_tclk 1)
      = Cpu.mk 0x82 1 pc regs mem none Pending.opcode (if n = 0 then pc else regs n)
          read := by
  rw [after_tclk_data 0x82 (by decide)]
  simp only [Cpu.consume]

theorem shift_ctl (x tclk pc : Nat) (regs mem : Nat → Nat) (latch : Option Nat)
    (pend : Pending) (bus : Nat) (read : Bool) :
    (Cpu.mk 0xC8 tclk pc regs mem latch pend bus read).shift x
      = Cpu.mk 0xC8 tclk pc regs mem latch pend bus (decide (x &&& 1 = 1)) := rfl

theorem shift_data (x tclk pc : Nat) (regs mem : Nat → Nat) (latch : Option Nat)
    (pend : Pending) (bus : Nat) (read : Bool) :
    (Cpu.mk 0x82 tclk pc regs mem latch pend bus read).shift x
      = Cpu.mk 0x82 tclk pc regs mem (some x) pend bus read := rfl

theorem shift_quick (x tclk pc : Nat) (regs mem : Nat → Nat) (latch : Option Nat)
    (pend : Pending) (bus : Nat) (read : Bool) :
    (Cpu.mk 0xC2 tclk pc regs mem latch pend bus read).shift x
      = Cpu.mk 0xC2 tclk pc regs mem (some x) pend bus read := rfl

theorem shift_other (ir : Nat) (h1 : ir ≠ 0xC8) (h2 : ir ≠ 0x82) (h3 : ir ≠ 0xC2)
    (x tclk pc : Nat) (regs mem : Nat → Nat) (latch : Option Nat)
    (pend : Pending) (bus : Nat) (read : Bool) :
    (Cpu.mk ir tclk pc regs mem latch pend bus read).shift x
      = Cpu.mk ir tclk pc regs mem latch pend bus read := by
  have e1 : ¬ (ir = IR_CNTRL_SIG_16BIT) := h1
  have e2 : ¬ (ir = IR_DATA_16BIT) := h2
  have e3 : ¬ (ir = IR_DATA_QUICK) := h3
  simp only [Cpu.shift, e1, e2, e3, if_false]

/-! ### Operations on the simulated CPU -/

theorem cpu_fetch_loop (g : JtdevFunc Cpu) (hs : is_cpu_sim g) (n fl tclk pc : Nat)
    (regs mem : Nat → Nat) (latch : Option Nat) (pend : Pending) (bus : Nat) (read : Bool) :
    (set_instruction_fetch_loop g (n + 1)
      (Jtdev.mk fl (Cpu.mk 0x28 tclk pc regs mem latch pend bus read))).dev
      = Jtdev.mk fl (Cpu.mk 0x28 tclk pc regs mem latch pend bus read) := by
  have hv : (jtag_dr_shift_16_and_read g 0
      (Jtdev.mk fl (Cpu.mk 0x28 tclk pc regs mem latch pend bus read))).val = 0x0280 := by
    rw [(cpu_dr_read g hs _ _ _).2]
    rfl
  have hd : (jtag_dr_shift_16_and_read g 0
      (Jtdev.mk fl (Cpu.mk 0x28 tclk pc regs mem latch pend bus read))).dev
      = Jtdev.mk fl (Cpu.mk 0x28 tclk pc regs mem latch pend bus read) := by
    rw [(cpu_dr_read g hs _ _ _).1]
    rfl
  rw [set_instruction_fetch_loop, bind_dev, hv, hd, if_pos (by decide)]
  rfl

theorem cpu_set_instruction_fetch (g : JtdevFunc Cpu) (hs : is_cpu_sim g)
    (fl ir tclk pc : Nat) (regs mem : Nat → Nat) (latch : Option Nat) (pend : Pending)
    (bus : Nat) (read : Bool) :
    (jtag_set_instruction_fetch g
      (Jtdev.mk fl (Cpu.mk ir tclk pc regs mem latch pend bus read))).dev
      = Jtdev.mk fl (Cpu.mk 0x28 tclk pc regs mem none pend bus read) := by
  unfold jtag_set_instruction_fetch
  rw [bind_dev, cpu_ir_shift g hs]
  exact cpu_fetch_loop g hs 49 fl tclk pc regs mem none pend bus read

theorem ir_mod_ctl : IR_CNTRL_SIG_16BIT % 256 = 0xC8 := rfl

theorem ir_mod_data : IR_DATA_16BIT % 256 = 0x82 := rfl

theorem ir_mod_capture : IR_DATA_CAPTURE % 256 = 0x42 := rfl

theorem ir_mod_quick : IR_DATA_QUICK % 256 = 0xC2 := rfl

theorem ir_mod_addr_capture : IR_ADDR_CAPTURE % 256 = 0x21 := rfl

theorem cpu_write_reg (g : JtdevFunc Cpu) (hs : is_cpu_sim g) (n : Nat) (hn : n < 16)
    (v fl ir tclk pc : Nat) (regs mem : Nat → Nat) (latch : Option Nat) (bus : Nat)
    (read : Bool) :
    (jtag_write_reg g n v
      (Jtdev.mk fl (Cpu.mk ir tclk pc regs mem latch Pending.opcode bus read))).dev
      = Jtdev.mk fl (Cpu.mk 0xC8 1 (if n = 0 then v % 65536 else pc)
          (if n = 0 then regs else Function.update regs n (v % 65536)) mem none
          Pending.opcode bus true) := by
  simp only [jtag_write_reg, bind_dev, enter_dev, cpu_set_instruction_fetch g hs,
    cpu_ir_shift g hs, cpu_dr_shift g hs, cpu_tclk_set g hs, cpu_tclk_clr g hs,
    cpu_flush g hs, ir_mod_ctl, ir_mod_data, shift_ctl, shift_data, after_tclk_clr,
    after_tclk_plain (0x3ffd % 65536) (by decide) (by decide),
    after_tclk_idle 0x82 (by decide), after_tclk_mov_imm n hn, after_tclk_immediate]
  rfl

theorem cpu_read_reg (g : JtdevFunc Cpu) (hs : is_cpu_sim g) (n : Nat) (hn : n < 16)
    (fl ir tclk pc : Nat) (regs mem : Nat → Nat) (latch : Option Nat) (bus : Nat)
    (read : Bool) :
    (jtag_read_reg g n
      (Jtdev.mk fl (Cpu.mk ir tclk pc regs mem latch Pending.opcode bus read))).val
      = (if n = 0 then pc else regs n) % 65536 ∧
    (jtag_read_reg g n
      (Jtdev.mk fl (Cpu.mk ir tclk pc regs mem latch Pending.opcode bus read))).dev
      = Jtdev.mk fl (Cpu.mk 0xC8 1 pc regs mem none Pending.opcode
          (if n = 0 then pc else regs n) true) := by
  constructor
  · simp only [jtag_read_reg, bind_dev, bind_val, pure_run, cpu_set_instruction_fetch g hs,
      cpu_ir_shift g hs, cpu_dr_shift g hs, cpu_dr_read g hs, cpu_tclk_set g hs,
      cpu_tclk_clr g hs, ir_mod_ctl, ir_mod_data, ir_mod_capture, shift_ctl, shift_data,
      after_tclk_clr, after_tclk_plain (0x3ffd % 65536) (by decide) (by decide),
      after_tclk_idle 0x82 (by decide), after_tclk_mov_abs n hn, after_tclk_address]
    rfl
  · simp only [jtag_read_reg, bind_dev, bind_val, pure_run, cpu_set_instruction_fetch g hs,
      cpu_ir_shift g hs, cpu_dr_shift g hs, cpu_dr_read g hs, cpu_tclk_set g hs,
      cpu_tclk_clr g hs, ir_mod_ctl, ir_mod_data, ir_mod_capture, shift_ctl, shift_data,
      shift_other 0x42 (by decide) (by decide) (by decide),
      after_tclk_clr, after_tclk_plain (0x3ffd % 65536) (by decide) (by decide),
      after_tclk_idle 0x82 (by decide), after_tclk_idle 0xC8 (by decide),
      after_tclk_mov_abs n hn, after_tclk_address]
    rfl

/-- C23: on every transport that behaves as the simulated CPU (it executes the substituted
instruction words on the TCLK pulses and presents the source register on the data bus), for
every register `n` in 0..15 and every 16-bit value `v`, `jtag_write_reg(n, v)` followed by
`jtag_read_reg(n)` returns `v`; the write changes no other register and no memory, and neither
call touches `p->failed`. The session is taken at an instruction boundary. -/
theorem reg_round_trip (g : JtdevFunc Cpu) (hs : is_cpu_sim g) (n v : Nat) (d : Jtdev Cpu)
    (hn : n < 16) (hv : v < 65536) (hd : d.hw.pending = Pending.opcode) :
    (jtag_read_reg g n (jtag_write_reg g n v d).dev).val = v ∧
    (jtag_read_reg g n (jtag_write_reg g n v d).dev).dev.failed = d.failed ∧
    (jtag_write_reg g n v d).dev.hw.mem = d.hw.mem ∧
    (∀ m, m ≠ n → m ≠ 0 → (jtag_write_reg g n v d).dev.hw.regs m = d.hw.regs m) ∧
    (n ≠ 0 → (jtag_write_reg g n v d).dev.hw.pc = d.hw.pc) := by
  obtain ⟨fl, c⟩ := d
  obtain ⟨ir, tclk, pc, regs, mem, latch, pend, bus, read⟩ := c
  simp only at hd
  subst hd
  rw [cpu_write_reg g hs n hn]
  obtain ⟨h1, h2⟩ := cpu_read_reg g hs n hn fl 0xC8 1 (if n = 0 then v % 65536 else pc)
    (if n = 0 then regs else Function.update regs n (v % 65536)) mem none bus true
  rw [h1, h2]
  refine ⟨?_, rfl, rfl, ?_, ?_⟩
  · by_cases h0 : n = 0
    · simp only [h0, if_true]
      omega
    · simp only [h0, if_false, Function.update_same]
      omega
  · intro m hm hm0
    by_cases h0 : n = 0
    · simp only [h0, if_true]
    · simp only [h0, if_false, Function.update_noteq hm]
  · intro h0
    simp only [h0, if_false]

theorem reg_round_trip_witness :
    is_cpu_sim sim_cpu ∧ (5 : Nat) < 16 ∧ (0x1234 : Nat) < 65536 ∧
    fresh_cpu.hw.pending = Pending.opcode ∧
    (jtag_read_reg sim_cpu 5 (jtag_write_reg sim_cpu 5 0x1234 fresh_cpu).dev).val = 0x1234 :=
  ⟨fun _ _ => rfl, by decide, by decide, rfl,
    (reg_round_trip sim_cpu (fun _ _ => rfl) 5 0x1234 fresh_cpu (by decide) (by decide)
      rfl).1⟩

/-! ## Block access: set-up, loops and tail -/

theorem write_mem_quick_dev (address length : Nat) (data : Nat → Nat) (d : Jtdev σ) :
    (jtag_write_mem_quick f address length data d).dev
      = (jtag_release_cpu f (jtag_tclk_set f
          (write_mem_quick_loop f data length 0
            (quick_setup f address 0x2408 d).dev).dev).dev).dev := by
  simp only [jtag_write_mem_quick, quick_setup, bind_dev, enter_dev, pure_run]

theorem read_mem_quick_val (address length : Nat) (d : Jtdev σ) :
    (jtag_read_mem_quick f address length d).val
      = (read_mem_quick_loop f length (quick_setup f address 0x2409 d).dev).val := by
  simp only [jtag_read_mem_quick, quick_setup, bind_dev, bind_val, enter_dev, pure_run]

theorem read_mem_quick_dev (address length : Nat) (d : Jtdev σ) :
    (jtag_read_mem_quick f address length d).dev
      = (jtag_release_cpu f (jtag_tclk_set f
          (read_mem_quick_loop f length (quick_setup f address 0x2409 d).dev).dev).dev).dev := by
  simp only [jtag_read_mem_quick, quick_setup, bind_dev, bind_val, enter_dev, pure_run]

theorem lines_write_mem_quick_loop (data : Nat → Nat) :
    ∀ (n index : Nat) (d : Jtdev σ),
      lines (write_mem_quick_loop f data n index d).log
        = (List.range n).flatMap (fun i =>
            [dr16_call f (data (index + i)), Call.jtdev_tclk 1, Call.jtdev_tclk 0]) := by
  intro n
  induction n with
  | zero => intro index d; rfl
  | succ n ih =>
    intro index d
    have hadd : ∀ t, index + (t + 1) = index + 1 + t := fun t => by omega
    have hmod : dr16_call f (data index % 65536) = dr16_call f (data index) := by
      unfold dr16_call
      rw [Nat.mod_mod]
    rw [range_flatMap_succ]
    simp only [write_mem_quick_loop, bind_log, lines_append, lines_dr_shift_16,
      lines_tclk_set, lines_tclk_clr, ih, hmod, Nat.add_zero, List.singleton_append,
      List.cons_append, List.nil_append]
    congr 4
    funext t
    rw [hadd t]

theorem lines_read_mem_quick_loop :
    ∀ (n : Nat) (d : Jtdev σ),
      lines (read_mem_quick_loop f n d).log
        = (List.range n).flatMap (fun _ =>
            [Call.jtdev_tclk 1, Call.jtdev_tclk 0, Call.jtdev_dr_shift_16 0]) := by
  intro n
  induction n with
  | zero => intro d; rfl
  | succ n ih =>
    intro d
    rw [range_flatMap_succ]
    simp only [read_mem_quick_loop, bind_log, lines_append, lines_dr_shift_16_and_read,
      lines_tclk_set, lines_tclk_clr, lines_pure, ih, List.singleton_append,
      List.cons_append, List.nil_append, List.append_nil]

theorem lines_write_mem_quick (address length : Nat) (data : Nat → Nat) (d : Jtdev σ) :
    lines (jtag_write_mem_quick f address length data d).log
      = lines (quick_setup f address 0x2408 d).log
        ++ (List.range length).flatMap (fun i =>
            [dr16_call f (data i), Call.jtdev_tclk 1, Call.jtdev_tclk 0])
        ++ ([Call.jtdev_tclk 1, Call.jtdev_tclk 0, ir_call f 0xC8, dr16_call f 0x2401,
            ir_call f 0x21, Call.jtdev_tclk 1] ++ flush_calls f) := by
  simp only [jtag_write_mem_quick, quick_setup, bind_log, bind_dev, lines_append,
    lines_enter, enter_dev, lines_pure, lines_write_mem_quick_loop, lines_release_cpu,
    lines_tclk_set, Nat.zero_add, List.append_nil, List.nil_append, List.append_assoc,
    List.singleton_append, List.cons_append]

theorem lines_read_mem_quick (address length : Nat) (d : Jtdev σ) :
    lines (jtag_read_mem_quick f address length d).log
      = lines (quick_setup f address 0x2409 d).log
        ++ (List.range length).flatMap (fun _ =>
            [Call.jtdev_tclk 1, Call.jtdev_tclk 0, Call.jtdev_dr_shift_16 0])
        ++ ([Call.jtdev_tclk 1, Call.jtdev_tclk 0, ir_call f 0xC8, dr16_call f 0x2401,
            ir_call f 0x21, Call.jtdev_tclk 1] ++ flush_calls f) := by
  simp only [jtag_read_mem_quick, quick_setup, bind_log, bind_dev, lines_append,
    lines_enter, enter_dev, lines_pure, lines_read_mem_quick_loop, lines_release_cpu,
    lines_tclk_set, List.append_nil, List.nil_append, List.append_assoc,
    List.singleton_append, List.cons_append]

theorem ops_quick_setup (address ctl : Nat) (d : Jtdev σ) :
    ops (quick_setup f address ctl d).log
      = [Op.write_reg 0 ((address + 2 ^ 32 - 4) % 2 ^ 32)] := by
  simp only [quick_setup, bind_log, ops_append, ops_write_reg, ops_halt_cpu, ops_tclk_clr,
    ops_ir_shift, ops_dr_shift_16, ops_pure, List.append_nil]

/-! ## Block round trip on the simulated CPU -/

theorem cpu_halt_cpu (g : JtdevFunc Cpu) (hs : is_cpu_sim g) (fl ir pc : Nat)
    (regs mem : Nat → Nat) (latch : Option Nat) (bus : Nat) (read : Bool) :
    (jtag_halt_cpu g
      (Jtdev.mk fl (Cpu.mk ir 1 pc regs mem latch Pending.opcode bus read))).dev
      = Jtdev.mk fl (Cpu.mk 0xC8 1 pc regs mem none Pending.opcode bus true) := by
  simp only [jtag_halt_cpu, bind_dev, pure_run, cpu_set_instruction_fetch g hs,
    cpu_ir_shift g hs, cpu_dr_shift g hs, cpu_tclk_set g hs, cpu_tclk_clr g hs,
    ir_mod_ctl, ir_mod_data, shift_ctl, shift_data, after_tclk_clr, after_tclk_set_high,
    after_tclk_idle 0xC8 (by decide)]
  rfl

theorem cpu_quick_setup (g : JtdevFunc Cpu) (hs : is_cpu_sim g) (address ctl fl ir tclk pc : Nat)
    (regs mem : Nat → Nat) (latch : Option Nat) (bus : Nat) (read : Bool) :
    (quick_setup g address ctl
      (Jtdev.mk fl (Cpu.mk ir tclk pc regs mem latch Pending.opcode bus read))).dev
      = Jtdev.mk fl (Cpu.mk 0xC2 0 ((address + 2 ^ 32 - 4) % 2 ^ 32 % 65536) regs mem none
          Pending.opcode bus (decide (ctl % 65536 &&& 1 = 1))) := by
  simp only [quick_setup, bind_dev, pure_run, cpu_write_reg g hs 0 (by decide),
    cpu_halt_cpu g hs, cpu_ir_shift g hs, cpu_dr_shift g hs, cpu_tclk_clr g hs,
    ir_mod_ctl, ir_mod_quick, shift_ctl, after_tclk_clr, if_true]

theorem after_tclk_quick_write (w pc : Nat) (regs mem : Nat → Nat) (pend : Pending)
    (bus : Nat) :
    (Cpu.mk 0xC2 0 pc regs mem (some w) pend bus false).after (Call.jtdev_tclk 1)
      = Cpu.mk 0xC2 1 (pc + 2) regs (Function.update mem (pc + 4) w) none pend bus false :=
  rfl

theorem after_tclk_quick_read (pc : Nat) (regs mem : Nat → Nat) (latch : Option Nat)
    (pend : Pending) (bus : Nat) :
    (Cpu.mk 0xC2 0 pc regs mem latch pend bus true).after (Call.jtdev_tclk 1)
      = Cpu.mk 0xC2 1 (pc + 2) regs mem none pend bus true := by
  cases latch <;> rfl

theorem after_tclk_quick_none (pc : Nat) (regs mem : Nat → Nat) (pend : Pending)
    (bus : Nat) (read : Bool) :
    (Cpu.mk 0xC2 0 pc regs mem none pend bus read).after (Call.jtdev_tclk 1)
      = Cpu.mk 0xC2 1 (pc + 2) regs mem none pend bus read := rfl

theorem capture_quick_read (tclk pc : Nat) (regs mem : Nat → Nat) (latch : Option Nat)
    (pend : Pending) (bus : Nat) :
    (Cpu.mk 0xC2 tclk pc regs mem latch pend bus true).capture = mem (pc + 2) := rfl

theorem cpu_write_loop (g : JtdevFunc Cpu) (hs : is_cpu_sim g) (w : Nat → Nat) :
    ∀ (n index fl pc : Nat) (regs mem : Nat → Nat) (pend : Pending) (bus : Nat),
      (write_mem_quick_loop g w n index
        (Jtdev.mk fl (Cpu.mk 0xC2 0 pc regs mem none pend bus false))).dev
        = Jtdev.mk fl (Cpu.mk 0xC2 0 (pc + 2 * n) regs (store_words w n index (pc + 4) mem)
            none pend bus false) := by
  intro n
  induction n with
  | zero => intro index fl pc regs mem pend bus; rfl
  | succ n ih =>
    intro index fl pc regs mem pend bus
    simp only [write_mem_quick_loop, bind_dev, cpu_dr_shift g hs, cpu_tclk_set g hs,
      cpu_tclk_clr g hs, shift_quick, after_tclk_quick_write, after_tclk_clr, ih,
      store_words, Nat.mod_mod]
    have e1 : pc + 2 + 2 * n = pc + 2 * (n + 1) := by omega
    have e2 : pc + 2 + 4 = pc + 4 + 2 := by omega
    rw [e1, e2]

theorem cpu_read_loop (g : JtdevFunc Cpu) (hs : is_cpu_sim g) :
    ∀ (n fl pc : Nat) (regs mem : Nat → Nat) (latch : Option Nat) (pend : Pending)
      (bus : Nat),
      (read_mem_quick_loop g n
        (Jtdev.mk fl (Cpu.mk 0xC2 0 pc regs mem latch pend bus true))).val
        = (List.range n).map (fun i => mem (pc + 4 + 2 * i) % 65536) := by
  intro n
  induction n with
  | zero => intro fl pc regs mem latch pend bus; rfl
  | succ n ih =>
    intro fl pc regs mem latch pend bus
    simp only [read_mem_quick_loop, bind_dev, bind_val, pure_run, cpu_dr_read g hs,
      cpu_tclk_set g hs, cpu_tclk_clr g hs, shift_quick, after_tclk_quick_read,
      after_tclk_clr, capture_quick_read, ih]
    rw [List.range_succ_eq_map, List.map_cons, List.map_map]
    have e1 : pc + 2 + 2 = pc + 4 + 2 * 0 := by omega
    rw [e1]
    congr 1
    apply List.map_congr_left
    intro i _
    have e2 : pc + 2 + 4 + 2 * i = pc + 4 + 2 * (i + 1) := by omega
    simp only [Function.comp, e2]

theorem store_words_below (w : Nat → Nat) :
    ∀ (n index base : Nat) (mem : Nat → Nat) (a : Nat), a < base →
      store_words w n index base mem a = mem a := by
  intro n
  induction n with
  | zero => intro index base mem a _; rfl
  | succ n ih =>
    intro index base mem a ha
    rw [store_words, ih (index + 1) (base + 2) _ a (by omega),
      Function.update_noteq (by omega)]

theorem store_words_at (w : Nat → Nat) :
    ∀ (n index base : Nat) (mem : Nat → Nat) (i : Nat), i < n →
      store_words w n index base mem (base + 2 * i) = w (index + i) % 65536 := by
  intro n
  induction n with
  | zero => intro index base mem i hi; omega
  | succ n ih =>
    intro index base mem i hi
    rw [store_words]
    cases i with
    | zero =>
      rw [store_words_below w n (index + 1) (base + 2) _ (base + 2 * 0) (by omega)]
      simp only [Nat.mul_zero, Nat.add_zero, Function.update_same]
    | succ j =>
      have e1 : base + 2 * (j + 1) = base + 2 + 2 * j := by omega
      have e2 : index + (j + 1) = index + 1 + j := by omega
      rw [e1, e2]
      exact ih (index + 1) (base + 2) _ j (by omega)

theorem cpu_write_mem_quick (g : JtdevFunc Cpu) (hs : is_cpu_sim g) (address n : Nat)
    (w : Nat → Nat) (fl ir tclk pc : Nat) (regs mem : Nat → Nat) (latch : Option Nat)
    (bus : Nat) (read : Bool) :
    (jtag_write_mem_quick g address n w
      (Jtdev.mk fl (Cpu.mk ir tclk pc regs mem latch Pending.opcode bus read))).dev
      = Jtdev.mk fl (Cpu.mk 0x21 1 ((address + 2 ^ 32 - 4) % 2 ^ 32 % 65536 + 2 * n + 2) regs
          (store_words w n 0 ((address + 2 ^ 32 - 4) % 2 ^ 32 % 65536 + 4) mem) none
          Pending.opcode bus true) := by
  have hc : decide ((0x2408 : Nat) % 65536 &&& 1 = 1) = false := by decide
  rw [write_mem_quick_dev, cpu_quick_setup g hs, hc, cpu_write_loop g hs]
  simp only [jtag_release_cpu, bind_dev, cpu_ir_shift g hs, cpu_dr_shift g hs,
    cpu_tclk_set g hs, cpu_tclk_clr g hs, cpu_flush g hs, ir_mod_ctl, ir_mod_addr_capture,
    shift_ctl, after_tclk_clr, after_tclk_quick_none, after_tclk_idle 0x21 (by decide)]
  rfl

/-- C24: on every transport that behaves as the simulated CPU (quick access advances the
program counter by 2 on each TCLK pulse and reads or writes the word after it), for every
address, word count `n` and words `w`, `jtag_write_mem_quick(address, n, w)` followed by
`jtag_read_mem_quick(address, n)` returns `w[0..n-1]` unchanged and in order. On every
transport, both preload R0 with `address - 4`; the write loop makes one data shift of `w[i]`
followed by one TCLK pulse for `i = 0, ..., n - 1` in this order, and the read loop one TCLK
pulse followed by one read-capable data shift, `n` times. -/
theorem mem_quick_round_trip (g : JtdevFunc Cpu) (hs : is_cpu_sim g) (address n : Nat)
    (w : Nat → Nat) (d : Jtdev Cpu) (hd : d.hw.pending = Pending.opcode) :
    (jtag_read_mem_quick g address n (jtag_write_mem_quick g address n w d).dev).val
      = (List.range n).map (fun i => w i % 65536) ∧
    (jtag_write_mem_quick g address n w d).dev.failed = d.failed ∧
    lines (jtag_write_mem_quick g address n w d).log
      = lines (quick_setup g address 0x2408 d).log
        ++ (List.range n).flatMap (fun i =>
            [dr16_call g (w i), Call.jtdev_tclk 1, Call.jtdev_tclk 0])
        ++ ([Call.jtdev_tclk 1, Call.jtdev_tclk 0, ir_call g 0xC8, dr16_call g 0x2401,
            ir_call g 0x21, Call.jtdev_tclk 1] ++ flush_calls g) ∧
    (∀ s : Jtdev Cpu, lines (jtag_read_mem_quick g address n s).log
      = lines (quick_setup g address 0x2409 s).log
        ++ (List.range n).flatMap (fun _ =>
            [Call.jtdev_tclk 1, Call.jtdev_tclk 0, Call.jtdev_dr_shift_16 0])
        ++ ([Call.jtdev_tclk 1, Call.jtdev_tclk 0, ir_call g 0xC8, dr16_call g 0x2401,
            ir_call g 0x21, Call.jtdev_tclk 1] ++ flush_calls g)) ∧
    (∀ (ctl : Nat) (s : Jtdev Cpu), ops (quick_setup g address ctl s).log
      = [Op.write_reg 0 ((address + 2 ^ 32 - 4) % 2 ^ 32)]) := by
  refine ⟨?_, ?_, lines_write_mem_quick g address n w d,
    fun s => lines_read_mem_quick g address n s,
    fun ctl s => ops_quick_setup g address ctl s⟩
  · obtain ⟨fl, c⟩ := d
    obtain ⟨ir, tclk, pc, regs, mem, latch, pend, bus, read⟩ := c
    simp only at hd
    subst hd
    have hc : decide ((0x2409 : Nat) % 65536 &&& 1 = 1) = true := by decide
    rw [cpu_write_mem_quick g hs, read_mem_quick_val, cpu_quick_setup g hs, hc,
      cpu_read_loop g hs]
    apply List.map_congr_left
    intro i hi
    rw [store_words_at w n 0 _ mem i (List.mem_range.1 hi), Nat.zero_add, Nat.mod_mod]
  · obtain ⟨fl, c⟩ := d
    obtain ⟨ir, tclk, pc, regs, mem, latch, pend, bus, read⟩ := c
    simp only at hd
    subst hd
    rw [cpu_write_mem_quick g hs]

theorem mem_quick_round_trip_witness :
    is_cpu_sim sim_cpu ∧ fresh_cpu.hw.pending = Pending.opcode ∧
    (jtag_read_mem_quick sim_cpu 0x8000 3
      (jtag_write_mem_quick sim_cpu 0x8000 3 (fun i => 0x1111 * (i + 1)) fresh_cpu).dev).val
      = [0x1111, 0x2222, 0x3333] :=
  ⟨fun _ _ => rfl, rfl,
    (mem_quick_round_trip sim_cpu (fun _ _ => rfl) 0x8000 3 (fun i => 0x1111 * (i + 1))
      fresh_cpu rfl).1.trans (by decide)⟩

/-! ## The sticky failure flag is never cleared -/

theorem sticky_pure {α : Type} (a : α) : sticky (pure a : JT σ α) := fun _ h => h

theorem sticky_bind {α β : Type} (m : JT σ α) (g : α → JT σ β) (hm : sticky m)
    (hg : ∀ a, sticky (g a)) : sticky (m >>= g) :=
  fun d h => hg (m d).val (m d).dev (hm d h)

theorem sticky_ite {α : Type} (c : Prop) [Decidable c] (m1 m2 : JT σ α) (h1 : sticky m1)
    (h2 : sticky m2) : sticky (if c then m1 else m2) := by
  split
  · exact h1
  · exact h2

theorem sticky_call (hk : keeps_failed f) (c : Call) : sticky (call f c) := by
  intro d h
  show (f.exec c d).2.failed ≠ 0
  rw [hk c d]
  exact h

theorem sticky_enter (o : Op) : sticky (enter o : JT σ Unit) := fun _ h => h

theorem sticky_delay_ms (ms : Nat) : sticky (delay_ms ms : JT σ Unit) := fun _ h => h

theorem sticky_set_failed : sticky (set_failed : JT σ Unit) := by
  intro d _
  show (1 : Nat) ≠ 0
  decide

theorem sticky_ir_shift (hk : keeps_failed f) (ir : Nat) : sticky (jtag_ir_shift f ir) := by
  unfold jtag_ir_shift
  exact sticky_ite _ _ _ (sticky_call f hk _) (sticky_call f hk _)

theorem sticky_dr_shift_16 (hk : keeps_failed f) (dr : Nat) :
    sticky (jtag_dr_shift_16 f dr) := by
  unfold jtag_dr_shift_16
  exact sticky_ite _ _ _ (sticky_call f hk _) (sticky_call f hk _)

theorem sticky_dr_shift_8 (hk : keeps_failed f) (dr : Nat) :
    sticky (jtag_dr_shift_8 f dr) := by
  unfold jtag_dr_shift_8
  exact sticky_ite _ _ _ (sticky_call f hk _) (sticky_call f hk _)

theorem sticky_dr_shift_16_and_read (hk : keeps_failed f) (dr : Nat) :
    sticky (jtag_dr_shift_16_and_read f dr) := by
  unfold jtag_dr_shift_16_and_read
  exact sticky_bind _ _ (sticky_call f hk _) (fun _ => sticky_pure _)

theorem sticky_dr_shift_8_and_read (hk : keeps_failed f) (dr : Nat) :
    sticky (jtag_dr_shift_8_and_read f dr) := by
  unfold jtag_dr_shift_8_and_read
  exact sticky_bind _ _ (sticky_call f hk _) (fun _ => sticky_pure _)

theorem sticky_ir_shift_and_read (hk : keeps_failed f) (ir : Nat) :
    sticky (jtag_ir_shift_and_read f ir) := by
  unfold jtag_ir_shift_and_read
  exact sticky_bind _ _ (sticky_call f hk _) (fun _ => sticky_pure _)

theorem sticky_flush_writes (hk : keeps_failed f) : sticky (jtag_flush_writes f) := by
  unfold jtag_flush_writes
  exact sticky_ite _ _ _ (sticky_bind _ _ (sticky_call f hk _) (fun _ => sticky_pure _))
    (sticky_pure _)

theorem sticky_tclk_set (hk : keeps_failed f) : sticky (jtag_tclk_set f) :=
  sticky_call f hk _

theorem sticky_tclk_clr (hk : keeps_failed f) : sticky (jtag_tclk_clr f) :=
  sticky_call f hk _

theorem sticky_set_instruction_fetch_loop (hk : keeps_failed f) :
    ∀ n, sticky (set_instruction_fetch_loop f n) := by
  intro n
  induction n with
  | zero =>
    unfold set_instruction_fetch_loop
    exact sticky_bind _ _ sticky_set_failed (fun _ => sticky_pure _)
  | succ n ih =>
    unfold set_instruction_fetch_loop
    repeat' first
      | exact ih
      | exact sticky_pure _
      | exact sticky_tclk_set f hk
      | exact sticky_tclk_clr f hk
      | exact sticky_dr_shift_16_and_read f hk _
      | apply sticky_bind
      | apply sticky_ite
      | intro _

theorem sticky_led_green_on (hk : keeps_failed f) : sticky (jtag_led_green_on f) :=
  sticky_call f hk _

theorem sticky_led_green_off (hk : keeps_failed f) : sticky (jtag_led_green_off f) :=
  sticky_call f hk _

theorem sticky_led_red_on (hk : keeps_failed f) : sticky (jtag_led_red_on f) :=
  sticky_call f hk _

theorem sticky_led_red_off (hk : keeps_failed f) : sticky (jtag_led_red_off f) :=
  sticky_call f hk _

theorem sticky_tms_sequence (hk : keeps_failed f) (bits value : Nat) :
    sticky (jtag_tms_sequence f bits value) :=
  sticky_call f hk _

theorem sticky_init_dap (hk : keeps_failed f) : sticky (jtag_init_dap f) :=
  sticky_call f hk _

theorem sticky_set_instruction_fetch (hk : keeps_failed f) :
    sticky (jtag_set_instruction_fetch f) := by
  unfold jtag_set_instruction_fetch
  repeat' first
    | exact hk
    | with_reducible apply sticky_bind
    | with_reducible apply sticky_ir_shift
    | with_reducible apply sticky_set_instruction_fetch_loop
    | intro _

theorem sticky_halt_cpu (hk : keeps_failed f) :
    sticky (jtag_halt_cpu f) := by
  unfold jtag_halt_cpu
  repeat' first
    | exact hk
    | with_reducible apply sticky_bind
    | with_reducible exact sticky_pure _
    | with_reducible apply sticky_set_instruction_fetch
    | with_reducible apply sticky_ir_shift
    | with_reducible apply sticky_dr_shift_16
    | with_reducible apply sticky_tclk_set
    | with_reducible apply sticky_tclk_clr
    | intro _

theorem sticky_release_cpu (hk : keeps_failed f) :
    sticky (jtag_release_cpu f) := by
  unfold jtag_release_cpu
  repeat' first
    | exact hk
    | with_reducible apply sticky_bind
    | with_reducible apply sticky_tclk_clr
    | with_reducible apply sticky_ir_shift
    | with_reducible apply sticky_dr_shift_16
    | with_reducible apply sticky_tclk_set
    | with_reducible apply sticky_flush_writes
    | intro _

theorem sticky_get_device_loop (hk : keeps_failed f) :
    ∀ (n : Nat), sticky (get_device_loop f n) := by
  intro n
  induction n with
  | zero =>
    unfold get_device_loop
    exact sticky_pure _
  | succ n ih =>
    unfold get_device_loop
    repeat' first
      | exact hk
      | with_reducible apply ih
      | with_reducible apply sticky_bind
      | with_reducible apply sticky_ite
      | with_reducible exact sticky_pure _
      | with_reducible apply sticky_dr_shift_16_and_read
      | intro _

theorem sticky_get_device (hk : keeps_failed f) :
    sticky (jtag_get_device f) := by
  unfold jtag_get_device
  repeat' first
    | exact hk
    | with_reducible apply sticky_bind
    | with_reducible apply sticky_ite
    | with_reducible exact sticky_pure _
    | with_reducible apply sticky_enter
    | with_reducible apply sticky_ir_shift
    | with_reducible apply sticky_dr_shift_16
    | with_reducible apply sticky_ir_shift_and_read
    | with_reducible apply sticky_get_device_loop
    | with_reducible apply sticky_set_failed
    | with_reducible apply sticky_led_green_on
    | intro _

theorem sticky_read_mem (hk : keeps_failed f) (format address : Nat) :
    sticky (jtag_read_mem f format address) := by
  unfold jtag_read_mem
  repeat' first
    | exact hk
    | with_reducible apply sticky_bind
    | with_reducible apply sticky_ite
    | with_reducible exact sticky_pure _
    | with_reducible apply sticky_enter
    | with_reducible apply sticky_halt_cpu
    | with_reducible apply sticky_tclk_clr
    | with_reducible apply sticky_ir_shift
    | with_reducible apply sticky_dr_shift_16
    | with_reducible apply sticky_tclk_set
    | with_reducible apply sticky_dr_shift_16_and_read
    | with_reducible apply sticky_release_cpu
    | intro _

theorem sticky_write_mem (hk : keeps_failed f) (format address data : Nat) :
    sticky (jtag_write_mem f format address data) := by
  unfold jtag_write_mem
  repeat' first
    | exact hk
    | with_reducible apply sticky_bind
    | with_reducible apply sticky_ite
    | with_reducible apply sticky_halt_cpu
    | with_reducible apply sticky_tclk_clr
    | with_reducible apply sticky_ir_shift
    | with_reducible apply sticky_dr_shift_16
    | with_reducible apply sticky_tclk_set
    | with_reducible apply sticky_release_cpu
    | intro _

theorem sticky_write_reg (hk : keeps_failed f) (reg value : Nat) :
    sticky (jtag_write_reg f reg value) := by
  unfold jtag_write_reg
  repeat' first
    | exact hk
    | with_reducible apply sticky_bind
    | with_reducible apply sticky_enter
    | with_reducible apply sticky_set_instruction_fetch
    | with_reducible apply sticky_ir_shift
    | with_reducible apply sticky_dr_shift_16
    | with_reducible apply sticky_tclk_clr
    | with_reducible apply sticky_tclk_set
    | with_reducible apply sticky_flush_writes
    | intro _

theorem sticky_read_reg (hk : keeps_failed f) (reg : Nat) :
    sticky (jtag_read_reg f reg) := by
  unfold jtag_read_reg
  repeat' first
    | exact hk
    | with_reducible apply sticky_bind
    | with_reducible exact sticky_pure _
    | with_reducible apply sticky_set_instruction_fetch
    | with_reducible apply sticky_ir_shift
    | with_reducible apply sticky_dr_shift_16
    | with_reducible apply sticky_tclk_clr
    | with_reducible apply sticky_tclk_set
    | with_reducible apply sticky_dr_shift_16_and_read
    | intro _

theorem sticky_read_mem_quick_loop (hk : keeps_failed f) :
    ∀ (n : Nat), sticky (read_mem_quick_loop f n) := by
  intro n
  induction n with
  | zero =>
    unfold read_mem_quick_loop
    exact sticky_pure _
  | succ n ih =>
    unfold read_mem_quick_loop
    repeat' first
      | exact hk
      | with_reducible apply ih
      | with_reducible apply sticky_bind
      | with_reducible exact sticky_pure _
      | with_reducible apply sticky_tclk_set
      | with_reducible apply sticky_tclk_clr
      | with_reducible apply sticky_dr_shift_16_and_read
      | intro _

theorem sticky_read_mem_quick (hk : keeps_failed f) (address length : Nat) :
    sticky (jtag_read_mem_quick f address length) := by
  unfold jtag_read_mem_quick
  repeat' first
    | exact hk
    | with_reducible apply sticky_bind
    | with_reducible exact sticky_pure _
    | with_reducible apply sticky_enter
    | with_reducible apply sticky_write_reg
    | with_reducible apply sticky_halt_cpu
    | with_reducible apply sticky_tclk_clr
    | with_reducible apply sticky_ir_shift
    | with_reducible apply sticky_dr_shift_16
    | with_reducible apply sticky_read_mem_quick_loop
    | with_reducible apply sticky_tclk_set
    | with_reducible apply sticky_release_cpu
    | intro _

theorem sticky_write_mem_quick_loop (hk : keeps_failed f) (data : Nat → Nat) :
    ∀ (n index : Nat), sticky (write_mem_quick_loop f data n index) := by
  intro n
  induction n with
  | zero =>
    intro _
    unfold write_mem_quick_loop
    exact sticky_pure _
  | succ n ih =>
    intro _
    unfold write_mem_quick_loop
    repeat' first
      | exact hk
      | with_reducible apply ih
      | with_reducible apply sticky_bind
      | with_reducible apply sticky_dr_shift_16
      | with_reducible apply sticky_tclk_set
      | with_reducible apply sticky_tclk_clr
      | intro _

theorem sticky_write_mem_quick (hk : keeps_failed f) (address length : Nat) (data : Nat → Nat) :
    sticky (jtag_write_mem_quick f address length data) := by
  unfold jtag_write_mem_quick
  repeat' first
    | exact hk
    | with_reducible apply sticky_bind
    | with_reducible apply sticky_enter
    | with_reducible apply sticky_write_reg
    | with_reducible apply sticky_halt_cpu
    | with_reducible apply sticky_tclk_clr
    | with_reducible apply sticky_ir_shift
    | with_reducible apply sticky_dr_shift_16
    | with_reducible apply sticky_write_mem_quick_loop
    | with_reducible apply sticky_tclk_set
    | with_reducible apply sticky_release_cpu
    | intro _

theorem sticky_set_breakpoint (hk : keeps_failed f) (k : Defs) (bp_num : Int) (bp_addr : Nat) :
    sticky (jtag_set_breakpoint f k bp_num bp_addr) := by
  unfold jtag_set_breakpoint
  repeat' first
    | exact hk
    | with_reducible apply sticky_bind
    | with_reducible apply sticky_ite
    | with_reducible exact sticky_pure _
    | with_reducible apply sticky_enter
    | with_reducible apply sticky_set_failed
    | with_reducible apply sticky_ir_shift
    | with_reducible apply sticky_dr_shift_16
    | with_reducible apply sticky_dr_shift_16_and_read
    | with_reducible apply sticky_flush_writes
    | intro _

theorem sticky_release_device (hk : keeps_failed f) (k : Defs) (address : Nat) :
    sticky (jtag_release_device f k address) := by
  unfold jtag_release_device
  repeat' first
    | exact hk
    | with_reducible apply sticky_bind
    | with_reducible apply sticky_ite
    | with_reducible exact sticky_pure _
    | with_reducible apply sticky_enter
    | with_reducible apply sticky_led_green_off
    | with_reducible apply sticky_set_breakpoint
    | with_reducible apply sticky_ir_shift
    | with_reducible apply sticky_dr_shift_16
    | with_reducible apply sticky_write_reg
    | with_reducible apply sticky_set_instruction_fetch
    | with_reducible apply sticky_flush_writes
    | intro _

theorem sticky_execute_puc (hk : keeps_failed f) :
    sticky (jtag_execute_puc f) := by
  unfold jtag_execute_puc
  repeat' first
    | exact hk
    | with_reducible apply sticky_bind
    | with_reducible exact sticky_pure _
    | with_reducible apply sticky_ir_shift
    | with_reducible apply sticky_dr_shift_16
    | with_reducible apply sticky_tclk_clr
    | with_reducible apply sticky_tclk_set
    | with_reducible apply sticky_ir_shift_and_read
    | with_reducible apply sticky_write_mem
    | intro _

theorem sticky_fuse_attempt (hk : keeps_failed f) :
    sticky (fuse_attempt f) := by
  unfold fuse_attempt
  repeat' first
    | exact hk
    | with_reducible apply sticky_bind
    | with_reducible apply sticky_ir_shift
    | with_reducible apply sticky_dr_shift_16_and_read
    | intro _

theorem sticky_is_fuse_blown_loop (hk : keeps_failed f) :
    ∀ (n : Nat), sticky (is_fuse_blown_loop f n) := by
  intro n
  induction n with
  | zero =>
    unfold is_fuse_blown_loop
    exact sticky_pure _
  | succ n ih =>
    unfold is_fuse_blown_loop
    repeat' first
      | exact hk
      | with_reducible apply ih
      | with_reducible apply sticky_bind
      | with_reducible apply sticky_ite
      | with_reducible exact sticky_pure _
      | with_reducible apply sticky_fuse_attempt
      | intro _

theorem sticky_is_fuse_blown (hk : keeps_failed f) :
    sticky (jtag_is_fuse_blown f) :=
  sticky_is_fuse_blown_loop f hk 3

theorem sticky_init (hk : keeps_failed f) :
    sticky (jtag_init f) := by
  unfold jtag_init
  repeat' first
    | exact hk
    | with_reducible apply sticky_bind
    | with_reducible apply sticky_ite
    | with_reducible exact sticky_pure _
    | with_reducible apply sticky_init_dap
    | with_reducible apply sticky_is_fuse_blown
    | with_reducible apply sticky_set_failed
    | with_reducible apply sticky_get_device
    | with_reducible apply sticky_execute_puc
    | intro _

theorem sticky_verify_psa_loop (hk : keeps_failed f) (data : Option (Nat → Nat)) :
    ∀ (n index psa_crc : Nat), sticky (verify_psa_loop f data n index psa_crc) := by
  intro n
  induction n with
  | zero =>
    intro _ _
    unfold verify_psa_loop
    exact sticky_pure _
  | succ n ih =>
    intro _ _
    unfold verify_psa_loop
    repeat' first
      | exact hk
      | with_reducible apply ih
      | with_reducible apply sticky_bind
      | with_reducible apply sticky_tclk_set
      | with_reducible apply sticky_tms_sequence
      | with_reducible apply sticky_tclk_clr
      | intro _

theorem sticky_verify_psa_run (hk : keeps_failed f) (start_address length : Nat) (data : Option (Nat → Nat)) :
    sticky (verify_psa_run f start_address length data) := by
  unfold verify_psa_run
  repeat' first
    | exact hk
    | with_reducible apply sticky_bind
    | with_reducible exact sticky_pure _
    | with_reducible apply sticky_execute_puc
    | with_reducible apply sticky_ir_shift
    | with_reducible apply sticky_dr_shift_16
    | with_reducible apply sticky_set_instruction_fetch
    | with_reducible apply sticky_tclk_set
    | with_reducible apply sticky_tclk_clr
    | with_reducible apply sticky_verify_psa_loop
    | with_reducible apply sticky_dr_shift_16_and_read
    | intro _

theorem sticky_verify_psa (hk : keeps_failed f) (start_address length : Nat) (data : Option (Nat → Nat)) :
    sticky (jtag_verify_psa f start_address length data) := by
  unfold jtag_verify_psa
  repeat' first
    | exact hk
    | with_reducible apply sticky_bind
    | with_reducible exact sticky_pure _
    | with_reducible apply sticky_verify_psa_run
    | intro _

theorem sticky_verify_mem (hk : keeps_failed f) (start_address length : Nat) (data : Nat → Nat) :
    sticky (jtag_verify_mem f start_address length data) :=
  sticky_verify_psa f hk start_address length (some data)

theorem sticky_erase_check (hk : keeps_failed f) (start_address length : Nat) :
    sticky (jtag_erase_check f start_address length) :=
  sticky_verify_psa f hk start_address length none

theorem sticky_fast_verify_run (hk : keeps_failed f) (k : Defs) (start_address length : Nat) :
    sticky (fast_verify_run f k start_address length) := by
  unfold fast_verify_run
  repeat' first
    | exact hk
    | with_reducible apply sticky_bind
    | with_reducible apply sticky_led_green_on
    | with_reducible apply sticky_write_mem_quick
    | with_reducible apply sticky_release_device
    | with_reducible apply sticky_delay_ms
    | with_reducible apply sticky_get_device
    | with_reducible apply sticky_read_mem_quick
    | intro _

theorem sticky_fast_verify_mem (hk : keeps_failed f) (k : Defs) (start_address length_words : Nat) (data : Nat → Nat) :
    sticky (jtag_fast_verify_mem f k start_address length_words data) := by
  unfold jtag_fast_verify_mem
  repeat' first
    | exact hk
    | with_reducible apply sticky_bind
    | with_reducible apply sticky_ite
    | with_reducible exact sticky_pure _
    | with_reducible apply sticky_fast_verify_run
    | with_reducible apply sticky_set_failed
    | with_reducible apply sticky_write_mem_quick
    | with_reducible apply sticky_led_green_off
    | intro _

theorem sticky_write_flash_block (hk : keeps_failed f) (k : Defs) (start_address length : Nat) (data : Nat → Nat) (index : Nat) :
    sticky (write_flash_block f k start_address length data index) := by
  unfold write_flash_block
  repeat' first
    | exact hk
    | with_reducible apply sticky_bind
    | with_reducible apply sticky_write_mem_quick
    | with_reducible apply sticky_release_device
    | with_reducible apply sticky_delay_ms
    | with_reducible apply sticky_get_device
    | with_reducible apply sticky_read_mem
    | intro _

theorem sticky_write_flash_loop (hk : keeps_failed f) (k : Defs) (start_address length : Nat) (data : Nat → Nat) :
    ∀ (n index : Nat), sticky (write_flash_loop f k start_address length data n index) := by
  intro n
  induction n with
  | zero =>
    intro _
    unfold write_flash_loop
    exact sticky_ite _ _ _ (sticky_pure _) (sticky_pure _)
  | succ n ih =>
    intro _
    unfold write_flash_loop
    repeat' first
      | exact hk
      | with_reducible apply ih
      | with_reducible apply sticky_bind
      | with_reducible apply sticky_ite
      | with_reducible exact sticky_pure _
      | with_reducible apply sticky_write_flash_block
      | with_reducible apply sticky_read_mem_quick
      | with_reducible apply sticky_set_failed
      | intro _

theorem sticky_write_flash_blocks (hk : keeps_failed f) (k : Defs) (start_address length_words : Nat) (data : Nat → Nat) :
    sticky (write_flash_blocks f k start_address length_words data) := by
  unfold write_flash_blocks
  repeat' first
    | exact hk
    | with_reducible apply sticky_bind
    | with_reducible apply sticky_led_red_on
    | with_reducible apply sticky_write_mem_quick
    | with_reducible apply sticky_write_flash_loop
    | intro _

theorem sticky_write_flash (hk : keeps_failed f) (k : Defs) (start_address length_words : Nat) (data : Nat → Nat) :
    sticky (jtag_write_flash f k start_address length_words data) := by
  unfold jtag_write_flash
  repeat' first
    | exact hk
    | with_reducible apply sticky_bind
    | with_reducible apply sticky_ite
    | with_reducible exact sticky_pure _
    | with_reducible apply sticky_write_flash_blocks
    | with_reducible apply sticky_write_mem_quick
    | with_reducible apply sticky_led_red_off
    | intro _

theorem sticky_erase_flash_run (hk : keeps_failed f) (k : Defs) (erase_mode : EraseMode) (erase_address : Nat) :
    sticky (erase_flash_run f k erase_mode erase_address) := by
  unfold erase_flash_run
  repeat' first
    | exact hk
    | with_reducible apply sticky_bind
    | with_reducible apply sticky_ite
    | with_reducible apply sticky_led_red_on
    | with_reducible apply sticky_write_mem_quick
    | with_reducible apply sticky_release_device
    | with_reducible apply sticky_delay_ms
    | with_reducible apply sticky_get_device
    | with_reducible apply sticky_read_mem_quick
    | intro _

theorem sticky_erase_flash (hk : keeps_failed f) (k : Defs) (erase_mode : EraseMode) (erase_address : Nat) :
    sticky (jtag_erase_flash f k erase_mode erase_address) := by
  unfold jtag_erase_flash
  repeat' first
    | exact hk
    | with_reducible apply sticky_bind
    | with_reducible apply sticky_ite
    | with_reducible exact sticky_pure _
    | with_reducible apply sticky_erase_flash_run
    | with_reducible apply sticky_set_failed
    | with_reducible apply sticky_write_mem_quick
    | with_reducible apply sticky_led_red_off
    | intro _

theorem sticky_single_step_loop (hk : keeps_failed f) :
    ∀ (n : Nat), sticky (single_step_loop f n) := by
  intro n
  induction n with
  | zero =>
    unfold single_step_loop
    exact sticky_pure _
  | succ n ih =>
    unfold single_step_loop
    repeat' first
      | exact hk
      | with_reducible apply ih
      | with_reducible apply sticky_bind
      | with_reducible apply sticky_ite
      | with_reducible exact sticky_pure _
      | with_reducible apply sticky_tclk_clr
      | with_reducible apply sticky_tclk_set
      | with_reducible apply sticky_dr_shift_16_and_read
      | intro _

theorem sticky_single_step (hk : keeps_failed f) :
    sticky (jtag_single_step f) := by
  unfold jtag_single_step
  repeat' first
    | exact hk
    | with_reducible apply sticky_bind
    | with_reducible apply sticky_ite
    | with_reducible exact sticky_pure _
    | with_reducible apply sticky_ir_shift
    | with_reducible apply sticky_dr_shift_16
    | with_reducible apply sticky_single_step_loop
    | with_reducible apply sticky_flush_writes
    | with_reducible apply sticky_set_failed
    | intro _

theorem sticky_cpu_state (hk : keeps_failed f) :
    sticky (jtag_cpu_state f) := by
  unfold jtag_cpu_state
  repeat' first
    | exact hk
    | with_reducible apply sticky_bind
    | with_reducible apply sticky_ite
    | with_reducible exact sticky_pure _
    | with_reducible apply sticky_ir_shift
    | with_reducible apply sticky_dr_shift_16_and_read
    | intro _

theorem sticky_get_config_fuses (hk : keeps_failed f) :
    sticky (jtag_get_config_fuses f) := by
  unfold jtag_get_config_fuses
  repeat' first
    | exact hk
    | with_reducible apply sticky_bind
    | with_reducible apply sticky_ir_shift
    | with_reducible apply sticky_dr_shift_8_and_read
    | intro _

theorem sticky_chip_id (hk : keeps_failed f) :
    sticky (jtag_chip_id f) := by
  unfold jtag_chip_id
  repeat' first
    | exact hk
    | with_reducible apply sticky_bind
    | with_reducible exact sticky_pure _
    | with_reducible apply sticky_read_mem
    | intro _

theorem sticky_refresh_bps_loop (hk : keeps_failed f) (k : Defs) (dd : DeviceDefs) :
    ∀ (n i : Nat) (dev : Device) (ret : Int), sticky (refresh_bps_loop f k dd n i dev ret) := by
  intro n
  induction n with
  | zero =>
    intro _ _ _
    unfold refresh_bps_loop
    exact sticky_pure _
  | succ n ih =>
    intro _ _ _
    unfold refresh_bps_loop
    repeat' first
      | exact hk
      | with_reducible apply ih
      | with_reducible apply sticky_bind
      | with_reducible apply sticky_ite
      | with_reducible apply sticky_set_breakpoint
      | intro _

theorem sticky_refresh_bps (hk : keeps_failed f) (k : Defs) (dd : DeviceDefs) (dev : Device) :
    sticky (jtag_refresh_bps f k dd dev) :=
  sticky_refresh_bps_loop f hk k dd dev.max_breakpoints 0 dev 0


/-- C27: for every transport that does not itself write the flag, no operation of the library
clears `p->failed`: if it is non-zero before a call of `jtag_init`, `jtag_get_device`,
`jtag_execute_puc`, a register or memory read or write, a block read or write, erase,
program, one of the verifications, single step, `jtag_set_breakpoint`, `jtag_refresh_bps`
or `jtag_release_device` (or of the fuse check, the CPU state, the chip id or the
configuration fuses), it is non-zero after the call. -/
theorem failed_flag_is_sticky (hk : keeps_failed f) (k : Defs) (dd : DeviceDefs) :
    sticky (jtag_init f) ∧
    sticky (jtag_get_device f) ∧
    sticky (jtag_execute_puc f) ∧
    (∀ reg, sticky (jtag_read_reg f reg)) ∧
    (∀ reg value, sticky (jtag_write_reg f reg value)) ∧
    (∀ format address, sticky (jtag_read_mem f format address)) ∧
    (∀ format address data, sticky (jtag_write_mem f format address data)) ∧
    (∀ address length, sticky (jtag_read_mem_quick f address length)) ∧
    (∀ address length data, sticky (jtag_write_mem_quick f address length data)) ∧
    (∀ erase_mode erase_address, sticky (jtag_erase_flash f k erase_mode erase_address)) ∧
    (∀ start_address length_words data,
      sticky (jtag_write_flash f k start_address length_words data)) ∧
    (∀ start_address length data, sticky (jtag_verify_mem f start_address length data)) ∧
    (∀ start_address length, sticky (jtag_erase_check f start_address length)) ∧
    (∀ start_address length_words data,
      sticky (jtag_fast_verify_mem f k start_address length_words data)) ∧
    sticky (jtag_single_step f) ∧
    (∀ bp_num bp_addr, sticky (jtag_set_breakpoint f k bp_num bp_addr)) ∧
    (∀ dev, sticky (jtag_refresh_bps f k dd dev)) ∧
    (∀ address, sticky (jtag_release_device f k address)) ∧
    sticky (jtag_is_fuse_blown f) ∧
    sticky (jtag_cpu_state f) ∧
    sticky (jtag_chip_id f) ∧
    sticky (jtag_get_config_fuses f) :=
  ⟨sticky_init f hk, sticky_get_device f hk, sticky_execute_puc f hk,
    sticky_read_reg f hk, sticky_write_reg f hk, sticky_read_mem f hk, sticky_write_mem f hk,
    sticky_read_mem_quick f hk, sticky_write_mem_quick f hk, sticky_erase_flash f hk k,
    sticky_write_flash f hk k, sticky_verify_mem f hk, sticky_erase_check f hk,
    sticky_fast_verify_mem f hk k, sticky_single_step f hk, sticky_set_breakpoint f hk k,
    sticky_refresh_bps f hk k dd, sticky_release_device f hk k, sticky_is_fuse_blown f hk,
    sticky_cpu_state f hk, sticky_chip_id f hk, sticky_get_config_fuses f hk⟩

theorem failed_flag_is_sticky_witness :
    keeps_failed (steady 0x0289) ∧ (Jtdev.mk 1 () : Jtdev Unit).failed ≠ 0 ∧
    (jtag_init (steady 0x0289) (Jtdev.mk 1 ())).val = 0x89 ∧
    (jtag_init (steady 0x0289) (Jtdev.mk 1 ())).dev.failed ≠ 0 :=
  ⟨fun _ _ => rfl, by decide, by decide,
    (failed_flag_is_sticky (steady 0x0289) (fun _ _ => rfl) defs0 devdefs0).1
      (Jtdev.mk 1 ()) (by decide)⟩

/-! ## Write-only shift variants -/

theorem same_refl {α : Type} (m : JT σ α) : same_run m m := fun _ => ⟨rfl, rfl⟩

theorem same_bind {α β : Type} (m1 m2 : JT σ α) (k1 k2 : α → JT σ β)
    (hm : same_run m1 m2) (hg : ∀ a, same_run (k1 a) (k2 a)) :
    same_run (m1 >>= k1) (m2 >>= k2) := by
  intro d
  have h1 : ((m1 >>= k1) d).val = (k1 (m1 d).val (m1 d).dev).val := rfl
  have h2 : ((m2 >>= k2) d).val = (k2 (m2 d).val (m2 d).dev).val := rfl
  have h3 : ((m1 >>= k1) d).dev = (k1 (m1 d).val (m1 d).dev).dev := rfl
  have h4 : ((m2 >>= k2) d).dev = (k2 (m2 d).val (m2 d).dev).dev := rfl
  rw [h1, h2, h3, h4, (hm d).1, (hm d).2]
  exact hg _ _

theorem same_bind_dev {α β : Type} (m1 m2 : JT σ α) (k1 k2 : α → JT σ β)
    (hm : same_dev m1 m2) (hg : ∀ a b, same_run (k1 a) (k2 b)) :
    same_run (m1 >>= k1) (m2 >>= k2) := by
  intro d
  have h1 : ((m1 >>= k1) d).val = (k1 (m1 d).val (m1 d).dev).val := rfl
  have h2 : ((m2 >>= k2) d).val = (k2 (m2 d).val (m2 d).dev).val := rfl
  have h3 : ((m1 >>= k1) d).dev = (k1 (m1 d).val (m1 d).dev).dev := rfl
  have h4 : ((m2 >>= k2) d).dev = (k2 (m2 d).val (m2 d).dev).dev := rfl
  rw [h1, h2, h3, h4, hm d]
  exact hg _ _ _

theorem same_ite {α : Type} (c : Prop) [Decidable c] (a1 a2 b1 b2 : JT σ α)
    (ha : same_run a1 a2) (hb : same_run b1 b2) :
    same_run (if c then a1 else b1) (if c then a2 else b2) := by
  split
  · exact ha
  · exact hb

theorem same_dev_ir_shift (hw : wronly_same f) (ir : Nat) :
    same_dev (jtag_ir_shift f ir) (jtag_ir_shift (strip_wronly f) ir) := by
  intro d
  unfold jtag_ir_shift
  have hs : (strip_wronly f).has_ir_shift_wronly = false := rfl
  rw [hs]
  by_cases h : f.has_ir_shift_wronly = true
  · rw [if_pos h, if_neg (by decide)]
    exact (hw (ir % 256) d).1
  · rw [if_neg h, if_neg (by decide)]
    rfl

theorem same_dev_dr_shift_16 (hw : wronly_same f) (dr : Nat) :
    same_dev (jtag_dr_shift_16 f dr) (jtag_dr_shift_16 (strip_wronly f) dr) := by
  intro d
  unfold jtag_dr_shift_16
  have hs : (strip_wronly f).has_dr_shift_16_wronly = false := rfl
  rw [hs]
  by_cases h : f.has_dr_shift_16_wronly = true
  · rw [if_pos h, if_neg (by decide)]
    exact (hw (dr % 65536) d).2.2
  · rw [if_neg h, if_neg (by decide)]
    rfl

theorem same_dev_dr_shift_8 (hw : wronly_same f) (dr : Nat) :
    same_dev (jtag_dr_shift_8 f dr) (jtag_dr_shift_8 (strip_wronly f) dr) := by
  intro d
  unfold jtag_dr_shift_8
  have hs : (strip_wronly f).has_dr_shift_8_wronly = false := rfl
  rw [hs]
  by_cases h : f.has_dr_shift_8_wronly = true
  · rw [if_pos h, if_neg (by decide)]
    exact (hw (dr % 256) d).2.1
  · rw [if_neg h, if_neg (by decide)]
    rfl

theorem same_bind_ir {β : Type} (hw : wronly_same f) (ir : Nat) (k1 k2 : Nat → JT σ β)
    (hg : ∀ a b, same_run (k1 a) (k2 b)) :
    same_run (jtag_ir_shift f ir >>= k1) (jtag_ir_shift (strip_wronly f) ir >>= k2) :=
  same_bind_dev _ _ _ _ (same_dev_ir_shift f hw ir) hg

theorem same_bind_dr16 {β : Type} (hw : wronly_same f) (dr : Nat) (k1 k2 : Nat → JT σ β)
    (hg : ∀ a b, same_run (k1 a) (k2 b)) :
    same_run (jtag_dr_shift_16 f dr >>= k1) (jtag_dr_shift_16 (strip_wronly f) dr >>= k2) :=
  same_bind_dev _ _ _ _ (same_dev_dr_shift_16 f hw dr) hg

theorem same_bind_ite_dr16 {β : Type} (hw : wronly_same f) (c : Prop) [Decidable c]
    (x y : Nat) (k1 k2 : Nat → JT σ β) (hg : ∀ a b, same_run (k1 a) (k2 b)) :
    same_run ((if c then jtag_dr_shift_16 f x else jtag_dr_shift_16 f y) >>= k1)
      ((if c then jtag_dr_shift_16 (strip_wronly f) x
        else jtag_dr_shift_16 (strip_wronly f) y) >>= k2) := by
  apply same_bind_dev _ _ _ _ _ hg
  intro d
  split
  · exact same_dev_dr_shift_16 f hw x d
  · exact same_dev_dr_shift_16 f hw y d

theorem same_call (c : Call) : same_run (call f c) (call (strip_wronly f) c) :=
  fun _ => ⟨rfl, rfl⟩

theorem same_tclk_set : same_run (jtag_tclk_set f) (jtag_tclk_set (strip_wronly f)) :=
  fun _ => ⟨rfl, rfl⟩

theorem same_tclk_clr : same_run (jtag_tclk_clr f) (jtag_tclk_clr (strip_wronly f)) :=
  fun _ => ⟨rfl, rfl⟩

theorem same_led_green_on :
    same_run (jtag_led_green_on f) (jtag_led_green_on (strip_wronly f)) :=
  fun _ => ⟨rfl, rfl⟩

theorem same_led_green_off :
    same_run (jtag_led_green_off f) (jtag_led_green_off (strip_wronly f)) :=
  fun _ => ⟨rfl, rfl⟩

theorem same_led_red_on : same_run (jtag_led_red_on f) (jtag_led_red_on (strip_wronly f)) :=
  fun _ => ⟨rfl, rfl⟩

theorem same_led_red_off : same_run (jtag_led_red_off f) (jtag_led_red_off (strip_wronly f)) :=
  fun _ => ⟨rfl, rfl⟩

theorem same_tms_sequence (bits value : Nat) :
    same_run (jtag_tms_sequence f bits value) (jtag_tms_sequence (strip_wronly f) bits value) :=
  fun _ => ⟨rfl, rfl⟩

theorem same_init_dap : same_run (jtag_init_dap f) (jtag_init_dap (strip_wronly f)) :=
  fun _ => ⟨rfl, rfl⟩

theorem same_dr_shift_16_and_read (dr : Nat) :
    same_run (jtag_dr_shift_16_and_read f dr) (jtag_dr_shift_16_and_read (strip_wronly f) dr) :=
  fun _ => ⟨rfl, rfl⟩

theorem same_dr_shift_8_and_read (dr : Nat) :
    same_run (jtag_dr_shift_8_and_read f dr) (jtag_dr_shift_8_and_read (strip_wronly f) dr) :=
  fun _ => ⟨rfl, rfl⟩

theorem same_ir_shift_and_read (ir : Nat) :
    same_run (jtag_ir_shift_and_read f ir) (jtag_ir_shift_and_read (strip_wronly f) ir) :=
  fun _ => ⟨rfl, rfl⟩

theorem same_flush_writes :
    same_run (jtag_flush_writes f) (jtag_flush_writes (strip_wronly f)) :=
  fun _ => ⟨rfl, rfl⟩

theorem same_set_instruction_fetch_loop :
    ∀ n, same_run (set_instruction_fetch_loop f n)
      (set_instruction_fetch_loop (strip_wronly f) n) := by
  intro n
  induction n with
  | zero => exact same_refl _
  | succ n ih =>
    unfold set_instruction_fetch_loop
    repeat' first
      | with_reducible apply ih
      | with_reducible apply same_bind
      | with_reducible apply same_ite
      | with_reducible exact same_refl _
      | with_reducible apply same_dr_shift_16_and_read
      | with_reducible apply same_tclk_clr
      | with_reducible apply same_tclk_set
      | intro _

theorem same_set_instruction_fetch (hw : wronly_same f) :
    same_run (jtag_set_instruction_fetch f)
      (jtag_set_instruction_fetch (strip_wronly f)) := by
  unfold jtag_set_instruction_fetch
  repeat' first
    | exact hw
    | with_reducible apply same_bind_ir
    | with_reducible apply same_bind
    | with_reducible apply same_ite
    | with_reducible exact same_refl _
    | with_reducible apply same_set_instruction_fetch_loop
    | intro _

theorem same_halt_cpu (hw : wronly_same f) :
    same_run (jtag_halt_cpu f)
      (jtag_halt_cpu (strip_wronly f)) := by
  unfold jtag_halt_cpu
  repeat' first
    | exact hw
    | with_reducible apply same_bind_ir
    | with_reducible apply same_bind_dr16
    | with_reducible apply same_bind
    | with_reducible apply same_ite
    | with_reducible exact same_refl _
    | with_reducible apply same_set_instruction_fetch
    | with_reducible apply same_tclk_set
    | with_reducible apply same_tclk_clr
    | intro _

theorem same_release_cpu (hw : wronly_same f) :
    same_run (jtag_release_cpu f)
      (jtag_release_cpu (strip_wronly f)) := by
  unfold jtag_release_cpu
  repeat' first
    | exact hw
    | with_reducible apply same_bind_ir
    | with_reducible apply same_bind_dr16
    | with_reducible apply same_bind
    | with_reducible apply same_ite
    | with_reducible exact same_refl _
    | with_reducible apply same_tclk_clr
    | with_reducible apply same_tclk_set
    | with_reducible apply same_flush_writes
    | intro _

theorem same_get_device_loop :
    ∀ (n : Nat), same_run (get_device_loop f n)
      (get_device_loop (strip_wronly f) n) := by
  intro n
  induction n with
  | zero =>
    exact same_refl _
  | succ n ih =>
    unfold get_device_loop
    repeat' first
      | with_reducible apply ih
      | with_reducible apply same_bind
      | with_reducible apply same_ite
      | with_reducible exact same_refl _
      | with_reducible apply same_dr_shift_16_and_read
      | intro _

theorem same_get_device (hw : wronly_same f) :
    same_run (jtag_get_device f)
      (jtag_get_device (strip_wronly f)) := by
  unfold jtag_get_device
  repeat' first
    | exact hw
    | with_reducible apply same_bind_ir
    | with_reducible apply same_bind_dr16
    | with_reducible apply same_bind
    | with_reducible apply same_ite
    | with_reducible exact same_refl _
    | with_reducible apply same_ir_shift_and_read
    | with_reducible apply same_get_device_loop
    | with_reducible apply same_led_green_on
    | intro _

theorem same_read_mem (hw : wronly_same f) (format address : Nat) :
    same_run (jtag_read_mem f format address)
      (jtag_read_mem (strip_wronly f) format address) := by
  unfold jtag_read_mem
  repeat' first
    | exact hw
    | with_reducible apply same_bind_ir
    | with_reducible apply same_bind_dr16
    | with_reducible apply same_bind_ite_dr16
    | with_reducible apply same_bind
    | with_reducible apply same_ite
    | with_reducible exact same_refl _
    | with_reducible apply same_halt_cpu
    | with_reducible apply same_tclk_clr
    | with_reducible apply same_tclk_set
    | with_reducible apply same_dr_shift_16_and_read
    | with_reducible apply same_release_cpu
    | intro _

theorem same_write_mem (hw : wronly_same f) (format address data : Nat) :
    same_run (jtag_write_mem f format address data)
      (jtag_write_mem (strip_wronly f) format address data) := by
  unfold jtag_write_mem
  repeat' first
    | exact hw
    | with_reducible apply same_bind_ir
    | with_reducible apply same_bind_dr16
    | with_reducible apply same_bind_ite_dr16
    | with_reducible apply same_bind
    | with_reducible apply same_ite
    | with_reducible exact same_refl _
    | with_reducible apply same_halt_cpu
    | with_reducible apply same_tclk_clr
    | with_reducible apply same_tclk_set
    | with_reducible apply same_release_cpu
    | intro _

theorem same_write_reg (hw : wronly_same f) (reg value : Nat) :
    same_run (jtag_write_reg f reg value)
      (jtag_write_reg (strip_wronly f) reg value) := by
  unfold jtag_write_reg
  repeat' first
    | exact hw
    | with_reducible apply same_bind_ir
    | with_reducible apply same_bind_dr16
    | with_reducible apply same_bind
    | with_reducible apply same_ite
    | with_reducible exact same_refl _
    | with_reducible apply same_set_instruction_fetch
    | with_reducible apply same_tclk_clr
    | with_reducible apply same_tclk_set
    | with_reducible apply same_flush_writes
    | intro _

theorem same_read_reg (hw : wronly_same f) (reg : Nat) :
    same_run (jtag_read_reg f reg)
      (jtag_read_reg (strip_wronly f) reg) := by
  unfold jtag_read_reg
  repeat' first
    | exact hw
    | with_reducible apply same_bind_ir
    | with_reducible apply same_bind_dr16
    | with_reducible apply same_bind
    | with_reducible apply same_ite
    | with_reducible exact same_refl _
    | with_reducible apply same_set_instruction_fetch
    | with_reducible apply same_tclk_clr
    | with_reducible apply same_tclk_set
    | with_reducible apply same_dr_shift_16_and_read
    | intro _

theorem same_read_mem_quick_loop :
    ∀ (n : Nat), same_run (read_mem_quick_loop f n)
      (read_mem_quick_loop (strip_wronly f) n) := by
  intro n
  induction n with
  | zero =>
    exact same_refl _
  | succ n ih =>
    unfold read_mem_quick_loop
    repeat' first
      | with_reducible apply ih
      | with_reducible apply same_bind
      | with_reducible apply same_ite
      | with_reducible exact same_refl _
      | with_reducible apply same_tclk_set
      | with_reducible apply same_tclk_clr
      | with_reducible apply same_dr_shift_16_and_read
      | intro _

theorem same_read_mem_quick (hw : wronly_same f) (address length : Nat) :
    same_run (jtag_read_mem_quick f address length)
      (jtag_read_mem_quick (strip_wronly f) address length) := by
  unfold jtag_read_mem_quick
  repeat' first
    | exact hw
    | with_reducible apply same_bind_ir
    | with_reducible apply same_bind_dr16
    | with_reducible apply same_bind
    | with_reducible apply same_ite
    | with_reducible exact same_refl _
    | with_reducible apply same_write_reg
    | with_reducible apply same_halt_cpu
    | with_reducible apply same_tclk_clr
    | with_reducible apply same_read_mem_quick_loop
    | with_reducible apply same_tclk_set
    | with_reducible apply same_release_cpu
    | intro _

theorem same_write_mem_quick_loop (hw : wronly_same f) (data : Nat → Nat) :
    ∀ (n index : Nat), same_run (write_mem_quick_loop f data n index)
      (write_mem_quick_loop (strip_wronly f) data n index) := by
  intro n
  induction n with
  | zero =>
    intro _
    exact same_refl _
  | succ n ih =>
    intro _
    unfold write_mem_quick_loop
    repeat' first
      | exact hw
      | with_reducible apply ih
      | with_reducible apply same_bind_dr16
      | with_reducible apply same_bind
      | with_reducible apply same_ite
      | with_reducible exact same_refl _
      | with_reducible apply same_tclk_set
      | with_reducible apply same_tclk_clr
      | intro _

theorem same_write_mem_quick (hw : wronly_same f) (address length : Nat) (data : Nat → Nat) :
    same_run (jtag_write_mem_quick f address length data)
      (jtag_write_mem_quick (strip_wronly f) address length data) := by
  unfold jtag_write_mem_quick
  repeat' first
    | exact hw
    | with_reducible apply same_bind_ir
    | with_reducible apply same_bind_dr16
    | with_reducible apply same_bind
    | with_reducible apply same_ite
    | with_reducible exact same_refl _
    | with_reducible apply same_write_reg
    | with_reducible apply same_halt_cpu
    | with_reducible apply same_tclk_clr
    | with_reducible apply same_write_mem_quick_loop
    | with_reducible apply same_tclk_set
    | with_reducible apply same_release_cpu
    | intro _

theorem same_set_breakpoint (hw : wronly_same f) (k : Defs) (bp_num : Int) (bp_addr : Nat) :
    same_run (jtag_set_breakpoint f k bp_num bp_addr)
      (jtag_set_breakpoint (strip_wronly f) k bp_num bp_addr) := by
  unfold jtag_set_breakpoint
  repeat' first
    | exact hw
    | with_reducible apply same_bind_ir
    | with_reducible apply same_bind_dr16
    | with_reducible apply same_bind
    | with_reducible apply same_ite
    | with_reducible exact same_refl _
    | with_reducible apply same_dr_shift_16_and_read
    | with_reducible apply same_flush_writes
    | intro _

theorem same_release_device (hw : wronly_same f) (k : Defs) (address : Nat) :
    same_run (jtag_release_device f k address)
      (jtag_release_device (strip_wronly f) k address) := by
  unfold jtag_release_device
  repeat' first
    | exact hw
    | with_reducible apply same_bind_ir
    | with_reducible apply same_bind_dr16
    | with_reducible apply same_bind
    | with_reducible apply same_ite
    | with_reducible exact same_refl _
    | with_reducible apply same_led_green_off
    | with_reducible apply same_set_breakpoint
    | with_reducible apply same_write_reg
    | with_reducible apply same_set_instruction_fetch
    | with_reducible apply same_flush_writes
    | intro _

theorem same_execute_puc (hw : wronly_same f) :
    same_run (jtag_execute_puc f)
      (jtag_execute_puc (strip_wronly f)) := by
  unfold jtag_execute_puc
  repeat' first
    | exact hw
    | with_reducible apply same_bind_ir
    | with_reducible apply same_bind_dr16
    | with_reducible apply same_bind
    | with_reducible apply same_ite
    | with_reducible exact same_refl _
    | with_reducible apply same_tclk_clr
    | with_reducible apply same_tclk_set
    | with_reducible apply same_ir_shift_and_read
    | with_reducible apply same_write_mem
    | intro _

theorem same_fuse_attempt (hw : wronly_same f) :
    same_run (fuse_attempt f)
      (fuse_attempt (strip_wronly f)) := by
  unfold fuse_attempt
  repeat' first
    | exact hw
    | with_reducible apply same_bind_ir
    | with_reducible apply same_bind
    | with_reducible apply same_ite
    | with_reducible exact same_refl _
    | with_reducible apply same_dr_shift_16_and_read
    | intro _

theorem same_is_fuse_blown_loop (hw : wronly_same f) :
    ∀ (n : Nat), same_run (is_fuse_blown_loop f n)
      (is_fuse_blown_loop (strip_wronly f) n) := by
  intro n
  induction n with
  | zero =>
    exact same_refl _
  | succ n ih =>
    unfold is_fuse_blown_loop
    repeat' first
      | exact hw
      | with_reducible apply ih
      | with_reducible apply same_bind
      | with_reducible apply same_ite
      | with_reducible exact same_refl _
      | with_reducible apply same_fuse_attempt
      | intro _

theorem same_is_fuse_blown (hw : wronly_same f) :
    same_run (jtag_is_fuse_blown f)
      (jtag_is_fuse_blown (strip_wronly f)) :=
  same_is_fuse_blown_loop f hw 3

theorem same_init (hw : wronly_same f) :
    same_run (jtag_init f)
      (jtag_init (strip_wronly f)) := by
  unfold jtag_init
  repeat' first
    | exact hw
    | with_reducible apply same_bind
    | with_reducible apply same_ite
    | with_reducible exact same_refl _
    | with_reducible apply same_init_dap
    | with_reducible apply same_is_fuse_blown
    | with_reducible apply same_get_device
    | with_reducible apply same_execute_puc
    | intro _

theorem same_verify_psa_loop (data : Option (Nat → Nat)) :
    ∀ (n index psa_crc : Nat), same_run (verify_psa_loop f data n index psa_crc)
      (verify_psa_loop (strip_wronly f) data n index psa_crc) := by
  intro n
  induction n with
  | zero =>
    intro _ _
    exact same_refl _
  | succ n ih =>
    intro _ _
    unfold verify_psa_loop
    repeat' first
      | with_reducible apply ih
      | with_reducible apply same_bind
      | with_reducible apply same_ite
      | with_reducible exact same_refl _
      | with_reducible apply same_tclk_set
      | with_reducible apply same_tms_sequence
      | with_reducible apply same_tclk_clr
      | intro _

theorem same_verify_psa_run (hw : wronly_same f) (start_address length : Nat) (data : Option (Nat → Nat)) :
    same_run (verify_psa_run f start_address length data)
      (verify_psa_run (strip_wronly f) start_address length data) := by
  unfold verify_psa_run
  repeat' first
    | exact hw
    | with_reducible apply same_bind_ir
    | with_reducible apply same_bind_dr16
    | with_reducible apply same_bind
    | with_reducible apply same_ite
    | with_reducible exact same_refl _
    | with_reducible apply same_execute_puc
    | with_reducible apply same_set_instruction_fetch
    | with_reducible apply same_tclk_set
    | with_reducible apply same_tclk_clr
    | with_reducible apply same_verify_psa_loop
    | with_reducible apply same_dr_shift_16_and_read
    | intro _

theorem same_verify_psa (hw : wronly_same f) (start_address length : Nat) (data : Option (Nat → Nat)) :
    same_run (jtag_verify_psa f start_address length data)
      (jtag_verify_psa (strip_wronly f) start_address length data) := by
  unfold jtag_verify_psa
  repeat' first
    | exact hw
    | with_reducible apply same_bind
    | with_reducible apply same_ite
    | with_reducible exact same_refl _
    | with_reducible apply same_verify_psa_run
    | intro _

theorem same_verify_mem (hw : wronly_same f) (start_address length : Nat) (data : Nat → Nat) :
    same_run (jtag_verify_mem f start_address length data)
      (jtag_verify_mem (strip_wronly f) start_address length data) :=
  same_verify_psa f hw start_address length (some data)

theorem same_erase_check (hw : wronly_same f) (start_address length : Nat) :
    same_run (jtag_erase_check f start_address length)
      (jtag_erase_check (strip_wronly f) start_address length) :=
  same_verify_psa f hw start_address length none

theorem same_fast_verify_run (hw : wronly_same f) (k : Defs) (start_address length : Nat) :
    same_run (fast_verify_run f k start_address length)
      (fast_verify_run (strip_wronly f) k start_address length) := by
  unfold fast_verify_run
  repeat' first
    | exact hw
    | with_reducible apply same_bind
    | with_reducible apply same_ite
    | with_reducible exact same_refl _
    | with_reducible apply same_led_green_on
    | with_reducible apply same_write_mem_quick
    | with_reducible apply same_release_device
    | with_reducible apply same_get_device
    | with_reducible apply same_read_mem_quick
    | intro _

theorem same_fast_verify_mem (hw : wronly_same f) (k : Defs) (start_address length_words : Nat) (data : Nat → Nat) :
    same_run (jtag_fast_verify_mem f k start_address length_words data)
      (jtag_fast_verify_mem (strip_wronly f) k start_address length_words data) := by
  unfold jtag_fast_verify_mem
  repeat' first
    | exact hw
    | with_reducible apply same_bind
    | with_reducible apply same_ite
    | with_reducible exact same_refl _
    | with_reducible apply same_fast_verify_run
    | with_reducible apply same_write_mem_quick
    | with_reducible apply same_led_green_off
    | intro _

theorem same_write_flash_block (hw : wronly_same f) (k : Defs) (start_address length : Nat) (data : Nat → Nat) (index : Nat) :
    same_run (write_flash_block f k start_address length data index)
      (write_flash_block (strip_wronly f) k start_address length data index) := by
  unfold write_flash_block
  repeat' first
    | exact hw
    | with_reducible apply same_bind
    | with_reducible apply same_ite
    | with_reducible exact same_refl _
    | with_reducible apply same_write_mem_quick
    | with_reducible apply same_release_device
    | with_reducible apply same_get_device
    | with_reducible apply same_read_mem
    | intro _

theorem same_write_flash_loop (hw : wronly_same f) (k : Defs) (start_address length : Nat) (data : Nat → Nat) :
    ∀ (n index : Nat), same_run (write_flash_loop f k start_address length data n index)
      (write_flash_loop (strip_wronly f) k start_address length data n index) := by
  intro n
  induction n with
  | zero =>
    intro _
    exact same_refl _
  | succ n ih =>
    intro _
    unfold write_flash_loop
    repeat' first
      | exact hw
      | with_reducible apply ih
      | with_reducible apply same_bind
      | with_reducible apply same_ite
      | with_reducible exact same_refl _
      | with_reducible apply same_write_flash_block
      | with_reducible apply same_read_mem_quick
      | intro _

theorem same_write_flash_blocks (hw : wronly_same f) (k : Defs) (start_address length_words : Nat) (data : Nat → Nat) :
    same_run (write_flash_blocks f k start_address length_words data)
      (write_flash_blocks (strip_wronly f) k start_address length_words data) := by
  unfold write_flash_blocks
  repeat' first
    | exact hw
    | with_reducible apply same_bind
    | with_reducible apply same_ite
    | with_reducible exact same_refl _
    | with_reducible apply same_led_red_on
    | with_reducible apply same_write_mem_quick
    | with_reducible apply same_write_flash_loop
    | intro _

theorem same_write_flash (hw : wronly_same f) (k : Defs) (start_address length_words : Nat) (data : Nat → Nat) :
    same_run (jtag_write_flash f k start_address length_words data)
      (jtag_write_flash (strip_wronly f) k start_address length_words data) := by
  unfold jtag_write_flash
  repeat' first
    | exact hw
    | with_reducible apply same_bind
    | with_reducible apply same_ite
    | with_reducible exact same_refl _
    | with_reducible apply same_write_flash_blocks
    | with_reducible apply same_write_mem_quick
    | with_reducible apply same_led_red_off
    | intro _

theorem same_erase_flash_run (hw : wronly_same f) (k : Defs) (erase_mode : EraseMode) (erase_address : Nat) :
    same_run (erase_flash_run f k erase_mode erase_address)
      (erase_flash_run (strip_wronly f) k erase_mode erase_address) := by
  unfold erase_flash_run
  repeat' first
    | exact hw
    | with_reducible apply same_bind
    | with_reducible apply same_ite
    | with_reducible exact same_refl _
    | with_reducible apply same_led_red_on
    | with_reducible apply same_write_mem_quick
    | with_reducible apply same_release_device
    | with_reducible apply same_get_device
    | with_reducible apply same_read_mem_quick
    | intro _

theorem same_erase_flash (hw : wronly_same f) (k : Defs) (erase_mode : EraseMode) (erase_address : Nat) :
    same_run (jtag_erase_flash f k erase_mode erase_address)
      (jtag_erase_flash (strip_wronly f) k erase_mode erase_address) := by
  unfold jtag_erase_flash
  repeat' first
    | exact hw
    | with_reducible apply same_bind
    | with_reducible apply same_ite
    | with_reducible exact same_refl _
    | with_reducible apply same_erase_flash_run
    | with_reducible apply same_write_mem_quick
    | with_reducible apply same_led_red_off
    | intro _

theorem same_single_step_loop :
    ∀ (n : Nat), same_run (single_step_loop f n)
      (single_step_loop (strip_wronly f) n) := by
  intro n
  induction n with
  | zero =>
    exact same_refl _
  | succ n ih =>
    unfold single_step_loop
    repeat' first
      | with_reducible apply ih
      | with_reducible apply same_bind
      | with_reducible apply same_ite
      | with_reducible exact same_refl _
      | with_reducible apply same_tclk_clr
      | with_reducible apply same_tclk_set
      | with_reducible apply same_dr_shift_16_and_read
      | intro _

theorem same_single_step (hw : wronly_same f) :
    same_run (jtag_single_step f)
      (jtag_single_step (strip_wronly f)) := by
  unfold jtag_single_step
  repeat' first
    | exact hw
    | with_reducible apply same_bind_ir
    | with_reducible apply same_bind_dr16
    | with_reducible apply same_bind
    | with_reducible apply same_ite
    | with_reducible exact same_refl _
    | with_reducible apply same_single_step_loop
    | with_reducible apply same_flush_writes
    | intro _

theorem same_cpu_state (hw : wronly_same f) :
    same_run (jtag_cpu_state f)
      (jtag_cpu_state (strip_wronly f)) := by
  unfold jtag_cpu_state
  repeat' first
    | exact hw
    | with_reducible apply same_bind_ir
    | with_reducible apply same_bind
    | with_reducible apply same_ite
    | with_reducible exact same_refl _
    | with_reducible apply same_dr_shift_16_and_read
    | intro _

theorem same_get_config_fuses (hw : wronly_same f) :
    same_run (jtag_get_config_fuses f)
      (jtag_get_config_fuses (strip_wronly f)) := by
  unfold jtag_get_config_fuses
  repeat' first
    | exact hw
    | with_reducible apply same_bind_ir
    | with_reducible apply same_bind
    | with_reducible apply same_ite
    | with_reducible exact same_refl _
    | with_reducible apply same_dr_shift_8_and_read
    | intro _

theorem same_chip_id (hw : wronly_same f) :
    same_run (jtag_chip_id f)
      (jtag_chip_id (strip_wronly f)) := by
  unfold jtag_chip_id
  repeat' first
    | exact hw
    | with_reducible apply same_bind
    | with_reducible apply same_ite
    | with_reducible exact same_refl _
    | with_reducible apply same_read_mem
    | intro _

theorem same_refresh_bps_loop (hw : wronly_same f) (k : Defs) (dd : DeviceDefs) :
    ∀ (n i : Nat) (dev : Device) (ret : Int), same_run (refresh_bps_loop f k dd n i dev ret)
      (refresh_bps_loop (strip_wronly f) k dd n i dev ret) := by
  intro n
  induction n with
  | zero =>
    intro _ _ _
    exact same_refl _
  | succ n ih =>
    intro _ _ _
    unfold refresh_bps_loop
    repeat' first
      | exact hw
      | with_reducible apply ih
      | with_reducible apply same_bind
      | with_reducible apply same_ite
      | with_reducible exact same_refl _
      | with_reducible apply same_set_breakpoint
      | intro _

theorem same_refresh_bps (hw : wronly_same f) (k : Defs) (dd : DeviceDefs) (dev : Device) :
    same_run (jtag_refresh_bps f k dd dev)
      (jtag_refresh_bps (strip_wronly f) k dd dev) :=
  same_refresh_bps_loop f hw k dd dev.max_breakpoints 0 dev 0


theorem lines_dr_shift_8 (dr : Nat) (d : Jtdev σ) :
    lines (jtag_dr_shift_8 f dr d).log =
      [if f.has_dr_shift_8_wronly then Call.jtdev_dr_shift_8_wronly (dr % 256)
       else Call.jtdev_dr_shift_8 (dr % 256)] := by
  unfold jtag_dr_shift_8
  split <;> rfl

/-- C30: the macros `jtag_ir_shift`, `jtag_dr_shift_8` and `jtag_dr_shift_16` make exactly one
call, of the write-only entry when the table has it and of the read-capable entry otherwise;
and for a transport whose write-only entries act on the session exactly as the read-capable
ones, every operation of the library returns the same value (stored words included) and
leaves the same session, `p->failed` included, as with the table from which the write-only
entries were removed. -/
theorem wronly_variants_equivalent (hw : wronly_same f) (k : Defs) (dd : DeviceDefs) :
    (∀ ir d, lines (jtag_ir_shift f ir d).log =
      [if f.has_ir_shift_wronly then Call.jtdev_ir_shift_wronly (ir % 256)
       else Call.jtdev_ir_shift (ir % 256)]) ∧
    (∀ dr d, lines (jtag_dr_shift_8 f dr d).log =
      [if f.has_dr_shift_8_wronly then Call.jtdev_dr_shift_8_wronly (dr % 256)
       else Call.jtdev_dr_shift_8 (dr % 256)]) ∧
    (∀ dr d, lines (jtag_dr_shift_16 f dr d).log =
      [if f.has_dr_shift_16_wronly then Call.jtdev_dr_shift_16_wronly (dr % 65536)
       else Call.jtdev_dr_shift_16 (dr % 65536)]) ∧
    same_run (jtag_init f) (jtag_init (strip_wronly f)) ∧
    same_run (jtag_get_device f) (jtag_get_device (strip_wronly f)) ∧
    same_run (jtag_execute_puc f) (jtag_execute_puc (strip_wronly f)) ∧
    (∀ reg, same_run (jtag_read_reg f reg) (jtag_read_reg (strip_wronly f) reg)) ∧
    (∀ reg value,
      same_run (jtag_write_reg f reg value) (jtag_write_reg (strip_wronly f) reg value)) ∧
    (∀ format address,
      same_run (jtag_read_mem f format address)
        (jtag_read_mem (strip_wronly f) format address)) ∧
    (∀ format address data,
      same_run (jtag_write_mem f format address data)
        (jtag_write_mem (strip_wronly f) format address data)) ∧
    (∀ address length,
      same_run (jtag_read_mem_quick f address length)
        (jtag_read_mem_quick (strip_wronly f) address length)) ∧
    (∀ address length data,
      same_run (jtag_write_mem_quick f address length data)
        (jtag_write_mem_quick (strip_wronly f) address length data)) ∧
    (∀ erase_mode erase_address,
      same_run (jtag_erase_flash f k erase_mode erase_address)
        (jtag_erase_flash (strip_wronly f) k erase_mode erase_address)) ∧
    (∀ start_address length_words data,
      same_run (jtag_write_flash f k start_address length_words data)
        (jtag_write_flash (strip_wronly f) k start_address length_words data)) ∧
    (∀ start_address length data,
      same_run (jtag_verify_mem f start_address length data)
        (jtag_verify_mem (strip_wronly f) start_address length data)) ∧
    (∀ start_address length,
      same_run (jtag_erase_check f start_address length)
        (jtag_erase_check (strip_wronly f) start_address length)) ∧
    (∀ start_address length_words data,
      same_run (jtag_fast_verify_mem f k start_address length_words data)
        (jtag_fast_verify_mem (strip_wronly f) k start_address length_words data)) ∧
    same_run (jtag_single_step f) (jtag_single_step (strip_wronly f)) ∧
    (∀ bp_num bp_addr,
      same_run (jtag_set_breakpoint f k bp_num bp_addr)
        (jtag_set_breakpoint (strip_wronly f) k bp_num bp_addr)) ∧
    (∀ dev, same_run (jtag_refresh_bps f k dd dev) (jtag_refresh_bps (strip_wronly f) k dd dev)) ∧
    (∀ address,
      same_run (jtag_release_device f k address)
        (jtag_release_device (strip_wronly f) k address)) ∧
    same_run (jtag_is_fuse_blown f) (jtag_is_fuse_blown (strip_wronly f)) ∧
    same_run (jtag_cpu_state f) (jtag_cpu_state (strip_wronly f)) ∧
    same_run (jtag_chip_id f) (jtag_chip_id (strip_wronly f)) ∧
    same_run (jtag_get_config_fuses f) (jtag_get_config_fuses (strip_wronly f)) :=
  ⟨lines_ir_shift f, lines_dr_shift_8 f, lines_dr_shift_16 f,
    same_init f hw, same_get_device f hw, same_execute_puc f hw,
    same_read_reg f hw, same_write_reg f hw, same_read_mem f hw, same_write_mem f hw,
    same_read_mem_quick f hw, same_write_mem_quick f hw, same_erase_flash f hw k,
    same_write_flash f hw k, same_verify_mem f hw, same_erase_check f hw,
    same_fast_verify_mem f hw k, same_single_step f hw, same_set_breakpoint f hw k,
    same_refresh_bps f hw k dd, same_release_device f hw k, same_is_fuse_blown f hw,
    same_cpu_state f hw, same_chip_id f hw, same_get_config_fuses f hw⟩

theorem wronly_variants_equivalent_witness :
    wronly_same sim_cpu_wronly ∧
    sim_cpu_wronly.has_ir_shift_wronly = true ∧
    (strip_wronly sim_cpu_wronly).has_ir_shift_wronly = false ∧
    (jtag_read_reg sim_cpu_wronly 5 fresh_cpu).val =
      (jtag_read_reg (strip_wronly sim_cpu_wronly) 5 fresh_cpu).val ∧
    (jtag_read_reg sim_cpu_wronly 5 fresh_cpu).dev =
      (jtag_read_reg (strip_wronly sim_cpu_wronly) 5 fresh_cpu).dev :=
  ⟨fun _ _ => ⟨rfl, rfl, rfl⟩, rfl, rfl,
    (wronly_variants_equivalent sim_cpu_wronly (fun _ _ => ⟨rfl, rfl, rfl⟩) defs0
      devdefs0).2.2.2.2.2.2.1 5 fresh_cpu⟩

/-! ## Erase check is verification against erased words -/

theorem verify_psa_loop_ones (data : Nat → Nat) :
    ∀ (n index psa_crc : Nat), (∀ j, index ≤ j → j < index + n → data j = 0xFFFF) →
      verify_psa_loop f (some data) n index psa_crc = verify_psa_loop f none n index psa_crc := by
  intro n
  induction n with
  | zero => intro index psa_crc _; rfl
  | succ n ih =>
    intro index psa_crc h
    have h0 : data index % 65536 = 0xFFFF := by rw [h index (by omega) (by omega)]
    have ht := ih (index + 1) (psa_step psa_crc 0xFFFF) (fun j h1 h2 => h j (by omega) (by omega))
    simp only [verify_psa_loop, h0, ht]

/-- C31: `jtag_erase_check(start, n)` is `jtag_verify_mem(start, n, d)` for data `d` whose
first `n` words are 0xFFFF: on every transport and session the two runs are the same, so they
make the same calls on the line-level interface in the same order, return the same result and
leave the same session. -/
theorem erase_check_is_verify_ones (start length : Nat) (data : Nat → Nat) (d : Jtdev σ)
    (h : ∀ i, i < length → data i = 0xFFFF) :
    jtag_erase_check f start length d = jtag_verify_mem f start length data d ∧
    lines (jtag_erase_check f start length d).log
      = lines (jtag_verify_mem f start length data d).log ∧
    (jtag_erase_check f start length d).val = (jtag_verify_mem f start length data d).val := by
  have hl := verify_psa_loop_ones f data length 0 ((start + 2 ^ 32 - 2) % 2 ^ 32)
    (fun j _ h2 => h j (by omega))
  have he : jtag_erase_check f start length d = jtag_verify_mem f start length data d := by
    simp only [jtag_erase_check, jtag_verify_mem, jtag_verify_psa, verify_psa_run, hl]
  exact ⟨he, by rw [he], by rw [he]⟩

theorem erase_check_is_verify_ones_witness :
    (∀ i, i < 2 → (fun _ : Nat => 0xFFFF) i = 0xFFFF) ∧
    jtag_erase_check (sim_target 0) 0x8000 2 fresh_sim
      = jtag_verify_mem (sim_target 0) 0x8000 2 (fun _ => 0xFFFF) fresh_sim ∧
    (jtag_erase_check (sim_target 0) 0x8000 2 fresh_sim).val = 0 :=
  ⟨fun _ _ => rfl,
    (erase_check_is_verify_ones (sim_target 0) 0x8000 2 (fun _ => 0xFFFF) fresh_sim
      (fun _ _ => rfl)).1,
    by decide⟩

/-! ## Fast verify: the trap overwrite comes before the comparison -/

theorem fast_verify_timeout_failed (k : Defs) (a L : Nat) (data : Nat → Nat) (d : Jtdev σ)
    (h : (fast_verify_run f k a (L * 2 % 2 ^ 32) d).val.getD 0 0 ≠ 0) :
    (jtag_fast_verify_mem f k a L data d).dev.failed = 1 := by
  have h3 := fast_verify_run_length f k a (L * 2 % 2 ^ 32) d
  have e0 := getD_of_lt (fast_verify_run f k a (L * 2 % 2 ^ 32) d).val 0 (a % 65536) 0
    (by omega)
  simp only [jtag_fast_verify_mem, bind_dev, ite_run, e0, h, ne_eq, not_false_eq_true, if_true]
  rfl

/-- C38: in `jtag_fast_verify_mem` the overwrite with trap instructions does not depend on the
CRC comparison. When the data field read back is 0, the block writes of the run are the
upload followed by as many words 0x3FFF at `FLASH_CODE_RAM_START` as were uploaded, both when
the crc field equals the expected CRC (the result is then 1) and when it differs (the result
is then 0). When the data field is not 0, the only block write is the upload, the result is 0
and `p->failed` is 1. -/
theorem fast_verify_overwrites_before_compare (k : Defs) (a L : Nat) (data : Nat → Nat)
    (d : Jtdev σ) :
    ((fast_verify_run f k a (L * 2 % 2 ^ 32) d).val.getD 0 0 = 0 →
      mem_writes (jtag_fast_verify_mem f k a L data d).log
        = [(k.FLASH_CODE_RAM_START,
            upload_words (flash_verify_image (a % 65536) (L * 2 % 2 ^ 32 % 65536) 0
              k.flash_verify_blob)),
           (k.FLASH_CODE_RAM_START,
            List.replicate ((flash_verify_image (a % 65536) (L * 2 % 2 ^ 32 % 65536) 0
              k.flash_verify_blob).length / 2) 0x3fff)] ∧
      (upload_words (flash_verify_image (a % 65536) (L * 2 % 2 ^ 32 % 65536) 0
          k.flash_verify_blob)).length
        = (flash_verify_image (a % 65536) (L * 2 % 2 ^ 32 % 65536) 0
            k.flash_verify_blob).length / 2 ∧
      ((fast_verify_run f k a (L * 2 % 2 ^ 32) d).val.getD 2 0
          = jtag_onchip_crc (words_as_bytes data) (L * 2 % 2 ^ 32) →
        (jtag_fast_verify_mem f k a L data d).val = 1) ∧
      ((fast_verify_run f k a (L * 2 % 2 ^ 32) d).val.getD 2 0
          ≠ jtag_onchip_crc (words_as_bytes data) (L * 2 % 2 ^ 32) →
        (jtag_fast_verify_mem f k a L data d).val = 0)) ∧
    ((fast_verify_run f k a (L * 2 % 2 ^ 32) d).val.getD 0 0 ≠ 0 →
      mem_writes (jtag_fast_verify_mem f k a L data d).log
        = [(k.FLASH_CODE_RAM_START,
            upload_words (flash_verify_image (a % 65536) (L * 2 % 2 ^ 32 % 65536) 0
              k.flash_verify_blob))] ∧
      (jtag_fast_verify_mem f k a L data d).val = 0 ∧
      (jtag_fast_verify_mem f k a L data d).dev.failed = 1) := by
  constructor
  · intro h
    refine ⟨?_, upload_words_length _, ?_, ?_⟩
    · rw [mem_writes_fast_verify, if_pos h]
    · intro hc
      rw [fast_verify_val, if_pos ⟨h, hc⟩]
    · intro hc
      rw [fast_verify_val, if_neg (fun hh => hc hh.2)]
  · intro h
    refine ⟨?_, ?_, fast_verify_timeout_failed f k a L data d h⟩
    · rw [mem_writes_fast_verify, if_neg h]
    · rw [fast_verify_val, if_neg (fun hh => h hh.1)]

theorem fast_verify_overwrites_before_compare_witness :
    (fast_verify_run (steady 0) defs0 0x8000 (2 * 2 % 2 ^ 32) fresh).val.getD 0 0 = 0 ∧
    (fast_verify_run (steady 0) defs0 0x8000 (2 * 2 % 2 ^ 32) fresh).val.getD 2 0
      ≠ jtag_onchip_crc (words_as_bytes (fun i => i)) (2 * 2 % 2 ^ 32) ∧
    (jtag_fast_verify_mem (steady 0) defs0 0x8000 2 (fun i => i) fresh).val = 0 ∧
    mem_writes (jtag_fast_verify_mem (steady 0) defs0 0x8000 2 (fun i => i) fresh).log
      = [(0x0200, [0x8000, 4, 0, 0x3FFF]), (0x0200, [0x3FFF, 0x3FFF, 0x3FFF, 0x3FFF])] :=
  have h := (fast_verify_overwrites_before_compare (steady 0) defs0 0x8000 2 (fun i => i)
    fresh).1 (by decide)
  ⟨by decide, by decide, h.2.2.2 (by decide), h.1.trans (by decide)⟩

/-! ## Refreshing the breakpoint table: the result and a repeated call -/

theorem refresh_loop_clean (k : Defs) (dd : DeviceDefs) :
    ∀ (n i : Nat) (cur : Device) (ret : Int) (d : Jtdev σ),
      (∀ j, i ≤ j → j < i + n → ¬ bp_needs_refresh dd (cur.breakpoints j)) →
      refresh_bps_loop f k dd n i cur ret d = { val := (cur, ret), dev := d, log := [] } := by
  intro n
  induction n with
  | zero => intro i cur ret d _; rfl
  | succ n ih =>
    intro i cur ret d h
    rw [refresh_loop_skip f k dd n i cur ret d (h i (by omega) (by omega))]
    exact ih (i + 1) cur ret d (fun j h1 h2 => h j (by omega) (by omega))

theorem clear_dirty_clean (dd : DeviceDefs) (bp : device_breakpoint) :
    ¬ bp_needs_refresh dd (clear_dirty dd bp) := by
  intro h
  exact h.1 (clear_bits_and bp.flags dd.DEVICE_BP_DIRTY)

/-- C37: `jtag_refresh_bps` returns -1 if and only if some entry of the table at an index of 8
or more (below `max_breakpoints`) is both dirty and of type break, and returns 0 otherwise.
For a table with `max_breakpoints` at most 8 it returns 0 and afterwards no entry of the table
is both dirty and of type break, so that a call repeated on the table it leaves, from any
session, makes no call at all, returns 0 and leaves the table and the session as they are. -/
theorem refresh_bps_minus_one_iff (k : Defs) (dd : DeviceDefs) (dev : Device) (d : Jtdev σ) :
    ((jtag_refresh_bps f k dd dev d).val.2 = -1 ↔
      ∃ j, 8 ≤ j ∧ j < dev.max_breakpoints ∧ bp_needs_refresh dd (dev.breakpoints j)) ∧
    ((jtag_refresh_bps f k dd dev d).val.2 = -1 ∨ (jtag_refresh_bps f k dd dev d).val.2 = 0) ∧
    (dev.max_breakpoints ≤ 8 →
      (jtag_refresh_bps f k dd dev d).val.2 = 0 ∧
      (∀ j, j < dev.max_breakpoints →
        ¬ bp_needs_refresh dd ((jtag_refresh_bps f k dd dev d).val.1.breakpoints j)) ∧
      ∀ d2 : Jtdev σ,
        jtag_refresh_bps f k dd (jtag_refresh_bps f k dd dev d).val.1 d2
          = { val := ((jtag_refresh_bps f k dd dev d).val.1, 0), dev := d2, log := [] }) := by
  obtain ⟨_, _, hm, h0, hmax, htab⟩ := refresh_bps_spec f k dd dev d
  have hclean : dev.max_breakpoints ≤ 8 → ∀ j, j < dev.max_breakpoints →
      ¬ bp_needs_refresh dd ((jtag_refresh_bps f k dd dev d).val.1.breakpoints j) := by
    intro h8 j hj
    rw [htab j]
    by_cases hn : bp_needs_refresh dd (dev.breakpoints j)
    · rw [if_pos ⟨hj, hn, by omega⟩]
      exact clear_dirty_clean dd _
    · rw [if_neg (fun hh => hn hh.2.1)]
      exact hn
  refine ⟨?_, ?_, ?_⟩
  · constructor
    · intro hv
      by_contra hno
      have hz := h0 (fun ⟨j, h1, h2, h3⟩ => hno ⟨j, h3, h1, h2⟩)
      rw [hz] at hv
      exact absurd hv (by decide)
    · rintro ⟨j, h1, h2, h3⟩
      exact hm ⟨j, h2, h3, h1⟩
  · by_cases hex : ∃ j, j < dev.max_breakpoints ∧ bp_needs_refresh dd (dev.breakpoints j) ∧ 8 ≤ j
    · exact Or.inl (hm hex)
    · exact Or.inr (h0 hex)
  · intro h8
    refine ⟨h0 (fun ⟨j, h1, _, h3⟩ => by omega), hclean h8, ?_⟩
    intro d2
    unfold jtag_refresh_bps
    have hc := refresh_loop_clean f k dd dev.max_breakpoints 0
      (refresh_bps_loop f k dd dev.max_breakpoints 0 dev 0 d).val.1 0 d2
      (fun j _ h2 => by
        have hmax2 : (refresh_bps_loop f k dd dev.max_breakpoints 0 dev 0 d).val.1.max_breakpoints
            = dev.max_breakpoints := hmax
        exact hclean h8 j (by omega))
    have hmax2 : (refresh_bps_loop f k dd dev.max_breakpoints 0 dev 0 d).val.1.max_breakpoints
        = dev.max_breakpoints := hmax
    rw [hmax2]
    exact hc

theorem refresh_bps_minus_one_iff_witness :
    table1.max_breakpoints ≤ 8 ∧
    bp_needs_refresh devdefs0 (table1.breakpoints 0) ∧
    (jtag_refresh_bps (steady 0) defs0 devdefs0 table1 fresh).val.2 = 0 ∧
    ¬ bp_needs_refresh devdefs0
      ((jtag_refresh_bps (steady 0) defs0 devdefs0 table1 fresh).val.1.breakpoints 0) ∧
    lines (jtag_refresh_bps (steady 0) defs0 devdefs0 table1 fresh).log ≠ [] ∧
    (jtag_refresh_bps (steady 0) defs0 devdefs0
      (jtag_refresh_bps (steady 0) defs0 devdefs0 table1 fresh).val.1 fresh).log = [] :=
  have h := (refresh_bps_minus_one_iff (steady 0) defs0 devdefs0 table1 fresh).2.2 (by decide)
  ⟨by decide, by decide, h.1, h.2.1 0 (by decide), by decide,
    by rw [h.2.2 fresh]⟩

/-! ## TMS sequences and the TAP reset -/

theorem and_one_shiftLeft_ne_zero (v i : Nat) : v &&& (1 <<< i) ≠ 0 ↔ v.testBit i = true := by
  rw [Nat.one_shiftLeft, Nat.and_two_pow]
  cases v.testBit i
  · simp
  · simp [Nat.two_pow_pos]

theorem lines_default_tms_sequence_loop (value : Nat) :
    ∀ (n i : Nat) (d : Jtdev σ),
      lines (default_tms_sequence_loop f value n i d).log
        = (List.range n).flatMap (fun t =>
            [Call.jtdev_tck 0, Call.jtdev_tms (level (value.testBit (i + t))),
              Call.jtdev_tck 1]) := by
  intro n
  induction n with
  | zero => intro i d; rfl
  | succ n ih =>
    intro i d
    have hadd : ∀ t, i + (t + 1) = i + 1 + t := fun t => by omega
    have hfun : (fun t => [Call.jtdev_tck 0, Call.jtdev_tms (level (value.testBit (i + (t + 1)))),
          Call.jtdev_tck 1])
        = fun t => [Call.jtdev_tck 0, Call.jtdev_tms (level (value.testBit (i + 1 + t))),
          Call.jtdev_tck 1] := by
      funext t
      rw [hadd t]
    rw [range_flatMap_succ, hfun]
    by_cases hb : value.testBit i = true
    · have hc : value &&& (1 <<< i) ≠ 0 := (and_one_shiftLeft_ne_zero value i).2 hb
      simp only [default_tms_sequence_loop, bind_log, lines_append, ih, lines_ite, if_pos hc,
        lines_tms_set, lines_tck_clr, lines_tck_set, hb, level, Nat.add_zero, if_true,
        List.singleton_append, List.cons_append, List.nil_append]
    · have hc : ¬ (value &&& (1 <<< i) ≠ 0) := fun h => hb ((and_one_shiftLeft_ne_zero value i).1 h)
      simp only [default_tms_sequence_loop, bind_log, lines_append, ih, lines_ite, if_neg hc,
        lines_tms_clr, lines_tck_clr, lines_tck_set, hb, level, Nat.add_zero, if_false,
        List.singleton_append, List.cons_append, List.nil_append, Bool.false_eq_true]

theorem lines_default_tms_sequence (bits value : Nat) (d : Jtdev σ) (hb : bits ≤ 32) :
    lines (jtag_default_tms_sequence f bits value d).log
      = (List.range bits).flatMap (fun i =>
          [Call.jtdev_tck 0, Call.jtdev_tms (level (value.testBit i)), Call.jtdev_tck 1]) := by
  unfold jtag_default_tms_sequence
  rw [lines_default_tms_sequence_loop]
  apply flatMap_congr_mem
  intro t ht
  have h32 : t < 32 := by
    have := List.mem_range.1 ht
    omega
  rw [Nat.zero_add, Nat.testBit_mod_two_pow, decide_eq_true h32, Bool.true_and]

theorem pulse_edge (p : Pins) (b : Nat) :
    tap_edges [Call.jtdev_tck 0, Call.jtdev_tms b, Call.jtdev_tck 1] p
      = [(p.tap, decide (b ≠ 0))] ∧
    Pins.run [Call.jtdev_tck 0, Call.jtdev_tms b, Call.jtdev_tck 1] p
      = { tap := p.tap.next (decide (b ≠ 0)), tck := 1, tms := b } := by
  simp [tap_edges, Pins.run, Pins.edge, Pins.step]

theorem level_ne_zero (b : Bool) : decide (level b ≠ 0) = b := by
  cases b <;> rfl

theorem tap_edges_tms_pulses (g : Nat → Bool) :
    ∀ (l : List Nat) (p : Pins),
      (tap_edges (l.flatMap (fun i =>
          [Call.jtdev_tck 0, Call.jtdev_tms (level (g i)), Call.jtdev_tck 1])) p).map Prod.snd
        = l.map g := by
  intro l
  induction l with
  | nil => intro p; rfl
  | cons x l ih =>
    intro p
    rw [List.flatMap_cons, tap_edges_append, (pulse_edge p (level (g x))).1, List.map_append,
      ih, level_ne_zero]
    rfl

theorem lines_verify_psa_loop (data : Option (Nat → Nat)) :
    ∀ (n index psa_crc : Nat) (d : Jtdev σ),
      lines (verify_psa_loop f data n index psa_crc d).log
        = (List.range n).flatMap (fun _ =>
            [Call.jtdev_tclk 1, Call.jtdev_tms_sequence 6 0x19, Call.jtdev_tclk 0]) := by
  intro n
  induction n with
  | zero => intro index psa_crc d; rfl
  | succ n ih =>
    intro index psa_crc d
    rw [range_flatMap_succ]
    simp only [verify_psa_loop, bind_log, lines_append, ih, lines_tclk_set, lines_tclk_clr,
      jtag_tms_sequence, lines_call, List.singleton_append, List.cons_append, List.nil_append]
    rfl

/-- C36: `jtag_default_tms_sequence(bits, value)`, for `bits` up to 32, makes for each `i` from
0 to `bits - 1` in turn the calls TCK low, TMS set to bit `i` of `value`, TCK high; from every
state of the lines these are exactly `bits` rising edges of TCK, the `i`-th taken with TMS at
bit `i` of `value`. The loop of `jtag_verify_psa` requests the sequence with 6 bits and the
pattern 0x19 once per word; for these the TMS levels are 1, 0, 0, 1, 1, 0 and the TAP started
in Run-Test/Idle passes through Select-DR-Scan, Capture-DR, Shift-DR, Exit1-DR and Update-DR
back to Run-Test/Idle. -/
theorem tms_sequence_lsb_first (bits value : Nat) (d : Jtdev σ) (p : Pins) (tck tms : Nat)
    (data : Option (Nat → Nat)) (n index psa_crc : Nat) (hb : bits ≤ 32) :
    lines (jtag_default_tms_sequence f bits value d).log
      = (List.range bits).flatMap (fun i =>
          [Call.jtdev_tck 0, Call.jtdev_tms (level (value.testBit i)), Call.jtdev_tck 1]) ∧
    (tap_edges (lines (jtag_default_tms_sequence f bits value d).log) p).map Prod.snd
      = (List.range bits).map (fun i => value.testBit i) ∧
    lines (verify_psa_loop f data n index psa_crc d).log
      = (List.range n).flatMap (fun _ =>
          [Call.jtdev_tclk 1, Call.jtdev_tms_sequence 6 0x19, Call.jtdev_tclk 0]) ∧
    lines (jtag_default_tms_sequence f 6 0x19 d).log
      = [Call.jtdev_tck 0, Call.jtdev_tms 1, Call.jtdev_tck 1,
         Call.jtdev_tck 0, Call.jtdev_tms 0, Call.jtdev_tck 1,
         Call.jtdev_tck 0, Call.jtdev_tms 0, Call.jtdev_tck 1,
         Call.jtdev_tck 0, Call.jtdev_tms 1, Call.jtdev_tck 1,
         Call.jtdev_tck 0, Call.jtdev_tms 1, Call.jtdev_tck 1,
         Call.jtdev_tck 0, Call.jtdev_tms 0, Call.jtdev_tck 1] ∧
    tap_edges (lines (jtag_default_tms_sequence f 6 0x19 d).log)
        { tap := Tap.Run_Test_Idle, tck := tck, tms := tms }
      = [(Tap.Run_Test_Idle, true), (Tap.Select_DR_Scan, false), (Tap.Capture_DR, false),
         (Tap.Shift_DR, true), (Tap.Exit1_DR, true), (Tap.Update_DR, false)] ∧
    Pins.run (lines (jtag_default_tms_sequence f 6 0x19 d).log)
        { tap := Tap.Run_Test_Idle, tck := tck, tms := tms }
      = { tap := Tap.Run_Test_Idle, tck := 1, tms := 0 } := by
  have h6 : lines (jtag_default_tms_sequence f 6 0x19 d).log
      = [Call.jtdev_tck 0, Call.jtdev_tms 1, Call.jtdev_tck 1,
         Call.jtdev_tck 0, Call.jtdev_tms 0, Call.jtdev_tck 1,
         Call.jtdev_tck 0, Call.jtdev_tms 0, Call.jtdev_tck 1,
         Call.jtdev_tck 0, Call.jtdev_tms 1, Call.jtdev_tck 1,
         Call.jtdev_tck 0, Call.jtdev_tms 1, Call.jtdev_tck 1,
         Call.jtdev_tck 0, Call.jtdev_tms 0, Call.jtdev_tck 1] := by
    rw [lines_default_tms_sequence f 6 0x19 d (by decide)]
    decide
  refine ⟨lines_default_tms_sequence f bits value d hb, ?_,
    lines_verify_psa_loop f data n index psa_crc d, h6, ?_, ?_⟩
  · rw [lines_default_tms_sequence f bits value d hb]
    exact tap_edges_tms_pulses (fun i => value.testBit i) (List.range bits) p
  · rw [h6]
    simp [tap_edges, Pins.edge, Pins.step, Tap.next]
  · rw [h6]
    simp [Pins.run, Pins.step, Tap.next]

theorem tms_sequence_lsb_first_witness :
    (6 : Nat) ≤ 32 ∧
    lines (jtag_default_tms_sequence (steady 0) 6 0x19 fresh).log
      = [Call.jtdev_tck 0, Call.jtdev_tms 1, Call.jtdev_tck 1,
         Call.jtdev_tck 0, Call.jtdev_tms 0, Call.jtdev_tck 1,
         Call.jtdev_tck 0, Call.jtdev_tms 0, Call.jtdev_tck 1,
         Call.jtdev_tck 0, Call.jtdev_tms 1, Call.jtdev_tck 1,
         Call.jtdev_tck 0, Call.jtdev_tms 1, Call.jtdev_tck 1,
         Call.jtdev_tck 0, Call.jtdev_tms 0, Call.jtdev_tck 1] :=
  ⟨by decide,
    (tms_sequence_lsb_first (steady 0) 6 0x19 fresh
      { tap := Tap.Run_Test_Idle, tck := 1, tms := 0 } 1 0 none 0 0 0 (by decide)).2.2.2.1⟩

theorem reset_tap_loop_clear :
    ∀ (n : Nat) (d : Jtdev σ),
      (∀ j, j < n → (iter_session (tck_pulse f) (j + 1) d).failed = 0) →
      (reset_tap_loop f n d).val = false ∧
      (reset_tap_loop f n d).dev = iter_session (tck_pulse f) n d ∧
      lines (reset_tap_loop f n d).log
        = (List.range n).flatMap (fun _ => [Call.jtdev_tck 0, Call.jtdev_tck 1]) := by
  intro n
  induction n with
  | zero => intro d _; exact ⟨rfl, rfl, rfl⟩
  | succ n ih =>
    intro d h
    have h0 : (jtag_tck_set f (jtag_tck_clr f d).dev).dev.failed = 0 := h 0 (by omega)
    have ht := ih (jtag_tck_set f (jtag_tck_clr f d).dev).dev (fun j hj => h (j + 1) (by omega))
    have hg : ∀ s : Jtdev σ, (get_failed s : Res σ Nat) = { val := s.failed, dev := s, log := [] } :=
      fun _ => rfl
    rw [range_flatMap_succ]
    simp only [reset_tap_loop, bind_val, bind_dev, bind_log, ite_run, hg, h0, ne_eq,
      not_true_eq_false, if_false, lines_append, lines_tck_clr, lines_tck_set,
      List.singleton_append, List.cons_append, List.nil_append]
    exact ⟨ht.1, ht.2.1, by rw [ht.2.2]⟩

theorem lines_reset_tap_entry (d : Jtdev σ) :
    lines (reset_tap_entry f d).log
      = [Call.jtdev_tms 1, Call.jtdev_tck 1, Call.jtdev_tms 0, Call.jtdev_tms 1,
         Call.jtdev_tms 0, Call.jtdev_tms 1] := rfl

theorem lines_default_reset_tap (d : Jtdev σ)
    (h : ∀ j, j < 6 → (iter_session (tck_pulse f) (j + 1) (reset_tap_entry f d).dev).failed = 0) :
    lines (jtag_default_reset_tap f d).log
      = [Call.jtdev_tms 1, Call.jtdev_tck 1, Call.jtdev_tms 0, Call.jtdev_tms 1,
         Call.jtdev_tms 0, Call.jtdev_tms 1,
         Call.jtdev_tck 0, Call.jtdev_tck 1, Call.jtdev_tck 0, Call.jtdev_tck 1,
         Call.jtdev_tck 0, Call.jtdev_tck 1, Call.jtdev_tck 0, Call.jtdev_tck 1,
         Call.jtdev_tck 0, Call.jtdev_tck 1, Call.jtdev_tck 0, Call.jtdev_tck 1,
         Call.jtdev_tck 0, Call.jtdev_tms 0, Call.jtdev_tck 1] ++ flush_calls f := by
  obtain ⟨hv, _, hl⟩ := reset_tap_loop_clear f 6 (reset_tap_entry f d).dev h
  have hd : (reset_tap_entry f d).dev
      = (jtag_tms_set f (jtag_tms_clr f (jtag_tms_set f (jtag_tms_clr f (jtag_tck_set f
          (jtag_tms_set f d).dev).dev).dev).dev).dev).dev := rfl
  rw [hd] at hv hl
  simp only [jtag_default_reset_tap, bind_log, bind_val, bind_dev, ite_run, hv, lines_append,
    hl, lines_tms_set, lines_tms_clr, lines_tck_set, lines_tck_clr, lines_flush_writes,
    Bool.false_eq_true, if_false, List.singleton_append, List.cons_append, List.nil_append]
  rfl

theorem reset_tap_flag_clear (hk : keeps_failed f) (d : Jtdev σ) (h0 : d.failed = 0) :
    ∀ j, j < 6 → (iter_session (tck_pulse f) (j + 1) (reset_tap_entry f d).dev).failed = 0 := by
  intro j _
  have hp : ∀ s : Jtdev σ, (tck_pulse f s).dev.failed = s.failed := by
    intro s
    simp only [tck_pulse, bind_dev, jtag_tck_set, jtag_tck_clr, call_failed f hk]
  have he : (reset_tap_entry f d).dev.failed = d.failed := by
    simp only [reset_tap_entry, bind_dev, jtag_tck_set, jtag_tms_set, jtag_tms_clr,
      call_failed f hk]
  rw [iter_session_failed (tck_pulse f) hp, he, h0]

theorem pins_run_flush_calls (s : Pins) : Pins.run (flush_calls f) s = s := by
  unfold flush_calls
  split <;> rfl

theorem tap_reset_walk (p : Pins) :
    (∃ t, Pins.run [Call.jtdev_tms 1, Call.jtdev_tck 1] p = { tap := t, tck := 1, tms := 1 }) ∧
    tap_edges [Call.jtdev_tms 0, Call.jtdev_tms 1, Call.jtdev_tms 0, Call.jtdev_tms 1]
      (Pins.run [Call.jtdev_tms 1, Call.jtdev_tck 1] p) = [] ∧
    (tap_edges [Call.jtdev_tck 0, Call.jtdev_tck 1, Call.jtdev_tck 0, Call.jtdev_tck 1,
        Call.jtdev_tck 0, Call.jtdev_tck 1, Call.jtdev_tck 0, Call.jtdev_tck 1,
        Call.jtdev_tck 0, Call.jtdev_tck 1, Call.jtdev_tck 0, Call.jtdev_tck 1]
      (Pins.run [Call.jtdev_tms 1, Call.jtdev_tck 1, Call.jtdev_tms 0, Call.jtdev_tms 1,
        Call.jtdev_tms 0, Call.jtdev_tms 1] p)).map Prod.snd
      = [true, true, true, true, true, true] ∧
    Pins.run [Call.jtdev_tms 1, Call.jtdev_tck 1, Call.jtdev_tms 0, Call.jtdev_tms 1,
        Call.jtdev_tms 0, Call.jtdev_tms 1,
        Call.jtdev_tck 0, Call.jtdev_tck 1, Call.jtdev_tck 0, Call.jtdev_tck 1,
        Call.jtdev_tck 0, Call.jtdev_tck 1, Call.jtdev_tck 0, Call.jtdev_tck 1,
        Call.jtdev_tck 0, Call.jtdev_tck 1, Call.jtdev_tck 0, Call.jtdev_tck 1] p
      = { tap := Tap.Test_Logic_Reset, tck := 1, tms := 1 } ∧
    tap_edges [Call.jtdev_tck 0, Call.jtdev_tms 0, Call.jtdev_tck 1]
        { tap := Tap.Test_Logic_Reset, tck := 1, tms := 1 }
      = [(Tap.Test_Logic_Reset, false)] ∧
    Pins.run [Call.jtdev_tck 0, Call.jtdev_tms 0, Call.jtdev_tck 1]
        { tap := Tap.Test_Logic_Reset, tck := 1, tms := 1 }
      = { tap := Tap.Run_Test_Idle, tck := 1, tms := 0 } := by
  obtain ⟨t, tck, tms⟩ := p
  have hstart : ∃ t2, Pins.run [Call.jtdev_tms 1, Call.jtdev_tck 1]
      { tap := t, tck := tck, tms := tms } = { tap := t2, tck := 1, tms := 1 } := by
    by_cases h : tck = 0
    · exact ⟨t.next true, by simp [Pins.run, Pins.step, h]⟩
    · exact ⟨t, by simp [Pins.run, Pins.step, h]⟩
  obtain ⟨t2, ht2⟩ := hstart
  have hsplit : ∀ l : List Call, Pins.run (Call.jtdev_tms 1 :: Call.jtdev_tck 1 :: l)
      { tap := t, tck := tck, tms := tms } = Pins.run l { tap := t2, tck := 1, tms := 1 } := by
    intro l
    rw [← ht2]
    rfl
  refine ⟨⟨t2, ht2⟩, ?_, ?_, ?_, by decide, by decide⟩
  · rw [ht2]
    rfl
  · rw [hsplit]
    cases t2 <;> decide
  · rw [hsplit]
    cases t2 <;> decide

/-- C33: `jtag_default_reset_tap` leaves the TAP in Run-Test/Idle from every state of the TAP
and of the lines, when `p->failed` is found clear at each of the six tests of the loop (as it
is for a transport that does not write the flag, on a session that has not failed). Its calls
are then: TMS and TCK raised, which leaves TCK and TMS high; the four fuse check changes of TMS,
which produce no rising edge of TCK; six low-high pulses of TCK, six rising edges all taken
with TMS high, after which the TAP is in Test-Logic-Reset; and one pulse with TMS low, a single
rising edge that takes the TAP to Run-Test/Idle; then the flush. -/
theorem reset_tap_reaches_idle (d : Jtdev σ) (p : Pins) :
    ((∀ j, j < 6 →
        (iter_session (tck_pulse f) (j + 1) (reset_tap_entry f d).dev).failed = 0) →
      lines (jtag_default_reset_tap f d).log
        = [Call.jtdev_tms 1, Call.jtdev_tck 1, Call.jtdev_tms 0, Call.jtdev_tms 1,
           Call.jtdev_tms 0, Call.jtdev_tms 1,
           Call.jtdev_tck 0, Call.jtdev_tck 1, Call.jtdev_tck 0, Call.jtdev_tck 1,
           Call.jtdev_tck 0, Call.jtdev_tck 1, Call.jtdev_tck 0, Call.jtdev_tck 1,
           Call.jtdev_tck 0, Call.jtdev_tck 1, Call.jtdev_tck 0, Call.jtdev_tck 1,
           Call.jtdev_tck 0, Call.jtdev_tms 0, Call.jtdev_tck 1] ++ flush_calls f ∧
      Pins.run (lines (jtag_default_reset_tap f d).log) p
        = { tap := Tap.Run_Test_Idle, tck := 1, tms := 0 }) ∧
    (keeps_failed f → d.failed = 0 →
      ∀ j, j < 6 →
        (iter_session (tck_pulse f) (j + 1) (reset_tap_entry f d).dev).failed = 0) ∧
    (∃ t, Pins.run [Call.jtdev_tms 1, Call.jtdev_tck 1] p = { tap := t, tck := 1, tms := 1 }) ∧
    tap_edges [Call.jtdev_tms 0, Call.jtdev_tms 1, Call.jtdev_tms 0, Call.jtdev_tms 1]
      (Pins.run [Call.jtdev_tms 1, Call.jtdev_tck 1] p) = [] ∧
    (tap_edges [Call.jtdev_tck 0, Call.jtdev_tck 1, Call.jtdev_tck 0, Call.jtdev_tck 1,
        Call.jtdev_tck 0, Call.jtdev_tck 1, Call.jtdev_tck 0, Call.jtdev_tck 1,
        Call.jtdev_tck 0, Call.jtdev_tck 1, Call.jtdev_tck 0, Call.jtdev_tck 1]
      (Pins.run [Call.jtdev_tms 1, Call.jtdev_tck 1, Call.jtdev_tms 0, Call.jtdev_tms 1,
        Call.jtdev_tms 0, Call.jtdev_tms 1] p)).map Prod.snd
      = [true, true, true, true, true, true] ∧
    Pins.run [Call.jtdev_tms 1, Call.jtdev_tck 1, Call.jtdev_tms 0, Call.jtdev_tms 1,
        Call.jtdev_tms 0, Call.jtdev_tms 1,
        Call.jtdev_tck 0, Call.jtdev_tck 1, Call.jtdev_tck 0, Call.jtdev_tck 1,
        Call.jtdev_tck 0, Call.jtdev_tck 1, Call.jtdev_tck 0, Call.jtdev_tck 1,
        Call.jtdev_tck 0, Call.jtdev_tck 1, Call.jtdev_tck 0, Call.jtdev_tck 1] p
      = { tap := Tap.Test_Logic_Reset, tck := 1, tms := 1 } ∧
    tap_edges [Call.jtdev_tck 0, Call.jtdev_tms 0, Call.jtdev_tck 1]
        { tap := Tap.Test_Logic_Reset, tck := 1, tms := 1 }
      = [(Tap.Test_Logic_Reset, false)] := by
  obtain ⟨w1, w2, w3, w4, w5, w6⟩ := tap_reset_walk p
  refine ⟨?_, fun hk => reset_tap_flag_clear f hk d, w1, w2, w3, w4, w5⟩
  intro h
  have hl := lines_default_reset_tap f d h
  refine ⟨hl, ?_⟩
  rw [hl, pins_run_append, pins_run_flush_calls]
  have hs : [Call.jtdev_tms 1, Call.jtdev_tck 1, Call.jtdev_tms 0, Call.jtdev_tms 1,
           Call.jtdev_tms 0, Call.jtdev_tms 1,
           Call.jtdev_tck 0, Call.jtdev_tck 1, Call.jtdev_tck 0, Call.jtdev_tck 1,
           Call.jtdev_tck 0, Call.jtdev_tck 1, Call.jtdev_tck 0, Call.jtdev_tck 1,
           Call.jtdev_tck 0, Call.jtdev_tck 1, Call.jtdev_tck 0, Call.jtdev_tck 1,
           Call.jtdev_tck 0, Call.jtdev_tms 0, Call.jtdev_tck 1]
      = [Call.jtdev_tms 1, Call.jtdev_tck 1, Call.jtdev_tms 0, Call.jtdev_tms 1,
           Call.jtdev_tms 0, Call.jtdev_tms 1,
           Call.jtdev_tck 0, Call.jtdev_tck 1, Call.jtdev_tck 0, Call.jtdev_tck 1,
           Call.jtdev_tck 0, Call.jtdev_tck 1, Call.jtdev_tck 0, Call.jtdev_tck 1,
           Call.jtdev_tck 0, Call.jtdev_tck 1, Call.jtdev_tck 0, Call.jtdev_tck 1]
        ++ [Call.jtdev_tck 0, Call.jtdev_tms 0, Call.jtdev_tck 1] := rfl
  rw [hs, pins_run_append, w4, w6]

theorem reset_tap_reaches_idle_witness :
    keeps_failed (steady 0) ∧ fresh.failed = 0 ∧
    Pins.run (lines (jtag_default_reset_tap (steady 0) fresh).log)
        { tap := Tap.Shift_DR, tck := 0, tms := 0 }
      = { tap := Tap.Run_Test_Idle, tck := 1, tms := 0 } :=
  ⟨fun _ _ => rfl, rfl,
    ((reset_tap_reaches_idle (steady 0) fresh { tap := Tap.Shift_DR, tck := 0, tms := 0 }).1
      ((reset_tap_reaches_idle (steady 0) fresh
        { tap := Tap.Shift_DR, tck := 0, tms := 0 }).2.1 (fun _ _ => rfl) rfl)).2⟩

/-! ## Bounded polling: `jtag_set_instruction_fetch` -/

theorem fetch_loop_timeout (n : Nat) :
    ∀ d : Jtdev σ, (∀ j, j < n → capture_at (fetch_round f) j d &&& 0x0080 ≠ 0x0080) →
      (set_instruction_fetch_loop f n d).val = 0 ∧
      (set_instruction_fetch_loop f n d).dev
        = { iter_session (fetch_round f) n d with failed := 1 } ∧
      lines (set_instruction_fetch_loop f n d).log
        = (List.range n).flatMap (fun _ =>
            [Call.jtdev_dr_shift_16 0, Call.jtdev_tclk 0, Call.jtdev_tclk 1]) := by
  induction n with
  | zero => intro d _; exact ⟨rfl, rfl, rfl⟩
  | succ m ih =>
    intro d h
    have h0 : ¬ ((jtag_dr_shift_16_and_read f 0x0000 d).val &&& 0x0080 = 0x0080) :=
      h 0 (by omega)
    have ht := ih (fetch_round f d).dev (fun j hj => h (j + 1) (by omega))
    rw [range_flatMap_succ]
    simp only [set_instruction_fetch_loop, bind_val, bind_dev, bind_log, ite_run, h0, if_false,
      lines_append, lines_dr_shift_16_and_read, lines_tclk_set, lines_tclk_clr,
      List.singleton_append, List.cons_append, List.nil_append]
    exact ⟨ht.1, ht.2.1, by rw [← ht.2.2]; rfl⟩

theorem fetch_loop_hit (j : Nat) :
    ∀ (n : Nat) (d : Jtdev σ), j < n →
      (∀ i, i < j → capture_at (fetch_round f) i d &&& 0x0080 ≠ 0x0080) →
      capture_at (fetch_round f) j d &&& 0x0080 = 0x0080 →
      (set_instruction_fetch_loop f n d).val = 1 ∧
      (set_instruction_fetch_loop f n d).dev
        = (poll f (iter_session (fetch_round f) j d)).dev ∧
      lines (set_instruction_fetch_loop f n d).log
        = (List.range j).flatMap (fun _ =>
            [Call.jtdev_dr_shift_16 0, Call.jtdev_tclk 0, Call.jtdev_tclk 1])
          ++ [Call.jtdev_dr_shift_16 0] := by
  induction j with
  | zero =>
    intro n d hn _ hj
    obtain ⟨m, rfl⟩ : ∃ m, n = m + 1 := ⟨n - 1, by omega⟩
    have h0 : (jtag_dr_shift_16_and_read f 0x0000 d).val &&& 0x0080 = 0x0080 := hj
    simp only [set_instruction_fetch_loop, bind_val, bind_dev, bind_log, ite_run, h0, if_true,
      pure_run, lines_append, lines_dr_shift_16_and_read, lines_pure, List.append_nil]
    exact ⟨trivial, rfl, rfl⟩
  | succ i ih =>
    intro n d hn hlt hj
    obtain ⟨m, rfl⟩ : ∃ m, n = m + 1 := ⟨n - 1, by omega⟩
    have h0 : ¬ ((jtag_dr_shift_16_and_read f 0x0000 d).val &&& 0x0080 = 0x0080) :=
      hlt 0 (by omega)
    have ht := ih m (fetch_round f d).dev (by omega)
      (fun t ht => hlt (t + 1) (by omega)) hj
    rw [range_flatMap_succ]
    simp only [set_instruction_fetch_loop, bind_val, bind_dev, bind_log, ite_run, h0, if_false,
      lines_append, lines_dr_shift_16_and_read, lines_tclk_set, lines_tclk_clr,
      List.singleton_append, List.cons_append, List.nil_append]
    exact ⟨ht.1, ht.2.1, by rw [← ht.2.2]; rfl⟩

theorem fetch_round_failed (hk : keeps_failed f) (d : Jtdev σ) :
    (fetch_round f d).dev.failed = d.failed := by
  simp only [fetch_round, bind_dev, pure_run, jtag_tclk_set, jtag_tclk_clr, call_failed f hk,
    dr_shift_16_and_read_failed f hk]

theorem set_instruction_fetch_timeout (d : Jtdev σ)
    (h : ∀ j, j < 50 →
      capture_at (fetch_round f) j (jtag_ir_shift f IR_CNTRL_SIG_CAPTURE d).dev &&& 0x0080
        ≠ 0x0080) :
    (jtag_set_instruction_fetch f d).val = 0 ∧
    (jtag_set_instruction_fetch f d).dev.failed = 1 ∧
    lines (jtag_set_instruction_fetch f d).log
      = [ir_call f 0x28] ++ (List.range 50).flatMap (fun _ =>
          [Call.jtdev_dr_shift_16 0, Call.jtdev_tclk 0, Call.jtdev_tclk 1]) := by
  obtain ⟨lv, ld, ll⟩ := fetch_loop_timeout f 50 (jtag_ir_shift f IR_CNTRL_SIG_CAPTURE d).dev h
  simp only [jtag_set_instruction_fetch, bind_val, bind_dev, bind_log, lines_append,
    lines_ir_shift, lv, ld, ll]
  exact ⟨trivial, trivial, rfl⟩

theorem set_instruction_fetch_hit (d : Jtdev σ) (j : Nat) (hj : j < 50)
    (hlt : ∀ i, i < j →
      capture_at (fetch_round f) i (jtag_ir_shift f IR_CNTRL_SIG_CAPTURE d).dev &&& 0x0080
        ≠ 0x0080)
    (hhit : capture_at (fetch_round f) j (jtag_ir_shift f IR_CNTRL_SIG_CAPTURE d).dev &&& 0x0080
        = 0x0080) :
    (jtag_set_instruction_fetch f d).val = 1 ∧
    lines (jtag_set_instruction_fetch f d).log
      = [ir_call f 0x28] ++ (List.range j).flatMap (fun _ =>
          [Call.jtdev_dr_shift_16 0, Call.jtdev_tclk 0, Call.jtdev_tclk 1])
        ++ [Call.jtdev_dr_shift_16 0] ∧
    (jtag_set_instruction_fetch f d).dev
      = (poll f (iter_session (fetch_round f) j
          (jtag_ir_shift f IR_CNTRL_SIG_CAPTURE d).dev)).dev ∧
    (keeps_failed f → (jtag_set_instruction_fetch f d).dev.failed = d.failed) := by
  obtain ⟨lv, ld, ll⟩ := fetch_loop_hit f j 50 (jtag_ir_shift f IR_CNTRL_SIG_CAPTURE d).dev hj
    hlt hhit
  have hdev : (jtag_set_instruction_fetch f d).dev
      = (poll f (iter_session (fetch_round f) j
          (jtag_ir_shift f IR_CNTRL_SIG_CAPTURE d).dev)).dev := by
    simp only [jtag_set_instruction_fetch, bind_dev, ld]
  refine ⟨?_, ?_, hdev, ?_⟩
  · simp only [jtag_set_instruction_fetch, bind_val, lv]
  · simp only [jtag_set_instruction_fetch, bind_log, lines_append, lines_ir_shift, ll,
      List.append_assoc]
    rfl
  · intro hk
    rw [hdev, poll_failed f hk, iter_session_failed (fetch_round f) (fetch_round_failed f hk),
      ir_shift_failed f hk]

/-- C34: `jtag_set_instruction_fetch` shifts the capture instruction and then polls at most 50
times. It stops at the first capture `j` with bit 0x0080 and returns 1, having made `j + 1`
data shifts, with TCLK taken low and then high once after each of the `j` earlier ones, and
assigns nothing to `p->failed`. If none of the 50 captures has the bit it returns 0 with
`p->failed` set to 1, after exactly 50 data shifts each followed by one TCLK low-high pulse.
For a transport that does not write the flag and a session not failed before, `p->failed` is
set and 0 is returned if and only if none of the 50 captures has the bit. -/
theorem set_instruction_fetch_polling (d : Jtdev σ) :
    ((∀ j, j < 50 →
        capture_at (fetch_round f) j (jtag_ir_shift f IR_CNTRL_SIG_CAPTURE d).dev &&& 0x0080
          ≠ 0x0080) →
      (jtag_set_instruction_fetch f d).val = 0 ∧
      (jtag_set_instruction_fetch f d).dev.failed = 1 ∧
      lines (jtag_set_instruction_fetch f d).log
        = [ir_call f 0x28] ++ (List.range 50).flatMap (fun _ =>
            [Call.jtdev_dr_shift_16 0, Call.jtdev_tclk 0, Call.jtdev_tclk 1])) ∧
    (∀ j, j < 50 →
      (∀ i, i < j →
        capture_at (fetch_round f) i (jtag_ir_shift f IR_CNTRL_SIG_CAPTURE d).dev &&& 0x0080
          ≠ 0x0080) →
      capture_at (fetch_round f) j (jtag_ir_shift f IR_CNTRL_SIG_CAPTURE d).dev &&& 0x0080
        = 0x0080 →
      (jtag_set_instruction_fetch f d).val = 1 ∧
      lines (jtag_set_instruction_fetch f d).log
        = [ir_call f 0x28] ++ (List.range j).flatMap (fun _ =>
            [Call.jtdev_dr_shift_16 0, Call.jtdev_tclk 0, Call.jtdev_tclk 1])
          ++ [Call.jtdev_dr_shift_16 0] ∧
      (jtag_set_instruction_fetch f d).dev
        = (poll f (iter_session (fetch_round f) j
            (jtag_ir_shift f IR_CNTRL_SIG_CAPTURE d).dev)).dev ∧
      (keeps_failed f → (jtag_set_instruction_fetch f d).dev.failed = d.failed)) ∧
    (∀ j s, capture_at (fetch_round f) j s = (poll f (iter_session (fetch_round f) j s)).val) ∧
    (keeps_failed f → d.failed = 0 →
      (((jtag_set_instruction_fetch f d).dev.failed = 1 ∧
          (jtag_set_instruction_fetch f d).val = 0) ↔
        ∀ j, j < 50 →
          capture_at (fetch_round f) j (jtag_ir_shift f IR_CNTRL_SIG_CAPTURE d).dev &&& 0x0080
            ≠ 0x0080)) := by
  refine ⟨set_instruction_fetch_timeout f d, set_instruction_fetch_hit f d, fun _ _ => rfl, ?_⟩
  intro hk h0
  constructor
  · rintro ⟨hf, _⟩
    by_contra hcon
    have hex : ∃ j, j < 50 ∧
        capture_at (fetch_round f) j (jtag_ir_shift f IR_CNTRL_SIG_CAPTURE d).dev &&& 0x0080
          = 0x0080 := by
      by_contra hno
      apply hcon
      intro j hj hc
      exact hno ⟨j, hj, hc⟩
    have hmin : ∀ i, i < Nat.find hex →
        capture_at (fetch_round f) i (jtag_ir_shift f IR_CNTRL_SIG_CAPTURE d).dev &&& 0x0080
          ≠ 0x0080 := by
      intro i hi hc
      exact Nat.find_min hex hi ⟨by have := (Nat.find_spec hex).1; omega, hc⟩
    have hfail := (set_instruction_fetch_hit f d (Nat.find hex) (Nat.find_spec hex).1 hmin
      (Nat.find_spec hex).2).2.2.2 hk
    rw [hf, h0] at hfail
    exact absurd hfail (by decide)
  · intro h
    exact ⟨(set_instruction_fetch_timeout f d h).2.1, (set_instruction_fetch_timeout f d h).1⟩

theorem set_instruction_fetch_polling_witness :
    (∀ j, j < 50 →
      capture_at (fetch_round (steady 0)) j
        (jtag_ir_shift (steady 0) IR_CNTRL_SIG_CAPTURE fresh).dev &&& 0x0080 ≠ 0x0080) ∧
    (jtag_set_instruction_fetch (steady 0) fresh).val = 0 ∧
    (jtag_set_instruction_fetch (steady 0) fresh).dev.failed = 1 ∧
    (lines (jtag_set_instruction_fetch (steady 0) fresh).log).length = 151 ∧
    capture_at (fetch_round (steady 0x0280)) 0
        (jtag_ir_shift (steady 0x0280) IR_CNTRL_SIG_CAPTURE fresh).dev &&& 0x0080 = 0x0080 ∧
    (jtag_set_instruction_fetch (steady 0x0280) fresh).val = 1 ∧
    lines (jtag_set_instruction_fetch (steady 0x0280) fresh).log
      = [Call.jtdev_ir_shift 0x28, Call.jtdev_dr_shift_16 0] :=
  have hs : ∀ (j : Nat) (s : Jtdev Unit), capture_at (fetch_round (steady 0)) j s = 0 :=
    fun _ _ => rfl
  have h0 : ∀ j, j < 50 →
      capture_at (fetch_round (steady 0)) j
        (jtag_ir_shift (steady 0) IR_CNTRL_SIG_CAPTURE fresh).dev &&& 0x0080 ≠ 0x0080 := by
    intro j _
    rw [hs]
    decide
  have h1 : capture_at (fetch_round (steady 0x0280)) 0
        (jtag_ir_shift (steady 0x0280) IR_CNTRL_SIG_CAPTURE fresh).dev &&& 0x0080 = 0x0080 := by
    decide
  ⟨h0, ((set_instruction_fetch_polling (steady 0) fresh).1 h0).1,
    ((set_instruction_fetch_polling (steady 0) fresh).1 h0).2.1,
    by rw [((set_instruction_fetch_polling (steady 0) fresh).1 h0).2.2]; rfl,
    h1,
    ((set_instruction_fetch_polling (steady 0x0280) fresh).2.1 0 (by decide)
      (fun i hi => absurd hi (by omega)) h1).1,
    ((set_instruction_fetch_polling (steady 0x0280) fresh).2.1 0 (by decide)
      (fun i hi => absurd hi (by omega)) h1).2.1⟩

/-! ## Bounded polling: `jtag_single_step` -/

theorem step_loop_timeout (n : Nat) :
    ∀ d : Jtdev σ, (∀ j, j < n → capture_at (step_round f) j d &&& 0x0080 ≠ 0x0080) →
      (single_step_loop f n d).val = 0 ∧
      (single_step_loop f n d).dev = iter_session (step_round f) n d ∧
      lines (single_step_loop f n d).log
        = (List.range n).flatMap (fun _ =>
            [Call.jtdev_tclk 0, Call.jtdev_tclk 1, Call.jtdev_dr_shift_16 0]) := by
  induction n with
  | zero => intro d _; exact ⟨rfl, rfl, rfl⟩
  | succ m ih =>
    intro d h
    have h0 : ¬ ((jtag_dr_shift_16_and_read f 0x0000
        (jtag_tclk_set f (jtag_tclk_clr f d).dev).dev).val &&& 0x0080 = 0x0080) :=
      h 0 (by omega)
    have ht := ih (step_round f d).dev (fun j hj => h (j + 1) (by omega))
    rw [range_flatMap_succ]
    simp only [single_step_loop, bind_val, bind_dev, bind_log, ite_run, h0, if_false,
      lines_append, lines_dr_shift_16_and_read, lines_tclk_set, lines_tclk_clr,
      List.singleton_append, List.cons_append, List.nil_append]
    exact ⟨ht.1, ht.2.1, by rw [← ht.2.2]; rfl⟩

theorem step_loop_hit (j : Nat) :
    ∀ (n : Nat) (d : Jtdev σ), j < n →
      (∀ i, i < j → capture_at (step_round f) i d &&& 0x0080 ≠ 0x0080) →
      capture_at (step_round f) j d &&& 0x0080 = 0x0080 →
      (single_step_loop f n d).val = n - j ∧
      (single_step_loop f n d).dev = iter_session (step_round f) (j + 1) d ∧
      lines (single_step_loop f n d).log
        = (List.range (j + 1)).flatMap (fun _ =>
            [Call.jtdev_tclk 0, Call.jtdev_tclk 1, Call.jtdev_dr_shift_16 0]) := by
  induction j with
  | zero =>
    intro n d hn _ hj
    obtain ⟨m, rfl⟩ : ∃ m, n = m + 1 := ⟨n - 1, by omega⟩
    have h0 : (jtag_dr_shift_16_and_read f 0x0000
        (jtag_tclk_set f (jtag_tclk_clr f d).dev).dev).val &&& 0x0080 = 0x0080 := hj
    simp only [single_step_loop, bind_val, bind_dev, bind_log, ite_run, h0, if_true,
      pure_run, lines_append, lines_dr_shift_16_and_read, lines_tclk_set, lines_tclk_clr,
      lines_pure, List.append_nil]
    exact ⟨rfl, rfl, rfl⟩
  | succ i ih =>
    intro n d hn hlt hj
    obtain ⟨m, rfl⟩ : ∃ m, n = m + 1 := ⟨n - 1, by omega⟩
    have h0 : ¬ ((jtag_dr_shift_16_and_read f 0x0000
        (jtag_tclk_set f (jtag_tclk_clr f d).dev).dev).val &&& 0x0080 = 0x0080) :=
      hlt 0 (by omega)
    have ht := ih m (step_round f d).dev (by omega)
      (fun t ht => hlt (t + 1) (by omega)) hj
    rw [range_flatMap_succ]
    simp only [single_step_loop, bind_val, bind_dev, bind_log, ite_run, h0, if_false,
      lines_append, lines_dr_shift_16_and_read, lines_tclk_set, lines_tclk_clr,
      List.singleton_append, List.cons_append, List.nil_append]
    refine ⟨ht.1.trans (by omega), ht.2.1, ?_⟩
    rw [← ht.2.2]
    rfl

theorem step_round_failed (hk : keeps_failed f) (d : Jtdev σ) :
    (step_round f d).dev.failed = d.failed := by
  simp only [step_round, bind_dev, jtag_tclk_set, jtag_tclk_clr, call_failed f hk,
    dr_shift_16_and_read_failed f hk]

theorem single_step_setup_failed (hk : keeps_failed f) (d : Jtdev σ) :
    (single_step_setup f d).dev.failed = d.failed := by
  simp only [single_step_setup, bind_dev, ir_shift_failed f hk, dr_shift_16_failed f hk]

theorem single_step_tail_failed (hk : keeps_failed f) (d : Jtdev σ) :
    (single_step_tail f d).dev.failed = d.failed := by
  simp only [single_step_tail, bind_dev, ir_shift_failed f hk, dr_shift_16_failed f hk,
    flush_writes_failed f hk]

theorem single_step_result (d : Jtdev σ) :
    (jtag_single_step f d).dev
      = (if (single_step_loop f 10 (single_step_setup f d).dev).val = 0 then
          { (single_step_tail f (single_step_loop f 10 (single_step_setup f d).dev).dev).dev
            with failed := 1 }
         else (single_step_tail f (single_step_loop f 10 (single_step_setup f d).dev).dev).dev) ∧
    lines (jtag_single_step f d).log
      = [ir_call f 0xC8, dr16_call f 0x3401, ir_call f 0x28]
        ++ lines (single_step_loop f 10 (single_step_setup f d).dev).log
        ++ ([ir_call f 0xC8, dr16_call f 0x2401] ++ flush_calls f) := by
  have hS : (single_step_setup f d).dev = (jtag_ir_shift f IR_CNTRL_SIG_CAPTURE
      (jtag_dr_shift_16 f 0x3401 (jtag_ir_shift f IR_CNTRL_SIG_16BIT d).dev).dev).dev := rfl
  have hT : ∀ s : Jtdev σ, (single_step_tail f s).dev = (jtag_flush_writes f
      (jtag_dr_shift_16 f 0x2401 (jtag_ir_shift f IR_CNTRL_SIG_16BIT s).dev).dev).dev :=
    fun _ => rfl
  rw [hS]
  simp only [hT]
  by_cases h : (single_step_loop f 10 (jtag_ir_shift f IR_CNTRL_SIG_CAPTURE
        (jtag_dr_shift_16 f 0x3401 (jtag_ir_shift f IR_CNTRL_SIG_16BIT d).dev).dev).dev).val = 0
  · simp only [jtag_single_step, bind_val, bind_dev, bind_log, ite_run, h, if_true,
      lines_append, lines_ir_shift, lines_dr_shift_16, lines_flush_writes,
      lines_set_failed, List.nil_append, List.singleton_append, List.cons_append,
      List.append_nil, List.append_assoc]
    exact ⟨rfl, rfl⟩
  · simp only [jtag_single_step, bind_val, bind_dev, bind_log, ite_run, h, if_false,
      lines_append, lines_ir_shift, lines_dr_shift_16, lines_flush_writes,
      lines_pure, List.nil_append, List.singleton_append, List.cons_append,
      List.append_nil, List.append_assoc]
    exact ⟨rfl, rfl⟩

theorem single_step_timeout (d : Jtdev σ)
    (h : ∀ j, j < 10 →
      capture_at (step_round f) j (single_step_setup f d).dev &&& 0x0080 ≠ 0x0080) :
    (jtag_single_step f d).dev
      = { (single_step_tail f (iter_session (step_round f) 10 (single_step_setup f d).dev)).dev
          with failed := 1 } ∧
    lines (jtag_single_step f d).log
      = [ir_call f 0xC8, dr16_call f 0x3401, ir_call f 0x28]
        ++ (List.range 10).flatMap (fun _ =>
            [Call.jtdev_tclk 0, Call.jtdev_tclk 1, Call.jtdev_dr_shift_16 0])
        ++ ([ir_call f 0xC8, dr16_call f 0x2401] ++ flush_calls f) := by
  obtain ⟨hd, hl⟩ := single_step_result f d
  obtain ⟨lv, ld, ll⟩ := step_loop_timeout f 10 (single_step_setup f d).dev h
  rw [hd, hl, if_pos lv, ld, ll]
  exact ⟨rfl, rfl⟩

theorem single_step_hit (d : Jtdev σ) (j : Nat) (hj : j < 10)
    (hlt : ∀ i, i < j →
      capture_at (step_round f) i (single_step_setup f d).dev &&& 0x0080 ≠ 0x0080)
    (hhit : capture_at (step_round f) j (single_step_setup f d).dev &&& 0x0080 = 0x0080) :
    (jtag_single_step f d).dev
      = (single_step_tail f
          (iter_session (step_round f) (j + 1) (single_step_setup f d).dev)).dev ∧
    lines (jtag_single_step f d).log
      = [ir_call f 0xC8, dr16_call f 0x3401, ir_call f 0x28]
        ++ (List.range (j + 1)).flatMap (fun _ =>
            [Call.jtdev_tclk 0, Call.jtdev_tclk 1, Call.jtdev_dr_shift_16 0])
        ++ ([ir_call f 0xC8, dr16_call f 0x2401] ++ flush_calls f) ∧
    (keeps_failed f → (jtag_single_step f d).dev.failed = d.failed) := by
  obtain ⟨hd, hl⟩ := single_step_result f d
  obtain ⟨lv, ld, ll⟩ := step_loop_hit f j 10 (single_step_setup f d).dev hj hlt hhit
  have hne : ¬ (single_step_loop f 10 (single_step_setup f d).dev).val = 0 := by
    rw [lv]; omega
  have hdev : (jtag_single_step f d).dev
      = (single_step_tail f
          (iter_session (step_round f) (j + 1) (single_step_setup f d).dev)).dev := by
    rw [hd, if_neg hne, ld]
  refine ⟨hdev, by rw [hl, ll], ?_⟩
  intro hk
  rw [hdev, single_step_tail_failed f hk,
    iter_session_failed (step_round f) (step_round_failed f hk),
    single_step_setup_failed f hk]

/-- C35: `jtag_single_step`, after giving the CPU control of the bus (control word 0x3401) and
selecting the control capture, pulses TCLK low-high at most 10 times, capturing the control
word after each pulse, and stops after the first pulse `j` whose capture has bit 0x0080. In
both outcomes it then shifts `IR_CNTRL_SIG_16BIT` and the control word 0x2401 and flushes. If
none of the 10 captures has the bit it then sets `p->failed` to 1; otherwise it assigns nothing
to `p->failed`. For a transport that does not write the flag and a session not failed before,
`p->failed` is set afterwards if and only if none of the 10 captures has the bit. -/
theorem single_step_polling (d : Jtdev σ) :
    ((∀ j, j < 10 →
        capture_at (step_round f) j (single_step_setup f d).dev &&& 0x0080 ≠ 0x0080) →
      (jtag_single_step f d).dev
        = { (single_step_tail f
              (iter_session (step_round f) 10 (single_step_setup f d).dev)).dev
            with failed := 1 } ∧
      lines (jtag_single_step f d).log
        = [ir_call f 0xC8, dr16_call f 0x3401, ir_call f 0x28]
          ++ (List.range 10).flatMap (fun _ =>
              [Call.jtdev_tclk 0, Call.jtdev_tclk 1, Call.jtdev_dr_shift_16 0])
          ++ ([ir_call f 0xC8, dr16_call f 0x2401] ++ flush_calls f)) ∧
    (∀ j, j < 10 →
      (∀ i, i < j →
        capture_at (step_round f) i (single_step_setup f d).dev &&& 0x0080 ≠ 0x0080) →
      capture_at (step_round f) j (single_step_setup f d).dev &&& 0x0080 = 0x0080 →
      (jtag_single_step f d).dev
        = (single_step_tail f
            (iter_session (step_round f) (j + 1) (single_step_setup f d).dev)).dev ∧
      lines (jtag_single_step f d).log
        = [ir_call f 0xC8, dr16_call f 0x3401, ir_call f 0x28]
          ++ (List.range (j + 1)).flatMap (fun _ =>
              [Call.jtdev_tclk 0, Call.jtdev_tclk 1, Call.jtdev_dr_shift_16 0])
          ++ ([ir_call f 0xC8, dr16_call f 0x2401] ++ flush_calls f) ∧
      (keeps_failed f → (jtag_single_step f d).dev.failed = d.failed)) ∧
    (keeps_failed f → d.failed = 0 →
      ((jtag_single_step f d).dev.failed ≠ 0 ↔
        ∀ j, j < 10 →
          capture_at (step_round f) j (single_step_setup f d).dev &&& 0x0080 ≠ 0x0080)) := by
  refine ⟨single_step_timeout f d, single_step_hit f d, ?_⟩
  intro hk h0
  constructor
  · intro hf
    by_contra hcon
    have hex : ∃ j, j < 10 ∧
        capture_at (step_round f) j (single_step_setup f d).dev &&& 0x0080 = 0x0080 := by
      by_contra hno
      apply hcon
      intro j hj hc
      exact hno ⟨j, hj, hc⟩
    have hmin : ∀ i, i < Nat.find hex →
        capture_at (step_round f) i (single_step_setup f d).dev &&& 0x0080 ≠ 0x0080 := by
      intro i hi hc
      exact Nat.find_min hex hi ⟨by have := (Nat.find_spec hex).1; omega, hc⟩
    have hfail := (single_step_hit f d (Nat.find hex) (Nat.find_spec hex).1 hmin
      (Nat.find_spec hex).2).2.2 hk
    rw [h0] at hfail
    exact hf hfail
  · intro h
    rw [(single_step_timeout f d h).1]
    exact Nat.one_ne_zero

theorem single_step_polling_witness :
    (∀ j, j < 10 →
      capture_at (step_round (steady 0)) j (single_step_setup (steady 0) fresh).dev &&& 0x0080
        ≠ 0x0080) ∧
    (jtag_single_step (steady 0) fresh).dev.failed = 1 ∧
    (lines (jtag_single_step (steady 0) fresh).log).length = 35 ∧
    capture_at (step_round (steady 0x0080)) 0 (single_step_setup (steady 0x0080) fresh).dev
      &&& 0x0080 = 0x0080 ∧
    (jtag_single_step (steady 0x0080) fresh).dev.failed = 0 ∧
    lines (jtag_single_step (steady 0x0080) fresh).log
      = [Call.jtdev_ir_shift 0xC8, Call.jtdev_dr_shift_16 0x3401, Call.jtdev_ir_shift 0x28,
         Call.jtdev_tclk 0, Call.jtdev_tclk 1, Call.jtdev_dr_shift_16 0,
         Call.jtdev_ir_shift 0xC8, Call.jtdev_dr_shift_16 0x2401] :=
  have hs : ∀ (j : Nat) (s : Jtdev Unit), capture_at (step_round (steady 0)) j s = 0 :=
    fun _ _ => rfl
  have h0 : ∀ j, j < 10 →
      capture_at (step_round (steady 0)) j (single_step_setup (steady 0) fresh).dev &&& 0x0080
        ≠ 0x0080 := by
    intro j _
    rw [hs]
    decide
  have h1 : capture_at (step_round (steady 0x0080)) 0
      (single_step_setup (steady 0x0080) fresh).dev &&& 0x0080 = 0x0080 := by
    decide
  ⟨h0,
    by rw [((single_step_polling (steady 0) fresh).1 h0).1],
    by rw [((single_step_polling (steady 0) fresh).1 h0).2]; rfl,
    h1,
    ((single_step_polling (steady 0x0080) fresh).2.1 0 (by decide)
      (fun i hi => absurd hi (by omega)) h1).2.2 (fun _ _ => rfl),
    ((single_step_polling (steady 0x0080) fresh).2.1 0 (by decide)
      (fun i hi => absurd hi (by omega)) h1).2.1⟩

/-! ## The bit-by-bit shift is MSB-first in both directions -/

theorem default_shift_loop_succ (data_out n data_in : Nat) (d : Jtdev σ) :
    (default_shift_loop f data_out (n + 1) data_in d).val
      = (default_shift_loop f data_out n
          (if (shift_round f data_out n d).val = 1 then data_in ||| 1 <<< n else data_in)
          (shift_round f data_out n d).dev).val := rfl

theorem testBit_or_one_shiftLeft (x n k : Nat) :
    (x ||| 1 <<< n).testBit k = (x.testBit k || decide (k = n)) := by
  rw [Nat.testBit_or, Nat.one_shiftLeft, Nat.testBit_two_pow]
  by_cases h : n = k
  · subst h; simp
  · have h2 : ¬ k = n := fun e => h e.symm
    simp [h, h2]

theorem default_shift_loop_bits (data_out : Nat) :
    ∀ (n data_in : Nat) (d : Jtdev σ) (k : Nat),
      (default_shift_loop f data_out n data_in d).val.testBit k
        = (data_in.testBit k || (decide (k < n) && decide (tdo_sample f data_out n k d = 1))) := by
  intro n
  induction n with
  | zero =>
    intro data_in d k
    show data_in.testBit k = _
    simp
  | succ n ih =>
    intro data_in d k
    rw [default_shift_loop_succ, ih]
    by_cases hk : k = n
    · subst hk
      have hs : tdo_sample f data_out (k + 1) k d = (shift_round f data_out k d).val := by
        simp only [tdo_sample, if_true]
      rw [hs]
      by_cases h1 : (shift_round f data_out k d).val = 1
      · simp [h1, testBit_or_one_shiftLeft]
      · simp [h1]
    · have hs : tdo_sample f data_out (n + 1) k d
          = tdo_sample f data_out n k (shift_round f data_out n d).dev := by
        simp only [tdo_sample, if_neg hk]
      rw [hs]
      have hlt : (k < n + 1) = (k < n) := by
        apply propext
        omega
      by_cases h1 : (shift_round f data_out n d).val = 1
      · simp only [h1, if_true, testBit_or_one_shiftLeft, hk, decide_False, Bool.or_false, hlt]
      · simp only [h1, if_false, hlt]

theorem default_shift_val (n data_out : Nat) (d : Jtdev σ) :
    (jtag_default_shift f n data_out d).val
      = (default_shift_loop f data_out n 0 (call f Call.jtdev_tclk_get d).dev).val := rfl

theorem default_shift_bits (n data_out : Nat) (d : Jtdev σ) (k : Nat) :
    (jtag_default_shift f n data_out d).val.testBit k
      = (decide (k < n) &&
          decide (tdo_sample f data_out n k (call f Call.jtdev_tclk_get d).dev = 1)) := by
  rw [default_shift_val, default_shift_loop_bits, Nat.zero_testBit, Bool.false_or]

theorem shift_calls_eq (data_out : Nat) :
    ∀ n, shift_calls data_out n
      = (List.range n).reverse.flatMap (fun k =>
          [Call.jtdev_tdi (level (data_out.testBit k))]
            ++ (if k = 0 then [Call.jtdev_tms 1] else [])
            ++ [Call.jtdev_tck 0, Call.jtdev_tck 1, Call.jtdev_tdo_get]) := by
  intro n
  induction n with
  | zero => rfl
  | succ n ih =>
    have hm : (1 <<< n = 1) = (n = 0) := by
      apply propext
      rw [Nat.one_shiftLeft]
      constructor
      · intro h
        by_contra h0
        have := Nat.one_lt_two_pow h0
        omega
      · intro h
        rw [h]
    rw [List.range_succ, List.reverse_append, List.reverse_singleton, List.singleton_append,
      List.flatMap_cons, ← ih, shift_calls]
    by_cases hb : data_out.testBit n = true
    · have hc : data_out &&& (1 <<< n) ≠ 0 := (and_one_shiftLeft_ne_zero data_out n).2 hb
      simp only [if_pos hc, hb, level, if_true, hm]
    · have hc : ¬ (data_out &&& (1 <<< n) ≠ 0) :=
        fun h => hb ((and_one_shiftLeft_ne_zero data_out n).1 h)
      simp only [if_neg hc, hb, level, hm, Bool.false_eq_true, if_false]

theorem loopback_round (data_out n : Nat) (d : Jtdev Nat) :
    (shift_round loopback data_out n d).val = level (data_out.testBit n) := by
  by_cases hb : data_out.testBit n = true
  · have hc : data_out &&& (1 <<< n) ≠ 0 := (and_one_shiftLeft_ne_zero data_out n).2 hb
    by_cases hm : 1 <<< n = 1
    · simp only [shift_round, bind_val, bind_dev, ite_run, if_pos hc, if_pos hm, hb]
      rfl
    · simp only [shift_round, bind_val, bind_dev, ite_run, if_pos hc, if_neg hm, hb]
      rfl
  · have hc : ¬ (data_out &&& (1 <<< n) ≠ 0) :=
      fun h => hb ((and_one_shiftLeft_ne_zero data_out n).1 h)
    have hb2 : data_out.testBit n = false := by
      cases h : data_out.testBit n
      · rfl
      · exact absurd h hb
    by_cases hm : 1 <<< n = 1
    · simp only [shift_round, bind_val, bind_dev, ite_run, if_neg hc, if_pos hm, hb2]
      rfl
    · simp only [shift_round, bind_val, bind_dev, ite_run, if_neg hc, if_neg hm, hb2]
      rfl

theorem loopback_sample (data_out : Nat) :
    ∀ (n k : Nat) (d : Jtdev Nat), k < n →
      tdo_sample loopback data_out n k d = level (data_out.testBit k) := by
  intro n
  induction n with
  | zero => intro k d h; omega
  | succ n ih =>
    intro k d h
    by_cases hk : k = n
    · subst hk
      simp only [tdo_sample, if_true, loopback_round]
    · simp only [tdo_sample, if_neg hk]
      exact ih k _ (by omega)

theorem level_eq_one (b : Bool) : decide (level b = 1) = b := by
  cases b <;> rfl

theorem loopback_shift (n data_out : Nat) (d : Jtdev Nat) :
    (jtag_default_shift loopback n data_out d).val = data_out % 2 ^ n := by
  apply Nat.eq_of_testBit_eq
  intro k
  rw [default_shift_bits, Nat.testBit_mod_two_pow]
  by_cases hk : k < n
  · rw [loopback_sample data_out n k _ hk, level_eq_one]
  · simp [hk]

theorem lines_default_shift_eq (n data_out : Nat) (d : Jtdev σ) :
    lines (jtag_default_shift f n data_out d).log
      = [Call.jtdev_tclk_get]
        ++ (List.range n).reverse.flatMap (fun k =>
            [Call.jtdev_tdi (level (data_out.testBit k))]
              ++ (if k = 0 then [Call.jtdev_tms 1] else [])
              ++ [Call.jtdev_tck 0, Call.jtdev_tck 1, Call.jtdev_tdo_get])
        ++ [Call.jtdev_tclk (f.exec Call.jtdev_tclk_get d).1, Call.jtdev_tck 0, Call.jtdev_tck 1,
            Call.jtdev_tms 0, Call.jtdev_tck 0, Call.jtdev_tck 1] := by
  rw [← shift_calls_eq]
  simp only [jtag_default_shift, jtag_default_tclk_prep, bind_log, bind_val, lines_append,
    lines_default_shift_loop, lines_pure, List.append_nil, List.append_assoc]
  rfl

theorem loopback_dr_shift_16 (v : Nat) (s : Jtdev Nat) :
    (jtag_default_dr_shift_16 loopback v s).val = v % 65536 := by
  simp only [jtag_default_dr_shift_16, bind_val, bind_dev, pure_run, loopback_shift]
  omega

theorem loopback_dr_shift_8 (b : Nat) (s : Jtdev Nat) :
    (jtag_default_dr_shift_8 loopback b s).val = b % 256 := by
  simp only [jtag_default_dr_shift_8, bind_val, bind_dev, pure_run, loopback_shift]
  omega

theorem loopback_ir_shift (b : Nat) (s : Jtdev Nat) :
    (jtag_default_ir_shift loopback b s).val = b % 256 := by
  simp only [jtag_default_ir_shift, bind_val, bind_dev, pure_run, loopback_shift]
  omega

/-- C32: `jtag_default_shift` is MSB-first in both directions. For `n` bits (8 for the
instruction and the 8-bit data shift, 16 for the 16-bit data shift) it reads TCLK, then for
each bit from `n - 1` down to 0 drives TDI with that bit of the output value, raises TMS in
the round of bit 0, pulses TCK low-high once and samples TDO; bit `k` of the value returned is
1 exactly when `k < n` and the sample taken in the round of bit `k` is 1. On the loopback
transport, whose TDO returns the level last driven on TDI, `jtag_default_dr_shift_16` returns
every 16-bit value unchanged, and `jtag_default_ir_shift` and `jtag_default_dr_shift_8` every
8-bit value. -/
theorem default_shift_msb_first (n data_out : Nat) (d : Jtdev σ) (s : Jtdev Nat) (v b : Nat)
    (hv : v < 65536) (hb : b < 256) :
    lines (jtag_default_shift f n data_out d).log
      = [Call.jtdev_tclk_get]
        ++ (List.range n).reverse.flatMap (fun k =>
            [Call.jtdev_tdi (level (data_out.testBit k))]
              ++ (if k = 0 then [Call.jtdev_tms 1] else [])
              ++ [Call.jtdev_tck 0, Call.jtdev_tck 1, Call.jtdev_tdo_get])
        ++ [Call.jtdev_tclk (f.exec Call.jtdev_tclk_get d).1, Call.jtdev_tck 0, Call.jtdev_tck 1,
            Call.jtdev_tms 0, Call.jtdev_tck 0, Call.jtdev_tck 1] ∧
    (∀ k, (jtag_default_shift f n data_out d).val.testBit k
      = (decide (k < n) &&
          decide (tdo_sample f data_out n k (call f Call.jtdev_tclk_get d).dev = 1))) ∧
    (∀ (x : Nat) (t : Jtdev Nat),
      (loopback.exec Call.jtdev_tdo_get (loopback.exec (Call.jtdev_tdi x) t).2).1 = x) ∧
    (jtag_default_dr_shift_16 loopback v s).val = v ∧
    (jtag_default_ir_shift loopback b s).val = b ∧
    (jtag_default_dr_shift_8 loopback b s).val = b := by
  refine ⟨lines_default_shift_eq f n data_out d, default_shift_bits f n data_out d,
    fun _ _ => rfl, ?_, ?_, ?_⟩
  · rw [loopback_dr_shift_16, Nat.mod_eq_of_lt hv]
  · rw [loopback_ir_shift, Nat.mod_eq_of_lt hb]
  · rw [loopback_dr_shift_8, Nat.mod_eq_of_lt hb]

theorem default_shift_msb_first_witness :
    (0xA5C3 : Nat) < 65536 ∧ (0x28 : Nat) < 256 ∧
    (jtag_default_dr_shift_16 loopback 0xA5C3 { failed := 0, hw := 0 }).val = 0xA5C3 ∧
    (jtag_default_ir_shift loopback 0x28 { failed := 0, hw := 0 }).val = 0x28 ∧
    lines (jtag_default_shift loopback 2 0x2 { failed := 0, hw := 0 }).log
      = [Call.jtdev_tclk_get,
         Call.jtdev_tdi 1, Call.jtdev_tck 0, Call.jtdev_tck 1, Call.jtdev_tdo_get,
         Call.jtdev_tdi 0, Call.jtdev_tms 1, Call.jtdev_tck 0, Call.jtdev_tck 1,
         Call.jtdev_tdo_get,
         Call.jtdev_tclk 0, Call.jtdev_tck 0, Call.jtdev_tck 1, Call.jtdev_tms 0,
         Call.jtdev_tck 0, Call.jtdev_tck 1] :=
  have h := default_shift_msb_first loopback 2 0x2 { failed := 0, hw := 0 }
    { failed := 0, hw := 0 } 0xA5C3 0x28 (by decide) (by decide)
  ⟨by decide, by decide, h.2.2.2.1, h.2.2.2.2.1, h.1.trans (by decide)⟩

end


end Mspdebug
